import Mathlib

/-!
# ARC address translation (target/arc/mmu.c, target/arc/mmu-v6.c)

Shallow embedding of the dispatcher, the set-associative MMU (MMUv3) and the
radix page-table walker (MMUv6), and the properties established about them.

Machine words are natural numbers; a value stored in a `uint32_t` or `uint64_t`
object is reduced modulo `2^32` or `2^64` where the C code can exceed the width.
-/

namespace ArcMmu

/-! ## Dispatcher (mmu.c, `decide_action`) -/

/-- The `ACTION` enumeration of mmu.c; `DIRECT_ACTION` is the value 0. -/
inductive ACTION where
  | DIRECT_ACTION
  | MPU_ACTION
  | MMU_ACTION
  | EXCEPTION_ACTION
  deriving DecidableEq, Repr

/-- Inclusive lower end of the MMU range. -/
def MMU_VA_START : Nat := 0x00000000

/-- Exclusive upper end of the MMU range. -/
def MMU_VA_END : Nat := 0x80000000

/-- The function-local statics of `decide_action`: `table[2][2][2][2]` and
`is_initialized`. -/
structure DecideStatics where
  table : Bool → Bool → Bool → Bool → ACTION
  is_initialized : Bool

/-- Statics as the C runtime zero-initialises them: every cell is the
enumerator 0 and the flag is false. -/
def DecideStatics.zero : DecideStatics :=
  { table := fun _ _ _ _ => ACTION.DIRECT_ACTION, is_initialized := false }

/-- The assignment `table[a][b][c][d] = v`. -/
def setCell (t : Bool → Bool → Bool → Bool → ACTION) (a b c d : Bool) (v : ACTION) :
    Bool → Bool → Bool → Bool → ACTION :=
  fun a' b' c' d' => if a' = a ∧ b' = b ∧ c' = c ∧ d' = d then v else t a' b' c' d'

/-- The sixteen assignments executed under `if (!is_initialized)`, in source order. -/
def fillTable (t : Bool → Bool → Bool → Bool → ACTION) : Bool → Bool → Bool → Bool → ACTION :=
  let F := false
  let T := true
  let t := setCell t F F F F ACTION.DIRECT_ACTION
  let t := setCell t F F F T ACTION.DIRECT_ACTION
  let t := setCell t F F T F ACTION.DIRECT_ACTION
  let t := setCell t F F T T ACTION.DIRECT_ACTION
  let t := setCell t F T F F ACTION.MPU_ACTION
  let t := setCell t F T F T ACTION.MPU_ACTION
  let t := setCell t F T T F ACTION.MPU_ACTION
  let t := setCell t F T T T ACTION.MPU_ACTION
  let t := setCell t T F F F ACTION.DIRECT_ACTION
  let t := setCell t T F F T ACTION.EXCEPTION_ACTION
  let t := setCell t T F T F ACTION.MMU_ACTION
  let t := setCell t T F T T ACTION.MMU_ACTION
  let t := setCell t T T F F ACTION.MPU_ACTION
  let t := setCell t T T F T ACTION.MPU_ACTION
  let t := setCell t T T T F ACTION.MMU_ACTION
  let t := setCell t T T T T ACTION.MMU_ACTION
  t

/-- `decide_action(env, addr, mmu_idx)`: `mmu_enabled` is `env->mmu.v3.enabled`,
`mpu_enabled` is `env->mpu.enabled`. Returns the action and the statics after
the call. -/
def decide_action (st : DecideStatics) (mmu_enabled mpu_enabled : Bool) (addr : Nat)
    (mmu_idx : Int) : ACTION × DecideStatics :=
  let is_user : Bool := decide (mmu_idx = 1)
  let is_mmu_range : Bool := decide (addr ≥ MMU_VA_START) && decide (addr < MMU_VA_END)
  let st' : DecideStatics :=
    if !st.is_initialized then
      { table := fillTable st.table, is_initialized := true }
    else st
  (st'.table mmu_enabled mpu_enabled is_mmu_range is_user, st')

/-- The dispatcher rule table as section 4.1 of the specification words it. -/
def dispatcherRule (mmuEnabled mpuEnabled inRange isUser : Bool) : ACTION :=
  match mmuEnabled, mpuEnabled with
  | false, false => ACTION.DIRECT_ACTION
  | false, true => ACTION.MPU_ACTION
  | true, false =>
    if inRange then ACTION.MMU_ACTION
    else if isUser then ACTION.EXCEPTION_ACTION else ACTION.DIRECT_ACTION
  | true, true => if inRange then ACTION.MMU_ACTION else ACTION.MPU_ACTION

/-- One dispatcher request: MMU enabled, protection unit enabled, address, `mmu_idx`. -/
structure DispatchReq where
  mmu_enabled : Bool
  mpu_enabled : Bool
  addr : Nat
  mmu_idx : Int

/-- The statics after a sequence of earlier calls, starting from the zeroed statics. -/
def staticsAfter (calls : List DispatchReq) : DecideStatics :=
  calls.foldl (fun st r => (decide_action st r.mmu_enabled r.mpu_enabled r.addr r.mmu_idx).2)
    DecideStatics.zero

/-! ## Declarations shared by both MMU models -/

/-- The enumeration `mmu_access_type`, in declaration order. -/
inductive mmu_access_type where
  | MMU_MEM_READ
  | MMU_MEM_WRITE
  | MMU_MEM_FETCH
  | MMU_MEM_ATTOMIC
  | MMU_MEM_IRRELEVANT_TYPE
  deriving DecidableEq, Repr

/-- The exception numbers the two translation units store into
`mem_exception.number`. -/
inductive Excp where
  | EXCP_NO_EXCEPTION
  | EXCP_MACHINE_CHECK
  | EXCP_PROTV
  | EXCP_TLB_MISS_I
  | EXCP_TLB_MISS_D
  | EXCP_IMMU_FAULT
  | EXCP_DMMU_FAULT
  deriving DecidableEq, Repr

/-- The fault descriptor `struct mem_exception`. -/
structure mem_exception where
  number : Excp
  causecode : Nat
  parameter : Nat
  deriving DecidableEq, Repr

/-- Ways a C execution stops without returning a value: a failed `assert`, an
operation the C standard leaves undefined (a shift by a negative count or by at
least the width of the operand), or an exhausted iteration budget of the model. -/
inductive Stop where
  | assertion
  | undefined
  | fuel
  deriving DecidableEq, Repr

/-- The macros, constants and enumerator values the two source files take from
headers: the descriptor layout of `mmu.h` (`PD0_*`, `PD1_*`, `TLBINDEX_*`,
`TLB_CMD_*`, the TLB geometry, the page macros as functions of the global
`mmu_v3_page_size`, `CAUSE_CODE`), the page-protection bits and the width of
`target_ulong`. Every function of the model takes them as a parameter. -/
structure Decls where
  PD0_VPN : Nat
  PD0_ASID : Nat
  PD0_G : Nat
  PD0_V : Nat
  PD0_SZ : Nat
  PD0_S : Nat
  PD0_ASID_MATCH : Nat
  PD0_PID_MATCH : Nat
  PD1_XU : Nat
  PD1_WU : Nat
  PD1_RU : Nat
  PD1_XK : Nat
  PD1_WK : Nat
  PD1_RK : Nat
  TLBINDEX_INDEX : Nat
  TLBINDEX_E : Nat
  TLBINDEX_RC : Nat
  TLB_CMD_WRITE : Nat
  TLB_CMD_WRITENI : Nat
  TLB_CMD_READ : Nat
  TLB_CMD_INSERT : Nat
  TLB_CMD_DELETE : Nat
  TLB_CMD_IVUTLB : Nat
  N_SETS : Nat
  N_WAYS : Nat
  MMU_V3_PAGE_BITS : Nat → Nat
  MMU_V3_PAGE_MASK : Nat → Nat
  CAUSE_CODE : mmu_access_type → Nat
  PAGE_READ : Nat
  PAGE_WRITE : Nat
  PAGE_EXEC : Nat
  TARGET_LONG_BITS : Nat

/-- The layout of the ARC HS MMUv3/v4 programming model: the values the
witnesses and counterexamples are evaluated at. -/
def arcDecls : Decls where
  PD0_VPN := 0x7ffff000
  PD0_ASID := 0x000000ff
  PD0_G := 0x00000100
  PD0_V := 0x00000200
  PD0_SZ := 0x00000400
  PD0_S := 0x80000000
  PD0_ASID_MATCH := 0x0000003f
  PD0_PID_MATCH := 0x000000ff
  PD1_XU := 0x00000002
  PD1_WU := 0x00000004
  PD1_RU := 0x00000008
  PD1_XK := 0x00000010
  PD1_WK := 0x00000020
  PD1_RK := 0x00000040
  TLBINDEX_INDEX := 0x00001fff
  TLBINDEX_E := 0x80000000
  TLBINDEX_RC := 0x70000000
  TLB_CMD_WRITE := 0x1
  TLB_CMD_WRITENI := 0x5
  TLB_CMD_READ := 0x2
  TLB_CMD_INSERT := 0x7
  TLB_CMD_DELETE := 0x8
  TLB_CMD_IVUTLB := 0x6
  N_SETS := 256
  N_WAYS := 4
  MMU_V3_PAGE_BITS := fun sz => sz
  MMU_V3_PAGE_MASK := fun sz => 2 ^ 32 - 2 ^ sz
  CAUSE_CODE := fun k =>
    match k with
    | mmu_access_type.MMU_MEM_FETCH => 0
    | mmu_access_type.MMU_MEM_READ => 1
    | mmu_access_type.MMU_MEM_WRITE => 2
    | _ => 3
  PAGE_READ := 1
  PAGE_WRITE := 2
  PAGE_EXEC := 4
  TARGET_LONG_BITS := 32

/-- Bitwise complement of a 32-bit word. -/
def not32 (x : Nat) : Nat := (2 ^ 32 - 1) ^^^ (x % 2 ^ 32)

/-- Bitwise complement of a 64-bit word. -/
def not64 (x : Nat) : Nat := (2 ^ 64 - 1) ^^^ (x % 2 ^ 64)

/-! ## Radix page-table MMU (mmu-v6.c) -/

/-- The enumerators of `mmuv6_version_enum` that index `mmuv6_info`. -/
inductive mmuv6_version_enum where
  | MMUV6_52_64K
  | MMUV6_48_4K
  | MMUV6_48_16K
  | MMUV6_48_64K
  | MMUV6_32_4K
  deriving DecidableEq, Repr

/-- The record `struct mmu_version_info`; `nbits_per_level` holds the four
`char` initialisers. -/
structure mmu_version_info where
  id : mmuv6_version_enum
  type : Nat
  nbits_per_level : List Int
  nlevels : Nat
  vaddr_size : Nat
  deriving DecidableEq, Repr

/-- The table `mmuv6_info[]`, initialiser by initialiser. -/
def mmuv6_info : mmuv6_version_enum → mmu_version_info
  | mmuv6_version_enum.MMUV6_32_4K =>
    { id := mmuv6_version_enum.MMUV6_32_4K, type := 0,
      nbits_per_level := [2, 9, 9, -1], nlevels := 3, vaddr_size := 32 }
  | mmuv6_version_enum.MMUV6_48_4K =>
    { id := mmuv6_version_enum.MMUV6_48_4K, type := 1,
      nbits_per_level := [9, 9, 9, 9], nlevels := 4, vaddr_size := 48 }
  | mmuv6_version_enum.MMUV6_48_16K =>
    { id := mmuv6_version_enum.MMUV6_48_16K, type := 2,
      nbits_per_level := [1, 11, 11, 11], nlevels := 4, vaddr_size := 48 }
  | mmuv6_version_enum.MMUV6_48_64K =>
    { id := mmuv6_version_enum.MMUV6_48_16K, type := 3,
      nbits_per_level := [6, 13, 13, -1], nlevels := 3, vaddr_size := 48 }
  | mmuv6_version_enum.MMUV6_52_64K =>
    { id := mmuv6_version_enum.MMUV6_52_64K, type := 4,
      nbits_per_level := [10, 13, 13, -1], nlevels := 3, vaddr_size := 52 }

/-- The file-scope variables of mmu-v6.c, the user-mode flag `STATUS32.U` of the
CPU (`GET_STATUS_BIT(env->stat, Uf)`), and the backing memory read by
`LOAD_DATA_IN` (a 64-bit load at a physical address). -/
structure V6State where
  mmu_v6_version : mmu_version_info
  mmu_ctrl : Nat
  mmu_ttbcr : Nat
  mmu_rtp0 : Nat
  mmu_rtp1 : Nat
  mmu_fault_status : Nat
  Uf : Bool
  mem : Nat → Nat

/-- The state `arc_mmuv6_translate` works on: the walker state and the field
`env->mmu.v6.exception.number`, which the walker never reads. -/
structure V6Env where
  st : V6State
  exception_number : Excp

/-- `N_BITS_ON_LEVEL(LEVEL)` converted to `unsigned char`. -/
def N_BITS_ON_LEVEL (s : V6State) (level : Nat) : Nat :=
  ((s.mmu_v6_version.nbits_per_level.getD level 0) % 256).toNat

/-- `NLEVELS()`. -/
def NLEVELS (s : V6State) : Nat := s.mmu_v6_version.nlevels

/-- `VADDR_SIZE()`. -/
def VADDR_SIZE (s : V6State) : Nat := s.mmu_v6_version.vaddr_size

/-- `MMU_ENABLED`. -/
def MMU_ENABLED (s : V6State) : Bool := (s.mmu_ctrl &&& 1) != 0

/-- `MMU_TTBCR_TNSZ(I)`. -/
def MMU_TTBCR_TNSZ (s : V6State) (i : Nat) : Nat := (s.mmu_ttbcr >>> (i * 16)) &&& 0x1f

/-- `x_for_ttbc(i)`: the result is a `char`, possibly negative. -/
def x_for_ttbc (s : V6State) (i : Nat) : Int :=
  match s.mmu_v6_version.id with
  | mmuv6_version_enum.MMUV6_32_4K =>
    if MMU_TTBCR_TNSZ s i > 1 then 14 - (MMU_TTBCR_TNSZ s i : Int)
    else 5 - (MMU_TTBCR_TNSZ s i : Int)
  | mmuv6_version_enum.MMUV6_52_64K => if i = 0 then 13 else 16
  | mmuv6_version_enum.MMUV6_48_4K => 12
  | mmuv6_version_enum.MMUV6_48_16K => if i = 0 then 4 else 6
  | mmuv6_version_enum.MMUV6_48_64K => if i = 0 then 9 else 13

/-- `root_address(rtp)`. -/
def root_address (s : V6State) (rtp : Nat) : Nat :=
  match s.mmu_v6_version.id with
  | mmuv6_version_enum.MMUV6_52_64K => (rtp <<< 4) % 2 ^ 64
  | _ => rtp

/-- `MASK_FOR_ROOT_ADDRESS(X)`: `1 << X` is an `int` shift, defined for
`0 <= X <= 30`; its complement is sign-extended to 64 bits. -/
def MASK_FOR_ROOT_ADDRESS (s : V6State) (x : Int) : Except Stop Nat :=
  if 0 ≤ x ∧ x ≤ 30 then
    .ok ((2 ^ VADDR_SIZE s - 1) &&& not64 (2 ^ x.toNat - 1))
  else .error Stop.undefined

/-- `MMU_RTPN_ROOT_ADDRESS(N)` for `N` in {0, 1}. -/
def MMU_RTPN_ROOT_ADDRESS (s : V6State) (n : Nat) : Except Stop Nat := do
  let m ← MASK_FOR_ROOT_ADDRESS s (x_for_ttbc s n)
  pure (root_address s (if n = 0 then s.mmu_rtp0 else s.mmu_rtp1) &&& m)

/-- A right shift of a `w`-bit unsigned operand, undefined for a count of `w` or more. -/
def shrU (w x n : Nat) : Except Stop Nat :=
  if n < w then .ok (x >>> n) else .error Stop.undefined

/-- `(1 << n) - 1` in `int` arithmetic, defined while `1 << n` is representable. -/
def intOnes (n : Nat) : Except Stop Nat :=
  if n ≤ 30 then .ok (2 ^ n - 1) else .error Stop.undefined

/-- `root_ptr_for_vaddr(vaddr, &valid)`: the returned pair is the root and the
final content of `valid`, which the caller initialised to `true`. -/
def root_ptr_for_vaddr (s : V6State) (vaddr : Nat) : Except Stop (Nat × Bool) := do
  let t0 := MMU_TTBCR_TNSZ s 0
  let t1 := MMU_TTBCR_TNSZ s 1
  if s.mmu_v6_version.id = mmuv6_version_enum.MMUV6_48_4K ∧
      ¬ (t0 = t1 ∧ (t0 = 16 ∨ t0 = 25)) then
    throw Stop.assertion
  let width : Nat :=
    match s.mmu_v6_version.id with
    | mmuv6_version_enum.MMUV6_32_4K => 32
    | _ => 64
  let top0 ← shrU 64 vaddr (width - t0)
  if top0 = 0 then
    let r ← MMU_RTPN_ROOT_ADDRESS s 0
    pure (r, true)
  else
    let top1 ← shrU 64 vaddr (width - t1)
    let ones ← intOnes t1
    if top1 = ones then
      let r ← MMU_RTPN_ROOT_ADDRESS s 1
      pure (r, true)
    else pure (0, false)

/-- `pte_tbl_next_level_table_address(l, pte)`. -/
def pte_tbl_next_level_table_address (s : V6State) (_l : Nat) (pte : Nat) : Nat :=
  match s.mmu_v6_version.id with
  | mmuv6_version_enum.MMUV6_52_64K =>
    (((pte &&& 0xf000) <<< 36) % 2 ^ 64) ||| (pte &&& 0x0000ffffffff0000)
  | _ => pte &&& 0x0000fffffffff000

/-- `PTE_TBL_ATTRIBUTES(PTE)`. -/
def PTE_TBL_ATTRIBUTES (pte : Nat) : Nat := (pte &&& 0xf800000000000000) >>> 59

/-- `PTE_TBL_KERNEL_EXECUTE_NEVER_NEXT(PTE)`, as a truth value. -/
def PTE_TBL_KERNEL_EXECUTE_NEVER_NEXT (pte : Nat) : Bool := (PTE_TBL_ATTRIBUTES pte &&& 0x1) != 0

/-- `PTE_TBL_USER_EXECUTE_NEVER_NEXT(PTE)`, as a truth value. -/
def PTE_TBL_USER_EXECUTE_NEVER_NEXT (pte : Nat) : Bool := (PTE_TBL_ATTRIBUTES pte &&& 0x2) != 0

/-- `PTE_TBL_ACCESS_PERMITIONS_NEXT(PTE)`. -/
def PTE_TBL_ACCESS_PERMITIONS_NEXT (pte : Nat) : Nat := (PTE_TBL_ATTRIBUTES pte &&& 0xc) >>> 2

/-- `PTE_TBL_AP_NO_USER_MODE(PTE)`. -/
def PTE_TBL_AP_NO_USER_MODE (pte : Nat) : Bool := PTE_TBL_ACCESS_PERMITIONS_NEXT pte == 1

/-- `PTE_TBL_AP_NO_WRITES(PTE)`. -/
def PTE_TBL_AP_NO_WRITES (pte : Nat) : Bool := PTE_TBL_ACCESS_PERMITIONS_NEXT pte == 2

/-- `PTE_TBL_AP_NO_USER_READS_OR_WRITES(PTE)`. -/
def PTE_TBL_AP_NO_USER_READS_OR_WRITES (pte : Nat) : Bool :=
  PTE_TBL_ACCESS_PERMITIONS_NEXT pte == 3

/-- `PTE_BLK_LOWER_ATTRS(PTE)`. -/
def PTE_BLK_LOWER_ATTRS (pte : Nat) : Nat := (pte >>> 2) &&& (2 ^ 10 - 1)

/-- `PTE_BLK_UPPER_ATTRS(PTE)`. -/
def PTE_BLK_UPPER_ATTRS (pte : Nat) : Nat := (pte >>> 51) &&& (2 ^ 13 - 1)

/-- `PTE_BLK_IS_READ_ONLY(PTE)`. -/
def PTE_BLK_IS_READ_ONLY (pte : Nat) : Bool := (PTE_BLK_LOWER_ATTRS pte &&& 0x20) != 0

/-- `PTE_BLK_IS_KERNEL_ONLY(PTE)`. -/
def PTE_BLK_IS_KERNEL_ONLY (pte : Nat) : Bool := (PTE_BLK_LOWER_ATTRS pte &&& 0x10) == 0

/-- `PTE_BLK_AF(PTE)`. -/
def PTE_BLK_AF (pte : Nat) : Bool := (PTE_BLK_LOWER_ATTRS pte &&& 0x100) != 0

/-- `PTE_BLK_KERNEL_EXECUTE_NEVER(PTE)`. -/
def PTE_BLK_KERNEL_EXECUTE_NEVER (pte : Nat) : Bool := (PTE_BLK_UPPER_ATTRS pte &&& 0x4) != 0

/-- `PTE_BLK_USER_EXECUTE_NEVER(PTE)`. -/
def PTE_BLK_USER_EXECUTE_NEVER (pte : Nat) : Bool := (PTE_BLK_UPPER_ATTRS pte &&& 0x8) != 0

/-- `PTE_IS_BLOCK_DESCRIPTOR(PTE, LEVEL)`; `LEVEL < NLEVELS() - 1` is an `int`
comparison. -/
def PTE_IS_BLOCK_DESCRIPTOR (s : V6State) (pte level : Nat) : Bool :=
  (pte &&& 0x3) == 1 && decide ((level : Int) < (NLEVELS s : Int) - 1)

/-- `PTE_IS_PAGE_DESCRIPTOR(PTE, LEVEL)`. -/
def PTE_IS_PAGE_DESCRIPTOR (s : V6State) (pte level : Nat) : Bool :=
  (pte &&& 0x3) == 3 && decide ((level : Int) = (NLEVELS s : Int) - 1)

/-- `PTE_IS_TABLE_DESCRIPTOR(PTE, LEVEL)`. -/
def PTE_IS_TABLE_DESCRIPTOR (s : V6State) (pte level : Nat) : Bool :=
  !PTE_IS_PAGE_DESCRIPTOR s pte level && (pte &&& 0x3) == 3

/-- `pte_is_invalid(pte, level)`: both parameters are `char`, so the entry is
reduced to its low byte by the call. -/
def pte_is_invalid (s : V6State) (pte level : Nat) : Bool :=
  let pte := pte % 256
  match s.mmu_v6_version.id with
  | mmuv6_version_enum.MMUV6_52_64K =>
    (pte &&& 0x1) == 0
      || ((pte &&& 0x2) == 0 && decide ((level : Int) = (NLEVELS s : Int) - 1))
  | _ =>
    (pte &&& 0x1) == 0
      || ((pte &&& 0x2) == 0 && level == 0)
      || ((pte &&& 0x2) == 0 && decide ((level : Int) = (NLEVELS s : Int) - 1))

/-- `RESTRICT_TBL_NO_USER_MODE`. -/
def RESTRICT_TBL_NO_USER_MODE : Nat := 1 <<< 4

/-- `RESTRICT_TBL_NO_WRITE_ACCESS`. -/
def RESTRICT_TBL_NO_WRITE_ACCESS : Nat := 1 <<< 3

/-- `RESTRICT_TBL_NO_USER_READ_WRITE_ACCESS`. -/
def RESTRICT_TBL_NO_USER_READ_WRITE_ACCESS : Nat := 1 <<< 2

/-- `RESTRICT_TBL_USER_EXECUTE_NEVER`. -/
def RESTRICT_TBL_USER_EXECUTE_NEVER : Nat := 1 <<< 1

/-- `RESTRICT_TBL_KERNEL_EXECUTE_NEVER`. -/
def RESTRICT_TBL_KERNEL_EXECUTE_NEVER : Nat := 1 <<< 0

/-- `protv_violation(env, pte, level, table_perm_overwride, rwe)`. -/
def protv_violation (s : V6State) (pte level table_perm_overwride : Nat)
    (rwe : mmu_access_type) : Bool :=
  let in_kernel_mode := !s.Uf
  let trigger_prot_v := false
  let trigger_prot_v :=
    if rwe = mmu_access_type.MMU_MEM_WRITE ∧ PTE_BLK_IS_READ_ONLY pte then true
    else trigger_prot_v
  if PTE_IS_BLOCK_DESCRIPTOR s pte level || PTE_IS_PAGE_DESCRIPTOR s pte level then
    if in_kernel_mode = true then
      if rwe = mmu_access_type.MMU_MEM_FETCH ∧
          (PTE_BLK_KERNEL_EXECUTE_NEVER pte ∨
            (table_perm_overwride &&& RESTRICT_TBL_KERNEL_EXECUTE_NEVER) ≠ 0) then true
      else trigger_prot_v
    else
      let trigger_prot_v :=
        if (rwe = mmu_access_type.MMU_MEM_READ ∨ rwe = mmu_access_type.MMU_MEM_WRITE) ∧
            (table_perm_overwride &&& RESTRICT_TBL_NO_USER_READ_WRITE_ACCESS) ≠ 0 then true
        else trigger_prot_v
      let trigger_prot_v :=
        if rwe = mmu_access_type.MMU_MEM_FETCH ∧
            (PTE_BLK_USER_EXECUTE_NEVER pte ∨
              (table_perm_overwride &&& RESTRICT_TBL_USER_EXECUTE_NEVER) ≠ 0) then true
        else trigger_prot_v
      let trigger_prot_v :=
        if rwe ≠ mmu_access_type.MMU_MEM_IRRELEVANT_TYPE ∧
            (table_perm_overwride &&& RESTRICT_TBL_NO_USER_MODE) ≠ 0 then true
        else trigger_prot_v
      let trigger_prot_v :=
        if rwe ≠ mmu_access_type.MMU_MEM_IRRELEVANT_TYPE ∧ PTE_BLK_IS_KERNEL_ONLY pte then true
        else trigger_prot_v
      trigger_prot_v
  else trigger_prot_v

/-- The statement `ret &= ~BIT` on an `int` holding page-protection bits. -/
def clearBits (ret bit : Nat) : Nat := ret &&& not32 bit

/-- `get_prot_for_pte(env, pte, overwrite_permitions)`. -/
def get_prot_for_pte (d : Decls) (s : V6State) (pte overwrite_permitions : Nat) : Nat :=
  let ret := d.PAGE_READ ||| d.PAGE_WRITE ||| d.PAGE_EXEC
  let in_kernel_mode := !s.Uf
  let ret :=
    if in_kernel_mode ∧ ((overwrite_permitions &&& RESTRICT_TBL_KERNEL_EXECUTE_NEVER) ≠ 0
        ∨ PTE_BLK_KERNEL_EXECUTE_NEVER pte) then clearBits ret d.PAGE_EXEC
    else ret
  let ret :=
    if !in_kernel_mode ∧ ((overwrite_permitions &&& RESTRICT_TBL_USER_EXECUTE_NEVER) ≠ 0
        ∨ PTE_BLK_USER_EXECUTE_NEVER pte) then clearBits ret d.PAGE_EXEC
    else ret
  let ret :=
    if !in_kernel_mode ∧ ((overwrite_permitions &&& RESTRICT_TBL_NO_USER_MODE) ≠ 0
        ∨ PTE_BLK_IS_KERNEL_ONLY pte) then
      clearBits (clearBits (clearBits ret d.PAGE_WRITE) d.PAGE_READ) d.PAGE_EXEC
    else ret
  let ret :=
    if (overwrite_permitions &&& RESTRICT_TBL_NO_WRITE_ACCESS) ≠ 0 then clearBits ret d.PAGE_WRITE
    else ret
  let ret :=
    if !in_kernel_mode ∧
        (overwrite_permitions &&& RESTRICT_TBL_NO_USER_READ_WRITE_ACCESS) ≠ 0 then
      clearBits (clearBits ret d.PAGE_WRITE) d.PAGE_READ
    else ret
  let ret := if PTE_BLK_IS_READ_ONLY pte then clearBits ret d.PAGE_WRITE else ret
  let ret :=
    if (!in_kernel_mode ∧ PTE_BLK_USER_EXECUTE_NEVER pte) ∨
        (in_kernel_mode ∧ PTE_BLK_KERNEL_EXECUTE_NEVER pte) then clearBits ret d.PAGE_EXEC
    else ret
  ret

/-- The recurring tail `if (rwe == FETCH || rwe == IRRELEVANT) { SET(IMMU, ci, 0);
return -1; } else if (rwe == READ || rwe == WRITE) { SET(DMMU, cd, 0); return -1; }`:
the descriptor written when the function returns there, `none` when neither
branch is taken and control falls through. -/
def mmuFault (rwe : mmu_access_type) (ci cd : Nat) : Option mem_exception :=
  if rwe = mmu_access_type.MMU_MEM_FETCH ∨ rwe = mmu_access_type.MMU_MEM_IRRELEVANT_TYPE then
    some { number := Excp.EXCP_IMMU_FAULT, causecode := ci, parameter := 0x00 }
  else if rwe = mmu_access_type.MMU_MEM_READ ∨ rwe = mmu_access_type.MMU_MEM_WRITE then
    some { number := Excp.EXCP_DMMU_FAULT, causecode := cd, parameter := 0x00 }
  else none

/-- Outcome of the first half of one loop iteration of `page_table_traverse`
(the first validity check and the block/page test): `return -1` with a
descriptor, `break` with `found_block_descriptor = true`, or fall through; each
carries the value of `mmu_fault_status` at that point. -/
inductive WalkHead where
  | ret (excp : mem_exception) (fault_status : Nat)
  | brk (fault_status : Nat)
  | cont (fault_status : Nat)
  deriving DecidableEq, Repr

/-- Lines 604 to 635 of mmu-v6.c for the entry `pte` loaded at level `l`. -/
def walkHead (d : Decls) (s : V6State) (rwe : mmu_access_type) (pte l fault_status : Nat) :
    WalkHead :=
  let inv := pte_is_invalid s pte l
  let fs1 := if inv then l &&& 0x7 else fault_status
  match (if inv then mmuFault rwe 0x00 (d.CAUSE_CODE rwe) else none) with
  | some e => WalkHead.ret e fs1
  | none =>
    if PTE_IS_BLOCK_DESCRIPTOR s pte l || PTE_IS_PAGE_DESCRIPTOR s pte l then
      if PTE_BLK_AF pte != false then WalkHead.brk fs1
      else
        match mmuFault rwe 0x10 (0x10 ||| d.CAUSE_CODE rwe) with
        | some e => WalkHead.ret e (l &&& 0x7)
        | none => WalkHead.cont (l &&& 0x7)
    else WalkHead.cont fs1

/-- Lines 637 to 653 of mmu-v6.c: the override flags a table descriptor adds. -/
def accumulate_overrides (s : V6State) (pte l overwrite_permitions : Nat) : Nat :=
  if PTE_IS_TABLE_DESCRIPTOR s pte l then
    let p := overwrite_permitions
    let p := if PTE_TBL_KERNEL_EXECUTE_NEVER_NEXT pte then p ||| RESTRICT_TBL_KERNEL_EXECUTE_NEVER
      else p
    let p := if PTE_TBL_USER_EXECUTE_NEVER_NEXT pte then p ||| RESTRICT_TBL_USER_EXECUTE_NEVER
      else p
    let p := if PTE_TBL_AP_NO_USER_MODE pte then p ||| RESTRICT_TBL_NO_USER_MODE else p
    let p := if PTE_TBL_AP_NO_WRITES pte then p ||| RESTRICT_TBL_NO_WRITE_ACCESS else p
    let p := if PTE_TBL_AP_NO_USER_READS_OR_WRITES pte then
        p ||| RESTRICT_TBL_NO_USER_READ_WRITE_ACCESS
      else p
    p
  else overwrite_permitions

/-- Lines 593 to 598 of mmu-v6.c: the index field of `vaddr` for level `l` is
extracted and the entry at `root + 8 * offset` is loaded. Returns the updated
`remainig_bits` (an `unsigned char`) and the entry. -/
def loadEntry (d : Decls) (s : V6State) (vaddr l root remainig_bits : Nat) :
    Except Stop (Nat × Nat) := do
  let bits_to_compare := N_BITS_ON_LEVEL s l
  let remainig_bits := (remainig_bits + 256 - bits_to_compare) % 256
  let shifted ← shrU d.TARGET_LONG_BITS vaddr remainig_bits
  let ones ← intOnes bits_to_compare
  let offset := (shifted &&& ones) % 2 ^ 32
  let pte_addr := (root + (8 * offset) % 2 ^ 32) % 2 ^ 64
  let pte := s.mem pte_addr % 2 ^ 64
  pure (remainig_bits, pte)

/-- How the `for` loop of `page_table_traverse` is left: by `return -1` inside the
body, or by `break` / exhaustion of the levels with the locals as they then are. -/
inductive LoopExit where
  | returned (excp : mem_exception) (fault_status : Nat)
  | finished (found_block_descriptor : Bool) (pte l overwrite_permitions remainig_bits
      fault_status : Nat)
  deriving DecidableEq, Repr

/-- The `for (l = 0; l < NLEVELS(); l++)` loop of `page_table_traverse`, entered at
level `l` with `n` iterations left; `pte` is the last entry loaded. -/
def walkLoop (d : Decls) (s : V6State) (vaddr : Nat) (rwe : mmu_access_type) :
    (n l root remainig_bits overwrite_permitions pte fault_status : Nat) →
      Except Stop LoopExit
  | 0, l, _, remainig_bits, overwrite_permitions, pte, fault_status =>
    .ok (LoopExit.finished false pte l overwrite_permitions remainig_bits fault_status)
  | n + 1, l, root, remainig_bits, overwrite_permitions, _, fault_status => do
    let (remainig_bits, pte) ← loadEntry d s vaddr l root remainig_bits
    match walkHead d s rwe pte l fault_status with
    | WalkHead.ret e fs => pure (LoopExit.returned e fs)
    | WalkHead.brk fs =>
      pure (LoopExit.finished true pte l overwrite_permitions remainig_bits fs)
    | WalkHead.cont fs =>
      let overwrite_permitions := accumulate_overrides s pte l overwrite_permitions
      match (if pte_is_invalid s pte l then mmuFault rwe 0x00 (d.CAUSE_CODE rwe) else none) with
      | some e => pure (LoopExit.returned e fs)
      | none =>
        walkLoop d s vaddr rwe n (l + 1) (pte_tbl_next_level_table_address s l pte)
          remainig_bits overwrite_permitions pte fs

/-- `V6_PADDR(PTE, VADDR)` for the current `remainig_bits`. -/
def V6_PADDR (s : V6State) (remainig_bits pte vaddr : Nat) : Except Stop Nat :=
  if remainig_bits < 64 then
    let offset_mask := 2 ^ remainig_bits - 1
    let paddr_mask := (2 ^ VADDR_SIZE s - 1) &&& not64 offset_mask
    .ok ((pte &&& paddr_mask) ||| (vaddr &&& offset_mask))
  else .error Stop.undefined

/-- What a call of `page_table_traverse` leaves behind: the returned
`target_ulong`, the value stored through `prot` if a store happened, `*excp`,
and `mmu_fault_status`. -/
structure WalkOut where
  ret : Nat
  prot : Option Nat
  excp : mem_exception
  mmu_fault_status : Nat
  deriving DecidableEq, Repr

/-- The value `-1` as a `target_ulong`. -/
def minusOne (d : Decls) : Nat := 2 ^ d.TARGET_LONG_BITS - 1

/-- `page_table_traverse(env, vaddr, rwe, prot, excp)`: `excp0` is the content
of `*excp` on entry, `prot_given` tells whether `prot != NULL`, and `pte0` is the
indeterminate initial content of the local `pte`. -/
def page_table_traverse (d : Decls) (s : V6State) (vaddr : Nat) (rwe : mmu_access_type)
    (prot_given : Bool) (excp0 : mem_exception) (pte0 : Nat) : Except Stop WalkOut := do
  let (root, valid_root) ← root_ptr_for_vaddr s vaddr
  let remainig_bits := VADDR_SIZE s % 256
  match (if valid_root = false then mmuFault rwe 0x00 (d.CAUSE_CODE rwe) else none) with
  | some e =>
    pure { ret := minusOne d, prot := none, excp := e, mmu_fault_status := s.mmu_fault_status }
  | none =>
    let r ← walkLoop d s vaddr rwe (NLEVELS s) 0 root remainig_bits 0 pte0 s.mmu_fault_status
    match r with
    | LoopExit.returned e fs =>
      pure { ret := minusOne d, prot := none, excp := e, mmu_fault_status := fs }
    | LoopExit.finished found pte l overwrite_permitions remainig_bits fs =>
      if found then
        if protv_violation s pte l overwrite_permitions rwe then
          pure { ret := minusOne d, prot := none,
                 excp := { number := Excp.EXCP_PROTV, causecode := d.CAUSE_CODE rwe,
                           parameter := 0x08 },
                 mmu_fault_status := fs }
        else do
          let pa ← V6_PADDR s remainig_bits pte vaddr
          pure { ret := pa % 2 ^ d.TARGET_LONG_BITS,
                 prot := if prot_given then some (get_prot_for_pte d s pte overwrite_permitions)
                   else none,
                 excp := excp0, mmu_fault_status := fs }
      else
        pure { ret := minusOne d, prot := none, excp := excp0, mmu_fault_status := fs }

/-- `arc_mmuv6_translate(env, vaddr, rwe, prot, excp)`: clears
`env->mmu.v6.exception.number` and walks the tables whether or not the MMU is
enabled. Returns the walk outcome and the state after the call. -/
def arc_mmuv6_translate (d : Decls) (env : V6Env) (vaddr : Nat) (rwe : mmu_access_type)
    (prot_given : Bool) (excp0 : mem_exception) (pte0 : Nat) :
    Except Stop (WalkOut × V6Env) := do
  let env1 : V6Env := { env with exception_number := Excp.EXCP_NO_EXCEPTION }
  let w ← page_table_traverse d env1.st vaddr rwe prot_given excp0 pte0
  pure (w, { env1 with st := { env1.st with mmu_fault_status := w.mmu_fault_status } })

/-- `mmuv6_decide_action`: true for `MMU_ACTION`, false for `DIRECT_ACTION`. -/
def mmuv6_decide_action (s : V6State) : Bool := MMU_ENABLED s

/-- How a call of `arc_get_physical_addr_v3` or `arc_get_physical_addr_v6` ends:
it returns a flag with `*paddr` as shown (`none` when `*paddr` was not
written), or it calls `raise_mem_exception` with the descriptor and never
returns. -/
inductive GetPhys where
  | returned (ok : Bool) (paddr : Option Nat)
  | raised (paddr : Option Nat) (excp : mem_exception)
  deriving DecidableEq, Repr

/-- `arc_get_physical_addr_v6(cs, paddr, addr, rwe, probe, retaddr)` in the
system-emulation build; `junk` is the indeterminate initial content of the
local `excp` (its `number` is overwritten first) and `pte0` that of the walker's
local `pte`. -/
def arc_get_physical_addr_v6 (d : Decls) (env : V6Env) (addr : Nat) (rwe : mmu_access_type)
    (probe : Bool) (junk : mem_exception) (pte0 : Nat) : Except Stop (GetPhys × V6Env) := do
  let excp0 : mem_exception := { junk with number := Excp.EXCP_NO_EXCEPTION }
  if mmuv6_decide_action env.st then
    let (w, env') ← arc_mmuv6_translate d env (addr % 2 ^ d.TARGET_LONG_BITS) rwe true excp0 pte0
    if w.excp.number ≠ Excp.EXCP_NO_EXCEPTION then
      if probe then pure (GetPhys.returned false (some w.ret), env')
      else pure (GetPhys.raised (some w.ret) w.excp, env')
    else pure (GetPhys.returned true (some w.ret), env')
  else pure (GetPhys.returned true (some addr), env)

/-- The scenario of section 8 of the specification, 32_4K profile in kernel
mode: root 0 at 0x1000, the level-0 entry a table descriptor to 0x2000, the
level-1 entry at index 1 a table descriptor to 0x3000, the level-2 entry at
index 2 a page descriptor with frame 0x90000 and the access flag. -/
def v6Scenario : V6State where
  mmu_v6_version := mmuv6_info mmuv6_version_enum.MMUV6_32_4K
  mmu_ctrl := 1
  mmu_ttbcr := 0
  mmu_rtp0 := 0x1000
  mmu_rtp1 := 0
  mmu_fault_status := 0
  Uf := false
  mem := fun a =>
    if a = 0x1000 then 0x2003
    else if a = 0x2008 then 0x3003
    else if a = 0x3010 then 0x90403
    else 0

/-- The scenario tables with the level-0 table descriptor carrying the
access-permission field 2 (no writes beneath it, bit 62). -/
def v6NoWrite : V6State :=
  { v6Scenario with
    mem := fun a =>
      if a = 0x1000 then 0x4000000000002003
      else if a = 0x2008 then 0x3003
      else if a = 0x3010 then 0x90403
      else 0 }

/-- The scenario tables with the access flag (bit 10) of the page descriptor
cleared. -/
def v6NoAF : V6State :=
  { v6Scenario with
    mem := fun a =>
      if a = 0x1000 then 0x2003
      else if a = 0x2008 then 0x3003
      else if a = 0x3010 then 0x90003
      else 0 }

/-! ## Set-associative MMU (mmu.c) -/

/-- A TLB entry `struct arc_tlb_e`: the descriptor pair. -/
structure arc_tlb_e where
  pd0 : Nat
  pd1 : Nat
  deriving DecidableEq, Repr

/-- The state `struct arc_mmu` (`env->mmu.v3`); `nTLB set way` is
`nTLB[set][way]` and `way_sel set` is `way_sel[set]`. -/
structure arc_mmu where
  enabled : Nat
  nTLB : Nat → Nat → arc_tlb_e
  way_sel : Nat → Nat
  pid_asid : Nat
  sasid0 : Nat
  sasid1 : Nat
  tlbpd0 : Nat
  tlbpd1 : Nat
  tlbpd1_hi : Nat
  tlbindex : Nat
  tlbcmd : Nat
  scratch_data0 : Nat

/-- A call into the QEMU softmmu cache made by the register interface:
`tlb_flush(cs)` or `tlb_flush_page_by_mmuidx(cs, addr, idxmap)`. -/
inductive FlushEvent where
  | all
  | page (addr idxmap : Nat)
  deriving DecidableEq, Repr

/-- What mmu.c reads and writes: `env->mmu.v3`, the global `mmu_v3_page_size`,
the user-mode flag `GET_STATUS_BIT(env->stat, Uf)`, and the softmmu flushes
requested so far, most recent first. -/
structure V3Env where
  mmu : arc_mmu
  mmu_v3_page_size : Nat
  Uf : Bool
  flushes : List FlushEvent

/-- The auxiliary registers `arc_mmu_aux_get` and `arc_mmu_aux_set` switch on;
`other` stands for every identifier that reaches `default`. -/
inductive AuxId where
  | mmu_build
  | tlbindex
  | tlbpd0
  | tlbpd1
  | tlbpd1_hi
  | scratch_data0
  | tlbcommand
  | pid
  | sasid0
  | sasid1
  | other
  deriving DecidableEq, Repr

/-- `arc_mmu_aux_set(aux_reg_detail, val, data)`; the fields are `uint32_t`. -/
def arc_mmu_aux_set (env : V3Env) (id : AuxId) (val : Nat) : V3Env :=
  match id with
  | AuxId.tlbindex => { env with mmu := { env.mmu with tlbindex := val % 2 ^ 32 } }
  | AuxId.tlbpd0 => { env with mmu := { env.mmu with tlbpd0 := val % 2 ^ 32 } }
  | AuxId.tlbpd1 => { env with mmu := { env.mmu with tlbpd1 := val % 2 ^ 32 } }
  | AuxId.tlbpd1_hi => { env with mmu := { env.mmu with tlbpd1_hi := val % 2 ^ 32 } }
  | AuxId.scratch_data0 => { env with mmu := { env.mmu with scratch_data0 := val % 2 ^ 32 } }
  | AuxId.pid =>
    { env with
      mmu := { env.mmu with enabled := (val >>> 31) % 2 ^ 32, pid_asid := val &&& 0xff },
      flushes := FlushEvent.all :: env.flushes }
  | AuxId.sasid0 => { env with mmu := { env.mmu with sasid0 := val % 2 ^ 32 } }
  | AuxId.sasid1 => { env with mmu := { env.mmu with sasid1 := val % 2 ^ 32 } }
  | _ => env

/-- `VPN(addr)`: the page mask without the top bit. -/
def VPN (d : Decls) (sz : Nat) (addr : Nat) : Nat :=
  addr &&& (d.MMU_V3_PAGE_MASK sz &&& not32 0x80000000)

/-- `arc_mmu_get_tlb_at_index(index, mmu)`: the coordinates of the slot. -/
def arc_mmu_get_tlb_at_index (d : Decls) (index : Nat) : Nat × Nat :=
  (index / d.N_WAYS, index % d.N_WAYS)

/-- The assignment `nTLB[set][way] = e`. -/
def setSlot (t : Nat → Nat → arc_tlb_e) (set way : Nat) (e : arc_tlb_e) :
    Nat → Nat → arc_tlb_e :=
  fun s w => if s = set ∧ w = way then e else t s w

/-- `match_sasid(tlb, mmu)`: `position` is a `uint8_t` and `pos = 1ULL << position`
a 64-bit word. In C the shift is undefined for a position of 64 or more, which
`PD0_ASID_MATCH` rules out; the model reduces the shifted value modulo `2^64`. -/
def match_sasid (d : Decls) (tlb : arc_tlb_e) (mmu : arc_mmu) : Bool :=
  let position := (tlb.pd0 &&& d.PD0_ASID_MATCH) % 256
  let pos := (1 <<< position) % 2 ^ 64
  let sasid := (((mmu.sasid1 % 2 ^ 32) <<< 32) ||| (mmu.sasid0 % 2 ^ 32))
  if (pos &&& sasid) = 0 then false else true

/-- The locals of `arc_mmu_lookup_tlb` that its loop updates: `ret` (the slot
coordinates, `none` for `NULL`), `*num_finds`, the value last stored through
`index`, and `general_match`. -/
structure LookupAcc where
  ret : Option (Nat × Nat)
  num_finds : Nat
  index : Option Nat
  general_match : Bool
  deriving DecidableEq, Repr

/-- One iteration of the `for (w = 0; w < N_WAYS; w++, tlb++)` loop of
`arc_mmu_lookup_tlb`. -/
def lookupStep (d : Decls) (mmu : arc_mmu) (vaddr compare_mask set : Nat) (acc : LookupAcc)
    (w : Nat) : LookupAcc :=
  let tlb := mmu.nTLB set w
  let mtch := vaddr &&& compare_mask
  let final_compare_mask := compare_mask
  let general_match :=
    if (tlb.pd0 &&& d.PD0_G) = 0 ∧ (tlb.pd0 &&& d.PD0_S) ≠ 0 ∧ match_sasid d tlb mmu = false
    then false else acc.general_match
  let mtch :=
    if (tlb.pd0 &&& d.PD0_G) = 0 ∧ ¬ (tlb.pd0 &&& d.PD0_S) ≠ 0
    then mtch ||| (mmu.pid_asid &&& d.PD0_PID_MATCH) else mtch
  let final_compare_mask :=
    if (tlb.pd0 &&& d.PD0_G) = 0 ∧ ¬ (tlb.pd0 &&& d.PD0_S) ≠ 0
    then final_compare_mask ||| d.PD0_PID_MATCH else final_compare_mask
  if mtch = (tlb.pd0 &&& final_compare_mask) ∧ general_match = true then
    { ret := some (set, w), num_finds := acc.num_finds + 1,
      index := some ((set * d.N_WAYS + w) % 2 ^ 32), general_match := general_match }
  else { acc with general_match := general_match }

/-- What `arc_mmu_lookup_tlb` hands back: the slot it returns a pointer to, the
final `*num_finds`, the value stored through `index`, and the MMU state (the
round-robin cursor moves when nothing matched). -/
structure LookupOut where
  ret : Nat × Nat
  num_finds : Nat
  index : Nat
  mmu : arc_mmu

/-- `arc_mmu_lookup_tlb(vaddr, compare_mask, mmu, num_finds, index)` with
`num_finds != NULL`; a caller passing `index == NULL` ignores the `index` field. -/
def arc_mmu_lookup_tlb (d : Decls) (sz : Nat) (vaddr compare_mask : Nat) (mmu : arc_mmu) :
    LookupOut :=
  let set := (vaddr >>> d.MMU_V3_PAGE_BITS sz) &&& (d.N_SETS - 1)
  let acc := (List.range d.N_WAYS).foldl (lookupStep d mmu vaddr compare_mask set)
    { ret := none, num_finds := 0, index := none, general_match := true }
  match acc.ret with
  | some r => { ret := r, num_finds := acc.num_finds, index := acc.index.getD 0, mmu := mmu }
  | none =>
    let way := mmu.way_sel set
    { ret := (set, way), num_finds := acc.num_finds,
      index := (set * d.N_WAYS + way) % 2 ^ 32,
      mmu := { mmu with
        way_sel := fun s => if s = set then (mmu.way_sel set + 1) % 2 ^ 32 &&& (d.N_WAYS - 1)
          else mmu.way_sel s } }

/-- The statement `tlb->pd0 &= ~PD0_V` on the slot `tlb`. -/
def clearValid (d : Decls) (mmu : arc_mmu) (tlb : Nat × Nat) : arc_mmu :=
  { mmu with
    nTLB := setSlot mmu.nTLB tlb.1 tlb.2
      { mmu.nTLB tlb.1 tlb.2 with pd0 := (mmu.nTLB tlb.1 tlb.2).pd0 &&& not32 d.PD0_V } }

/-- The loop `while (num_finds > 0) { tlb->pd0 &= ~PD0_V; tlb = arc_mmu_lookup_tlb(...); }`
of the DELETE/INSERT path, with an iteration budget. -/
def deleteLoop (d : Decls) (sz pd0 : Nat) :
    (fuel : Nat) → arc_mmu → (tlb : Nat × Nat) → (num_finds : Nat) →
      Except Stop (arc_mmu × (Nat × Nat))
  | _, mmu, tlb, 0 => .ok (mmu, tlb)
  | 0, _, _, _ + 1 => .error Stop.fuel
  | fuel + 1, mmu, tlb, _ + 1 =>
    let mmu := clearValid d mmu tlb
    let r := arc_mmu_lookup_tlb d sz pd0
      (VPN d sz d.PD0_VPN ||| d.PD0_V ||| d.PD0_SZ ||| d.PD0_G ||| d.PD0_S) mmu
    deleteLoop d sz pd0 fuel r.mmu r.ret r.num_finds

/-- `arc_mmu_aux_set_tlbcmd(aux_reg_detail, val, data)`. `tlb0` and `index0` are
the indeterminate initial contents of the locals `tlb` and `index`; `fuel`
bounds the iterations of the `while` loop. -/
def arc_mmu_aux_set_tlbcmd (d : Decls) (fuel : Nat) (env : V3Env) (val : Nat)
    (tlb0 : Nat × Nat) (index0 : Nat) : Except Stop V3Env := do
  let sz := env.mmu_v3_page_size
  let mmu := env.mmu
  let pd0 := mmu.tlbpd0
  let pd1 := mmu.tlbpd1
  let mmu := { mmu with tlbcmd := val % 2 ^ 32 }
  let matching_mask := d.PD0_VPN ||| d.PD0_SZ ||| d.PD0_G ||| d.PD0_S ||| d.PD0_ASID
  let matching_mask :=
    if (pd0 &&& d.PD0_G) ≠ 0 then matching_mask &&& not32 (d.PD0_S ||| d.PD0_ASID)
    else matching_mask
  let flushes := env.flushes
  -- WRITE / WRITENI
  let (mmu, tlb, flushes) :=
    if val = d.TLB_CMD_WRITE ∨ val = d.TLB_CMD_WRITENI then
      let tlb := arc_mmu_get_tlb_at_index d (mmu.tlbindex &&& d.TLBINDEX_INDEX)
      ({ mmu with nTLB := setSlot mmu.nTLB tlb.1 tlb.2 { pd0 := mmu.tlbpd0, pd1 := mmu.tlbpd1 } },
        tlb, FlushEvent.all :: flushes)
    else (mmu, tlb0, flushes)
  -- READ
  let (mmu, tlb) :=
    if val = d.TLB_CMD_READ then
      let tlb := arc_mmu_get_tlb_at_index d (mmu.tlbindex &&& d.TLBINDEX_INDEX)
      ({ mmu with
          tlbpd0 := (mmu.nTLB tlb.1 tlb.2).pd0, tlbpd1 := (mmu.nTLB tlb.1 tlb.2).pd1,
          tlbindex := mmu.tlbindex &&& not32 (d.TLBINDEX_E ||| d.TLBINDEX_RC) }, tlb)
    else (mmu, tlb)
  -- DELETE / INSERT
  let (mmu, tlb, index, flushes) ←
    if val = d.TLB_CMD_DELETE ∨ val = d.TLB_CMD_INSERT then do
      let flushes := FlushEvent.page (VPN d sz pd0) 3 :: flushes
      let matching_mask :=
        if (pd0 &&& d.PD0_G) ≠ 0 then matching_mask &&& not32 (d.PD0_S ||| d.PD0_ASID)
        else matching_mask
      let matching_mask := matching_mask &&& (VPN d sz d.PD0_VPN ||| not32 d.PD0_VPN)
      let r := arc_mmu_lookup_tlb d sz pd0 (matching_mask ||| d.PD0_V) mmu
      let mmu := r.mmu
      if r.num_finds = 0 then
        pure ({ mmu with tlbindex := 0x80000000 }, r.ret, r.index, flushes)
      else if r.num_finds = 1 then
        let mmu := { mmu with tlbindex := r.index }
        pure (clearValid d mmu r.ret, r.ret, r.index, flushes)
      else do
        let (mmu, tlb) ← deleteLoop d sz pd0 fuel mmu r.ret r.num_finds
        pure (mmu, tlb, r.index, flushes)
    else pure (mmu, tlb, index0, flushes)
  -- INSERT
  let mmu :=
    if val = d.TLB_CMD_INSERT then
      if (pd0 &&& d.PD0_V) = 0 then { mmu with tlbindex := 0x80000000 }
      else
        { mmu with
          nTLB := setSlot mmu.nTLB tlb.1 tlb.2 { pd0 := pd0, pd1 := pd1 },
          tlbindex := mmu.tlbindex ||| index }
    else mmu
  if val = d.TLB_CMD_INSERT ∨ val = d.TLB_CMD_DELETE ∨ val = d.TLB_CMD_WRITE
      ∨ val = d.TLB_CMD_READ ∨ val = d.TLB_CMD_WRITENI ∨ val = d.TLB_CMD_IVUTLB then
    pure { env with mmu := mmu, flushes := flushes }
  else throw Stop.assertion

/-- `arc_mmu_have_permission(env, tlb, type)`; the result is a `bool`, so a
non-zero masked value converts to true, and the atomic case ANDs the `bool`
already stored in `ret` (0 or 1) with the masked write bit. -/
def arc_mmu_have_permission (d : Decls) (env : V3Env) (tlb : arc_tlb_e)
    (type : mmu_access_type) : Bool :=
  let in_kernel_mode := !env.Uf
  match type with
  | mmu_access_type.MMU_MEM_READ =>
    (if in_kernel_mode then tlb.pd1 &&& d.PD1_RK else tlb.pd1 &&& d.PD1_RU) != 0
  | mmu_access_type.MMU_MEM_WRITE =>
    (if in_kernel_mode then tlb.pd1 &&& d.PD1_WK else tlb.pd1 &&& d.PD1_WU) != 0
  | mmu_access_type.MMU_MEM_FETCH =>
    (if in_kernel_mode then tlb.pd1 &&& d.PD1_XK else tlb.pd1 &&& d.PD1_XU) != 0
  | mmu_access_type.MMU_MEM_ATTOMIC =>
    let ret : Bool := (if in_kernel_mode then tlb.pd1 &&& d.PD1_RK else tlb.pd1 &&& d.PD1_RU) != 0
    (((if ret then 1 else 0) : Nat) &&&
      (if in_kernel_mode then tlb.pd1 &&& d.PD1_WK else tlb.pd1 &&& d.PD1_WU)) != 0
  | mmu_access_type.MMU_MEM_IRRELEVANT_TYPE => true

/-- What a call of `arc_mmu_translate` leaves behind: the returned `bool`, the
value stored through `paddr` (`none` when nothing was stored), the value stored
through `index` by the lookup when the lookup ran, `*excp`, and the environment. -/
structure TranslateOut where
  ret : Bool
  paddr : Option Nat
  index : Option Nat
  excp : mem_exception
  env : V3Env

/-- Lines 480 to 505 of mmu.c: the value of the local `match` of
`arc_mmu_translate` once the entry `tlb` returned by the lookup has been
re-checked. -/
def translateMatch (d : Decls) (sz : Nat) (mmu : arc_mmu) (vaddr num_matching_tlb : Nat)
    (tlb : arc_tlb_e) : Bool :=
  let mtch := true
  let mtch := if num_matching_tlb = 0 then false else mtch
  let mtch :=
    if VPN d sz vaddr ≠ VPN d sz tlb.pd0 ∨ (tlb.pd0 &&& d.PD0_V) = 0 then false else mtch
  if mtch = true then
    if (tlb.pd0 &&& d.PD0_G) = 0 then
      if (tlb.pd0 &&& d.PD0_S) ≠ 0 then
        if match_sasid d tlb mmu = false then false else mtch
      else if (tlb.pd0 &&& d.PD0_PID_MATCH) ≠ (mmu.pid_asid &&& d.PD0_PID_MATCH) then false
      else mtch
    else mtch
  else mtch

/-- Lines 507 to 566 of mmu.c: the permission check, the hit and the miss of
`arc_mmu_translate`, for the entry `tlb` and the computed `match`; `env` carries
the MMU state after the lookup and `index` the value the lookup stored. -/
def translateFinish (d : Decls) (env : V3Env) (vaddr : Nat) (rwe : mmu_access_type)
    (index : Nat) (tlb : arc_tlb_e) (mtch : Bool) : Except Stop TranslateOut :=
  let sz := env.mmu_v3_page_size
  let mmu := env.mmu
  let excp : mem_exception := { number := Excp.EXCP_NO_EXCEPTION, causecode := 0, parameter := 0 }
  if mtch = true ∧ (!arc_mmu_have_permission d env tlb rwe) = true then
    .ok { ret := false, paddr := none, index := some index,
          excp := { number := Excp.EXCP_PROTV, causecode := d.CAUSE_CODE rwe, parameter := 0x08 },
          env := env }
  else if mtch = true then
    .ok { ret := true,
          paddr := some ((tlb.pd1 &&& d.MMU_V3_PAGE_MASK sz)
            ||| (vaddr &&& not32 (d.MMU_V3_PAGE_MASK sz))),
          index := some index, excp := excp, env := env }
  else if rwe ≠ mmu_access_type.MMU_MEM_IRRELEVANT_TYPE then
    if mmu.sasid0 ≠ 0 ∨ mmu.sasid1 ≠ 0 then .error Stop.assertion
    else
      let mmu := { mmu with
        tlbpd0 := (vaddr &&& VPN d sz d.PD0_VPN) ||| d.PD0_V ||| (mmu.pid_asid &&& d.PD0_ASID) }
      let env2 : V3Env := { env with mmu := mmu }
      if rwe = mmu_access_type.MMU_MEM_FETCH then
        .ok { ret := false, paddr := none, index := some index,
              excp := { number := Excp.EXCP_TLB_MISS_I, causecode := 0x00, parameter := 0x00 },
              env := env2 }
      else
        .ok { ret := false, paddr := none, index := some index,
              excp := { number := Excp.EXCP_TLB_MISS_D, causecode := d.CAUSE_CODE rwe,
                        parameter := 0x00 },
              env := env2 }
  else
    .ok { ret := false, paddr := none, index := some index, excp := excp, env := env }

/-- `arc_mmu_translate(env, paddr, vaddr, rwe, index, excp)`; `vaddr` is a
`uint32_t` parameter. -/
def arc_mmu_translate (d : Decls) (env : V3Env) (vaddr : Nat) (rwe : mmu_access_type) :
    Except Stop TranslateOut :=
  let vaddr := vaddr % 2 ^ 32
  let sz := env.mmu_v3_page_size
  let mmu := env.mmu
  let excp : mem_exception := { number := Excp.EXCP_NO_EXCEPTION, causecode := 0, parameter := 0 }
  if rwe ≠ mmu_access_type.MMU_MEM_IRRELEVANT_TYPE ∧ env.Uf ≠ false ∧ vaddr ≥ 0x80000000 then
    .ok { ret := false, paddr := none, index := none,
          excp := { number := Excp.EXCP_PROTV, causecode := d.CAUSE_CODE rwe, parameter := 0x08 },
          env := env }
  else if vaddr ≥ 0x80000000 ∨ mmu.enabled = 0 then
    .ok { ret := decide (vaddr ≠ 0), paddr := some vaddr, index := none, excp := excp, env := env }
  else
    let match_pd0 := VPN d sz vaddr ||| d.PD0_V
    let r := arc_mmu_lookup_tlb d sz match_pd0 (VPN d sz d.PD0_VPN ||| d.PD0_V) mmu
    let env1 : V3Env := { env with mmu := r.mmu }
    if r.num_finds > 1 then
      .ok { ret := false, paddr := none, index := some r.index,
            excp := { number := Excp.EXCP_MACHINE_CHECK, causecode := 0x01, parameter := 0x00 },
            env := env1 }
    else
      let tlb := r.mmu.nTLB r.ret.1 r.ret.2
      translateFinish d env1 vaddr rwe r.index tlb
        (translateMatch d sz r.mmu vaddr r.num_finds tlb)

/-- `arc_mmu_init_v3(env)`: `page_size_sel` is `cpu->cfg.mmu_page_size_sel0`; the
fields the function does not assign (the round-robin cursors among them) keep
their values. -/
def arc_mmu_init_v3 (env : V3Env) (page_size_sel : Nat) : Except Stop V3Env :=
  let mmu := { env.mmu with
    enabled := 0, pid_asid := 0, sasid0 := 0, sasid1 := 0, tlbpd0 := 0, tlbpd1 := 0,
    tlbpd1_hi := 0, tlbindex := 0, tlbcmd := 0, scratch_data0 := 0 }
  let sz := page_size_sel % 256
  if sz < 12 ∨ sz > 24 then .error Stop.assertion
  else
    .ok { env with
      mmu := { mmu with nTLB := fun _ _ => { pd0 := 0, pd1 := 0 } },
      mmu_v3_page_size := sz }

/-! ### Vocabulary of the claims about the set-associative MMU -/

/-- The match rule of section 4.2 for an entry `e` against the address `vaddr`:
valid, same virtual page number, and global, or else shared-library with its
match position present in SASID1:SASID0, or else stored ASID equal to the live
process id. -/
def MatchRule (d : Decls) (env : V3Env) (vaddr : Nat) (e : arc_tlb_e) : Prop :=
  (e.pd0 &&& d.PD0_V) ≠ 0 ∧
  VPN d env.mmu_v3_page_size vaddr = VPN d env.mmu_v3_page_size e.pd0 ∧
  ((e.pd0 &&& d.PD0_G) ≠ 0 ∨
    ((e.pd0 &&& d.PD0_G) = 0 ∧ (e.pd0 &&& d.PD0_S) ≠ 0 ∧ match_sasid d e env.mmu = true) ∨
    ((e.pd0 &&& d.PD0_G) = 0 ∧ (e.pd0 &&& d.PD0_S) = 0 ∧
      (e.pd0 &&& d.PD0_ASID) = env.mmu.pid_asid))

instance (d : Decls) (env : V3Env) (vaddr : Nat) (e : arc_tlb_e) :
    Decidable (MatchRule d env vaddr e) := by
  unfold MatchRule
  infer_instance

/-- The set `(vaddr >> page_bits) & (N_SETS - 1)` an address is looked up in. -/
def setOf (d : Decls) (env : V3Env) (vaddr : Nat) : Nat :=
  (vaddr >>> d.MMU_V3_PAGE_BITS env.mmu_v3_page_size) &&& (d.N_SETS - 1)

/-- The permission bit of `pd1` selected by privilege and access kind, for the
kinds read, write and fetch (0 for the other kinds). -/
def permBit (d : Decls) (user : Bool) (k : mmu_access_type) : Nat :=
  match user, k with
  | false, mmu_access_type.MMU_MEM_READ => d.PD1_RK
  | false, mmu_access_type.MMU_MEM_WRITE => d.PD1_WK
  | false, mmu_access_type.MMU_MEM_FETCH => d.PD1_XK
  | true, mmu_access_type.MMU_MEM_READ => d.PD1_RU
  | true, mmu_access_type.MMU_MEM_WRITE => d.PD1_WU
  | true, mmu_access_type.MMU_MEM_FETCH => d.PD1_XU
  | _, _ => 0

/-- The lookup `arc_mmu_translate` performs for `vaddr`. -/
def translateLookup (d : Decls) (env : V3Env) (vaddr : Nat) : LookupOut :=
  arc_mmu_lookup_tlb d env.mmu_v3_page_size
    (VPN d env.mmu_v3_page_size (vaddr % 2 ^ 32) ||| d.PD0_V)
    (VPN d env.mmu_v3_page_size d.PD0_VPN ||| d.PD0_V) env.mmu

/-- The entry `arc_mmu_translate` works on after its lookup for `vaddr`. -/
def hitEntry (d : Decls) (env : V3Env) (vaddr : Nat) : arc_tlb_e :=
  (translateLookup d env vaddr).mmu.nTLB (translateLookup d env vaddr).ret.1
    (translateLookup d env vaddr).ret.2

/-- The result of a successful TLB hit on `e`: the frame of `pd1` and the page
offset of `vaddr`. -/
def hitPaddr (d : Decls) (env : V3Env) (vaddr : Nat) (e : arc_tlb_e) : Nat :=
  (e.pd1 &&& d.MMU_V3_PAGE_MASK env.mmu_v3_page_size)
    ||| (vaddr &&& not32 (d.MMU_V3_PAGE_MASK env.mmu_v3_page_size))

/-- A zero-filled CPU state before `arc_mmu_init_v3`. -/
def v3Zero : V3Env where
  mmu :=
    { enabled := 0, nTLB := fun _ _ => { pd0 := 0, pd1 := 0 }, way_sel := fun _ => 0,
      pid_asid := 0, sasid0 := 0, sasid1 := 0, tlbpd0 := 0, tlbpd1 := 0, tlbpd1_hi := 0,
      tlbindex := 0, tlbcmd := 0, scratch_data0 := 0 }
  mmu_v3_page_size := 0
  Uf := false
  flushes := []

/-- One step of a driver program: a register write through `arc_mmu_aux_set`, or
a write of the command register (`arc_mmu_aux_set_tlbcmd`). -/
inductive V3Op where
  | setReg (id : AuxId) (val : Nat)
  | command (val : Nat)
  deriving DecidableEq, Repr

/-- Execute one driver step; a command gets the iteration budget `fuel` and
zero for the indeterminate locals. -/
def runOp (d : Decls) (fuel : Nat) (env : V3Env) : V3Op → Except Stop V3Env
  | V3Op.setReg id val => .ok (arc_mmu_aux_set env id val)
  | V3Op.command val => arc_mmu_aux_set_tlbcmd d fuel env val (0, 0) 0

/-- Execute a driver program from left to right. -/
def runOps (d : Decls) (fuel : Nat) : V3Env → List V3Op → Except Stop V3Env
  | env, [] => .ok env
  | env, op :: ops =>
    match runOp d fuel env op with
    | .ok env' => runOps d fuel env' ops
    | .error e => .error e

/-- Reset with 8 KiB pages (`arc_mmu_init_v3` on the zero-filled state), then
the driver program `ops`. -/
def fromReset (d : Decls) (ops : List V3Op) : Except Stop V3Env :=
  match arc_mmu_init_v3 v3Zero 13 with
  | .ok env => runOps d 8 env ops
  | .error e => .error e

/-- The kernel-only scenario of section 8: 8 KiB pages, MMU enabled, process id
5, and one entry for the page at 0x4000 (valid, ASID 5) whose `pd1` carries the
frame 0x90000 and the kernel-read and kernel-write bits only. -/
def v3KernelOnly (user : Bool) : V3Env where
  mmu :=
    { enabled := 1,
      nTLB := fun s w => if s = 2 ∧ w = 0 then { pd0 := 0x4205, pd1 := 0x90060 }
        else { pd0 := 0, pd1 := 0 },
      way_sel := fun s => if s = 2 then 1 else 0,
      pid_asid := 5, sasid0 := 0, sasid1 := 0, tlbpd0 := 0x4205, tlbpd1 := 0x90060,
      tlbpd1_hi := 0, tlbindex := 0x80000008, tlbcmd := 7, scratch_data0 := 0 }
  mmu_v3_page_size := 13
  Uf := user
  flushes := []

/-! ### Auxiliary notions for the analysis of the lookup -/

/-- Way `w` of `set` clears `general_match` in `arc_mmu_lookup_tlb`: its entry
is not global, has the shared-library bit, and `match_sasid` fails on it. -/
def wayBlocks (d : Decls) (mmu : arc_mmu) (set w : Nat) : Bool :=
  decide (((mmu.nTLB set w).pd0 &&& d.PD0_G) = 0 ∧ ((mmu.nTLB set w).pd0 &&& d.PD0_S) ≠ 0
    ∧ match_sasid d (mmu.nTLB set w) mmu = false)

/-- The comparison `match == (tlb->pd0 & final_compare_mask)` that
`arc_mmu_lookup_tlb` evaluates for way `w` of `set`. -/
def wayCompare (d : Decls) (mmu : arc_mmu) (vaddr compare_mask set w : Nat) : Bool :=
  if ((mmu.nTLB set w).pd0 &&& d.PD0_G) = 0 ∧ ¬ ((mmu.nTLB set w).pd0 &&& d.PD0_S) ≠ 0 then
    decide (((vaddr &&& compare_mask) ||| (mmu.pid_asid &&& d.PD0_PID_MATCH))
      = ((mmu.nTLB set w).pd0 &&& (compare_mask ||| d.PD0_PID_MATCH)))
  else decide ((vaddr &&& compare_mask) = ((mmu.nTLB set w).pd0 &&& compare_mask))

/-- The page mask without the top bit, `MMU_V3_PAGE_MASK & ~0x80000000`. -/
def vpnMask (d : Decls) (sz : Nat) : Nat := d.MMU_V3_PAGE_MASK sz &&& not32 0x80000000

/-- The compare mask of the DELETE/INSERT scan for a descriptor without the
global bit, before `PD0_V` is added. -/
def scanMask (d : Decls) (sz : Nat) : Nat :=
  (d.PD0_VPN ||| d.PD0_SZ ||| d.PD0_G ||| d.PD0_S ||| d.PD0_ASID)
    &&& (VPN d sz d.PD0_VPN ||| not32 d.PD0_VPN)

/-- The relations between the header constants that the general theorems about
the set-associative MMU rely on, for the page size `sz`: the valid bit is a
single bit of a 32-bit word outside the page-number field and the ASID field;
`PD0_VPN` covers the page-number bits; the ASID mask is the process-id match
mask and lies outside the other fields; the scan mask of DELETE/INSERT is the
page-number field with the size, global, shared-library and ASID fields; the
set index is taken from page-number bits (or the shared-library bit); there is
at least one way; and the command codes are pairwise distinct. -/
structure LayoutOK (d : Decls) (sz : Nat) : Prop where
  ways_pos : 0 < d.N_WAYS
  v_bit : ∃ k, k < 32 ∧ d.PD0_V = 2 ^ k
  vpn_cover : d.PD0_VPN &&& vpnMask d sz = vpnMask d sz
  v_vpn : vpnMask d sz &&& d.PD0_V = 0
  v_s : d.PD0_S &&& d.PD0_V = 0
  vpn_s : vpnMask d sz &&& d.PD0_S = 0
  words : d.PD0_G < 2 ^ 32 ∧ d.PD0_S < 2 ^ 32 ∧ d.PD0_SZ < 2 ^ 32 ∧ d.PD0_ASID < 2 ^ 32
  pid_eq : d.PD0_PID_MATCH = d.PD0_ASID
  v_asid : d.PD0_ASID &&& d.PD0_V = 0
  v_g : d.PD0_G &&& d.PD0_V = 0
  v_sz : d.PD0_SZ &&& d.PD0_V = 0
  vpn_asid : vpnMask d sz &&& d.PD0_ASID = 0
  scan_mask : scanMask d sz
    = vpnMask d sz ||| d.PD0_SZ ||| d.PD0_G ||| d.PD0_S ||| d.PD0_ASID
  set_bits : ((d.N_SETS - 1) <<< d.MMU_V3_PAGE_BITS sz) &&& (vpnMask d sz ||| d.PD0_S)
    = (d.N_SETS - 1) <<< d.MMU_V3_PAGE_BITS sz
  cmd_insert : d.TLB_CMD_INSERT ≠ d.TLB_CMD_WRITE ∧ d.TLB_CMD_INSERT ≠ d.TLB_CMD_WRITENI
    ∧ d.TLB_CMD_INSERT ≠ d.TLB_CMD_READ ∧ d.TLB_CMD_INSERT ≠ d.TLB_CMD_DELETE
  cmd_delete : d.TLB_CMD_DELETE ≠ d.TLB_CMD_WRITE ∧ d.TLB_CMD_DELETE ≠ d.TLB_CMD_WRITENI
    ∧ d.TLB_CMD_DELETE ≠ d.TLB_CMD_READ
  cmd_read : d.TLB_CMD_READ ≠ d.TLB_CMD_WRITE ∧ d.TLB_CMD_READ ≠ d.TLB_CMD_WRITENI

/-- What a caller of `arc_mmu_translate` observes: the returned flag, the value
stored through `paddr` and the fault descriptor; `none` when the call stops at
`assert(0)`. -/
def translateObs (d : Decls) (env : V3Env) (vaddr : Nat) (rwe : mmu_access_type) :
    Option (Bool × Option Nat × mem_exception) :=
  match arc_mmu_translate d env vaddr rwe with
  | .ok o => some (o.ret, o.paddr, o.excp)
  | .error _ => none

/-- A write of the INSERT command followed by a translation, observed as by
`translateObs`; `none` when the command does not complete. -/
def insertThenTranslate (d : Decls) (fuel : Nat) (env : V3Env) (vaddr : Nat)
    (rwe : mmu_access_type) : Option (Bool × Option Nat × mem_exception) :=
  match arc_mmu_aux_set_tlbcmd d fuel env d.TLB_CMD_INSERT (0, 0) 0 with
  | .ok env' => translateObs d env' vaddr rwe
  | .error _ => none

/-- The four entries of a set, way 0 first. -/
def setEntries (env : V3Env) (set : Nat) : List arc_tlb_e :=
  (List.range 4).map (env.mmu.nTLB set)

/-- An MMU state with 8 KiB pages, kernel mode, MMU enabled and process id 5,
whose only non-zero entries are the given contents of set 2 (the set of the
page at 0x4000), with the round-robin cursor of set 2 at `cursor`. -/
def v3With (ways : List arc_tlb_e) (cursor : Nat) : V3Env where
  mmu :=
    { enabled := 1,
      nTLB := fun s w => if s = 2 then ways.getD w { pd0 := 0, pd1 := 0 }
        else { pd0 := 0, pd1 := 0 },
      way_sel := fun s => if s = 2 then cursor else 0,
      pid_asid := 5, sasid0 := 0, sasid1 := 0, tlbpd0 := 0, tlbpd1 := 0,
      tlbpd1_hi := 0, tlbindex := 0, tlbcmd := 0, scratch_data0 := 0 }
  mmu_v3_page_size := 13
  Uf := false
  flushes := []

/-- The empty TLB with the MMU enabled for process 5. -/
def v3Fresh : V3Env := v3With [] 0

/-- Set 2 holds a global entry for the page at 0x4000 (frame 0x80000) in way 0. -/
def v3GlobalFirst : V3Env := v3With [{ pd0 := 0x4300, pd1 := 0x8007e }] 1

/-- Set 2 holds, in way 0, a valid shared-library entry (match position 3,
page 0x204000) while both SASID registers are zero, and in way 1 the entry of
process 5 for the page at 0x4000 with frame 0x90000 and all six permissions. -/
def v3Blocked : V3Env :=
  v3With [{ pd0 := 0x80204203, pd1 := 0x7e }, { pd0 := 0x4205, pd1 := 0x9007e }] 2

/-- As `v3Blocked`, with a global entry for the page at 0x4000 in way 2 as well. -/
def v3BlockedTwo : V3Env :=
  v3With [{ pd0 := 0x80204203, pd1 := 0x7e }, { pd0 := 0x4205, pd1 := 0x9007e },
    { pd0 := 0x4300, pd1 := 0x8007e }] 3

/-- A driver program that builds the entries of `v3Blocked` from reset: enable
the MMU for process 5, INSERT the shared-library entry, INSERT the entry of
process 5. -/
def progBlocked : List V3Op :=
  [ V3Op.setReg AuxId.pid 0x80000005,
    V3Op.setReg AuxId.tlbpd0 0x80204203, V3Op.setReg AuxId.tlbpd1 0x7e, V3Op.command 7,
    V3Op.setReg AuxId.tlbpd0 0x4205, V3Op.setReg AuxId.tlbpd1 0x9007e, V3Op.command 7 ]

/-- The program `progBlocked` followed by an INSERT of a global entry for the
page at 0x4000: the entries of `v3BlockedTwo`. -/
def progBlockedTwo : List V3Op :=
  progBlocked ++
    [ V3Op.setReg AuxId.tlbpd0 0x4300, V3Op.setReg AuxId.tlbpd1 0x8007e, V3Op.command 7 ]

/-- The entries of set 2 and the round-robin cursor of set 2 a driver program
leaves behind when run from reset. -/
def set2After (ops : List V3Op) : Option (List arc_tlb_e × Nat) :=
  match fromReset arcDecls ops with
  | .ok env => some (setEntries env 2, env.mmu.way_sel 2)
  | .error _ => none

/-- The state `arc_mmu_init_v3` leaves when run on the zero-filled state with
the page-size selector 13. -/
def v3Reset : V3Env := { v3Zero with mmu_v3_page_size := 13 }

/-! ### Vocabulary of the single-match invariant -/

/-- No virtual page has two distinct TLB slots that both satisfy the match rule
(valid and enabled) for it. -/
def SingleMatch (d : Decls) (env : V3Env) : Prop :=
  ∀ vaddr s w s' w', MatchRule d env vaddr (env.mmu.nTLB s w) →
    MatchRule d env vaddr (env.mmu.nTLB s' w') → s = s' ∧ w = w'

/-- The descriptor in TLBPD0 is valid, neither global nor shared-library, of
normal size, and carries the live process id. -/
def PlainDesc (d : Decls) (env : V3Env) : Prop :=
  env.mmu.tlbpd0 &&& d.PD0_V ≠ 0 ∧ env.mmu.tlbpd0 &&& d.PD0_G = 0
    ∧ env.mmu.tlbpd0 &&& d.PD0_S = 0 ∧ env.mmu.tlbpd0 &&& d.PD0_SZ = 0
    ∧ env.mmu.tlbpd0 &&& d.PD0_ASID = env.mmu.pid_asid

/-- The driver steps of the amended single-match claim: any register write, the
READ command, and INSERT or DELETE issued while TLBPD0 holds a descriptor as in
`PlainDesc`. -/
def Restricted (d : Decls) (env : V3Env) : V3Op → Prop
  | V3Op.setReg _ _ => True
  | V3Op.command val =>
    val = d.TLB_CMD_READ ∨ ((val = d.TLB_CMD_INSERT ∨ val = d.TLB_CMD_DELETE) ∧ PlainDesc d env)

/-- Every step of the program is `Restricted` in the state it is executed in. -/
def RestrictedRun (d : Decls) (fuel : Nat) : V3Env → List V3Op → Prop
  | _, [] => True
  | env, op :: ops =>
    Restricted d env op ∧ ∀ env', runOp d fuel env op = .ok env' → RestrictedRun d fuel env' ops

/-- The invariant behind the amended single-match claim: every slot is neither
global nor shared-library and of normal size; a valid entry sits in the set its
page number selects, in a way below `N_WAYS`; two valid entries of one set with
the same page number and ASID are the same way; every round-robin cursor is a
way number. -/
structure TlbInv (d : Decls) (env : V3Env) : Prop where
  plain : ∀ s w, (env.mmu.nTLB s w).pd0 &&& d.PD0_G = 0 ∧ (env.mmu.nTLB s w).pd0 &&& d.PD0_S = 0
    ∧ (env.mmu.nTLB s w).pd0 &&& d.PD0_SZ = 0
  home : ∀ s w, (env.mmu.nTLB s w).pd0 &&& d.PD0_V ≠ 0 →
    s = setOf d env (env.mmu.nTLB s w).pd0 ∧ w < d.N_WAYS
  uniq : ∀ s w w', (env.mmu.nTLB s w).pd0 &&& d.PD0_V ≠ 0 →
    (env.mmu.nTLB s w').pd0 &&& d.PD0_V ≠ 0 →
    VPN d env.mmu_v3_page_size (env.mmu.nTLB s w).pd0
      = VPN d env.mmu_v3_page_size (env.mmu.nTLB s w').pd0 →
    (env.mmu.nTLB s w).pd0 &&& d.PD0_ASID = (env.mmu.nTLB s w').pd0 &&& d.PD0_ASID → w = w'
  cursor : ∀ s, env.mmu.way_sel s < d.N_WAYS

/-- A driver program from reset that leaves two enabled entries for the page at
0x4000 using INSERT only: a global entry, then an entry of process 5. -/
def progGlobalThenProcess : List V3Op :=
  [ V3Op.setReg AuxId.pid 0x80000005,
    V3Op.setReg AuxId.tlbpd0 0x4300, V3Op.setReg AuxId.tlbpd1 0x8007e, V3Op.command 7,
    V3Op.setReg AuxId.tlbpd0 0x4205, V3Op.setReg AuxId.tlbpd1 0x9007e, V3Op.command 7 ]

/-- A driver program from reset that stores the same entry of process 5 into
slots 8 and 9 (set 2, ways 0 and 1) with WRITE. -/
def progWriteTwice : List V3Op :=
  [ V3Op.setReg AuxId.pid 0x80000005,
    V3Op.setReg AuxId.tlbpd0 0x4205, V3Op.setReg AuxId.tlbpd1 0x9007e,
    V3Op.setReg AuxId.tlbindex 8, V3Op.command 1,
    V3Op.setReg AuxId.tlbindex 9, V3Op.command 1 ]

/-- A driver program of restricted steps: two processes insert the page at
0x4000, process 5 re-inserts it, reads it back and deletes it. -/
def progRestricted : List V3Op :=
  [ V3Op.setReg AuxId.pid 0x80000005,
    V3Op.setReg AuxId.tlbpd0 0x4205, V3Op.setReg AuxId.tlbpd1 0x9007e, V3Op.command 7,
    V3Op.setReg AuxId.pid 0x80000006,
    V3Op.setReg AuxId.tlbpd0 0x4206, V3Op.setReg AuxId.tlbpd1 0xa007e, V3Op.command 7,
    V3Op.setReg AuxId.pid 0x80000005,
    V3Op.setReg AuxId.tlbpd0 0x4205, V3Op.setReg AuxId.tlbpd1 0xb007e, V3Op.command 7,
    V3Op.setReg AuxId.tlbindex 8, V3Op.command 2,
    V3Op.command 8 ]

instance (d : Decls) (env : V3Env) : Decidable (PlainDesc d env) := by
  unfold PlainDesc
  infer_instance

instance (d : Decls) (env : V3Env) (op : V3Op) : Decidable (Restricted d env op) := by
  cases op <;> unfold Restricted <;> infer_instance

/-- Executable form of `RestrictedRun`: run the program and test each step in the
state it is executed in. -/
def restrictedCheck (d : Decls) (fuel : Nat) : V3Env → List V3Op → Bool
  | _, [] => true
  | env, op :: ops =>
    decide (Restricted d env op) &&
      (match runOp d fuel env op with
       | .ok env' => restrictedCheck d fuel env' ops
       | .error _ => true)

/-- The walk of `page_table_traverse` for `vaddr` arrives at the top of the loop
iteration for level `l`, with `n` iterations left and the locals `root`,
`remainig_bits`, `overwrite_permitions`, `pte` and `mmu_fault_status` as given:
either at loop entry, after the root was selected, or after an iteration that
fell through to `root = pte_tbl_next_level_table_address(l, pte)`. -/
inductive WalkReaches (d : Decls) (s : V6State) (vaddr : Nat) (rwe : mmu_access_type)
    (pte0 : Nat) : (n l root remainig_bits overwrite_permitions pte fault_status : Nat) → Prop
  | entry (root : Nat) (valid : Bool) :
      root_ptr_for_vaddr s vaddr = .ok (root, valid) →
      (valid = true ∨ mmuFault rwe 0x00 (d.CAUSE_CODE rwe) = none) →
      WalkReaches d s vaddr rwe pte0 (NLEVELS s) 0 root (VADDR_SIZE s % 256) 0 pte0
        s.mmu_fault_status
  | next (n l root rem perms pte fs rem' e fs' : Nat) :
      WalkReaches d s vaddr rwe pte0 (n + 1) l root rem perms pte fs →
      loadEntry d s vaddr l root rem = .ok (rem', e) →
      walkHead d s rwe e l fs = WalkHead.cont fs' →
      (pte_is_invalid s e l = false ∨ mmuFault rwe 0x00 (d.CAUSE_CODE rwe) = none) →
      WalkReaches d s vaddr rwe pte0 n (l + 1) (pte_tbl_next_level_table_address s l e) rem'
        (accumulate_overrides s e l perms) e fs'

/-! ### The physical-address entry point and miss scenarios -/

/-- `arc_get_physical_addr_v3(cs, paddr, addr, rwe, probe, retaddr)` in the
system-emulation build. `st` holds the statics of `decide_action`, `mpu_enabled`
is `env->mpu.enabled` and `mmu_idx` the value of `cpu_mmu_index(env, true)`;
`env->mmu.v3.enabled` indexes the decision table and must be 0 or 1. The call
passes `index == NULL` to `arc_mmu_translate`, and `*paddr` is what the callee
stored (`none` when nothing was stored). -/
def arc_get_physical_addr_v3 (d : Decls) (st : DecideStatics) (mpu_enabled : Bool)
    (mmu_idx : Int) (env : V3Env) (addr : Nat) (rwe : mmu_access_type) (probe : Bool) :
    Except Stop (GetPhys × V3Env × DecideStatics) :=
  if env.mmu.enabled ≤ 1 then
    let r := decide_action st (decide (env.mmu.enabled = 1)) mpu_enabled
      (addr % 2 ^ d.TARGET_LONG_BITS) mmu_idx
    match r.1 with
    | ACTION.DIRECT_ACTION => .ok (GetPhys.returned true (some addr), env, r.2)
    | ACTION.MPU_ACTION => .ok (GetPhys.returned true (some addr), env, r.2)
    | ACTION.MMU_ACTION =>
      match arc_mmu_translate d env addr rwe with
      | .ok o =>
        if o.ret then .ok (GetPhys.returned true o.paddr, o.env, r.2)
        else if probe then .ok (GetPhys.returned false o.paddr, o.env, r.2)
        else .ok (GetPhys.raised o.paddr o.excp, o.env, r.2)
      | .error e => .error e
    | ACTION.EXCEPTION_ACTION =>
      if probe then .ok (GetPhys.returned false none, env, r.2)
      else
        .ok (GetPhys.raised none
          { number := Excp.EXCP_PROTV, causecode := d.CAUSE_CODE rwe, parameter := 0x08 },
          env, r.2)
  else .error Stop.undefined

/-- The value the miss branch of `arc_mmu_translate` stores into TLBPD0:
`(vaddr & VPN(PD0_VPN)) | PD0_V | (pid_asid & PD0_ASID)`. -/
def missPd0 (d : Decls) (env : V3Env) (vaddr : Nat) : Nat :=
  (vaddr &&& VPN d env.mmu_v3_page_size d.PD0_VPN) ||| d.PD0_V
    ||| (env.mmu.pid_asid &&& d.PD0_ASID)

/-- A translation, then a write of TLBPD1, the INSERT command, and the same
translation again; the pair of translation outcomes. -/
def missInsertRetry (d : Decls) (fuel : Nat) (env : V3Env) (vaddr : Nat) (rwe : mmu_access_type)
    (pd1 : Nat) : Except Stop (TranslateOut × TranslateOut) :=
  match arc_mmu_translate d env vaddr rwe with
  | .error e => .error e
  | .ok o1 =>
    match arc_mmu_aux_set_tlbcmd d fuel (arc_mmu_aux_set o1.env AuxId.tlbpd1 pd1)
        d.TLB_CMD_INSERT (0, 0) 0 with
    | .error e => .error e
    | .ok env2 =>
      match arc_mmu_translate d env2 vaddr rwe with
      | .error e => .error e
      | .ok o2 => .ok (o1, o2)

/-- What `missInsertRetry` shows: the fault descriptor of the first translation,
TLBPD0 after it, the entries of set 2 after the INSERT, and the flag and fault
descriptor of the second translation. -/
def missInsertRetryObs (d : Decls) (fuel : Nat) (env : V3Env) (vaddr : Nat)
    (rwe : mmu_access_type) (pd1 : Nat) :
    Option (mem_exception × Nat × List arc_tlb_e × Bool × mem_exception) :=
  match missInsertRetry d fuel env vaddr rwe pd1 with
  | .ok p => some (p.1.excp, p.1.env.mmu.tlbpd0, setEntries p.2.env 2, p.2.ret, p.2.excp)
  | .error _ => none

/-- Set 2 holds, in way 0, the valid shared-library entry of `v3Blocked` (match
position 3, page 0x204000) while both SASID registers are zero; the other ways
are empty and the round-robin cursor of the set is at way 1. -/
def v3SharedOnly : V3Env := v3With [{ pd0 := 0x80204203, pd1 := 0x7e }] 1

/-- A driver program that builds the entries of `v3SharedOnly` from reset. -/
def progSharedOnly : List V3Op :=
  [ V3Op.setReg AuxId.pid 0x80000005,
    V3Op.setReg AuxId.tlbpd0 0x80204203, V3Op.setReg AuxId.tlbpd1 0x7e, V3Op.command 7 ]

/-- The stop a call of `arc_mmu_translate` ends in, `none` when it returns. -/
def translateStop (d : Decls) (env : V3Env) (vaddr : Nat) (rwe : mmu_access_type) :
    Option Stop :=
  match arc_mmu_translate d env vaddr rwe with
  | .ok _ => none
  | .error e => some e

/-- The empty TLB with the MMU enabled for process 5 and SASID0 = 1. -/
def v3Sasid : V3Env := { v3Fresh with mmu := { v3Fresh.mmu with sasid0 := 1 } }

/-- A driver program that reaches the registers of `v3Sasid` from reset. -/
def progSasid : List V3Op :=
  [ V3Op.setReg AuxId.pid 0x80000005, V3Op.setReg AuxId.sasid0 1 ]

/-! ### Vocabulary of the claims about the radix walker -/

/-- The width of the address word whose top bits `root_ptr_for_vaddr` tests: 32
under the 32_4K profile, 64 under the others. -/
def rootWordBits (s : V6State) : Nat :=
  match s.mmu_v6_version.id with
  | mmuv6_version_enum.MMUV6_32_4K => 32
  | _ => 64

/-- The top `t` bits of the `w`-bit word `v` are all zero. -/
def TopBitsZero (w t v : Nat) : Prop := ∀ i, i < w → w - t ≤ i → v.testBit i = false

/-- The top `t` bits of the `w`-bit word `v` are all one. -/
def TopBitsOne (w t v : Nat) : Prop := ∀ i, i < w → w - t ≤ i → v.testBit i = true

instance (w t v : Nat) : Decidable (TopBitsZero w t v) := by
  unfold TopBitsZero
  infer_instance

instance (w t v : Nat) : Decidable (TopBitsOne w t v) := by
  unfold TopBitsOne
  infer_instance

/-- The settings of MMU_TTBCR under which every operation of
`root_ptr_for_vaddr` is defined in C and its assertion holds: under 48_4K both
size fields are equal and 16 or 25; the shift counts `width - T0SZ` and
`width - T1SZ` are below 64; `1 << T1SZ` is representable as an `int`; and the
exponents `x_for_ttbc(0)`, `x_for_ttbc(1)` of the root-address mask are not
negative. -/
def TtbcrSupported (s : V6State) : Prop :=
  (s.mmu_v6_version.id = mmuv6_version_enum.MMUV6_48_4K →
      MMU_TTBCR_TNSZ s 0 = MMU_TTBCR_TNSZ s 1
        ∧ (MMU_TTBCR_TNSZ s 0 = 16 ∨ MMU_TTBCR_TNSZ s 0 = 25))
    ∧ rootWordBits s - MMU_TTBCR_TNSZ s 0 < 64
    ∧ rootWordBits s - MMU_TTBCR_TNSZ s 1 < 64
    ∧ MMU_TTBCR_TNSZ s 1 ≤ 30
    ∧ 0 ≤ x_for_ttbc s 0 ∧ 0 ≤ x_for_ttbc s 1

instance (s : V6State) : Decidable (TtbcrSupported s) := by
  unfold TtbcrSupported
  infer_instance

/-- The scenario tables under MMU_TTBCR = 0x00020002: both split sizes are 2,
so root 0 serves addresses below 0x40000000 and root 1 (at 0x5000) addresses
from 0xc0000000. -/
def v6Split : V6State := { v6Scenario with mmu_ttbcr := 0x00020002, mmu_rtp1 := 0x5000 }

/-- The walk of `page_table_traverse` as in `WalkReaches`, together with the
entries it loaded and fell through on its way, each with its level, outermost
level first. -/
inductive WalkPath (d : Decls) (s : V6State) (vaddr : Nat) (rwe : mmu_access_type)
    (pte0 : Nat) :
    List (Nat × Nat) → (n l root remainig_bits overwrite_permitions pte fault_status : Nat) → Prop
  | entry (root : Nat) (valid : Bool) :
      root_ptr_for_vaddr s vaddr = .ok (root, valid) →
      (valid = true ∨ mmuFault rwe 0x00 (d.CAUSE_CODE rwe) = none) →
      WalkPath d s vaddr rwe pte0 [] (NLEVELS s) 0 root (VADDR_SIZE s % 256) 0 pte0
        s.mmu_fault_status
  | next (es : List (Nat × Nat)) (n l root rem perms pte fs rem' e fs' : Nat) :
      WalkPath d s vaddr rwe pte0 es (n + 1) l root rem perms pte fs →
      loadEntry d s vaddr l root rem = .ok (rem', e) →
      walkHead d s rwe e l fs = WalkHead.cont fs' →
      (pte_is_invalid s e l = false ∨ mmuFault rwe 0x00 (d.CAUSE_CODE rwe) = none) →
      WalkPath d s vaddr rwe pte0 (es ++ [(l, e)]) n (l + 1)
        (pte_tbl_next_level_table_address s l e) rem' (accumulate_overrides s e l perms) e fs'

/-- The contribution of one table descriptor to the override mask, in the words
of the claim: bit 59 gives kernel-execute-never, bit 60 user-execute-never, and
the access-permission field (bits 62:61) gives no-user-mode for 1, no-write for
2 and no-user-read/write for 3. -/
def tableOverride (pte : Nat) : Nat :=
  (if pte.testBit 59 then RESTRICT_TBL_KERNEL_EXECUTE_NEVER else 0)
    ||| (if pte.testBit 60 then RESTRICT_TBL_USER_EXECUTE_NEVER else 0)
    ||| (if (pte >>> 61) % 4 = 1 then RESTRICT_TBL_NO_USER_MODE else 0)
    ||| (if (pte >>> 61) % 4 = 2 then RESTRICT_TBL_NO_WRITE_ACCESS else 0)
    ||| (if (pte >>> 61) % 4 = 3 then RESTRICT_TBL_NO_USER_READ_WRITE_ACCESS else 0)

/-- The override mask in the words of the claim: the bitwise OR, over the table
descriptors among the traversed entries, of their contributions, starting from
the empty mask. -/
def overrideMask (s : V6State) (es : List (Nat × Nat)) : Nat :=
  ((es.filter (fun le => PTE_IS_TABLE_DESCRIPTOR s le.2 le.1)).map
    (fun le => tableOverride le.2)).foldl (fun m c => m ||| c) 0

/-- The sum of the index widths of the levels below `l`. -/
def indexBitsBelow (s : V6State) (l : Nat) : Nat :=
  ((List.range l).map (N_BITS_ON_LEVEL s)).sum

/-- The number of ways of `set` whose entry has the valid bit. -/
def validCount (d : Decls) (mmu : arc_mmu) (set : Nat) : Nat :=
  ((List.range d.N_WAYS).map
    (fun w => if (mmu.nTLB set w).pd0 &&& d.PD0_V ≠ 0 then 1 else 0)).sum

/-! ### Vocabulary of the claims about the TLB commands -/

/-- The local `matching_mask` of `arc_mmu_aux_set_tlbcmd` when the DELETE/INSERT
scan is called (lines 282 to 291 and 327 to 334 of mmu.c), before `PD0_V` is
added: both tests of the global bit of the descriptor have been applied. -/
def tlbcmdScanMask (d : Decls) (sz pd0 : Nat) : Nat :=
  let matching_mask := d.PD0_VPN ||| d.PD0_SZ ||| d.PD0_G ||| d.PD0_S ||| d.PD0_ASID
  let matching_mask :=
    if (pd0 &&& d.PD0_G) ≠ 0 then matching_mask &&& not32 (d.PD0_S ||| d.PD0_ASID)
    else matching_mask
  let matching_mask :=
    if (pd0 &&& d.PD0_G) ≠ 0 then matching_mask &&& not32 (d.PD0_S ||| d.PD0_ASID)
    else matching_mask
  matching_mask &&& (VPN d sz d.PD0_VPN ||| not32 d.PD0_VPN)

/-- The scan a DELETE or INSERT command starts with: the call
`arc_mmu_lookup_tlb(pd0, matching_mask | PD0_V, ...)` of line 335 for the
descriptor in TLBPD0. -/
def tlbcmdScan (d : Decls) (env : V3Env) : LookupOut :=
  arc_mmu_lookup_tlb d env.mmu_v3_page_size env.mmu.tlbpd0
    (tlbcmdScanMask d env.mmu_v3_page_size env.mmu.tlbpd0 ||| d.PD0_V) env.mmu

/-- Lines 364 to 385 of mmu.c: the store of the INSERT command, for the state
`mmu`, the slot `tlb` and the `index` left by the DELETE/INSERT block. -/
def tlbcmdInsertStore (d : Decls) (pd0 pd1 : Nat) (mmu : arc_mmu) (tlb : Nat × Nat)
    (index : Nat) : arc_mmu :=
  if (pd0 &&& d.PD0_V) = 0 then { mmu with tlbindex := 0x80000000 }
  else
    { mmu with
      nTLB := setSlot mmu.nTLB tlb.1 tlb.2 { pd0 := pd0, pd1 := pd1 },
      tlbindex := mmu.tlbindex ||| index }

/-- The empty TLB with the MMU enabled for process 5 and the descriptor pair
(0x4205, 0x9007e) of the page at 0x4000 in TLBPD0 and TLBPD1. -/
def v3InsertReady : V3Env :=
  { v3Fresh with mmu := { v3Fresh.mmu with tlbpd0 := 0x4205, tlbpd1 := 0x9007e } }

/-- A driver program from reset: enable the MMU for process 5 and INSERT the
entry (0x4205, 0x9007e) into the empty TLB. -/
def progInsertOnce : List V3Op :=
  [ V3Op.setReg AuxId.pid 0x80000005,
    V3Op.setReg AuxId.tlbpd0 0x4205, V3Op.setReg AuxId.tlbpd1 0x9007e, V3Op.command 7 ]

/-- Set 2 holds an invalid entry for the page at 0x4000 (ASID 5) in way 0, and
TLBPD0 holds the same descriptor, valid bit clear, with TLBPD1 = 0x9007e. -/
def v3InvalidDesc : V3Env :=
  { v3With [{ pd0 := 0x4005, pd1 := 0x7e }] 1 with
    mmu := { (v3With [{ pd0 := 0x4005, pd1 := 0x7e }] 1).mmu with
      tlbpd0 := 0x4005, tlbpd1 := 0x9007e } }

/-! ### Register interface of the radix MMU (mmu-v6.c) -/

/-- What the register interface of mmu-v6.c reads and writes: the file-scope
variables (with the memory the walker reads) and the softmmu flushes requested
so far, most recent first. -/
structure V6Cpu where
  st : V6State
  flushes : List FlushEvent

/-- The enumerator `TLBInvalidateAll` of `enum MMUv6_TLBCOMMAND`. -/
def TLBInvalidateAll : Nat := 0x1

/-- The enumerator `TLBRead`. -/
def TLBRead : Nat := 0x2

/-- The enumerator `TLBInvalidateASID`. -/
def TLBInvalidateASID : Nat := 0x3

/-- The enumerator `TLBInvalidateAddr`. -/
def TLBInvalidateAddr : Nat := 0x4

/-- The enumerator `TLBInvalidateRegion`. -/
def TLBInvalidateRegion : Nat := 0x5

/-- The enumerator `TLBInvalidateRegionASID`. -/
def TLBInvalidateRegionASID : Nat := 0x6

/-- `mmuv6_tlb_command(env, command)`: the five invalidation commands share one
body that calls `tlb_flush(cs)`; `TLBRead` only logs; the `switch` has no
`default`, so any other value does nothing. -/
def mmuv6_tlb_command (env : V6Cpu) (command : Nat) : V6Cpu :=
  if command = TLBInvalidateAll ∨ command = TLBInvalidateASID ∨ command = TLBInvalidateAddr
      ∨ command = TLBInvalidateRegion ∨ command = TLBInvalidateRegionASID then
    { env with flushes := FlushEvent.all :: env.flushes }
  else if command = TLBRead then env
  else env

/-- The auxiliary registers `arc_mmuv6_aux_get` and `arc_mmuv6_aux_set` switch
on; `other` stands for every identifier that reaches `default`. -/
inductive AuxIdV6 where
  | mmuv6_build
  | mmu_rtp0
  | mmu_rtp0hi
  | mmu_rtp1
  | mmu_rtp1hi
  | mmu_ctrl
  | mmu_ttbcr
  | mmuv6_tlbcommand
  | mmu_fault_status
  | other
  deriving DecidableEq, Repr

/-- `arc_mmuv6_aux_set(aux_reg_detail, val, data)`: `val` is a `target_ulong`,
`u64_val` its zero extension; `mmu_ctrl` and `mmu_ttbcr` are `uint32_t`, the root
pointers `uint64_t`; the command is converted to the 32-bit enumeration type.
The tests `!=` compare the old value with the untruncated `val`. -/
def arc_mmuv6_aux_set (d : Decls) (env : V6Cpu) (id : AuxIdV6) (val : Nat) :
    Except Stop V6Cpu :=
  let val := val % 2 ^ d.TARGET_LONG_BITS
  let u64_val := val % 2 ^ 64
  match id with
  | AuxIdV6.mmu_rtp0 =>
    .ok { st := { env.st with mmu_rtp0 := u64_val },
          flushes := if env.st.mmu_rtp0 ≠ u64_val then FlushEvent.all :: env.flushes
            else env.flushes }
  | AuxIdV6.mmu_rtp0hi =>
    .ok { st := { env.st with
            mmu_rtp0 := (env.st.mmu_rtp0 &&& not64 0xffffffff00000000)
              ||| ((u64_val <<< 32) % 2 ^ 64) },
          flushes := if (env.st.mmu_rtp0 >>> 32) ≠ u64_val then FlushEvent.all :: env.flushes
            else env.flushes }
  | AuxIdV6.mmu_rtp1 =>
    .ok { st := { env.st with mmu_rtp1 := u64_val },
          flushes := if env.st.mmu_rtp1 ≠ u64_val then FlushEvent.all :: env.flushes
            else env.flushes }
  | AuxIdV6.mmu_rtp1hi =>
    .ok { st := { env.st with
            mmu_rtp1 := (env.st.mmu_rtp1 &&& not64 0xffffffff00000000)
              ||| ((u64_val <<< 32) % 2 ^ 64) },
          flushes := if (env.st.mmu_rtp1 >>> 32) ≠ u64_val then FlushEvent.all :: env.flushes
            else env.flushes }
  | AuxIdV6.mmu_ctrl =>
    .ok { st := { env.st with mmu_ctrl := val % 2 ^ 32 },
          flushes := if env.st.mmu_ctrl ≠ val then FlushEvent.all :: env.flushes
            else env.flushes }
  | AuxIdV6.mmu_ttbcr => .ok { env with st := { env.st with mmu_ttbcr := val % 2 ^ 32 } }
  | AuxIdV6.mmuv6_tlbcommand => .ok (mmuv6_tlb_command env (val % 2 ^ 32))
  | AuxIdV6.mmu_fault_status => .error Stop.assertion
  | _ => .ok env

/-- What a caller of `page_table_traverse` observes of a walk: the returned
value, the protection stored through `prot` and the fault descriptor; `none`
when the call stops. -/
def walkObs (d : Decls) (s : V6State) (vaddr : Nat) (rwe : mmu_access_type)
    (prot_given : Bool) (excp0 : mem_exception) (pte0 : Nat) :
    Option (Nat × Option Nat × mem_exception) :=
  match page_table_traverse d s vaddr rwe prot_given excp0 pte0 with
  | .ok w => some (w.ret, w.prot, w.excp)
  | .error _ => none

/-- Set 2 holds, in way 0, a valid shared-library entry for the page at 0x204000
with match position 3 and frame 0x90000, all six permissions; MMU enabled,
process 5, both SASID registers zero. -/
def v3SharedLib : V3Env := v3With [{ pd0 := 0x80204203, pd1 := 0x9007e }] 1

/-- As `v3SharedLib`, with match position 35, a bit of SASID1. -/
def v3SharedLibHigh : V3Env := v3With [{ pd0 := 0x80204223, pd1 := 0x9007e }] 1

/-- The DELETE criteria in the words of the claim: the entry `e` is valid and has
the virtual page number, the size bit and the global bit of the descriptor
`pd0`, and, unless the descriptor is global, its shared-library bit and ASID. -/
def SpecDeleteMatch (d : Decls) (sz pd0 : Nat) (e : arc_tlb_e) : Prop :=
  e.pd0 &&& d.PD0_V ≠ 0
  ∧ VPN d sz e.pd0 = VPN d sz pd0
  ∧ e.pd0 &&& d.PD0_SZ = pd0 &&& d.PD0_SZ
  ∧ e.pd0 &&& d.PD0_G = pd0 &&& d.PD0_G
  ∧ (pd0 &&& d.PD0_G = 0 →
      e.pd0 &&& d.PD0_S = pd0 &&& d.PD0_S ∧ e.pd0 &&& d.PD0_ASID = pd0 &&& d.PD0_ASID)

instance (d : Decls) (sz pd0 : Nat) (e : arc_tlb_e) : Decidable (SpecDeleteMatch d sz pd0 e) := by
  unfold SpecDeleteMatch
  infer_instance

/-- The state `v3Blocked` with the descriptor 0x4205 of the entry of process 5
in TLBPD0. -/
def v3BlockedDelete : V3Env :=
  { v3Blocked with mmu := { v3Blocked.mmu with tlbpd0 := 0x4205 } }

/-- Process 5 is live, set 2 holds in way 0 the valid entry (0x4206, 0xa007e) of
process 6 for the page at 0x4000, and TLBPD0 holds the descriptor 0x4206 of that
entry. -/
def v3OtherAsid : V3Env :=
  { v3With [{ pd0 := 0x4206, pd1 := 0xa007e }] 1 with
    mmu := { (v3With [{ pd0 := 0x4206, pd1 := 0xa007e }] 1).mmu with tlbpd0 := 0x4206 } }

/-! ### Vocabulary of the determinism claim -/

/-- The state a call of `arc_mmu_translate` leaves behind (the state it was
called in when the call stops at `assert(0)`). -/
def translateAfter (d : Decls) (env : V3Env) (vaddr : Nat) (rwe : mmu_access_type) : V3Env :=
  match arc_mmu_translate d env vaddr rwe with
  | .ok o => o.env
  | .error _ => env

/-- What a caller of `arc_mmuv6_translate` observes: the returned value, the
protection stored through `prot` and the fault descriptor; `none` when the call
stops. -/
def translateObsV6 (d : Decls) (env : V6Env) (vaddr : Nat) (rwe : mmu_access_type)
    (prot_given : Bool) (excp0 : mem_exception) (pte0 : Nat) :
    Option (Nat × Option Nat × mem_exception) :=
  match arc_mmuv6_translate d env vaddr rwe prot_given excp0 pte0 with
  | .ok (w, _) => some (w.ret, w.prot, w.excp)
  | .error _ => none

/-- The state a call of `arc_mmuv6_translate` leaves behind (the state it was
called in when the call stops). -/
def translateAfterV6 (d : Decls) (env : V6Env) (vaddr : Nat) (rwe : mmu_access_type)
    (prot_given : Bool) (excp0 : mem_exception) (pte0 : Nat) : V6Env :=
  match arc_mmuv6_translate d env vaddr rwe prot_given excp0 pte0 with
  | .ok (_, env') => env'
  | .error _ => env

/-- What `page_table_traverse` uses of the way its loop was left, apart from
`mmu_fault_status`: the descriptor of a `return -1`, the terminal entry with its
level, override mask and remaining bits when a block or page was found, and
nothing else when none was found. -/
def loopObs : LoopExit → LoopExit
  | LoopExit.returned e _ => LoopExit.returned e 0
  | LoopExit.finished true pte l overwrite_permitions remainig_bits _ =>
    LoopExit.finished true pte l overwrite_permitions remainig_bits 0
  | LoopExit.finished false _ _ _ _ _ => LoopExit.finished false 0 0 0 0 0

/-! ### Profile selection and profile geometry -/

/-- The values of `cpu->family` that `arc_mmu_init_v6` switches on; `other`
stands for every value that reaches `default`. -/
inductive ArcFamily where
  | ARC_OPCODE_ARC64
  | ARC_OPCODE_ARC32
  | other
  deriving DecidableEq, Repr

/-- `arc_mmu_init_v6(env)`: the record `mmu_v6_version` points to after the
call; `version` is `cpu->cfg.mmuv6_version`, `none` for `NULL`. -/
def arc_mmu_init_v6 (family : ArcFamily) (version : Option String) :
    Except Stop mmu_version_info :=
  match family with
  | ArcFamily.ARC_OPCODE_ARC64 =>
    match version with
    | none => .ok (mmuv6_info mmuv6_version_enum.MMUV6_48_4K)
    | some v =>
      if v = "48_4k" then .ok (mmuv6_info mmuv6_version_enum.MMUV6_48_4K)
      else if v = "48_16k" then .ok (mmuv6_info mmuv6_version_enum.MMUV6_48_16K)
      else if v = "48_64k" then .ok (mmuv6_info mmuv6_version_enum.MMUV6_48_64K)
      else if v = "52_64k" then .ok (mmuv6_info mmuv6_version_enum.MMUV6_52_64K)
      else .error Stop.assertion
  | ArcFamily.ARC_OPCODE_ARC32 => .ok (mmuv6_info mmuv6_version_enum.MMUV6_32_4K)
  | ArcFamily.other => .error Stop.assertion

/-- The walker state right after `arc_mmu_init_v6` stored `info` in
`mmu_v6_version`, with root register 0 holding `rtp0` and every other variable
zero. -/
def v6After (info : mmu_version_info) (rtp0 : Nat) : V6State where
  mmu_v6_version := info
  mmu_ctrl := 0
  mmu_ttbcr := 0
  mmu_rtp0 := rtp0
  mmu_rtp1 := 0
  mmu_fault_status := 0
  Uf := false
  mem := fun _ => 0

/-- The page-offset width the name of a profile announces: 12 bits for a 4K
granule, 14 for 16K and 16 for 64K. -/
def profilePageOffsetBits : mmuv6_version_enum → Nat
  | mmuv6_version_enum.MMUV6_52_64K => 16
  | mmuv6_version_enum.MMUV6_48_4K => 12
  | mmuv6_version_enum.MMUV6_48_16K => 14
  | mmuv6_version_enum.MMUV6_48_64K => 16
  | mmuv6_version_enum.MMUV6_32_4K => 12

/-! ### Slot addressing of the indexed commands -/

/-- The coordinates that name an element of `nTLB[N_SETS][N_WAYS]`: the array the
loops of mmu.c run over with `i < N_SETS` and `j < N_WAYS`. -/
def InTlbArray (d : Decls) (slot : Nat × Nat) : Prop :=
  slot.1 < d.N_SETS ∧ slot.2 < d.N_WAYS

instance (d : Decls) (slot : Nat × Nat) : Decidable (InTlbArray d slot) := by
  unfold InTlbArray
  exact inferInstance

/-- The slot WRITE, WRITENI and READ address:
`arc_mmu_get_tlb_at_index(mmu->tlbindex & TLBINDEX_INDEX, mmu)`. -/
def indexedSlot (d : Decls) (env : V3Env) : Nat × Nat :=
  arc_mmu_get_tlb_at_index d (env.mmu.tlbindex &&& d.TLBINDEX_INDEX)

/-! ### Register reads and reset -/

/-- `arc_mmu_aux_get(aux_reg_detail, data)`: the value of the `uint32_t` local
`reg` converted to the return type. In the build register
`(mmu_v3_page_size - 9) << 15` is an `int` shift, undefined for a negative left
operand. -/
def arc_mmu_aux_get (env : V3Env) (id : AuxId) : Except Stop Nat :=
  let mmu := env.mmu
  match id with
  | AuxId.mmu_build =>
    let reg := 0x04e21a4a
    let reg := reg &&& not32 (0xf <<< 15)
    if env.mmu_v3_page_size < 9 then .error Stop.undefined
    else .ok ((reg ||| (((env.mmu_v3_page_size - 9) <<< 15) % 2 ^ 32)) % 2 ^ 32)
  | AuxId.tlbindex => .ok mmu.tlbindex
  | AuxId.tlbpd0 => .ok mmu.tlbpd0
  | AuxId.tlbpd1 => .ok mmu.tlbpd1
  | AuxId.tlbpd1_hi => .ok mmu.tlbpd1_hi
  | AuxId.scratch_data0 => .ok mmu.scratch_data0
  | AuxId.tlbcommand => .ok mmu.tlbcmd
  | AuxId.pid => .ok (((mmu.enabled <<< 31) % 2 ^ 32) ||| mmu.pid_asid)
  | AuxId.sasid0 => .ok mmu.sasid0
  | AuxId.sasid1 => .ok mmu.sasid1
  | AuxId.other => .ok 0

/-- The state after a sequence of translation requests, each a call of
`arc_mmu_translate` with the given address and access kind. -/
def translateMany (d : Decls) (env : V3Env) (reqs : List (Nat × mmu_access_type)) : V3Env :=
  reqs.foldl (fun e r => translateAfter d e r.1 r.2) env

/-- Every TLB entry is the zero pair and both SASID registers are zero. -/
def EmptyTlb (env : V3Env) : Prop :=
  (∀ s w, env.mmu.nTLB s w = { pd0 := 0, pd1 := 0 }) ∧ env.mmu.sasid0 = 0 ∧ env.mmu.sasid1 = 0

/-! ### Debug translation -/

/-- `arc_mmu_debug_translate_v3(env, addr)`: the returned `hwaddr`, which is the
initial value `-1` of the local `paddr` unless the callee stored through it, and
the environment after the call. -/
def arc_mmu_debug_translate_v3 (d : Decls) (env : V3Env) (addr : Nat) :
    Except Stop (Nat × V3Env) :=
  match arc_mmu_translate d env addr mmu_access_type.MMU_MEM_IRRELEVANT_TYPE with
  | .ok o => .ok (o.paddr.getD (2 ^ 64 - 1), o.env)
  | .error e => .error e

/-- `arc_mmu_debug_translate_v6(env, addr)`: `addr` is a 64-bit `vaddr`, truncated
to `target_ulong` by the call of `arc_mmuv6_translate`, whose `prot` argument is
`NULL`; `junk` is the indeterminate content of the local `excp` and `pte0` that of
the walker's local `pte`. -/
def arc_mmu_debug_translate_v6 (d : Decls) (env : V6Env) (addr : Nat) (junk : mem_exception)
    (pte0 : Nat) : Except Stop (Nat × V6Env) :=
  if MMU_ENABLED env.st then do
    let (w, env') ← arc_mmuv6_translate d env (addr % 2 ^ d.TARGET_LONG_BITS)
      mmu_access_type.MMU_MEM_IRRELEVANT_TYPE false junk pte0
    pure (w.ret, env')
  else pure (addr, env)

/-- The six permission bits of `pd1`. -/
def permBits (d : Decls) : Nat :=
  d.PD1_XU ||| d.PD1_WU ||| d.PD1_RU ||| d.PD1_XK ||| d.PD1_WK ||| d.PD1_RK

/-- TLB contents `t'` that differ from `t` at most in the permission bits of the
`pd1` words. -/
def PermVariant (d : Decls) (t t' : Nat → Nat → arc_tlb_e) : Prop :=
  ∀ s w, (t' s w).pd0 = (t s w).pd0
    ∧ (t' s w).pd1 &&& not32 (permBits d) = (t s w).pd1 &&& not32 (permBits d)

/-- The permission bits of a radix descriptor: bit 6 (user access, read by
`PTE_BLK_IS_KERNEL_ONLY`), bit 7 (`PTE_BLK_IS_READ_ONLY`), bits 53 and 54 (the
execute-never bits of the upper attributes) and bits 59 to 62 (the override
attributes of a table descriptor: execute-never for the next levels and the
access-permission field). -/
def v6PermBits : Nat :=
  (1 <<< 6) ||| (1 <<< 7) ||| (1 <<< 53) ||| (1 <<< 54) ||| (0xf <<< 59)

/-- A descriptor with its permission bits cleared. -/
def permStrip (pte : Nat) : Nat := pte &&& not64 v6PermBits

/-- What the debug path keeps of the way the walker's loop was left: the
descriptor of a `return -1`, or the terminal entry without its permission bits,
its level and the remaining bits; `mmu_fault_status` in each case. -/
def debugLoopObs : LoopExit → LoopExit
  | LoopExit.returned e fs => LoopExit.returned e fs
  | LoopExit.finished true pte l _ remainig_bits fs =>
    LoopExit.finished true (permStrip pte) l 0 remainig_bits fs
  | LoopExit.finished false _ _ _ _ fs => LoopExit.finished false 0 0 0 0 fs

/-! ### Fault delivery -/

/-- The CPU state `raise_mem_exception` touches: `cs->exception_index` (`none`
for a value that is none of the exception numbers of the two units),
`env->causecode`, `env->param`, `env->efa`, `env->eret`, `env->erbta`, and the
registers `env->pc` and `env->bta` it copies from. -/
structure CpuExc where
  exception_index : Option Excp
  causecode : Nat
  param : Nat
  efa : Nat
  eret : Nat
  erbta : Nat
  pc : Nat
  bta : Nat
  deriving DecidableEq, Repr

/-- `raise_mem_exception(cs, addr, host_pc, excp)` of mmu.c up to the call of
`cpu_loop_exit`; `restore` is the effect of `cpu_restore_state(cs, host_pc, true)`
of the translator core on this part of the CPU state. -/
def raise_mem_exception (d : Decls) (restore : CpuExc → CpuExc) (cpu : CpuExc) (addr : Nat)
    (excp : mem_exception) : CpuExc :=
  let cpu := if excp.number ≠ Excp.EXCP_TLB_MISS_I then restore cpu else cpu
  let cpu := { cpu with efa := addr % 2 ^ d.TARGET_LONG_BITS }
  let cpu := { cpu with eret := cpu.pc }
  let cpu := { cpu with erbta := cpu.bta }
  { cpu with
    exception_index := some excp.number, causecode := excp.causecode,
    param := excp.parameter }

/-- `raise_mem_exception(cs, addr, host_pc, excp)` of mmu-v6.c up to the call of
`cpu_loop_exit`. -/
def raise_mem_exception_v6 (d : Decls) (restore : CpuExc → CpuExc) (cpu : CpuExc) (addr : Nat)
    (excp : mem_exception) : CpuExc :=
  let cpu := if excp.number ≠ Excp.EXCP_IMMU_FAULT then restore cpu else cpu
  let cpu := { cpu with efa := addr % 2 ^ d.TARGET_LONG_BITS }
  let cpu := { cpu with eret := cpu.pc }
  let cpu := { cpu with erbta := cpu.bta }
  { cpu with
    exception_index := some excp.number, causecode := excp.causecode,
    param := excp.parameter }

/-- The CPU state a call of `arc_get_physical_addr_v3` for `addr` leaves when it
ends as `g`: a `return` writes none of it, the other exit is the call of
`raise_mem_exception`. -/
def cpuAfterV3 (d : Decls) (restore : CpuExc → CpuExc) (cpu : CpuExc) (addr : Nat) :
    GetPhys → CpuExc
  | GetPhys.returned _ _ => cpu
  | GetPhys.raised _ excp => raise_mem_exception d restore cpu addr excp

/-- The CPU state a call of `arc_get_physical_addr_v6` for `addr` leaves when it
ends as `g`. -/
def cpuAfterV6 (d : Decls) (restore : CpuExc → CpuExc) (cpu : CpuExc) (addr : Nat) :
    GetPhys → CpuExc
  | GetPhys.returned _ _ => cpu
  | GetPhys.raised _ excp => raise_mem_exception_v6 d restore cpu addr excp

/-- A CPU state with no exception pending, `pc = 0x100` and `bta = 0x200`. -/
def cpuIdle : CpuExc where
  exception_index := none
  causecode := 0
  param := 0
  efa := 0
  eret := 0
  erbta := 0
  pc := 0x100
  bta := 0x200

/-! # Theorems -/

/-! ## Dispatcher -/

theorem fillTable_eq (t : Bool → Bool → Bool → Bool → ACTION) (a b c d : Bool) :
    fillTable t a b c d = dispatcherRule a b c d := by
  cases a <;> cases b <;> cases c <;> cases d <;> rfl

theorem staticsAfter_cases (calls : List DispatchReq) :
    staticsAfter calls = DecideStatics.zero ∨
      ((staticsAfter calls).is_initialized = true ∧
        ∀ a b c d, (staticsAfter calls).table a b c d = dispatcherRule a b c d) := by
  induction calls using List.reverseRecOn with
  | nil => left; rfl
  | append_singleton cs r ih =>
    right
    have hstep : staticsAfter (cs ++ [r]) =
        (decide_action (staticsAfter cs) r.mmu_enabled r.mpu_enabled r.addr r.mmu_idx).2 := by
      simp [staticsAfter, List.foldl_append]
    rw [hstep]
    rcases ih with h0 | ⟨hi, ht⟩
    · rw [h0]
      refine ⟨rfl, ?_⟩
      intro a b c d
      exact fillTable_eq _ a b c d
    · simp only [decide_action, hi]
      exact ⟨hi, ht⟩

/-- C1: `decide_action` returns exactly the rule-table action for every
combination of (MMU enabled, protection unit enabled, address below 0x80000000,
`mmu_idx == 1`), on the first call (zeroed statics) and after any sequence of
earlier calls alike; the result is a function of those four inputs only. -/
theorem decide_action_rule_table (calls : List DispatchReq) (mmu_enabled mpu_enabled : Bool)
    (addr : Nat) (mmu_idx : Int) :
    (decide_action (staticsAfter calls) mmu_enabled mpu_enabled addr mmu_idx).1 =
        dispatcherRule mmu_enabled mpu_enabled (decide (addr < 0x80000000)) (decide (mmu_idx = 1))
      ∧ dispatcherRule false false (decide (addr < 0x80000000)) (decide (mmu_idx = 1))
          = ACTION.DIRECT_ACTION
      ∧ dispatcherRule false true (decide (addr < 0x80000000)) (decide (mmu_idx = 1))
          = ACTION.MPU_ACTION
      ∧ dispatcherRule true false true (decide (mmu_idx = 1)) = ACTION.MMU_ACTION
      ∧ dispatcherRule true false false false = ACTION.DIRECT_ACTION
      ∧ dispatcherRule true false false true = ACTION.EXCEPTION_ACTION
      ∧ dispatcherRule true true true (decide (mmu_idx = 1)) = ACTION.MMU_ACTION
      ∧ dispatcherRule true true false (decide (mmu_idx = 1)) = ACTION.MPU_ACTION := by
  refine ⟨?_, ?_, ?_, ?_, ?_, ?_, ?_, ?_⟩
  · have hrange : (decide (addr ≥ MMU_VA_START) && decide (addr < MMU_VA_END))
        = decide (addr < 0x80000000) := by
      simp [MMU_VA_START, MMU_VA_END]
    rcases staticsAfter_cases calls with h0 | ⟨hi, ht⟩
    · rw [h0]
      simp only [decide_action, DecideStatics.zero, Bool.not_false, if_true]
      rw [hrange]
      exact fillTable_eq _ _ _ _ _
    · simp only [decide_action, hi, Bool.not_true]
      rw [hrange]
      exact ht _ _ _ _
  · rfl
  · rfl
  · rfl
  · rfl
  · rfl
  · rfl
  · rfl

/-! ## Radix page-table MMU -/

theorem vaddr32_split (idx0 idx1 idx2 offset : Nat)
    (h1 : idx1 < 512) (h2 : idx2 < 512) (ho : offset < 4096) :
    (idx0 <<< 30) ||| (idx1 <<< 21) ||| (idx2 <<< 12) ||| offset
      = 2 ^ 30 * idx0 + 2 ^ 21 * idx1 + 2 ^ 12 * idx2 + offset := by
  have e3 : (idx2 <<< 12) ||| offset = 2 ^ 12 * idx2 + offset := by
    rw [Nat.shiftLeft_eq, Nat.mul_comm]
    exact (Nat.mul_add_lt_is_or (by simpa using ho) idx2).symm
  have e2 : (idx1 <<< 21) ||| (2 ^ 12 * idx2 + offset)
      = 2 ^ 21 * idx1 + (2 ^ 12 * idx2 + offset) := by
    rw [Nat.shiftLeft_eq, Nat.mul_comm]
    exact (Nat.mul_add_lt_is_or (by omega) idx1).symm
  have e1 : (idx0 <<< 30) ||| (2 ^ 21 * idx1 + (2 ^ 12 * idx2 + offset))
      = 2 ^ 30 * idx0 + (2 ^ 21 * idx1 + (2 ^ 12 * idx2 + offset)) := by
    rw [Nat.shiftLeft_eq, Nat.mul_comm]
    exact (Nat.mul_add_lt_is_or (by omega) idx0).symm
  rw [Nat.or_assoc, Nat.or_assoc, e3, e2, e1]
  omega

/-- A mask below `2^k` only sees the low `k` bits of its operand. -/
theorem and_mod_of_lt (x m k : Nat) (hm : m < 2 ^ k) : x &&& m = (x % 2 ^ k) &&& m := by
  apply Nat.eq_of_testBit_eq
  intro i
  simp only [Nat.testBit_and, Nat.testBit_mod_two_pow]
  by_cases hi : i < k
  · simp [hi]
  · have hmi : m.testBit i = false := by
      apply Nat.testBit_lt_two_pow
      exact Nat.lt_of_lt_of_le hm (Nat.pow_le_pow_right (by decide) (Nat.le_of_not_lt hi))
    simp [hmi]

theorem low2_of_and3 (e : Nat) (h : e &&& 3 = 3) : e % 4 = 3 := by
  have := Nat.and_pow_two_sub_one_eq_mod e 2
  simp at this
  omega

theorem tbl_not_invalid (s : V6State) (e l : Nat)
    (hver : s.mmu_v6_version = mmuv6_info mmuv6_version_enum.MMUV6_32_4K)
    (h : e &&& 3 = 3) : pte_is_invalid s e l = false := by
  have h4 := low2_of_and3 e h
  have h1 : (e % 256) % 2 = 1 := by omega
  have h2 : (e % 256) &&& 2 = 2 := by
    rw [and_mod_of_lt (e % 256) 2 2 (by decide)]
    have : e % 256 % 2 ^ 2 = 3 := by omega
    rw [this]
    rfl
  simp [pte_is_invalid, hver, mmuv6_info, h1, h2]

theorem loadEntry_eq (d : Decls) (s : V6State) (vaddr l root rem rem' bits idx e : Nat)
    (hbits : N_BITS_ON_LEVEL s l = bits) (hb30 : bits ≤ 30)
    (hrem : (rem + 256 - bits) % 256 = rem') (hremT : rem' < d.TARGET_LONG_BITS)
    (hidx : ((vaddr >>> rem') &&& (2 ^ bits - 1)) % 2 ^ 32 = idx)
    (hidxlt : (root + (8 * idx) % 2 ^ 32) % 2 ^ 64 = root + 8 * idx)
    (hm : s.mem (root + 8 * idx) = e) (he : e < 2 ^ 64) :
    loadEntry d s vaddr l root rem = .ok (rem', e) := by
  have hmod : e % 2 ^ 64 = e := Nat.mod_eq_of_lt he
  simp only [loadEntry, hbits, hrem, shrU, hremT, if_true, intOnes, hb30, bind, Except.bind,
    hidx, hidxlt, hm, hmod, pure, Except.pure]

theorem walk32_table_step (d : Decls) (s : V6State) (rwe : mmu_access_type)
    (vaddr n l root rem rem' perms pte0 fs e : Nat)
    (hver : s.mmu_v6_version = mmuv6_info mmuv6_version_enum.MMUV6_32_4K)
    (hl : l < 2)
    (hload : loadEntry d s vaddr l root rem = .ok (rem', e))
    (ht : e &&& 3 = 3) (ha : PTE_TBL_ATTRIBUTES e = 0) :
    walkLoop d s vaddr rwe (n + 1) l root rem perms pte0 fs
      = walkLoop d s vaddr rwe n (l + 1) (e &&& 0x0000fffffffff000) rem' perms e fs := by
  have hinv := tbl_not_invalid s e l hver ht
  have hNL : NLEVELS s = 3 := by simp [NLEVELS, hver, mmuv6_info]
  have hblk : PTE_IS_BLOCK_DESCRIPTOR s e l = false := by
    simp [PTE_IS_BLOCK_DESCRIPTOR, ht]
  have hpage : PTE_IS_PAGE_DESCRIPTOR s e l = false := by
    simp [PTE_IS_PAGE_DESCRIPTOR, hNL]
    intro _
    omega
  have hacc : accumulate_overrides s e l perms = perms := by
    simp [accumulate_overrides, PTE_TBL_KERNEL_EXECUTE_NEVER_NEXT,
      PTE_TBL_USER_EXECUTE_NEVER_NEXT, PTE_TBL_AP_NO_USER_MODE, PTE_TBL_AP_NO_WRITES,
      PTE_TBL_AP_NO_USER_READS_OR_WRITES, PTE_TBL_ACCESS_PERMITIONS_NEXT, ha]
  have hnext : pte_tbl_next_level_table_address s l e = e &&& 0x0000fffffffff000 := by
    simp [pte_tbl_next_level_table_address, hver, mmuv6_info]
  have hhead : walkHead d s rwe e l fs = WalkHead.cont fs := by
    simp [walkHead, hinv, hblk, hpage]
  rw [walkLoop]
  simp only [hload, bind, Except.bind, hhead, hinv, hacc, hnext, pure, Except.pure]
  rfl

theorem walk32_page_step (d : Decls) (s : V6State) (rwe : mmu_access_type)
    (vaddr n root rem rem' perms pte0 fs e : Nat)
    (hver : s.mmu_v6_version = mmuv6_info mmuv6_version_enum.MMUV6_32_4K)
    (hload : loadEntry d s vaddr 2 root rem = .ok (rem', e))
    (ht : e &&& 3 = 3) (haf : PTE_BLK_AF e = true) :
    walkLoop d s vaddr rwe (n + 1) 2 root rem perms pte0 fs
      = .ok (LoopExit.finished true e 2 perms rem' fs) := by
  have hinv := tbl_not_invalid s e 2 hver ht
  have hNL : NLEVELS s = 3 := by simp [NLEVELS, hver, mmuv6_info]
  have hpage : PTE_IS_PAGE_DESCRIPTOR s e 2 = true := by
    simp [PTE_IS_PAGE_DESCRIPTOR, hNL, ht]
  have hhead : walkHead d s rwe e 2 fs = WalkHead.brk fs := by
    simp [walkHead, hinv, hpage, haf]
  rw [walkLoop]
  simp only [hload, bind, Except.bind, hhead, pure, Except.pure]

theorem root32_lt (s : V6State) (vaddr B0 : Nat)
    (hver : s.mmu_v6_version = mmuv6_info mmuv6_version_enum.MMUV6_32_4K)
    (hroot : root_ptr_for_vaddr s vaddr = .ok (B0, true)) : B0 < 2 ^ 32 := by
  have hmask : ∀ n r, MMU_RTPN_ROOT_ADDRESS s n = .ok r → r < 2 ^ 32 := by
    intro n r h
    unfold MMU_RTPN_ROOT_ADDRESS MASK_FOR_ROOT_ADDRESS at h
    split at h
    · simp only [bind, Except.bind, pure, Except.pure, VADDR_SIZE, hver, mmuv6_info] at h
      injection h with h
      subst h
      have h1 : ∀ a c : Nat, a &&& ((2 ^ 32 - 1) &&& c) ≤ 2 ^ 32 - 1 := by
        intro a c
        exact Nat.le_trans Nat.and_le_right Nat.and_le_left
      have := h1 (root_address s (if n = 0 then s.mmu_rtp0 else s.mmu_rtp1))
        (not64 (2 ^ (x_for_ttbc s n).toNat - 1))
      omega
    · simp [bind, Except.bind] at h
  unfold root_ptr_for_vaddr at hroot
  simp only [bind, Except.bind, pure, Except.pure, hver, mmuv6_info] at hroot
  split at hroot
  · cases hroot
  · split at hroot
    · cases hroot
    · split at hroot
      · split at hroot
        · cases hroot
        · rename_i r hr
          injection hroot with h
          injection h with h1 _
          subst h1
          exact hmask 0 _ hr
      · split at hroot
        · cases hroot
        · split at hroot
          · cases hroot
          · split at hroot
            · split at hroot
              · cases hroot
              · rename_i r hr
                injection hroot with h
                injection h with h1 _
                subst h1
                exact hmask 1 _ hr
            · injection hroot with h
              injection h with _ h2
              cases h2

theorem walk32_three_levels (d : Decls) (s : V6State) (rwe : mmu_access_type)
    (idx0 idx1 idx2 offset B0 B1 B2 F e0 e1 e2 pte0 : Nat) (excp0 : mem_exception)
    (hver : s.mmu_v6_version = mmuv6_info mmuv6_version_enum.MMUV6_32_4K)
    (hT : 32 ≤ d.TARGET_LONG_BITS)
    (hk : s.Uf = false)
    (h0 : idx0 < 4) (h1 : idx1 < 512) (h2 : idx2 < 512) (ho : offset < 4096)
    (hroot : root_ptr_for_vaddr s ((idx0 <<< 30) ||| (idx1 <<< 21) ||| (idx2 <<< 12) ||| offset)
      = .ok (B0, true))
    (hm0 : s.mem (B0 + 8 * idx0) = e0) (he0 : e0 < 2 ^ 64)
    (ht0 : e0 &&& 3 = 3) (hB1 : e0 &&& 0x0000fffffffff000 = B1) (ha0 : PTE_TBL_ATTRIBUTES e0 = 0)
    (hm1 : s.mem (B1 + 8 * idx1) = e1) (he1 : e1 < 2 ^ 64)
    (ht1 : e1 &&& 3 = 3) (hB2 : e1 &&& 0x0000fffffffff000 = B2) (ha1 : PTE_TBL_ATTRIBUTES e1 = 0)
    (hm2 : s.mem (B2 + 8 * idx2) = e2) (he2 : e2 < 2 ^ 64)
    (ht2 : e2 &&& 3 = 3) (hF : e2 &&& 0xfffff000 = F)
    (haf : PTE_BLK_AF e2 = true) (hro : PTE_BLK_IS_READ_ONLY e2 = false)
    (hkxn : PTE_BLK_KERNEL_EXECUTE_NEVER e2 = false) :
    page_table_traverse d s ((idx0 <<< 30) ||| (idx1 <<< 21) ||| (idx2 <<< 12) ||| offset)
        rwe true excp0 pte0
      = .ok { ret := F ||| offset,
              prot := some (d.PAGE_READ ||| d.PAGE_WRITE ||| d.PAGE_EXEC),
              excp := excp0, mmu_fault_status := s.mmu_fault_status } := by
  have hv := vaddr32_split idx0 idx1 idx2 offset h1 h2 ho
  generalize hvd : (idx0 <<< 30) ||| (idx1 <<< 21) ||| (idx2 <<< 12) ||| offset = v at *
  have hB0 := root32_lt s v B0 hver hroot
  have hB1lt : B1 < 2 ^ 48 := by
    rw [← hB1]
    exact Nat.lt_of_le_of_lt Nat.and_le_right (by decide)
  have hB2lt : B2 < 2 ^ 48 := by
    rw [← hB2]
    exact Nat.lt_of_le_of_lt Nat.and_le_right (by decide)
  have hNL : NLEVELS s = 3 := by simp [NLEVELS, hver, mmuv6_info]
  have hVS : VADDR_SIZE s = 32 := by simp [VADDR_SIZE, hver, mmuv6_info]
  have hn0 : N_BITS_ON_LEVEL s 0 = 2 := by simp [N_BITS_ON_LEVEL, hver, mmuv6_info]
  have hn1 : N_BITS_ON_LEVEL s 1 = 9 := by simp [N_BITS_ON_LEVEL, hver, mmuv6_info]
  have hn2 : N_BITS_ON_LEVEL s 2 = 9 := by simp [N_BITS_ON_LEVEL, hver, mmuv6_info]
  have hi0 : ((v >>> 30) &&& (2 ^ 2 - 1)) % 2 ^ 32 = idx0 := by
    rw [Nat.and_pow_two_sub_one_eq_mod, Nat.shiftRight_eq_div_pow]
    omega
  have hi1 : ((v >>> 21) &&& (2 ^ 9 - 1)) % 2 ^ 32 = idx1 := by
    rw [Nat.and_pow_two_sub_one_eq_mod, Nat.shiftRight_eq_div_pow]
    omega
  have hi2 : ((v >>> 12) &&& (2 ^ 9 - 1)) % 2 ^ 32 = idx2 := by
    rw [Nat.and_pow_two_sub_one_eq_mod, Nat.shiftRight_eq_div_pow]
    omega
  have hl0 := loadEntry_eq d s v 0 B0 32 30 2 idx0 e0 hn0 (by decide) (by decide) (by omega)
    hi0 (by omega) hm0 he0
  have hl1 := loadEntry_eq d s v 1 B1 30 21 9 idx1 e1 hn1 (by decide) (by decide) (by omega)
    hi1 (by omega) hm1 he1
  have hl2 := loadEntry_eq d s v 2 B2 21 12 9 idx2 e2 hn2 (by decide) (by decide) (by omega)
    hi2 (by omega) hm2 he2
  have hs0 := walk32_table_step d s rwe v 2 0 B0 32 30 0 pte0 s.mmu_fault_status e0 hver
    (by decide) hl0 ht0 ha0
  have hs1 := walk32_table_step d s rwe v 1 1 B1 30 21 0 e0 s.mmu_fault_status e1 hver
    (by decide) hl1 ht1 ha1
  have hs2 := walk32_page_step d s rwe v 0 B2 21 12 0 e1 s.mmu_fault_status e2 hver hl2 ht2 haf
  rw [hB1] at hs0
  rw [hB2] at hs1
  have hloop : walkLoop d s v rwe 3 0 B0 32 0 pte0 s.mmu_fault_status
      = .ok (LoopExit.finished true e2 2 0 12 s.mmu_fault_status) := by
    rw [hs0, hs1, hs2]
  have hpv : protv_violation s e2 2 0 rwe = false := by
    have hpage : PTE_IS_PAGE_DESCRIPTOR s e2 2 = true := by
      simp [PTE_IS_PAGE_DESCRIPTOR, hNL, ht2]
    simp [protv_violation, hro, hpage, hk, hkxn]
  have hprot : get_prot_for_pte d s e2 0 = d.PAGE_READ ||| d.PAGE_WRITE ||| d.PAGE_EXEC := by
    simp [get_prot_for_pte, hk, hkxn, hro]
  have hmask : (2 ^ 32 - 1) &&& not64 (2 ^ 12 - 1) = 0xfffff000 := by decide
  have hoff : v &&& (2 ^ 12 - 1) = offset := by
    rw [Nat.and_pow_two_sub_one_eq_mod]
    omega
  have hFlt : F ||| offset < 2 ^ 32 := by
    apply Nat.or_lt_two_pow
    · rw [← hF]
      exact Nat.lt_of_le_of_lt Nat.and_le_right (by decide)
    · omega
  have hpa : V6_PADDR s 12 e2 v = .ok (F ||| offset) := by
    simp only [V6_PADDR, hVS, hmask, hoff, hF]
    rfl
  have hFT : F ||| offset < 2 ^ d.TARGET_LONG_BITS :=
    Nat.lt_of_lt_of_le hFlt (Nat.pow_le_pow_right (by decide) hT)
  simp only [page_table_traverse, hroot, bind, Except.bind, hVS, hNL, pure, Except.pure]
  simp only [show (32 : Nat) % 256 = 32 from rfl, hloop, hpv, hpa, hprot,
    Nat.mod_eq_of_lt hFT]
  simp

/-- C3: in the 32_4K profile (index widths 2/9/9) and kernel mode, when root 0
selects table base `B0`, the level-0 and level-1 entries on the path are table
descriptors (to `B1`, `B2`) without override bits and the level-2 entry is a
page descriptor with frame `F`, access flag set, not read-only and without
execute-never bits, then a read, write or fetch of
`(idx0 << 30) | (idx1 << 21) | (idx2 << 12) | offset` walks to `F | offset` with
permission mask read|write|execute, and `arc_get_physical_addr_v6` returns true
with that address. -/
theorem radix_three_level_walk (d : Decls) (env : V6Env) (rwe : mmu_access_type)
    (idx0 idx1 idx2 offset B0 B1 B2 F e0 e1 e2 pte0 : Nat) (excp0 junk : mem_exception)
    (probe : Bool)
    (hver : env.st.mmu_v6_version = mmuv6_info mmuv6_version_enum.MMUV6_32_4K)
    (hT : 32 ≤ d.TARGET_LONG_BITS)
    (hen : MMU_ENABLED env.st = true)
    (hk : env.st.Uf = false)
    (_hrwe : rwe = mmu_access_type.MMU_MEM_READ ∨ rwe = mmu_access_type.MMU_MEM_WRITE ∨
      rwe = mmu_access_type.MMU_MEM_FETCH)
    (h0 : idx0 < 4) (h1 : idx1 < 512) (h2 : idx2 < 512) (ho : offset < 4096)
    (hroot : root_ptr_for_vaddr env.st
      ((idx0 <<< 30) ||| (idx1 <<< 21) ||| (idx2 <<< 12) ||| offset) = .ok (B0, true))
    (hm0 : env.st.mem (B0 + 8 * idx0) = e0) (he0 : e0 < 2 ^ 64)
    (ht0 : e0 &&& 3 = 3) (hB1 : e0 &&& 0x0000fffffffff000 = B1) (ha0 : PTE_TBL_ATTRIBUTES e0 = 0)
    (hm1 : env.st.mem (B1 + 8 * idx1) = e1) (he1 : e1 < 2 ^ 64)
    (ht1 : e1 &&& 3 = 3) (hB2 : e1 &&& 0x0000fffffffff000 = B2) (ha1 : PTE_TBL_ATTRIBUTES e1 = 0)
    (hm2 : env.st.mem (B2 + 8 * idx2) = e2) (he2 : e2 < 2 ^ 64)
    (ht2 : e2 &&& 3 = 3) (hF : e2 &&& 0xfffff000 = F)
    (haf : PTE_BLK_AF e2 = true) (hro : PTE_BLK_IS_READ_ONLY e2 = false)
    (hkxn : PTE_BLK_KERNEL_EXECUTE_NEVER e2 = false)
    (_huxn : PTE_BLK_USER_EXECUTE_NEVER e2 = false) :
    page_table_traverse d env.st ((idx0 <<< 30) ||| (idx1 <<< 21) ||| (idx2 <<< 12) ||| offset)
        rwe true excp0 pte0
      = .ok { ret := F ||| offset,
              prot := some (d.PAGE_READ ||| d.PAGE_WRITE ||| d.PAGE_EXEC),
              excp := excp0, mmu_fault_status := env.st.mmu_fault_status }
    ∧ ∃ env', arc_get_physical_addr_v6 d env
          ((idx0 <<< 30) ||| (idx1 <<< 21) ||| (idx2 <<< 12) ||| offset) rwe probe junk pte0
        = .ok (GetPhys.returned true (some (F ||| offset)), env') := by
  refine ⟨walk32_three_levels d env.st rwe idx0 idx1 idx2 offset B0 B1 B2 F e0 e1 e2 pte0 excp0
    hver hT hk h0 h1 h2 ho hroot hm0 he0 ht0 hB1 ha0 hm1 he1 ht1 hB2 ha1 hm2 he2 ht2 hF haf hro
    hkxn, ?_⟩
  have hv := vaddr32_split idx0 idx1 idx2 offset h1 h2 ho
  have hvT : ((idx0 <<< 30) ||| (idx1 <<< 21) ||| (idx2 <<< 12) ||| offset)
      % 2 ^ d.TARGET_LONG_BITS
      = (idx0 <<< 30) ||| (idx1 <<< 21) ||| (idx2 <<< 12) ||| offset := by
    apply Nat.mod_eq_of_lt
    have : 2 ^ 32 ≤ 2 ^ d.TARGET_LONG_BITS := Nat.pow_le_pow_right (by decide) hT
    omega
  have hw := walk32_three_levels d env.st rwe
    idx0 idx1 idx2 offset B0 B1 B2 F e0 e1 e2 pte0
    { junk with number := Excp.EXCP_NO_EXCEPTION } hver hT
    hk h0 h1 h2 ho hroot hm0 he0 ht0 hB1 ha0 hm1 he1 ht1 hB2 ha1 hm2 he2 ht2 hF haf hro hkxn
  simp only [arc_get_physical_addr_v6, mmuv6_decide_action, hen, if_true, arc_mmuv6_translate,
    hvT, hw, bind, Except.bind, pure, Except.pure]
  simp

/-- Witness for C3: the specification scenario (tables at 0x1000, 0x2000, 0x3000,
frame 0x90000, offset 0x123) with `idx1 = 1`, `idx2 = 2`, for a read. -/
theorem radix_three_level_walk_witness :
    page_table_traverse arcDecls v6Scenario ((0 <<< 30) ||| (1 <<< 21) ||| (2 <<< 12) ||| 0x123)
        mmu_access_type.MMU_MEM_READ true ⟨Excp.EXCP_NO_EXCEPTION, 0, 0⟩ 0
      = .ok { ret := 0x90000 ||| 0x123,
              prot := some (arcDecls.PAGE_READ ||| arcDecls.PAGE_WRITE ||| arcDecls.PAGE_EXEC),
              excp := ⟨Excp.EXCP_NO_EXCEPTION, 0, 0⟩,
              mmu_fault_status := v6Scenario.mmu_fault_status }
    ∧ ∃ env', arc_get_physical_addr_v6 arcDecls ⟨v6Scenario, Excp.EXCP_NO_EXCEPTION⟩
          ((0 <<< 30) ||| (1 <<< 21) ||| (2 <<< 12) ||| 0x123) mmu_access_type.MMU_MEM_READ
          false ⟨Excp.EXCP_NO_EXCEPTION, 0, 0⟩ 0
        = .ok (GetPhys.returned true (some (0x90000 ||| 0x123)), env') :=
  radix_three_level_walk arcDecls ⟨v6Scenario, Excp.EXCP_NO_EXCEPTION⟩
    mmu_access_type.MMU_MEM_READ 0 1 2 0x123 0x1000 0x2000 0x3000 0x90000 0x2003 0x3003 0x90403 0
    ⟨Excp.EXCP_NO_EXCEPTION, 0, 0⟩ ⟨Excp.EXCP_NO_EXCEPTION, 0, 0⟩ false
    rfl (by decide) (by decide) rfl (Or.inl rfl) (by decide) (by decide) (by decide) (by decide)
    rfl (by decide) (by decide) (by decide) (by decide) (by decide)
    (by decide) (by decide) (by decide) (by decide) (by decide)
    (by decide) (by decide) (by decide) (by decide) (by decide) (by decide) (by decide)
    (by decide)

/-- For a read, write, fetch or irrelevant access, a loop iteration that loads a
block or page descriptor whose access flag is clear leaves `page_table_traverse`
by `return -1` with an instruction- or data-MMU fault descriptor. -/
theorem walkLoop_af_clear_faults (d : Decls) (s : V6State) (vaddr : Nat) (rwe : mmu_access_type)
    (n l root rem rem' perms pte0 fs e : Nat)
    (hload : loadEntry d s vaddr l root rem = .ok (rem', e))
    (hdesc : PTE_IS_BLOCK_DESCRIPTOR s e l = true ∨ PTE_IS_PAGE_DESCRIPTOR s e l = true)
    (haf : PTE_BLK_AF e = false)
    (hrwe : rwe ≠ mmu_access_type.MMU_MEM_ATTOMIC) :
    ∃ x, walkLoop d s vaddr rwe (n + 1) l root rem perms pte0 fs
        = .ok (LoopExit.returned x (l &&& 0x7))
      ∧ (x.number = Excp.EXCP_IMMU_FAULT ∨ x.number = Excp.EXCP_DMMU_FAULT) := by
  have hor : (PTE_IS_BLOCK_DESCRIPTOR s e l || PTE_IS_PAGE_DESCRIPTOR s e l) = true := by
    rcases hdesc with h | h <;> simp [h]
  rw [walkLoop]
  simp only [hload, bind, Except.bind, pure, Except.pure, walkHead, hor, haf]
  cases hinv : pte_is_invalid s e l <;> cases rwe <;>
    first
    | exact absurd rfl hrwe
    | simp [mmuFault]

/-- C8 (failing input): in kernel mode, for the page descriptor 0x90403 (access
flag set, not read-only) at the last level of the 32_4K profile and the override
mask `RESTRICT_TBL_NO_WRITE_ACCESS`, `protv_violation` reports no violation for a
write although the capability mask of `get_prot_for_pte` has no write bit; a
write through a level-0 table descriptor with access-permission field 2
therefore translates successfully with permission mask read|execute. -/
theorem protv_violation_misses_no_write :
    protv_violation v6Scenario 0x90403 2 RESTRICT_TBL_NO_WRITE_ACCESS
        mmu_access_type.MMU_MEM_WRITE = false
    ∧ get_prot_for_pte arcDecls v6Scenario 0x90403 RESTRICT_TBL_NO_WRITE_ACCESS
        &&& arcDecls.PAGE_WRITE = 0
    ∧ page_table_traverse arcDecls v6NoWrite 0x202123 mmu_access_type.MMU_MEM_WRITE true
          ⟨Excp.EXCP_NO_EXCEPTION, 0, 0⟩ 0
        = .ok { ret := 0x90123, prot := some (arcDecls.PAGE_READ ||| arcDecls.PAGE_EXEC),
                excp := ⟨Excp.EXCP_NO_EXCEPTION, 0, 0⟩, mmu_fault_status := 0 } :=
  ⟨by decide, by decide, rfl⟩

/-- C7 (failing input): with the page descriptor's access flag clear, an atomic
access (`MMU_MEM_ATTOMIC`) falls through both fault branches of the walk; the
walk returns -1 without writing a fault descriptor, and
`arc_get_physical_addr_v6` returns true with `*paddr = 0xffffffff`, for a live
request and for a probe alike. -/
theorem radix_af_clear_atomic_no_fault :
    PTE_IS_PAGE_DESCRIPTOR v6NoAF 0x90003 2 = true
    ∧ PTE_BLK_AF 0x90003 = false
    ∧ page_table_traverse arcDecls v6NoAF 0x202123 mmu_access_type.MMU_MEM_ATTOMIC true
          ⟨Excp.EXCP_NO_EXCEPTION, 0, 0⟩ 0
        = .ok { ret := 0xffffffff, prot := none, excp := ⟨Excp.EXCP_NO_EXCEPTION, 0, 0⟩,
                mmu_fault_status := 2 }
    ∧ (∀ probe, (arc_get_physical_addr_v6 arcDecls ⟨v6NoAF, Excp.EXCP_NO_EXCEPTION⟩ 0x202123
          mmu_access_type.MMU_MEM_ATTOMIC probe ⟨Excp.EXCP_NO_EXCEPTION, 0, 0⟩ 0).toOption.map
            (fun r => r.1) = some (GetPhys.returned true (some 0xffffffff))) := by
  refine ⟨by decide, by decide, rfl, ?_⟩
  intro probe
  cases probe <;> rfl

/-! ## Set-associative MMU -/

theorem lookup_mmu_fields (d : Decls) (sz vaddr mask : Nat) (mmu : arc_mmu) :
    (arc_mmu_lookup_tlb d sz vaddr mask mmu).mmu.nTLB = mmu.nTLB
    ∧ (arc_mmu_lookup_tlb d sz vaddr mask mmu).mmu.sasid0 = mmu.sasid0
    ∧ (arc_mmu_lookup_tlb d sz vaddr mask mmu).mmu.sasid1 = mmu.sasid1
    ∧ (arc_mmu_lookup_tlb d sz vaddr mask mmu).mmu.pid_asid = mmu.pid_asid
    ∧ (arc_mmu_lookup_tlb d sz vaddr mask mmu).mmu.enabled = mmu.enabled
    ∧ (arc_mmu_lookup_tlb d sz vaddr mask mmu).mmu.tlbpd0 = mmu.tlbpd0
    ∧ (arc_mmu_lookup_tlb d sz vaddr mask mmu).mmu.tlbpd1 = mmu.tlbpd1 := by
  unfold arc_mmu_lookup_tlb
  simp only []
  split <;> simp

theorem match_sasid_congr (d : Decls) (e : arc_tlb_e) (m1 m2 : arc_mmu)
    (h0 : m1.sasid0 = m2.sasid0) (h1 : m1.sasid1 = m2.sasid1) :
    match_sasid d e m1 = match_sasid d e m2 := by
  simp [match_sasid, h0, h1]

theorem have_permission_iff (d : Decls) (env : V3Env) (e : arc_tlb_e) (k : mmu_access_type)
    (hk : k = mmu_access_type.MMU_MEM_READ ∨ k = mmu_access_type.MMU_MEM_WRITE ∨
      k = mmu_access_type.MMU_MEM_FETCH) :
    arc_mmu_have_permission d env e k = true ↔ e.pd1 &&& permBit d env.Uf k ≠ 0 := by
  rcases hk with h | h | h <;> subst h <;> cases hu : env.Uf <;>
    simp [arc_mmu_have_permission, permBit, hu]

/-- Below 0x80000000 with the MMU enabled, `arc_mmu_translate` is the lookup
followed by the machine-check test and the re-check of the returned entry. -/
theorem translate_mmu_path (d : Decls) (env : V3Env) (vaddr : Nat) (rwe : mmu_access_type)
    (hv : vaddr < 0x80000000) (hen : env.mmu.enabled ≠ 0) :
    arc_mmu_translate d env vaddr rwe =
      if (translateLookup d env vaddr).num_finds > 1 then
        .ok { ret := false, paddr := none, index := some (translateLookup d env vaddr).index,
              excp := { number := Excp.EXCP_MACHINE_CHECK, causecode := 0x01,
                        parameter := 0x00 },
              env := { env with mmu := (translateLookup d env vaddr).mmu } }
      else
        translateFinish d { env with mmu := (translateLookup d env vaddr).mmu } vaddr rwe
          (translateLookup d env vaddr).index (hitEntry d env vaddr)
          (translateMatch d env.mmu_v3_page_size (translateLookup d env vaddr).mmu vaddr
            (translateLookup d env vaddr).num_finds (hitEntry d env vaddr)) := by
  have hmod : vaddr % 2 ^ 32 = vaddr := Nat.mod_eq_of_lt (by omega)
  have hlt : ¬ vaddr ≥ 0x80000000 := by omega
  unfold arc_mmu_translate
  simp only [hmod, hlt, hen, and_false, false_or, if_false, translateLookup, hitEntry]

theorem translateFinish_success (d : Decls) (env : V3Env) (vaddr : Nat) (rwe : mmu_access_type)
    (index : Nat) (tlb : arc_tlb_e) (mtch : Bool) (out : TranslateOut)
    (h : translateFinish d env vaddr rwe index tlb mtch = .ok out) (hret : out.ret = true) :
    mtch = true ∧ arc_mmu_have_permission d env tlb rwe = true
      ∧ out.paddr = some ((tlb.pd1 &&& d.MMU_V3_PAGE_MASK env.mmu_v3_page_size)
          ||| (vaddr &&& not32 (d.MMU_V3_PAGE_MASK env.mmu_v3_page_size))) := by
  unfold translateFinish at h
  simp only [] at h
  split at h
  · injection h with h
    subst h
    cases hret
  · rename_i hnp
    split at h
    · rename_i hm
      injection h with h
      subst h
      refine ⟨hm, ?_, rfl⟩
      cases hp : arc_mmu_have_permission d env tlb rwe
      · exact absurd ⟨hm, by simp [hp]⟩ hnp
      · rfl
    · split at h
      · split at h
        · cases h
        · split at h <;> (injection h with h; subst h; cases hret)
      · injection h with h
        subst h
        cases hret

theorem translateFinish_denied (d : Decls) (env : V3Env) (vaddr : Nat) (rwe : mmu_access_type)
    (index : Nat) (tlb : arc_tlb_e)
    (hp : arc_mmu_have_permission d env tlb rwe = false) :
    translateFinish d env vaddr rwe index tlb true =
      .ok { ret := false, paddr := none, index := some index,
            excp := { number := Excp.EXCP_PROTV, causecode := d.CAUSE_CODE rwe,
                      parameter := 0x08 },
            env := env } := by
  simp [translateFinish, hp]

theorem translateMatch_of_rule (d : Decls) (env : V3Env) (mmu : arc_mmu) (vaddr num : Nat)
    (e : arc_tlb_e) (hnum : num ≠ 0) (hrule : MatchRule d env vaddr e)
    (hpm : d.PD0_PID_MATCH = d.PD0_ASID)
    (h0 : mmu.sasid0 = env.mmu.sasid0) (h1 : mmu.sasid1 = env.mmu.sasid1)
    (hpid : mmu.pid_asid = env.mmu.pid_asid) :
    translateMatch d env.mmu_v3_page_size mmu vaddr num e = true := by
  obtain ⟨hV, hvpn, hen⟩ := hrule
  have hs : match_sasid d e mmu = match_sasid d e env.mmu := match_sasid_congr d e _ _ h0 h1
  unfold translateMatch
  simp only [hnum, hvpn, hV, if_false, ne_eq, not_true_eq_false, false_or, if_true]
  rcases hen with hG | ⟨hG, hS, hm⟩ | ⟨hG, hS, hA⟩
  · simp [hG]
  · simp [hG, hS, hs, hm]
  · have : e.pd0 &&& d.PD0_PID_MATCH = mmu.pid_asid &&& d.PD0_PID_MATCH := by
      rw [hpid, hpm, ← hA, Nat.and_assoc, Nat.and_self]
    simp [hG, hS, this]

/-- C10: for read, write and fetch with the MMU enabled and `vaddr` below
0x80000000, a successful `arc_mmu_translate` implies that the entry it hit has
the `pd1` bit selected by privilege and access kind (`PD1_RK/WK/XK` in kernel
mode, `PD1_RU/WU/XU` in user mode) and returns that entry's frame with the page
offset; and a hit (exactly one match, on an entry satisfying the match rule)
lacking that bit yields `(EXCP_PROTV, CAUSE_CODE(k), 0x08)`. -/
theorem legacy_permission_enforced (d : Decls) (env : V3Env) (vaddr : Nat) (k : mmu_access_type)
    (hk : k = mmu_access_type.MMU_MEM_READ ∨ k = mmu_access_type.MMU_MEM_WRITE ∨
      k = mmu_access_type.MMU_MEM_FETCH)
    (hv : vaddr < 0x80000000) (hen : env.mmu.enabled ≠ 0)
    (hpm : d.PD0_PID_MATCH = d.PD0_ASID) :
    (∀ out, arc_mmu_translate d env vaddr k = .ok out → out.ret = true →
      (hitEntry d env vaddr).pd1 &&& permBit d env.Uf k ≠ 0
        ∧ out.paddr = some (hitPaddr d env vaddr (hitEntry d env vaddr)))
    ∧ ((translateLookup d env vaddr).num_finds = 1 →
        MatchRule d env vaddr (hitEntry d env vaddr) →
        (hitEntry d env vaddr).pd1 &&& permBit d env.Uf k = 0 →
        ∃ out, arc_mmu_translate d env vaddr k = .ok out ∧ out.ret = false ∧ out.paddr = none
          ∧ out.excp = { number := Excp.EXCP_PROTV, causecode := d.CAUSE_CODE k,
                         parameter := 0x08 }) := by
  have hpath := translate_mmu_path d env vaddr k hv hen
  constructor
  · intro out h hret
    rw [hpath] at h
    split at h
    · injection h with h
      subst h
      cases hret
    · obtain ⟨_, hp, hpa⟩ := translateFinish_success d _ vaddr k _ _ _ out h hret
      refine ⟨?_, ?_⟩
      · exact (have_permission_iff d _ _ k hk).1 hp
      · rw [hpa]
        rfl
  · intro hnum hrule hbit
    obtain ⟨hn, hs0, hs1, hpid, _⟩ := lookup_mmu_fields d env.mmu_v3_page_size
      (VPN d env.mmu_v3_page_size (vaddr % 2 ^ 32) ||| d.PD0_V)
      (VPN d env.mmu_v3_page_size d.PD0_VPN ||| d.PD0_V) env.mmu
    have hm := translateMatch_of_rule d env (translateLookup d env vaddr).mmu vaddr
      (translateLookup d env vaddr).num_finds (hitEntry d env vaddr) (by omega) hrule hpm
      hs0 hs1 hpid
    have hp : arc_mmu_have_permission d { env with mmu := (translateLookup d env vaddr).mmu }
        (hitEntry d env vaddr) k = false := by
      cases hh : arc_mmu_have_permission d { env with mmu := (translateLookup d env vaddr).mmu }
        (hitEntry d env vaddr) k
      · rfl
      · exact absurd hbit ((have_permission_iff d _ _ k hk).1 hh)
    refine ⟨{ ret := false, paddr := none, index := some (translateLookup d env vaddr).index,
              excp := { number := Excp.EXCP_PROTV, causecode := d.CAUSE_CODE k,
                        parameter := 0x08 },
              env := { env with mmu := (translateLookup d env vaddr).mmu } }, ?_, rfl, rfl, rfl⟩
    rw [hpath, if_neg (by omega), hm, translateFinish_denied d _ vaddr k _ _ hp]

/-- Witness for C10: the kernel-only entry of the specification scenario, read
in user mode at 0x4000. -/
theorem legacy_permission_enforced_witness :
    (∀ out, arc_mmu_translate arcDecls (v3KernelOnly true) 0x4000
        mmu_access_type.MMU_MEM_READ = .ok out → out.ret = true →
      (hitEntry arcDecls (v3KernelOnly true) 0x4000).pd1
          &&& permBit arcDecls (v3KernelOnly true).Uf mmu_access_type.MMU_MEM_READ ≠ 0
        ∧ out.paddr = some (hitPaddr arcDecls (v3KernelOnly true) 0x4000
            (hitEntry arcDecls (v3KernelOnly true) 0x4000)))
    ∧ ((translateLookup arcDecls (v3KernelOnly true) 0x4000).num_finds = 1 →
        MatchRule arcDecls (v3KernelOnly true) 0x4000
          (hitEntry arcDecls (v3KernelOnly true) 0x4000) →
        (hitEntry arcDecls (v3KernelOnly true) 0x4000).pd1
          &&& permBit arcDecls (v3KernelOnly true).Uf mmu_access_type.MMU_MEM_READ = 0 →
        ∃ out, arc_mmu_translate arcDecls (v3KernelOnly true) 0x4000
            mmu_access_type.MMU_MEM_READ = .ok out ∧ out.ret = false ∧ out.paddr = none
          ∧ out.excp = { number := Excp.EXCP_PROTV,
                         causecode := arcDecls.CAUSE_CODE mmu_access_type.MMU_MEM_READ,
                         parameter := 0x08 }) :=
  legacy_permission_enforced arcDecls (v3KernelOnly true) 0x4000 mmu_access_type.MMU_MEM_READ
    (Or.inl rfl) (by decide) (by decide) rfl

/-! ### The lookup loop -/

theorem arcDecls_layout : LayoutOK arcDecls 13 where
  ways_pos := by decide
  v_bit := ⟨9, by decide, by decide⟩
  vpn_cover := by decide
  v_vpn := by decide
  v_s := by decide
  vpn_s := by decide
  words := by decide
  pid_eq := rfl
  v_asid := by decide
  v_g := by decide
  v_sz := by decide
  vpn_asid := by decide
  scan_mask := by decide
  set_bits := by decide
  cmd_insert := by decide
  cmd_delete := by decide
  cmd_read := by decide

theorem lookupStep_eq (d : Decls) (mmu : arc_mmu) (vaddr cm set : Nat) (acc : LookupAcc)
    (w : Nat) :
    lookupStep d mmu vaddr cm set acc w =
      if wayCompare d mmu vaddr cm set w = true
          ∧ (if wayBlocks d mmu set w = true then false else acc.general_match) = true then
        { ret := some (set, w), num_finds := acc.num_finds + 1,
          index := some ((set * d.N_WAYS + w) % 2 ^ 32),
          general_match := if wayBlocks d mmu set w = true then false else acc.general_match }
      else
        { acc with
          general_match := if wayBlocks d mmu set w = true then false else acc.general_match } := by
  unfold lookupStep wayCompare wayBlocks
  by_cases h1 : ((mmu.nTLB set w).pd0 &&& d.PD0_G) = 0 ∧ ¬ ((mmu.nTLB set w).pd0 &&& d.PD0_S) ≠ 0
  · have h2 : ¬ (((mmu.nTLB set w).pd0 &&& d.PD0_G) = 0 ∧ ((mmu.nTLB set w).pd0 &&& d.PD0_S) ≠ 0
        ∧ match_sasid d (mmu.nTLB set w) mmu = false) := by
      intro h
      exact h1.2 h.2.1
    simp only [h1, h2, if_true, if_false, decide_eq_true_eq, decide_False, decide_True,
      not_false_eq_true, and_self, Bool.false_eq_true]
  · simp only [h1, if_false, decide_eq_true_eq]


theorem lookup_fold_none (d : Decls) (mmu : arc_mmu) (v cm set n : Nat)
    (hb : ∀ w, w < n → wayBlocks d mmu set w = false)
    (hc : ∀ w, w < n → wayCompare d mmu v cm set w = false) :
    (List.range n).foldl (lookupStep d mmu v cm set)
        { ret := none, num_finds := 0, index := none, general_match := true }
      = { ret := none, num_finds := 0, index := none, general_match := true } := by
  induction n with
  | zero => rfl
  | succ n ih =>
    rw [List.range_succ, List.foldl_append, ih (fun w hw => hb w (by omega))
      (fun w hw => hc w (by omega))]
    simp [lookupStep_eq, hb n (by omega), hc n (by omega)]

theorem lookup_fold_unique (d : Decls) (mmu : arc_mmu) (v cm set n w0 : Nat) (hw0 : w0 < n)
    (hb : ∀ w, w < n → wayBlocks d mmu set w = false)
    (hc0 : wayCompare d mmu v cm set w0 = true)
    (hc : ∀ w, w < n → w ≠ w0 → wayCompare d mmu v cm set w = false) :
    (List.range n).foldl (lookupStep d mmu v cm set)
        { ret := none, num_finds := 0, index := none, general_match := true }
      = { ret := some (set, w0), num_finds := 1,
          index := some ((set * d.N_WAYS + w0) % 2 ^ 32), general_match := true } := by
  induction n with
  | zero => omega
  | succ n ih =>
    rw [List.range_succ, List.foldl_append]
    by_cases h : w0 = n
    · subst h
      rw [lookup_fold_none d mmu v cm set w0 (fun w hw => hb w (by omega))
        (fun w hw => hc w (by omega) (by omega))]
      simp [lookupStep_eq, hb w0 (by omega), hc0]
    · rw [ih (by omega) (fun w hw => hb w (by omega)) (fun w hw hne => hc w (by omega) hne)]
      simp [lookupStep_eq, hb n (by omega), hc n (by omega) (fun e => h e.symm)]

theorem lookup_none (d : Decls) (sz v cm : Nat) (mmu : arc_mmu)
    (hb : ∀ w, w < d.N_WAYS →
      wayBlocks d mmu ((v >>> d.MMU_V3_PAGE_BITS sz) &&& (d.N_SETS - 1)) w = false)
    (hc : ∀ w, w < d.N_WAYS →
      wayCompare d mmu v cm ((v >>> d.MMU_V3_PAGE_BITS sz) &&& (d.N_SETS - 1)) w = false) :
    arc_mmu_lookup_tlb d sz v cm mmu =
      { ret := ((v >>> d.MMU_V3_PAGE_BITS sz) &&& (d.N_SETS - 1),
                mmu.way_sel ((v >>> d.MMU_V3_PAGE_BITS sz) &&& (d.N_SETS - 1))),
        num_finds := 0,
        index := (((v >>> d.MMU_V3_PAGE_BITS sz) &&& (d.N_SETS - 1)) * d.N_WAYS
          + mmu.way_sel ((v >>> d.MMU_V3_PAGE_BITS sz) &&& (d.N_SETS - 1))) % 2 ^ 32,
        mmu := { mmu with
          way_sel := fun s =>
            if s = (v >>> d.MMU_V3_PAGE_BITS sz) &&& (d.N_SETS - 1) then
              (mmu.way_sel ((v >>> d.MMU_V3_PAGE_BITS sz) &&& (d.N_SETS - 1)) + 1) % 2 ^ 32
                &&& (d.N_WAYS - 1)
            else mmu.way_sel s } } := by
  unfold arc_mmu_lookup_tlb
  simp only [lookup_fold_none d mmu v cm _ d.N_WAYS hb hc]

theorem lookup_unique (d : Decls) (sz v cm w0 : Nat) (mmu : arc_mmu) (hw0 : w0 < d.N_WAYS)
    (hb : ∀ w, w < d.N_WAYS →
      wayBlocks d mmu ((v >>> d.MMU_V3_PAGE_BITS sz) &&& (d.N_SETS - 1)) w = false)
    (hc0 : wayCompare d mmu v cm ((v >>> d.MMU_V3_PAGE_BITS sz) &&& (d.N_SETS - 1)) w0 = true)
    (hc : ∀ w, w < d.N_WAYS → w ≠ w0 →
      wayCompare d mmu v cm ((v >>> d.MMU_V3_PAGE_BITS sz) &&& (d.N_SETS - 1)) w = false) :
    arc_mmu_lookup_tlb d sz v cm mmu =
      { ret := ((v >>> d.MMU_V3_PAGE_BITS sz) &&& (d.N_SETS - 1), w0),
        num_finds := 1,
        index := (((v >>> d.MMU_V3_PAGE_BITS sz) &&& (d.N_SETS - 1)) * d.N_WAYS + w0) % 2 ^ 32,
        mmu := mmu } := by
  unfold arc_mmu_lookup_tlb
  simp only [lookup_fold_unique d mmu v cm _ d.N_WAYS w0 hw0 hb hc0 hc, Option.getD_some]


theorem and_or_eq_iff (x y a b : Nat) :
    x &&& (a ||| b) = y &&& (a ||| b) ↔ x &&& a = y &&& a ∧ x &&& b = y &&& b := by
  constructor
  · intro h
    constructor
    · apply Nat.eq_of_testBit_eq
      intro i
      have hi := congrArg (fun t => Nat.testBit t i) h
      simp only [Nat.testBit_and, Nat.testBit_or] at hi ⊢
      revert hi
      cases x.testBit i <;> cases y.testBit i <;> cases a.testBit i <;> cases b.testBit i <;> simp
    · apply Nat.eq_of_testBit_eq
      intro i
      have hi := congrArg (fun t => Nat.testBit t i) h
      simp only [Nat.testBit_and, Nat.testBit_or] at hi ⊢
      revert hi
      cases x.testBit i <;> cases y.testBit i <;> cases a.testBit i <;> cases b.testBit i <;> simp
  · rintro ⟨h1, h2⟩
    rw [Nat.and_or_distrib_left, Nat.and_or_distrib_left, h1, h2]

/-- Bits of the left operand outside the mask do not matter: `(x ||| y) &&& m`
with `y &&& m = 0`. -/
theorem or_and_of_disj (x y m : Nat) (h : y &&& m = 0) : (x ||| y) &&& m = x &&& m := by
  rw [Nat.and_distrib_right, h, Nat.or_zero]

theorem and_and_of_disj (x a b : Nat) (h : a &&& b = 0) : (x &&& a) &&& b = 0 := by
  rw [Nat.and_assoc, h, Nat.and_zero]

theorem single_bit_cases (x v : Nat) (hv : ∃ k, k < 32 ∧ v = 2 ^ k) :
    x &&& v = 0 ∨ x &&& v = v := by
  obtain ⟨k, _, rfl⟩ := hv
  rw [Nat.and_two_pow]
  cases x.testBit k <;> simp

theorem single_bit_ne_zero (v : Nat) (hv : ∃ k, k < 32 ∧ v = 2 ^ k) : v ≠ 0 := by
  obtain ⟨k, _, rfl⟩ := hv
  exact Nat.pos_iff_ne_zero.1 (Nat.two_pow_pos k)

theorem single_bit_lt (v : Nat) (hv : ∃ k, k < 32 ∧ v = 2 ^ k) : v < 2 ^ 32 := by
  obtain ⟨k, hk, rfl⟩ := hv
  exact Nat.pow_lt_pow_right (by decide) hk

theorem and_not32_self (x v : Nat) (hv : v < 2 ^ 32) : (x &&& not32 v) &&& v = 0 := by
  apply Nat.eq_of_testBit_eq
  intro i
  simp only [not32, Nat.testBit_and, Nat.testBit_xor, Nat.testBit_two_pow_sub_one,
    Nat.mod_eq_of_lt hv, Nat.zero_testBit]
  cases x.testBit i <;> cases hvi : v.testBit i <;> simp
  exact Decidable.byContradiction fun hge =>
    by
      have := Nat.testBit_lt_two_pow (Nat.lt_of_lt_of_le hv
        (Nat.pow_le_pow_right (by decide) (Nat.le_of_not_lt hge)))
      rw [this] at hvi
      cases hvi

theorem and_not32_other (x v f : Nat) (h : f &&& v = 0) (hf : f < 2 ^ 32) :
    (x &&& not32 v) &&& f = x &&& f := by
  apply Nat.eq_of_testBit_eq
  intro i
  have hi := congrArg (fun t => Nat.testBit t i) h
  simp only [Nat.testBit_and, Nat.zero_testBit] at hi
  simp only [not32, Nat.testBit_and, Nat.testBit_xor, Nat.testBit_two_pow_sub_one,
    Nat.testBit_mod_two_pow]
  by_cases h32 : i < 32
  · revert hi
    cases x.testBit i <;> cases v.testBit i <;> cases f.testBit i <;> simp [h32]
  · have : f.testBit i = false :=
      Nat.testBit_lt_two_pow (Nat.lt_of_lt_of_le hf
        (Nat.pow_le_pow_right (by decide) (Nat.le_of_not_lt h32)))
    simp [this]

/-! ### The comparisons of the lookup, field by field -/

theorem cmp_plain_iff (a m v e : Nat) (hmv : m &&& v = 0) :
    ((a &&& m) ||| v) &&& (m ||| v) = e &&& (m ||| v) ↔ (a &&& m = e &&& m ∧ e &&& v = v) := by
  constructor
  · intro h
    constructor
    · apply Nat.eq_of_testBit_eq
      intro i
      have hi := congrArg (fun t => Nat.testBit t i) h
      have h1 := congrArg (fun t => Nat.testBit t i) hmv
      simp only [Nat.testBit_and, Nat.testBit_or, Nat.zero_testBit] at hi h1 ⊢
      revert hi h1
      cases a.testBit i <;> cases m.testBit i <;> cases v.testBit i <;> cases e.testBit i <;> simp
    · apply Nat.eq_of_testBit_eq
      intro i
      have hi := congrArg (fun t => Nat.testBit t i) h
      have h1 := congrArg (fun t => Nat.testBit t i) hmv
      simp only [Nat.testBit_and, Nat.testBit_or, Nat.zero_testBit] at hi h1 ⊢
      revert hi h1
      cases a.testBit i <;> cases m.testBit i <;> cases v.testBit i <;> cases e.testBit i <;> simp
  · rintro ⟨h1, h2⟩
    apply Nat.eq_of_testBit_eq
    intro i
    have hi1 := congrArg (fun t => Nat.testBit t i) h1
    have hi2 := congrArg (fun t => Nat.testBit t i) h2
    have h3 := congrArg (fun t => Nat.testBit t i) hmv
    simp only [Nat.testBit_and, Nat.testBit_or, Nat.zero_testBit] at hi1 hi2 h3 ⊢
    revert hi1 hi2 h3
    cases a.testBit i <;> cases m.testBit i <;> cases v.testBit i <;> cases e.testBit i <;> simp

theorem cmp_pid_iff (a m v p q e : Nat) (hmv : m &&& v = 0) (hmq : m &&& q = 0)
    (hqv : q &&& v = 0) :
    (((a &&& m) ||| v) &&& (m ||| v)) ||| (p &&& q) = e &&& ((m ||| v) ||| q)
      ↔ (a &&& m = e &&& m ∧ e &&& v = v ∧ e &&& q = p &&& q) := by
  constructor
  · intro h
    refine ⟨?_, ?_, ?_⟩ <;>
    · apply Nat.eq_of_testBit_eq
      intro i
      have hi := congrArg (fun t => Nat.testBit t i) h
      have h1 := congrArg (fun t => Nat.testBit t i) hmv
      have h2 := congrArg (fun t => Nat.testBit t i) hmq
      have h3 := congrArg (fun t => Nat.testBit t i) hqv
      simp only [Nat.testBit_and, Nat.testBit_or, Nat.zero_testBit] at hi h1 h2 h3 ⊢
      revert hi h1 h2 h3
      cases a.testBit i <;> cases m.testBit i <;> cases v.testBit i <;> cases e.testBit i <;>
        cases p.testBit i <;> cases q.testBit i <;> simp
  · rintro ⟨g1, g2, g3⟩
    apply Nat.eq_of_testBit_eq
    intro i
    have hi1 := congrArg (fun t => Nat.testBit t i) g1
    have hi2 := congrArg (fun t => Nat.testBit t i) g2
    have hi3 := congrArg (fun t => Nat.testBit t i) g3
    have h1 := congrArg (fun t => Nat.testBit t i) hmv
    have h2 := congrArg (fun t => Nat.testBit t i) hmq
    have h3 := congrArg (fun t => Nat.testBit t i) hqv
    simp only [Nat.testBit_and, Nat.testBit_or, Nat.zero_testBit] at hi1 hi2 hi3 h1 h2 h3 ⊢
    revert hi1 hi2 hi3 h1 h2 h3
    cases a.testBit i <;> cases m.testBit i <;> cases v.testBit i <;> cases e.testBit i <;>
      cases p.testBit i <;> cases q.testBit i <;> simp

theorem scan_pid_eq (x c p q e : Nat) (hq : q &&& c = q) (hx : x &&& q = p &&& q) :
    ((x &&& c) ||| (p &&& q) = e &&& (c ||| q)) ↔ (x &&& c = e &&& c) := by
  have e1 : (x &&& c) ||| (p &&& q) = x &&& c := by
    apply Nat.eq_of_testBit_eq
    intro i
    have h1 := congrArg (fun t => Nat.testBit t i) hq
    have h2 := congrArg (fun t => Nat.testBit t i) hx
    simp only [Nat.testBit_and, Nat.testBit_or] at h1 h2 ⊢
    revert h1 h2
    cases x.testBit i <;> cases c.testBit i <;> cases p.testBit i <;> cases q.testBit i <;> simp
  have e2 : e &&& (c ||| q) = e &&& c := by
    apply Nat.eq_of_testBit_eq
    intro i
    have h1 := congrArg (fun t => Nat.testBit t i) hq
    simp only [Nat.testBit_and, Nat.testBit_or] at h1 ⊢
    revert h1
    cases e.testBit i <;> cases c.testBit i <;> cases q.testBit i <;> simp
  rw [e1, e2]

theorem VPN_eq (d : Decls) (sz x : Nat) : VPN d sz x = x &&& vpnMask d sz := rfl

theorem VPN_PD0_VPN (d : Decls) (sz : Nat) (hL : LayoutOK d sz) :
    VPN d sz d.PD0_VPN = vpnMask d sz := by
  rw [VPN_eq, hL.vpn_cover]

/-- The comparison of `arc_mmu_translate`'s lookup for one way: the entry is
valid, has the page number of `vaddr`, and, when it is neither global nor
shared-library, the live process id in its ASID field. -/
theorem translate_compare_iff (d : Decls) (mmu : arc_mmu) (sz vaddr set w : Nat)
    (hL : LayoutOK d sz) :
    wayCompare d mmu (VPN d sz vaddr ||| d.PD0_V) (VPN d sz d.PD0_VPN ||| d.PD0_V) set w = true
      ↔ ((mmu.nTLB set w).pd0 &&& d.PD0_V ≠ 0
          ∧ VPN d sz vaddr = VPN d sz (mmu.nTLB set w).pd0
          ∧ (((mmu.nTLB set w).pd0 &&& d.PD0_G) = 0 ∧ ((mmu.nTLB set w).pd0 &&& d.PD0_S) = 0 →
              (mmu.nTLB set w).pd0 &&& d.PD0_ASID = mmu.pid_asid &&& d.PD0_ASID)) := by
  have hv0 := single_bit_ne_zero d.PD0_V hL.v_bit
  have hvc := single_bit_cases (mmu.nTLB set w).pd0 d.PD0_V hL.v_bit
  have hvalid : (mmu.nTLB set w).pd0 &&& d.PD0_V = d.PD0_V
      ↔ (mmu.nTLB set w).pd0 &&& d.PD0_V ≠ 0 := by
    constructor
    · intro h
      rw [h]
      exact hv0
    · intro h
      rcases hvc with h0 | h1
      · exact absurd h0 h
      · exact h1
  have hqv : d.PD0_ASID &&& d.PD0_V = 0 := hL.v_asid
  unfold wayCompare
  rw [VPN_PD0_VPN d sz hL, VPN_eq, VPN_eq, hL.pid_eq]
  by_cases hc : ((mmu.nTLB set w).pd0 &&& d.PD0_G) = 0 ∧ ¬ ((mmu.nTLB set w).pd0 &&& d.PD0_S) ≠ 0
  · have hc' : ((mmu.nTLB set w).pd0 &&& d.PD0_G) = 0 ∧ ((mmu.nTLB set w).pd0 &&& d.PD0_S) = 0 :=
      ⟨hc.1, Decidable.of_not_not hc.2⟩
    rw [if_pos hc, decide_eq_true_eq,
      cmp_pid_iff vaddr (vpnMask d sz) d.PD0_V mmu.pid_asid d.PD0_ASID (mmu.nTLB set w).pd0
        hL.v_vpn hL.vpn_asid hqv, hvalid]
    constructor
    · rintro ⟨h1, h2, h3⟩
      exact ⟨h2, h1, fun _ => h3⟩
    · rintro ⟨h1, h2, h3⟩
      exact ⟨h2, h1, h3 hc'⟩
  · have hc' : ¬ (((mmu.nTLB set w).pd0 &&& d.PD0_G) = 0
        ∧ ((mmu.nTLB set w).pd0 &&& d.PD0_S) = 0) := by
      intro h
      exact hc ⟨h.1, fun hne => hne h.2⟩
    rw [if_neg hc, decide_eq_true_eq,
      cmp_plain_iff vaddr (vpnMask d sz) d.PD0_V (mmu.nTLB set w).pd0 hL.v_vpn, hvalid]
    constructor
    · rintro ⟨h1, h2⟩
      exact ⟨h2, h1, fun h => absurd h hc'⟩
    · rintro ⟨h1, h2, _⟩
      exact ⟨h2, h1⟩


theorem asid_in_scan (d : Decls) (sz : Nat) (hL : LayoutOK d sz) :
    d.PD0_ASID &&& (scanMask d sz ||| d.PD0_V) = d.PD0_ASID := by
  rw [hL.scan_mask]
  apply Nat.eq_of_testBit_eq
  intro i
  simp only [Nat.testBit_and, Nat.testBit_or]
  cases d.PD0_ASID.testBit i <;> simp

/-- The comparison of the DELETE/INSERT scan for one way, for a descriptor
`pd0` whose ASID field holds the live process id: the entry agrees with `pd0`
on every bit of the scan mask and on the valid bit. -/
theorem scan_compare_iff (d : Decls) (mmu : arc_mmu) (sz pd0 set w : Nat) (hL : LayoutOK d sz)
    (hpid : pd0 &&& d.PD0_ASID = mmu.pid_asid &&& d.PD0_ASID) :
    wayCompare d mmu pd0 (scanMask d sz ||| d.PD0_V) set w = true
      ↔ pd0 &&& (scanMask d sz ||| d.PD0_V)
          = (mmu.nTLB set w).pd0 &&& (scanMask d sz ||| d.PD0_V) := by
  unfold wayCompare
  rw [hL.pid_eq]
  by_cases hc : ((mmu.nTLB set w).pd0 &&& d.PD0_G) = 0 ∧ ¬ ((mmu.nTLB set w).pd0 &&& d.PD0_S) ≠ 0
  · rw [if_pos hc, decide_eq_true_eq]
    exact scan_pid_eq pd0 _ mmu.pid_asid d.PD0_ASID _ (asid_in_scan d sz hL) hpid
  · rw [if_neg hc, decide_eq_true_eq]

theorem scan_fields (d : Decls) (sz x y : Nat) (hL : LayoutOK d sz) :
    x &&& (scanMask d sz ||| d.PD0_V) = y &&& (scanMask d sz ||| d.PD0_V)
      ↔ (x &&& vpnMask d sz = y &&& vpnMask d sz ∧ x &&& d.PD0_SZ = y &&& d.PD0_SZ
          ∧ x &&& d.PD0_G = y &&& d.PD0_G ∧ x &&& d.PD0_S = y &&& d.PD0_S
          ∧ x &&& d.PD0_ASID = y &&& d.PD0_ASID ∧ x &&& d.PD0_V = y &&& d.PD0_V) := by
  rw [hL.scan_mask]
  simp only [and_or_eq_iff, and_assoc]

theorem setIdx_congr (d : Decls) (sz x y : Nat) (hL : LayoutOK d sz)
    (h : x &&& (vpnMask d sz ||| d.PD0_S) = y &&& (vpnMask d sz ||| d.PD0_S)) :
    (x >>> d.MMU_V3_PAGE_BITS sz) &&& (d.N_SETS - 1)
      = (y >>> d.MMU_V3_PAGE_BITS sz) &&& (d.N_SETS - 1) := by
  apply Nat.eq_of_testBit_eq
  intro i
  have hi := congrArg (fun t => Nat.testBit t (d.MMU_V3_PAGE_BITS sz + i)) h
  have hs := congrArg (fun t => Nat.testBit t (d.MMU_V3_PAGE_BITS sz + i)) hL.set_bits
  simp only [Nat.testBit_and, Nat.testBit_or, Nat.testBit_shiftLeft, Nat.testBit_shiftRight,
    Nat.add_sub_cancel_left, Nat.le_add_right, ge_iff_le, decide_True, Bool.true_and]
    at hi hs ⊢
  revert hi hs
  cases x.testBit (d.MMU_V3_PAGE_BITS sz + i) <;> cases y.testBit (d.MMU_V3_PAGE_BITS sz + i) <;>
    cases (vpnMask d sz).testBit (d.MMU_V3_PAGE_BITS sz + i) <;>
    cases d.PD0_S.testBit (d.MMU_V3_PAGE_BITS sz + i) <;>
    cases (d.N_SETS - 1).testBit i <;> simp

/-- The set `arc_mmu_translate` looks `vaddr` up in is the set the scan of
INSERT addresses for a descriptor of the same page without the shared-library
bit. -/
theorem set_of_translate_eq (d : Decls) (sz vaddr pd0 : Nat) (hL : LayoutOK d sz)
    (hvpn : VPN d sz vaddr = VPN d sz pd0) (hS : pd0 &&& d.PD0_S = 0) :
    ((VPN d sz vaddr ||| d.PD0_V) >>> d.MMU_V3_PAGE_BITS sz) &&& (d.N_SETS - 1)
      = (pd0 >>> d.MMU_V3_PAGE_BITS sz) &&& (d.N_SETS - 1) := by
  apply setIdx_congr d sz _ _ hL
  rw [hvpn, VPN_eq]
  apply Nat.eq_of_testBit_eq
  intro i
  have h1 := congrArg (fun t => Nat.testBit t i) hL.v_vpn
  have h2 := congrArg (fun t => Nat.testBit t i) hL.v_s
  have h3 := congrArg (fun t => Nat.testBit t i) hL.vpn_s
  have h4 := congrArg (fun t => Nat.testBit t i) hS
  simp only [Nat.testBit_and, Nat.testBit_or, Nat.zero_testBit] at h1 h2 h3 h4 ⊢
  revert h1 h2 h3 h4
  cases pd0.testBit i <;> cases (vpnMask d sz).testBit i <;> cases d.PD0_S.testBit i <;>
    cases d.PD0_V.testBit i <;> simp

/-! ### Translation with a single matching way -/

theorem compare_of_rule (d : Decls) (env : V3Env) (vaddr set w : Nat)
    (hL : LayoutOK d env.mmu_v3_page_size)
    (hr : MatchRule d env vaddr (env.mmu.nTLB set w)) :
    wayCompare d env.mmu (VPN d env.mmu_v3_page_size vaddr ||| d.PD0_V)
      (VPN d env.mmu_v3_page_size d.PD0_VPN ||| d.PD0_V) set w = true := by
  rw [translate_compare_iff d env.mmu env.mmu_v3_page_size vaddr set w hL]
  obtain ⟨hV, hvpn, hk⟩ := hr
  refine ⟨hV, hvpn, ?_⟩
  rintro ⟨hG, hS⟩
  rcases hk with h | ⟨_, h, _⟩ | ⟨_, _, h⟩
  · exact absurd hG h
  · exact absurd hS h
  · rw [← h, Nat.and_assoc, Nat.and_self]

theorem rule_of_compare (d : Decls) (env : V3Env) (vaddr set w : Nat)
    (hL : LayoutOK d env.mmu_v3_page_size)
    (hpid : env.mmu.pid_asid &&& d.PD0_ASID = env.mmu.pid_asid)
    (hb : wayBlocks d env.mmu set w = false)
    (hc : wayCompare d env.mmu (VPN d env.mmu_v3_page_size vaddr ||| d.PD0_V)
      (VPN d env.mmu_v3_page_size d.PD0_VPN ||| d.PD0_V) set w = true) :
    MatchRule d env vaddr (env.mmu.nTLB set w) := by
  rw [translate_compare_iff d env.mmu env.mmu_v3_page_size vaddr set w hL] at hc
  obtain ⟨hV, hvpn, hk⟩ := hc
  refine ⟨hV, hvpn, ?_⟩
  by_cases hG : (env.mmu.nTLB set w).pd0 &&& d.PD0_G = 0
  · by_cases hS : (env.mmu.nTLB set w).pd0 &&& d.PD0_S = 0
    · right
      right
      exact ⟨hG, hS, by rw [hk ⟨hG, hS⟩, hpid]⟩
    · right
      left
      refine ⟨hG, hS, ?_⟩
      cases hm : match_sasid d (env.mmu.nTLB set w) env.mmu
      · have : wayBlocks d env.mmu set w = true := by
          simp [wayBlocks, hG, hS, hm]
        rw [hb] at this
        cases this
      · rfl
  · left
    exact hG

/-- With the MMU enabled and `vaddr` below 0x80000000: when no way of the
addressed set blocks the scan (no non-global shared-library entry whose match
position is absent from the SASID registers) and exactly one way `w0` satisfies
the match rule, `arc_mmu_translate` works on the entry of `w0` with `match`
true: it is the permission check and hit of lines 507 to 530 on that entry. -/
theorem translate_unique_hit (d : Decls) (env : V3Env) (vaddr w0 : Nat) (rwe : mmu_access_type)
    (hL : LayoutOK d env.mmu_v3_page_size)
    (hv : vaddr < 0x80000000) (hen : env.mmu.enabled ≠ 0)
    (hpid : env.mmu.pid_asid &&& d.PD0_ASID = env.mmu.pid_asid)
    (hw0 : w0 < d.N_WAYS)
    (hb : ∀ w, w < d.N_WAYS →
      wayBlocks d env.mmu (setOf d env (VPN d env.mmu_v3_page_size vaddr ||| d.PD0_V)) w = false)
    (hm0 : MatchRule d env vaddr
      (env.mmu.nTLB (setOf d env (VPN d env.mmu_v3_page_size vaddr ||| d.PD0_V)) w0))
    (hothers : ∀ w, w < d.N_WAYS → w ≠ w0 → ¬ MatchRule d env vaddr
      (env.mmu.nTLB (setOf d env (VPN d env.mmu_v3_page_size vaddr ||| d.PD0_V)) w)) :
    arc_mmu_translate d env vaddr rwe =
      translateFinish d env vaddr rwe
        ((setOf d env (VPN d env.mmu_v3_page_size vaddr ||| d.PD0_V) * d.N_WAYS + w0) % 2 ^ 32)
        (env.mmu.nTLB (setOf d env (VPN d env.mmu_v3_page_size vaddr ||| d.PD0_V)) w0) true := by
  have hmod : vaddr % 2 ^ 32 = vaddr := Nat.mod_eq_of_lt (by omega)
  have hlk : translateLookup d env vaddr =
      { ret := (setOf d env (VPN d env.mmu_v3_page_size vaddr ||| d.PD0_V), w0),
        num_finds := 1,
        index := (setOf d env (VPN d env.mmu_v3_page_size vaddr ||| d.PD0_V) * d.N_WAYS + w0)
          % 2 ^ 32,
        mmu := env.mmu } := by
    unfold translateLookup
    rw [hmod]
    exact lookup_unique d env.mmu_v3_page_size _ _ w0 env.mmu hw0 hb
      (compare_of_rule d env vaddr _ w0 hL hm0)
      (fun w hw hne => by
        cases hc : wayCompare d env.mmu (VPN d env.mmu_v3_page_size vaddr ||| d.PD0_V)
          (VPN d env.mmu_v3_page_size d.PD0_VPN ||| d.PD0_V)
          (setOf d env (VPN d env.mmu_v3_page_size vaddr ||| d.PD0_V)) w
        · exact hc
        · exact absurd (rule_of_compare d env vaddr _ w hL hpid (hb w hw) hc) (hothers w hw hne))
  have hhit : hitEntry d env vaddr
      = env.mmu.nTLB (setOf d env (VPN d env.mmu_v3_page_size vaddr ||| d.PD0_V)) w0 := by
    unfold hitEntry
    rw [hlk]
  rw [translate_mmu_path d env vaddr rwe hv hen, hhit, hlk]
  have hm := translateMatch_of_rule d env env.mmu vaddr 1 _ (by decide) hm0 hL.pid_eq rfl rfl rfl
  simp only [gt_iff_lt, Nat.lt_irrefl, if_false, hm]


theorem setSlot_setSlot (t : Nat → Nat → arc_tlb_e) (s w : Nat) (e1 e2 : arc_tlb_e) :
    setSlot (setSlot t s w e1) s w e2 = setSlot t s w e2 := by
  funext a b
  unfold setSlot
  by_cases h : a = s ∧ b = w <;> simp [h]

theorem lookup_tlbcmd (d : Decls) (sz v cm x : Nat) (m : arc_mmu) :
    arc_mmu_lookup_tlb d sz v cm { m with tlbcmd := x } =
      { ret := (arc_mmu_lookup_tlb d sz v cm m).ret,
        num_finds := (arc_mmu_lookup_tlb d sz v cm m).num_finds,
        index := (arc_mmu_lookup_tlb d sz v cm m).index,
        mmu := { (arc_mmu_lookup_tlb d sz v cm m).mmu with tlbcmd := x } } := by
  have hstep : ∀ set, lookupStep d { m with tlbcmd := x } v cm set = lookupStep d m v cm set := by
    intro set
    funext acc w
    rfl
  unfold arc_mmu_lookup_tlb
  simp only [hstep]
  split <;> rfl

/-- The INSERT command for a valid descriptor without the global bit, split by
what its scan reports: with no match the victim way of the round-robin cursor
is overwritten and the cursor advances; with a single match that way is
overwritten. -/
theorem insert_cases (d : Decls) (fuel : Nat) (env : V3Env) (tlb0 : Nat × Nat) (index0 : Nat)
    (hL : LayoutOK d env.mmu_v3_page_size)
    (hV : env.mmu.tlbpd0 &&& d.PD0_V ≠ 0) (hG : env.mmu.tlbpd0 &&& d.PD0_G = 0) :
    (arc_mmu_lookup_tlb d env.mmu_v3_page_size env.mmu.tlbpd0
        (scanMask d env.mmu_v3_page_size ||| d.PD0_V) env.mmu).num_finds ≤ 1 →
    ∃ env', arc_mmu_aux_set_tlbcmd d fuel env d.TLB_CMD_INSERT tlb0 index0 = .ok env'
      ∧ env'.mmu.nTLB = setSlot env.mmu.nTLB
          (arc_mmu_lookup_tlb d env.mmu_v3_page_size env.mmu.tlbpd0
            (scanMask d env.mmu_v3_page_size ||| d.PD0_V) env.mmu).ret.1
          (arc_mmu_lookup_tlb d env.mmu_v3_page_size env.mmu.tlbpd0
            (scanMask d env.mmu_v3_page_size ||| d.PD0_V) env.mmu).ret.2
          { pd0 := env.mmu.tlbpd0, pd1 := env.mmu.tlbpd1 }
      ∧ env'.mmu.way_sel = (arc_mmu_lookup_tlb d env.mmu_v3_page_size env.mmu.tlbpd0
            (scanMask d env.mmu_v3_page_size ||| d.PD0_V) env.mmu).mmu.way_sel
      ∧ env'.mmu.pid_asid = env.mmu.pid_asid ∧ env'.mmu.sasid0 = env.mmu.sasid0
      ∧ env'.mmu.sasid1 = env.mmu.sasid1 ∧ env'.mmu.enabled = env.mmu.enabled
      ∧ env'.mmu.tlbpd0 = env.mmu.tlbpd0 ∧ env'.mmu.tlbpd1 = env.mmu.tlbpd1
      ∧ env'.mmu_v3_page_size = env.mmu_v3_page_size ∧ env'.Uf = env.Uf := by
  intro hle
  obtain ⟨hi1, hi2, hi3, hi4⟩ := hL.cmd_insert
  have hV' : ¬ (env.mmu.tlbpd0 &&& d.PD0_V = 0) := hV
  unfold arc_mmu_aux_set_tlbcmd
  simp only [hi1, hi2, hi3, hG, hV', or_self, if_false, or_true, if_true, ne_eq,
    not_true_eq_false, true_or, bind, Except.bind, pure, Except.pure, lookup_tlbcmd]
  have hmask : ((d.PD0_VPN ||| d.PD0_SZ ||| d.PD0_G ||| d.PD0_S ||| d.PD0_ASID) &&&
      (VPN d env.mmu_v3_page_size d.PD0_VPN ||| not32 d.PD0_VPN) ||| d.PD0_V)
      = scanMask d env.mmu_v3_page_size ||| d.PD0_V := rfl
  rw [hmask]
  obtain ⟨hn, hs0, hs1, hpid, hena, hp0, hp1⟩ := lookup_mmu_fields d env.mmu_v3_page_size
    env.mmu.tlbpd0 (scanMask d env.mmu_v3_page_size ||| d.PD0_V) env.mmu
  generalize arc_mmu_lookup_tlb d env.mmu_v3_page_size env.mmu.tlbpd0
    (scanMask d env.mmu_v3_page_size ||| d.PD0_V) env.mmu = r at *
  by_cases h0 : r.num_finds = 0
  · rw [if_pos h0]
    refine ⟨_, rfl, ?_, rfl, hpid, hs0, hs1, hena, hp0, hp1, rfl, rfl⟩
    simp only [hn]
  · have h1 : r.num_finds = 1 := by omega
    rw [if_neg h0, if_pos h1]
    refine ⟨_, rfl, ?_, rfl, hpid, hs0, hs1, hena, hp0, hp1, rfl, rfl⟩
    simp only [clearValid, setSlot_setSlot, hn]


theorem MatchRule_congr (d : Decls) (env1 env2 : V3Env) (vaddr : Nat) (e : arc_tlb_e)
    (hsz : env1.mmu_v3_page_size = env2.mmu_v3_page_size)
    (hpid : env1.mmu.pid_asid = env2.mmu.pid_asid)
    (h0 : env1.mmu.sasid0 = env2.mmu.sasid0) (h1 : env1.mmu.sasid1 = env2.mmu.sasid1) :
    MatchRule d env1 vaddr e ↔ MatchRule d env2 vaddr e := by
  unfold MatchRule
  rw [hsz, hpid, match_sasid_congr d e env1.mmu env2.mmu h0 h1]

theorem wayBlocks_congr (d : Decls) (m1 m2 : arc_mmu) (set w : Nat)
    (he : m1.nTLB set w = m2.nTLB set w)
    (h0 : m1.sasid0 = m2.sasid0) (h1 : m1.sasid1 = m2.sasid1) :
    wayBlocks d m1 set w = wayBlocks d m2 set w := by
  unfold wayBlocks
  rw [he, match_sasid_congr d _ m1 m2 h0 h1]

/-- For a valid descriptor `pd0` that is neither global nor shared-library and
carries the live process id, a way found by the INSERT scan satisfies the match
rule for every address of the descriptor's page. -/
theorem rule_of_scan (d : Decls) (env : V3Env) (vaddr pd0 set w : Nat)
    (hL : LayoutOK d env.mmu_v3_page_size)
    (hV : pd0 &&& d.PD0_V ≠ 0) (hG : pd0 &&& d.PD0_G = 0) (hS : pd0 &&& d.PD0_S = 0)
    (hA : pd0 &&& d.PD0_ASID = env.mmu.pid_asid)
    (hvpn : VPN d env.mmu_v3_page_size vaddr = VPN d env.mmu_v3_page_size pd0)
    (hc : wayCompare d env.mmu pd0 (scanMask d env.mmu_v3_page_size ||| d.PD0_V) set w = true) :
    MatchRule d env vaddr (env.mmu.nTLB set w) := by
  have hpid : pd0 &&& d.PD0_ASID = env.mmu.pid_asid &&& d.PD0_ASID := by
    rw [← hA, Nat.and_assoc, Nat.and_self]
  rw [scan_compare_iff d env.mmu _ pd0 set w hL hpid, scan_fields d _ _ _ hL] at hc
  obtain ⟨f1, _, f3, f4, f5, f6⟩ := hc
  refine ⟨?_, ?_, Or.inr (Or.inr ⟨?_, ?_, ?_⟩)⟩
  · rw [← f6]
    exact hV
  · rw [hvpn, VPN_eq, VPN_eq, f1]
  · rw [← f3, hG]
  · rw [← f4, hS]
  · rw [← f5, hA]

theorem scan_of_rule (d : Decls) (env : V3Env) (vaddr pd0 set w : Nat)
    (hL : LayoutOK d env.mmu_v3_page_size)
    (hV : pd0 &&& d.PD0_V ≠ 0) (hG : pd0 &&& d.PD0_G = 0) (hS : pd0 &&& d.PD0_S = 0)
    (hA : pd0 &&& d.PD0_ASID = env.mmu.pid_asid)
    (hvpn : VPN d env.mmu_v3_page_size vaddr = VPN d env.mmu_v3_page_size pd0)
    (hr : MatchRule d env vaddr (env.mmu.nTLB set w))
    (hplain : (env.mmu.nTLB set w).pd0 &&& d.PD0_G = 0 ∧ (env.mmu.nTLB set w).pd0 &&& d.PD0_S = 0
      ∧ (env.mmu.nTLB set w).pd0 &&& d.PD0_SZ = pd0 &&& d.PD0_SZ) :
    wayCompare d env.mmu pd0 (scanMask d env.mmu_v3_page_size ||| d.PD0_V) set w = true := by
  have hpid : pd0 &&& d.PD0_ASID = env.mmu.pid_asid &&& d.PD0_ASID := by
    rw [← hA, Nat.and_assoc, Nat.and_self]
  rw [scan_compare_iff d env.mmu _ pd0 set w hL hpid, scan_fields d _ _ _ hL]
  obtain ⟨rV, rvpn, rk⟩ := hr
  obtain ⟨pG, pS, pSZ⟩ := hplain
  have hv1 : pd0 &&& d.PD0_V = d.PD0_V := by
    rcases single_bit_cases pd0 d.PD0_V hL.v_bit with h | h
    · exact absurd h hV
    · exact h
  have hv2 : (env.mmu.nTLB set w).pd0 &&& d.PD0_V = d.PD0_V := by
    rcases single_bit_cases (env.mmu.nTLB set w).pd0 d.PD0_V hL.v_bit with h | h
    · exact absurd h rV
    · exact h
  refine ⟨?_, pSZ.symm, ?_, ?_, ?_, ?_⟩
  · rw [← VPN_eq, ← VPN_eq, ← hvpn, rvpn]
  · rw [hG, pG]
  · rw [hS, pS]
  · rcases rk with h | ⟨_, h, _⟩ | ⟨_, _, h⟩
    · exact absurd pG h
    · exact absurd pS h
    · rw [hA, h]
  · rw [hv1, hv2]


/-- Outcome of a lookup in a set without blocking ways in which at most one way
compares equal: at most one find, and the returned slot is a way of the
addressed set outside of which no way compares equal. -/
theorem lookup_at_most_one (d : Decls) (sz v cm : Nat) (mmu : arc_mmu)
    (hb : ∀ w, w < d.N_WAYS →
      wayBlocks d mmu ((v >>> d.MMU_V3_PAGE_BITS sz) &&& (d.N_SETS - 1)) w = false)
    (huniq : ∀ w w', w < d.N_WAYS → w' < d.N_WAYS →
      wayCompare d mmu v cm ((v >>> d.MMU_V3_PAGE_BITS sz) &&& (d.N_SETS - 1)) w = true →
      wayCompare d mmu v cm ((v >>> d.MMU_V3_PAGE_BITS sz) &&& (d.N_SETS - 1)) w' = true →
      w = w')
    (hws : mmu.way_sel ((v >>> d.MMU_V3_PAGE_BITS sz) &&& (d.N_SETS - 1)) < d.N_WAYS) :
    ∃ wstar, wstar < d.N_WAYS
      ∧ (arc_mmu_lookup_tlb d sz v cm mmu).num_finds ≤ 1
      ∧ (arc_mmu_lookup_tlb d sz v cm mmu).ret
          = ((v >>> d.MMU_V3_PAGE_BITS sz) &&& (d.N_SETS - 1), wstar)
      ∧ (∀ w, w < d.N_WAYS → w ≠ wstar →
          wayCompare d mmu v cm ((v >>> d.MMU_V3_PAGE_BITS sz) &&& (d.N_SETS - 1)) w = false)
      ∧ ((arc_mmu_lookup_tlb d sz v cm mmu).num_finds = 1 →
          wayCompare d mmu v cm ((v >>> d.MMU_V3_PAGE_BITS sz) &&& (d.N_SETS - 1)) wstar = true) := by
  by_cases h : ∃ w0, w0 < d.N_WAYS
      ∧ wayCompare d mmu v cm ((v >>> d.MMU_V3_PAGE_BITS sz) &&& (d.N_SETS - 1)) w0 = true
  · obtain ⟨w0, hw0, hc0⟩ := h
    have hothers : ∀ w, w < d.N_WAYS → w ≠ w0 →
        wayCompare d mmu v cm ((v >>> d.MMU_V3_PAGE_BITS sz) &&& (d.N_SETS - 1)) w = false := by
      intro w hw hne
      cases hc : wayCompare d mmu v cm ((v >>> d.MMU_V3_PAGE_BITS sz) &&& (d.N_SETS - 1)) w
      · rfl
      · exact absurd (huniq w w0 hw hw0 hc hc0) hne
    refine ⟨w0, hw0, ?_, ?_, hothers, fun _ => hc0⟩
    · rw [lookup_unique d sz v cm w0 mmu hw0 hb hc0 hothers]
    · rw [lookup_unique d sz v cm w0 mmu hw0 hb hc0 hothers]
  · have hnone : ∀ w, w < d.N_WAYS →
        wayCompare d mmu v cm ((v >>> d.MMU_V3_PAGE_BITS sz) &&& (d.N_SETS - 1)) w = false := by
      intro w hw
      cases hc : wayCompare d mmu v cm ((v >>> d.MMU_V3_PAGE_BITS sz) &&& (d.N_SETS - 1)) w
      · rfl
      · exact absurd ⟨w, hw, hc⟩ h
    refine ⟨mmu.way_sel ((v >>> d.MMU_V3_PAGE_BITS sz) &&& (d.N_SETS - 1)), hws, ?_, ?_,
      fun w hw _ => hnone w hw, ?_⟩
    · rw [lookup_none d sz v cm mmu hb hnone]
      exact Nat.zero_le 1
    · rw [lookup_none d sz v cm mmu hb hnone]
    · rw [lookup_none d sz v cm mmu hb hnone]
      intro h01
      cases h01

/-- Round trip of INSERT and translation. For a valid descriptor in TLBPD0
that is neither global nor shared-library and carries the live process id, in a
state where no way of the addressed set blocks the scan, the round-robin cursor
of the set is a way number, and the ways of the set that satisfy the match rule
for the page are at most one, that one being neither global nor shared-library
and of the descriptor's size: INSERT completes, and a translation of any address
of the page (below 0x80000000, MMU enabled, either privilege) works on the
inserted pair with `match` true. -/
theorem insert_then_translate (d : Decls) (fuel : Nat) (env : V3Env) (tlb0 : Nat × Nat)
    (index0 vaddr : Nat) (rwe : mmu_access_type) (user : Bool)
    (hL : LayoutOK d env.mmu_v3_page_size)
    (hen : env.mmu.enabled ≠ 0)
    (hV : env.mmu.tlbpd0 &&& d.PD0_V ≠ 0) (hG : env.mmu.tlbpd0 &&& d.PD0_G = 0)
    (hS : env.mmu.tlbpd0 &&& d.PD0_S = 0)
    (hA : env.mmu.tlbpd0 &&& d.PD0_ASID = env.mmu.pid_asid)
    (hv : vaddr < 0x80000000)
    (hvpn : VPN d env.mmu_v3_page_size vaddr = VPN d env.mmu_v3_page_size env.mmu.tlbpd0)
    (hws : env.mmu.way_sel (setOf d env env.mmu.tlbpd0) < d.N_WAYS)
    (hb : ∀ w, w < d.N_WAYS → wayBlocks d env.mmu (setOf d env env.mmu.tlbpd0) w = false)
    (hplain : ∀ w, w < d.N_WAYS →
      MatchRule d env vaddr (env.mmu.nTLB (setOf d env env.mmu.tlbpd0) w) →
      (env.mmu.nTLB (setOf d env env.mmu.tlbpd0) w).pd0 &&& d.PD0_G = 0
        ∧ (env.mmu.nTLB (setOf d env env.mmu.tlbpd0) w).pd0 &&& d.PD0_S = 0
        ∧ (env.mmu.nTLB (setOf d env env.mmu.tlbpd0) w).pd0 &&& d.PD0_SZ
            = env.mmu.tlbpd0 &&& d.PD0_SZ)
    (hone : ∀ w w', w < d.N_WAYS → w' < d.N_WAYS →
      MatchRule d env vaddr (env.mmu.nTLB (setOf d env env.mmu.tlbpd0) w) →
      MatchRule d env vaddr (env.mmu.nTLB (setOf d env env.mmu.tlbpd0) w') → w = w') :
    ∃ env' index, arc_mmu_aux_set_tlbcmd d fuel env d.TLB_CMD_INSERT tlb0 index0 = .ok env'
      ∧ arc_mmu_translate d { env' with Uf := user } vaddr rwe
          = translateFinish d { env' with Uf := user } vaddr rwe index
              { pd0 := env.mmu.tlbpd0, pd1 := env.mmu.tlbpd1 } true
      ∧ env'.mmu_v3_page_size = env.mmu_v3_page_size := by
  have hscan := lookup_at_most_one d env.mmu_v3_page_size env.mmu.tlbpd0
    (scanMask d env.mmu_v3_page_size ||| d.PD0_V) env.mmu hb
    (fun w w' hw hw' hc hc' => hone w w' hw hw'
      (rule_of_scan d env vaddr _ _ w hL hV hG hS hA hvpn hc)
      (rule_of_scan d env vaddr _ _ w' hL hV hG hS hA hvpn hc')) hws
  obtain ⟨wstar, hwstar, hle, hret, hothers, _⟩ := hscan
  obtain ⟨env', hcmd, hn, _, hpid, hs0, hs1, hena, _, _, hsz, _⟩ :=
    insert_cases d fuel env tlb0 index0 hL hV hG hle
  rw [hret] at hn
  have hset : setOf d { env' with Uf := user }
      (VPN d env'.mmu_v3_page_size vaddr ||| d.PD0_V) = setOf d env env.mmu.tlbpd0 := by
    unfold setOf
    simp only [hsz]
    exact set_of_translate_eq d _ vaddr _ hL hvpn hS
  have hpidok : env'.mmu.pid_asid &&& d.PD0_ASID = env'.mmu.pid_asid := by
    rw [hpid, ← hA, Nat.and_assoc, Nat.and_self]
  have hentry : ∀ w, env'.mmu.nTLB (setOf d env env.mmu.tlbpd0) w
      = if w = wstar then { pd0 := env.mmu.tlbpd0, pd1 := env.mmu.tlbpd1 }
        else env.mmu.nTLB (setOf d env env.mmu.tlbpd0) w := by
    intro w
    rw [hn]
    unfold setSlot setOf
    by_cases hw : w = wstar <;> simp [hw]
  have hrule : ∀ e, MatchRule d { env' with Uf := user } vaddr e ↔ MatchRule d env vaddr e :=
    fun e => MatchRule_congr d _ env vaddr e hsz hpid hs0 hs1
  have hL' : LayoutOK d ({ env' with Uf := user } : V3Env).mmu_v3_page_size := by
    show LayoutOK d env'.mmu_v3_page_size
    rw [hsz]
    exact hL
  have key := translate_unique_hit d { env' with Uf := user } vaddr wstar rwe hL' hv
    (by show env'.mmu.enabled ≠ 0; rw [hena]; exact hen) hpidok hwstar
    (by
      intro w hw
      rw [hset]
      show wayBlocks d env'.mmu (setOf d env env.mmu.tlbpd0) w = false
      by_cases hww : w = wstar
      · subst hww
        unfold wayBlocks
        rw [hentry w]
        simp [hS]
      · rw [wayBlocks_congr d env'.mmu env.mmu _ w (by rw [hentry w, if_neg hww]) hs0 hs1]
        exact hb w hw)
    (by
      rw [hset, hrule]
      show MatchRule d env vaddr (env'.mmu.nTLB (setOf d env env.mmu.tlbpd0) wstar)
      rw [hentry wstar, if_pos rfl]
      exact ⟨hV, hvpn, Or.inr (Or.inr ⟨hG, hS, hA⟩)⟩)
    (by
      intro w hw hne
      rw [hset, hrule]
      show ¬ MatchRule d env vaddr (env'.mmu.nTLB (setOf d env env.mmu.tlbpd0) w)
      rw [hentry w, if_neg hne]
      intro hr
      have hc := scan_of_rule d env vaddr env.mmu.tlbpd0 _ w hL hV hG hS hA hvpn hr
        (hplain w hw hr)
      have hf := hothers w hw hne
      unfold setOf at hc
      rw [hf] at hc
      cases hc)
  refine ⟨env', (setOf d env env.mmu.tlbpd0 * d.N_WAYS + wstar) % 2 ^ 32, hcmd, ?_, hsz⟩
  rw [key, hset]
  show translateFinish d { env' with Uf := user } vaddr rwe _
    (env'.mmu.nTLB (setOf d env env.mmu.tlbpd0) wstar) true = _
  rw [hentry wstar, if_pos rfl]

/-! ### Claims about hits, round trips and machine checks -/

theorem translateFinish_granted (d : Decls) (env : V3Env) (vaddr : Nat) (rwe : mmu_access_type)
    (index : Nat) (tlb : arc_tlb_e)
    (hp : arc_mmu_have_permission d env tlb rwe = true) :
    translateFinish d env vaddr rwe index tlb true =
      .ok { ret := true,
            paddr := some ((tlb.pd1 &&& d.MMU_V3_PAGE_MASK env.mmu_v3_page_size)
              ||| (vaddr &&& not32 (d.MMU_V3_PAGE_MASK env.mmu_v3_page_size))),
            index := some index,
            excp := { number := Excp.EXCP_NO_EXCEPTION, causecode := 0, parameter := 0 },
            env := env } := by
  simp [translateFinish, hp]

/-- C2 (failing input): in `v3Blocked` exactly one way of set 2 (way 1)
satisfies the match rule for 0x4000 and its `pd1` permits a kernel read, yet
`arc_mmu_translate` reports a data TLB miss: the shared-library entry in way 0
cleared `general_match` for all later ways. The state is the one the driver
program `progBlocked` builds from reset. -/
theorem legacy_hit_blocked_by_shared_entry :
    v3Blocked.mmu.enabled ≠ 0
    ∧ setOf arcDecls v3Blocked 0x4000 = 2
    ∧ MatchRule arcDecls v3Blocked 0x4000 (v3Blocked.mmu.nTLB 2 1)
    ∧ (∀ w, w < 4 → w ≠ 1 → ¬ MatchRule arcDecls v3Blocked 0x4000 (v3Blocked.mmu.nTLB 2 w))
    ∧ (v3Blocked.mmu.nTLB 2 1).pd1
        &&& permBit arcDecls v3Blocked.Uf mmu_access_type.MMU_MEM_READ ≠ 0
    ∧ translateObs arcDecls v3Blocked 0x4000 mmu_access_type.MMU_MEM_READ
        = some (false, none, { number := Excp.EXCP_TLB_MISS_D, causecode := 1, parameter := 0 })
    ∧ set2After progBlocked = some (setEntries v3Blocked 2, v3Blocked.mmu.way_sel 2) := by
  refine ⟨by decide, by decide, by decide, by decide, by decide, by decide, by decide⟩


/-- C5 (failing input): in `v3BlockedTwo` two ways of set 2 (ways 1 and 2)
satisfy the match rule for 0x4000, yet `arc_mmu_translate` reports a data TLB
miss instead of a machine check: the shared-library entry in way 0 cleared
`general_match` for all later ways, so neither match is counted. The state is
the one the driver program `progBlockedTwo` builds from reset. -/
theorem legacy_double_match_blocked :
    v3BlockedTwo.mmu.enabled ≠ 0
    ∧ setOf arcDecls v3BlockedTwo 0x4000 = 2
    ∧ MatchRule arcDecls v3BlockedTwo 0x4000 (v3BlockedTwo.mmu.nTLB 2 1)
    ∧ MatchRule arcDecls v3BlockedTwo 0x4000 (v3BlockedTwo.mmu.nTLB 2 2)
    ∧ translateObs arcDecls v3BlockedTwo 0x4000 mmu_access_type.MMU_MEM_READ
        = some (false, none, { number := Excp.EXCP_TLB_MISS_D, causecode := 1, parameter := 0 })
    ∧ set2After progBlockedTwo = some (setEntries v3BlockedTwo 2, v3BlockedTwo.mmu.way_sel 2) := by
  refine ⟨by decide, by decide, by decide, by decide, by decide, by decide⟩

/-- C4 (counterexample): with a global entry for the page at 0x4000 already in
the set, TLBPD0 := 0x4205 (valid, neither global nor shared-library, ASID 5 =
process id), TLBPD1 := 0x9007e (all permissions) and INSERT leave two matching
entries, and the kernel read of 0x4000 that follows raises a machine check. -/
theorem legacy_round_trip_counterexample :
    v3GlobalFirst.mmu.enabled ≠ 0
    ∧ 0x4205 &&& arcDecls.PD0_V ≠ 0 ∧ 0x4205 &&& arcDecls.PD0_G = 0
    ∧ 0x4205 &&& arcDecls.PD0_S = 0 ∧ 0x4205 &&& arcDecls.PD0_ASID = v3GlobalFirst.mmu.pid_asid
    ∧ VPN arcDecls 13 0x4000 = VPN arcDecls 13 0x4205
    ∧ 0x9007e &&& permBit arcDecls false mmu_access_type.MMU_MEM_READ ≠ 0
    ∧ insertThenTranslate arcDecls 8
        (arc_mmu_aux_set (arc_mmu_aux_set v3GlobalFirst AuxId.tlbpd0 0x4205) AuxId.tlbpd1 0x9007e)
        0x4000 mmu_access_type.MMU_MEM_READ
        = some (false, none,
            { number := Excp.EXCP_MACHINE_CHECK, causecode := 1, parameter := 0 }) := by
  refine ⟨by decide, by decide, by decide, by decide, by decide, by decide, by decide, by decide⟩

/-- C4 (amended): let TLBPD0 be set to a valid descriptor `pd0` that is neither
global nor shared-library and whose ASID is the live process id, and TLBPD1 to
`pd1`, in a state with the MMU enabled where no way of the addressed set blocks
the scan (no non-global shared-library entry with its match position absent from
the SASID registers), the round-robin cursor of the set is a way number, and at
most one way of the set satisfies the match rule for the page, that way being
neither global nor shared-library and of the descriptor's size. Then INSERT
completes, and translating any address of that page below 0x80000000, for read,
write or fetch permitted by `pd1` under the privilege of the access, succeeds
and returns `(pd1 & MMU_V3_PAGE_MASK) | (vaddr & ~MMU_V3_PAGE_MASK)`. -/
theorem legacy_insert_round_trip (d : Decls) (fuel : Nat) (env0 : V3Env) (tlb0 : Nat × Nat)
    (index0 pd0 pd1 vaddr : Nat) (rwe : mmu_access_type) (user : Bool)
    (hL : LayoutOK d env0.mmu_v3_page_size)
    (hen : env0.mmu.enabled ≠ 0)
    (h0 : pd0 < 2 ^ 32) (h1 : pd1 < 2 ^ 32)
    (hV : pd0 &&& d.PD0_V ≠ 0) (hG : pd0 &&& d.PD0_G = 0) (hS : pd0 &&& d.PD0_S = 0)
    (hA : pd0 &&& d.PD0_ASID = env0.mmu.pid_asid)
    (hv : vaddr < 0x80000000)
    (hvpn : VPN d env0.mmu_v3_page_size vaddr = VPN d env0.mmu_v3_page_size pd0)
    (hk : rwe = mmu_access_type.MMU_MEM_READ ∨ rwe = mmu_access_type.MMU_MEM_WRITE ∨
      rwe = mmu_access_type.MMU_MEM_FETCH)
    (hperm : pd1 &&& permBit d user rwe ≠ 0)
    (hws : env0.mmu.way_sel (setOf d env0 pd0) < d.N_WAYS)
    (hb : ∀ w, w < d.N_WAYS → wayBlocks d env0.mmu (setOf d env0 pd0) w = false)
    (hplain : ∀ w, w < d.N_WAYS →
      MatchRule d env0 vaddr (env0.mmu.nTLB (setOf d env0 pd0) w) →
      (env0.mmu.nTLB (setOf d env0 pd0) w).pd0 &&& d.PD0_G = 0
        ∧ (env0.mmu.nTLB (setOf d env0 pd0) w).pd0 &&& d.PD0_S = 0
        ∧ (env0.mmu.nTLB (setOf d env0 pd0) w).pd0 &&& d.PD0_SZ = pd0 &&& d.PD0_SZ)
    (hone : ∀ w w', w < d.N_WAYS → w' < d.N_WAYS →
      MatchRule d env0 vaddr (env0.mmu.nTLB (setOf d env0 pd0) w) →
      MatchRule d env0 vaddr (env0.mmu.nTLB (setOf d env0 pd0) w') → w = w') :
    ∃ env', arc_mmu_aux_set_tlbcmd d fuel
          (arc_mmu_aux_set (arc_mmu_aux_set env0 AuxId.tlbpd0 pd0) AuxId.tlbpd1 pd1)
          d.TLB_CMD_INSERT tlb0 index0 = .ok env'
      ∧ translateObs d { env' with Uf := user } vaddr rwe
          = some (true,
              some ((pd1 &&& d.MMU_V3_PAGE_MASK env0.mmu_v3_page_size)
                ||| (vaddr &&& not32 (d.MMU_V3_PAGE_MASK env0.mmu_v3_page_size))),
              { number := Excp.EXCP_NO_EXCEPTION, causecode := 0, parameter := 0 }) := by
  have hm0 : pd0 % 2 ^ 32 = pd0 := Nat.mod_eq_of_lt h0
  have hm1 : pd1 % 2 ^ 32 = pd1 := Nat.mod_eq_of_lt h1
  have hp0 : (arc_mmu_aux_set (arc_mmu_aux_set env0 AuxId.tlbpd0 pd0) AuxId.tlbpd1 pd1).mmu.tlbpd0
      = pd0 := hm0
  have hp1 : (arc_mmu_aux_set (arc_mmu_aux_set env0 AuxId.tlbpd0 pd0) AuxId.tlbpd1 pd1).mmu.tlbpd1
      = pd1 := hm1
  obtain ⟨env', index, hcmd, htr, hsz⟩ := insert_then_translate d fuel
    (arc_mmu_aux_set (arc_mmu_aux_set env0 AuxId.tlbpd0 pd0) AuxId.tlbpd1 pd1) tlb0 index0 vaddr
    rwe user hL hen (by rw [hp0]; exact hV) (by rw [hp0]; exact hG) (by rw [hp0]; exact hS)
    (by rw [hp0]; exact hA) hv (by rw [hp0]; exact hvpn) (by rw [hp0]; exact hws)
    (by rw [hp0]; exact hb) (by rw [hp0]; exact hplain) (by rw [hp0]; exact hone)
  refine ⟨env', hcmd, ?_⟩
  have hsz' : env'.mmu_v3_page_size = env0.mmu_v3_page_size := hsz
  have hperm' : arc_mmu_have_permission d { env' with Uf := user }
      { pd0 := pd0, pd1 := pd1 } rwe = true :=
    (have_permission_iff d { env' with Uf := user } { pd0 := pd0, pd1 := pd1 } rwe hk).2 hperm
  rw [hp0, hp1] at htr
  unfold translateObs
  rw [htr, translateFinish_granted d _ vaddr rwe index _ hperm']
  simp only [hsz']


/-- Witness for C4 (amended): set 2 already holds an entry of process 5 for the
page at 0x4000 (frame 0x80000); INSERT of (0x4205, 0x9007e) replaces it and a
kernel read of 0x4123 returns 0x90123. -/
theorem legacy_insert_round_trip_witness :
    ∃ env', arc_mmu_aux_set_tlbcmd arcDecls 8
          (arc_mmu_aux_set
            (arc_mmu_aux_set (v3With [{ pd0 := 0x4205, pd1 := 0x8007e }] 1) AuxId.tlbpd0 0x4205)
            AuxId.tlbpd1 0x9007e)
          arcDecls.TLB_CMD_INSERT (0, 0) 0 = .ok env'
      ∧ translateObs arcDecls { env' with Uf := false } 0x4123 mmu_access_type.MMU_MEM_READ
          = some (true,
              some ((0x9007e &&& arcDecls.MMU_V3_PAGE_MASK
                    (v3With [{ pd0 := 0x4205, pd1 := 0x8007e }] 1).mmu_v3_page_size)
                ||| (0x4123 &&& not32 (arcDecls.MMU_V3_PAGE_MASK
                    (v3With [{ pd0 := 0x4205, pd1 := 0x8007e }] 1).mmu_v3_page_size))),
              { number := Excp.EXCP_NO_EXCEPTION, causecode := 0, parameter := 0 }) :=
  legacy_insert_round_trip arcDecls 8 (v3With [{ pd0 := 0x4205, pd1 := 0x8007e }] 1) (0, 0) 0
    0x4205 0x9007e 0x4123 mmu_access_type.MMU_MEM_READ false arcDecls_layout (by decide)
    (by decide) (by decide) (by decide) (by decide) (by decide) (by decide) (by decide)
    (by decide) (Or.inl rfl) (by decide) (by decide) (by decide) (by decide)
    (fun w w' hw hw' =>
      (by decide : ∀ w, w < arcDecls.N_WAYS → ∀ w', w' < arcDecls.N_WAYS →
        MatchRule arcDecls (v3With [{ pd0 := 0x4205, pd1 := 0x8007e }] 1) 0x4123
          ((v3With [{ pd0 := 0x4205, pd1 := 0x8007e }] 1).mmu.nTLB
            (setOf arcDecls (v3With [{ pd0 := 0x4205, pd1 := 0x8007e }] 1) 0x4205) w) →
        MatchRule arcDecls (v3With [{ pd0 := 0x4205, pd1 := 0x8007e }] 1) 0x4123
          ((v3With [{ pd0 := 0x4205, pd1 := 0x8007e }] 1).mmu.nTLB
            (setOf arcDecls (v3With [{ pd0 := 0x4205, pd1 := 0x8007e }] 1) 0x4205) w') →
        w = w') w hw w' hw')

/-- C9: from the reset state (`arc_mmu_init_v3` with a page-size selector in
12..24, round-robin cursors being way numbers), after the MMU is enabled with
process id `p`, TLBPD0 is set to a valid descriptor of that process that is
neither global nor shared-library, TLBPD1 to a `pd1` with the kernel-read bit
and without the user-read bit, and INSERT is written: a read of any address of
the page below 0x80000000 fails under user privilege with
`(EXCP_PROTV, CAUSE_CODE(read), 0x08)` and succeeds under kernel privilege with
`(pd1 & MMU_V3_PAGE_MASK) | (vaddr & ~MMU_V3_PAGE_MASK)`. -/
theorem legacy_kernel_only_scenario (d : Decls) (fuel : Nat) (env0 envR : V3Env)
    (tlb0 : Nat × Nat) (index0 sel p pd0 pd1 vaddr : Nat)
    (hsel : 12 ≤ sel ∧ sel ≤ 24)
    (hL : LayoutOK d sel)
    (hinit : arc_mmu_init_v3 env0 sel = .ok envR)
    (hcur : ∀ s, env0.mmu.way_sel s < d.N_WAYS)
    (hp : p < 256)
    (h0 : pd0 < 2 ^ 32) (h1 : pd1 < 2 ^ 32)
    (hV : pd0 &&& d.PD0_V ≠ 0) (hG : pd0 &&& d.PD0_G = 0) (hS : pd0 &&& d.PD0_S = 0)
    (hA : pd0 &&& d.PD0_ASID = p)
    (hv : vaddr < 0x80000000)
    (hvpn : VPN d sel vaddr = VPN d sel pd0)
    (hRK : pd1 &&& d.PD1_RK ≠ 0) (hRU : pd1 &&& d.PD1_RU = 0) :
    ∃ env', arc_mmu_aux_set_tlbcmd d fuel
          (arc_mmu_aux_set (arc_mmu_aux_set
            (arc_mmu_aux_set envR AuxId.pid (0x80000000 + p)) AuxId.tlbpd0 pd0) AuxId.tlbpd1 pd1)
          d.TLB_CMD_INSERT tlb0 index0 = .ok env'
      ∧ translateObs d { env' with Uf := true } vaddr mmu_access_type.MMU_MEM_READ
          = some (false, none,
              { number := Excp.EXCP_PROTV,
                causecode := d.CAUSE_CODE mmu_access_type.MMU_MEM_READ, parameter := 0x08 })
      ∧ translateObs d { env' with Uf := false } vaddr mmu_access_type.MMU_MEM_READ
          = some (true,
              some ((pd1 &&& d.MMU_V3_PAGE_MASK sel) ||| (vaddr &&& not32 (d.MMU_V3_PAGE_MASK sel))),
              { number := Excp.EXCP_NO_EXCEPTION, causecode := 0, parameter := 0 }) := by
  have hselm : sel % 256 = sel := Nat.mod_eq_of_lt (by omega)
  have hR : envR = { env0 with
      mmu := { env0.mmu with
        enabled := 0, pid_asid := 0, sasid0 := 0, sasid1 := 0, tlbpd0 := 0, tlbpd1 := 0,
        tlbpd1_hi := 0, tlbindex := 0, tlbcmd := 0, scratch_data0 := 0,
        nTLB := fun _ _ => { pd0 := 0, pd1 := 0 } },
      mmu_v3_page_size := sel } := by
    unfold arc_mmu_init_v3 at hinit
    simp only [hselm] at hinit
    rw [if_neg (by omega)] at hinit
    injection hinit with h
    exact h.symm
  subst hR
  have hm0 : pd0 % 2 ^ 32 = pd0 := Nat.mod_eq_of_lt h0
  have hm1 : pd1 % 2 ^ 32 = pd1 := Nat.mod_eq_of_lt h1
  have hpid : (0x80000000 + p) &&& 0xff = p := by
    have := Nat.and_pow_two_sub_one_eq_mod (0x80000000 + p) 8
    simp only [show (2 : Nat) ^ 8 - 1 = 0xff from rfl] at this
    rw [this]
    omega
  have hena : ((0x80000000 + p) >>> 31) % 2 ^ 32 = 1 := by
    rw [Nat.shiftRight_eq_div_pow]
    omega
  generalize henv : arc_mmu_aux_set (arc_mmu_aux_set (arc_mmu_aux_set
    ({ env0 with
      mmu := { env0.mmu with
        enabled := 0, pid_asid := 0, sasid0 := 0, sasid1 := 0, tlbpd0 := 0, tlbpd1 := 0,
        tlbpd1_hi := 0, tlbindex := 0, tlbcmd := 0, scratch_data0 := 0,
        nTLB := fun _ _ => { pd0 := 0, pd1 := 0 } },
      mmu_v3_page_size := sel } : V3Env) AuxId.pid (0x80000000 + p)) AuxId.tlbpd0 pd0)
      AuxId.tlbpd1 pd1 = env
  have e_sz : env.mmu_v3_page_size = sel := by rw [← henv]; rfl
  have e_en : env.mmu.enabled = 1 := by rw [← henv]; exact hena
  have e_pid : env.mmu.pid_asid = p := by rw [← henv]; exact hpid
  have e_pd0 : env.mmu.tlbpd0 = pd0 := by rw [← henv]; exact hm0
  have e_pd1 : env.mmu.tlbpd1 = pd1 := by rw [← henv]; exact hm1
  have e_tlb : env.mmu.nTLB = fun _ _ => { pd0 := 0, pd1 := 0 } := by rw [← henv]; rfl
  have e_ws : env.mmu.way_sel = env0.mmu.way_sel := by rw [← henv]; rfl
  have hnorule : ∀ s w v, ¬ MatchRule d env v (env.mmu.nTLB s w) := by
    intro s w v hr
    rw [e_tlb] at hr
    exact hr.1 (Nat.zero_and _)
  have hmain : ∀ user, ∃ env' index,
      arc_mmu_aux_set_tlbcmd d fuel env d.TLB_CMD_INSERT tlb0 index0 = .ok env'
      ∧ arc_mmu_translate d { env' with Uf := user } vaddr mmu_access_type.MMU_MEM_READ
          = translateFinish d { env' with Uf := user } vaddr mmu_access_type.MMU_MEM_READ index
              { pd0 := pd0, pd1 := pd1 } true
      ∧ env'.mmu_v3_page_size = sel := by
    intro user
    have := insert_then_translate d fuel env tlb0 index0 vaddr mmu_access_type.MMU_MEM_READ user
      (by rw [e_sz]; exact hL) (by rw [e_en]; decide) (by rw [e_pd0]; exact hV)
      (by rw [e_pd0]; exact hG) (by rw [e_pd0]; exact hS) (by rw [e_pd0, e_pid]; exact hA) hv
      (by rw [e_sz, e_pd0]; exact hvpn) (by rw [e_ws]; exact hcur _)
      (by
        intro w _
        unfold wayBlocks
        rw [e_tlb]
        simp)
      (fun w _ hr => absurd hr (hnorule _ w vaddr))
      (fun w w' _ _ hr _ => absurd hr (hnorule _ w vaddr))
    rw [e_pd0, e_pd1, e_sz] at this
    exact this
  obtain ⟨env', index, hcmd, htrU, hszU⟩ := hmain true
  obtain ⟨env2, index2, hcmd2, htrK, _⟩ := hmain false
  rw [hcmd] at hcmd2
  injection hcmd2 with he
  subst he
  refine ⟨env', hcmd, ?_, ?_⟩
  · have hden : arc_mmu_have_permission d { env' with Uf := true } { pd0 := pd0, pd1 := pd1 }
        mmu_access_type.MMU_MEM_READ = false := by
      simp [arc_mmu_have_permission, hRU]
    unfold translateObs
    rw [htrU, translateFinish_denied d _ vaddr _ index _ hden]
  · have hgr : arc_mmu_have_permission d { env' with Uf := false } { pd0 := pd0, pd1 := pd1 }
        mmu_access_type.MMU_MEM_READ = true := by
      simp [arc_mmu_have_permission, hRK]
    unfold translateObs
    rw [htrK, translateFinish_granted d _ vaddr _ index2 _ hgr]
    simp only [hszU]

/-- Witness for C9: the scenario of section 8 of the specification (process id 5,
page 0x4000, frame 0x90000 with the kernel-read and kernel-write bits, 8 KiB
pages) on the zero-filled state. -/
theorem legacy_kernel_only_scenario_witness :
    ∃ env', arc_mmu_aux_set_tlbcmd arcDecls 8
          (arc_mmu_aux_set (arc_mmu_aux_set
            (arc_mmu_aux_set v3Reset AuxId.pid (0x80000000 + 5)) AuxId.tlbpd0 0x4205)
            AuxId.tlbpd1 0x90060)
          arcDecls.TLB_CMD_INSERT (0, 0) 0 = .ok env'
      ∧ translateObs arcDecls { env' with Uf := true } 0x4000 mmu_access_type.MMU_MEM_READ
          = some (false, none,
              { number := Excp.EXCP_PROTV,
                causecode := arcDecls.CAUSE_CODE mmu_access_type.MMU_MEM_READ,
                parameter := 0x08 })
      ∧ translateObs arcDecls { env' with Uf := false } 0x4000 mmu_access_type.MMU_MEM_READ
          = some (true,
              some ((0x90060 &&& arcDecls.MMU_V3_PAGE_MASK 13)
                ||| (0x4000 &&& not32 (arcDecls.MMU_V3_PAGE_MASK 13))),
              { number := Excp.EXCP_NO_EXCEPTION, causecode := 0, parameter := 0 }) :=
  legacy_kernel_only_scenario arcDecls 8 v3Zero v3Reset (0, 0) 0 13 5 0x4205 0x90060
    0x4000 (by decide) arcDecls_layout rfl (fun _ => (by decide : (0 : Nat) < 4)) (by decide)
    (by decide)
    (by decide) (by decide) (by decide) (by decide) (by decide) (by decide) (by decide)
    (by decide) (by decide)

/-! ### The single-match invariant -/

/-- C6 (counterexample): from reset, INSERT of a global entry for the page at
0x4000 followed by INSERT of an entry of process 5 for the same page leaves
slots (2, 0) and (2, 1) both valid and enabled for 0x4000; so does storing one
entry into slots 8 and 9 with WRITE. -/
theorem legacy_single_match_counterexample :
    (∃ env, fromReset arcDecls progGlobalThenProcess = .ok env
      ∧ MatchRule arcDecls env 0x4000 (env.mmu.nTLB 2 0)
      ∧ MatchRule arcDecls env 0x4000 (env.mmu.nTLB 2 1)
      ∧ ¬ SingleMatch arcDecls env)
    ∧ (∃ env, fromReset arcDecls progWriteTwice = .ok env
      ∧ MatchRule arcDecls env 0x4000 (env.mmu.nTLB 2 0)
      ∧ MatchRule arcDecls env 0x4000 (env.mmu.nTLB 2 1)
      ∧ ¬ SingleMatch arcDecls env) := by
  constructor
  · refine ⟨_, rfl, by decide, by decide, ?_⟩
    intro h
    have := (h 0x4000 2 0 2 1 (by decide) (by decide)).2
    cases this
  · refine ⟨_, rfl, by decide, by decide, ?_⟩
    intro h
    have := (h 0x4000 2 0 2 1 (by decide) (by decide)).2
    cases this


theorem lookup_cursor (d : Decls) (sz v cm : Nat) (mmu : arc_mmu) (hN : 0 < d.N_WAYS)
    (hcur : ∀ s, mmu.way_sel s < d.N_WAYS) :
    ∀ s, (arc_mmu_lookup_tlb d sz v cm mmu).mmu.way_sel s < d.N_WAYS := by
  intro s
  unfold arc_mmu_lookup_tlb
  simp only []
  split
  · exact hcur s
  · show (if s = _ then _ else _) < d.N_WAYS
    split
    · exact Nat.lt_of_le_of_lt Nat.and_le_right (by omega)
    · exact hcur s

/-- The DELETE command for a descriptor without the global bit whose scan finds
at most one entry: nothing changes in the TLB when nothing is found, and the
valid bit of the entry found is cleared otherwise. -/
theorem delete_cases (d : Decls) (fuel : Nat) (env : V3Env) (tlb0 : Nat × Nat) (index0 : Nat)
    (hL : LayoutOK d env.mmu_v3_page_size) (hG : env.mmu.tlbpd0 &&& d.PD0_G = 0) :
    (arc_mmu_lookup_tlb d env.mmu_v3_page_size env.mmu.tlbpd0
        (scanMask d env.mmu_v3_page_size ||| d.PD0_V) env.mmu).num_finds ≤ 1 →
    ∃ env', arc_mmu_aux_set_tlbcmd d fuel env d.TLB_CMD_DELETE tlb0 index0 = .ok env'
      ∧ env'.mmu.nTLB =
          (if (arc_mmu_lookup_tlb d env.mmu_v3_page_size env.mmu.tlbpd0
              (scanMask d env.mmu_v3_page_size ||| d.PD0_V) env.mmu).num_finds = 0
            then env.mmu.nTLB
            else setSlot env.mmu.nTLB
              (arc_mmu_lookup_tlb d env.mmu_v3_page_size env.mmu.tlbpd0
                (scanMask d env.mmu_v3_page_size ||| d.PD0_V) env.mmu).ret.1
              (arc_mmu_lookup_tlb d env.mmu_v3_page_size env.mmu.tlbpd0
                (scanMask d env.mmu_v3_page_size ||| d.PD0_V) env.mmu).ret.2
              { env.mmu.nTLB
                  (arc_mmu_lookup_tlb d env.mmu_v3_page_size env.mmu.tlbpd0
                    (scanMask d env.mmu_v3_page_size ||| d.PD0_V) env.mmu).ret.1
                  (arc_mmu_lookup_tlb d env.mmu_v3_page_size env.mmu.tlbpd0
                    (scanMask d env.mmu_v3_page_size ||| d.PD0_V) env.mmu).ret.2 with
                pd0 := (env.mmu.nTLB
                  (arc_mmu_lookup_tlb d env.mmu_v3_page_size env.mmu.tlbpd0
                    (scanMask d env.mmu_v3_page_size ||| d.PD0_V) env.mmu).ret.1
                  (arc_mmu_lookup_tlb d env.mmu_v3_page_size env.mmu.tlbpd0
                    (scanMask d env.mmu_v3_page_size ||| d.PD0_V) env.mmu).ret.2).pd0
                  &&& not32 d.PD0_V })
      ∧ env'.mmu.way_sel = (arc_mmu_lookup_tlb d env.mmu_v3_page_size env.mmu.tlbpd0
            (scanMask d env.mmu_v3_page_size ||| d.PD0_V) env.mmu).mmu.way_sel
      ∧ env'.mmu_v3_page_size = env.mmu_v3_page_size := by
  intro hle
  obtain ⟨hi1, hi2, hi3⟩ := hL.cmd_delete
  have hi4 : d.TLB_CMD_DELETE ≠ d.TLB_CMD_INSERT := fun h => hL.cmd_insert.2.2.2 h.symm
  unfold arc_mmu_aux_set_tlbcmd
  simp only [hi1, hi2, hi3, hi4, hG, or_self, if_false, or_true, if_true, ne_eq,
    not_true_eq_false, true_or, bind, Except.bind, pure, Except.pure, lookup_tlbcmd]
  have hmask : ((d.PD0_VPN ||| d.PD0_SZ ||| d.PD0_G ||| d.PD0_S ||| d.PD0_ASID) &&&
      (VPN d env.mmu_v3_page_size d.PD0_VPN ||| not32 d.PD0_VPN) ||| d.PD0_V)
      = scanMask d env.mmu_v3_page_size ||| d.PD0_V := rfl
  rw [hmask]
  obtain ⟨hn, _⟩ := lookup_mmu_fields d env.mmu_v3_page_size
    env.mmu.tlbpd0 (scanMask d env.mmu_v3_page_size ||| d.PD0_V) env.mmu
  generalize arc_mmu_lookup_tlb d env.mmu_v3_page_size env.mmu.tlbpd0
    (scanMask d env.mmu_v3_page_size ||| d.PD0_V) env.mmu = r at *
  by_cases h0 : r.num_finds = 0
  · simp only [h0, if_true]
    exact ⟨_, rfl, hn, rfl, rfl⟩
  · have h1 : r.num_finds = 1 := by omega
    simp only [h0, h1, if_false, if_true]
    refine ⟨_, rfl, ?_, rfl, rfl⟩
    simp only [clearValid, hn]
    rw [if_neg (by decide)]

/-- The READ command changes no TLB entry, no cursor and not the page size. -/
theorem read_effect (d : Decls) (fuel : Nat) (env : V3Env) (tlb0 : Nat × Nat) (index0 : Nat)
    (hL : LayoutOK d env.mmu_v3_page_size) :
    ∃ env', arc_mmu_aux_set_tlbcmd d fuel env d.TLB_CMD_READ tlb0 index0 = .ok env'
      ∧ env'.mmu.nTLB = env.mmu.nTLB ∧ env'.mmu.way_sel = env.mmu.way_sel
      ∧ env'.mmu_v3_page_size = env.mmu_v3_page_size := by
  obtain ⟨hr1, hr2⟩ := hL.cmd_read
  have hr3 : d.TLB_CMD_READ ≠ d.TLB_CMD_DELETE := fun h => hL.cmd_delete.2.2 h.symm
  have hr4 : d.TLB_CMD_READ ≠ d.TLB_CMD_INSERT := fun h => hL.cmd_insert.2.2.1 h.symm
  unfold arc_mmu_aux_set_tlbcmd
  simp only [hr1, hr2, hr3, hr4, or_self, if_false, or_true, if_true, true_or, bind, Except.bind,
    pure, Except.pure]
  exact ⟨_, rfl, rfl, rfl, rfl⟩

theorem setReg_effect (env : V3Env) (id : AuxId) (val : Nat) :
    (arc_mmu_aux_set env id val).mmu.nTLB = env.mmu.nTLB
      ∧ (arc_mmu_aux_set env id val).mmu.way_sel = env.mmu.way_sel
      ∧ (arc_mmu_aux_set env id val).mmu_v3_page_size = env.mmu_v3_page_size := by
  cases id <;> exact ⟨rfl, rfl, rfl⟩


theorem setOf_sz (d : Decls) (env env' : V3Env) (x : Nat)
    (hsz : env'.mmu_v3_page_size = env.mmu_v3_page_size) : setOf d env' x = setOf d env x := by
  unfold setOf
  rw [hsz]

/-- The invariant survives the replacement of one slot by a plain entry that,
when valid, is stored in its home set in a way below `N_WAYS` and duplicates no
other valid entry of that set. -/
theorem inv_setSlot (d : Decls) (env env' : V3Env) (s0 w0 : Nat) (n : arc_tlb_e)
    (hinv : TlbInv d env)
    (hsz : env'.mmu_v3_page_size = env.mmu_v3_page_size)
    (hn : env'.mmu.nTLB = setSlot env.mmu.nTLB s0 w0 n)
    (hplain : n.pd0 &&& d.PD0_G = 0 ∧ n.pd0 &&& d.PD0_S = 0 ∧ n.pd0 &&& d.PD0_SZ = 0)
    (hvalid : n.pd0 &&& d.PD0_V ≠ 0 →
      s0 = setOf d env n.pd0 ∧ w0 < d.N_WAYS
      ∧ ∀ w', w' ≠ w0 → (env.mmu.nTLB s0 w').pd0 &&& d.PD0_V ≠ 0 →
          VPN d env.mmu_v3_page_size (env.mmu.nTLB s0 w').pd0
            = VPN d env.mmu_v3_page_size n.pd0 →
          (env.mmu.nTLB s0 w').pd0 &&& d.PD0_ASID = n.pd0 &&& d.PD0_ASID → False)
    (hcur : ∀ s, env'.mmu.way_sel s < d.N_WAYS) : TlbInv d env' := by
  have hentry : ∀ s w, env'.mmu.nTLB s w = if s = s0 ∧ w = w0 then n else env.mmu.nTLB s w := by
    intro s w
    rw [hn]
    rfl
  constructor
  · intro s w
    rw [hentry]
    split
    · exact hplain
    · exact hinv.plain s w
  · intro s w
    rw [hentry, setOf_sz d env env' _ hsz]
    split
    · rename_i h
      intro hv
      obtain ⟨h1, h2, _⟩ := hvalid hv
      rw [h.1, h.2]
      exact ⟨h1, h2⟩
    · exact hinv.home s w
  · intro s w w'
    rw [hentry s w, hentry s w', hsz]
    by_cases h1 : s = s0 ∧ w = w0
    · by_cases h2 : s = s0 ∧ w' = w0
      · intro _ _ _ _
        rw [h1.2, h2.2]
      · rw [if_pos h1, if_neg h2]
        intro hv hv' hvpn hasid
        obtain ⟨_, _, h3⟩ := hvalid hv
        have hne : w' ≠ w0 := fun h => h2 ⟨h1.1, h⟩
        rw [h1.1] at hv' hvpn hasid
        exact absurd (h3 w' hne hv' hvpn.symm hasid.symm) id
    · by_cases h2 : s = s0 ∧ w' = w0
      · rw [if_neg h1, if_pos h2]
        intro hv hv' hvpn hasid
        obtain ⟨_, _, h3⟩ := hvalid hv'
        have hne : w ≠ w0 := fun h => h1 ⟨h2.1, h⟩
        rw [h2.1] at hv hvpn hasid
        exact absurd (h3 w hne hv hvpn hasid) id
      · rw [if_neg h1, if_neg h2]
        exact hinv.uniq s w w'
  · exact hcur

/-- Under the invariant no page has two valid, enabled slots. -/
theorem inv_single (d : Decls) (env : V3Env) (hL : LayoutOK d env.mmu_v3_page_size)
    (hinv : TlbInv d env) : SingleMatch d env := by
  intro vaddr s w s' w' hr hr'
  obtain ⟨hV, hvpn, hk⟩ := hr
  obtain ⟨hV', hvpn', hk'⟩ := hr'
  obtain ⟨pG, pS, _⟩ := hinv.plain s w
  obtain ⟨pG', pS', _⟩ := hinv.plain s' w'
  have hA : (env.mmu.nTLB s w).pd0 &&& d.PD0_ASID = env.mmu.pid_asid := by
    rcases hk with h | ⟨_, h, _⟩ | ⟨_, _, h⟩
    · exact absurd pG h
    · exact absurd pS h
    · exact h
  have hA' : (env.mmu.nTLB s' w').pd0 &&& d.PD0_ASID = env.mmu.pid_asid := by
    rcases hk' with h | ⟨_, h, _⟩ | ⟨_, _, h⟩
    · exact absurd pG' h
    · exact absurd pS' h
    · exact h
  have hvv : VPN d env.mmu_v3_page_size (env.mmu.nTLB s w).pd0
      = VPN d env.mmu_v3_page_size (env.mmu.nTLB s' w').pd0 := by
    rw [← hvpn, hvpn']
  obtain ⟨hs, _⟩ := hinv.home s w hV
  obtain ⟨hs', _⟩ := hinv.home s' w' hV'
  have hset : setOf d env (env.mmu.nTLB s w).pd0 = setOf d env (env.mmu.nTLB s' w').pd0 := by
    unfold setOf
    apply setIdx_congr d _ _ _ hL
    rw [Nat.and_or_distrib_left, Nat.and_or_distrib_left, pS, pS', ← VPN_eq, ← VPN_eq, hvv]
  have hss : s = s' := by
    rw [hs, hs', hset]
  subst hss
  exact ⟨rfl, hinv.uniq s w w' hV hV' hvv (by rw [hA, hA'])⟩

/-- Under the invariant, at most one way of a set is found by the scan of
INSERT or DELETE for a descriptor as in `PlainDesc`. -/
theorem inv_scan_unique (d : Decls) (env : V3Env) (hL : LayoutOK d env.mmu_v3_page_size)
    (hinv : TlbInv d env) (hA : env.mmu.tlbpd0 &&& d.PD0_ASID = env.mmu.pid_asid)
    (hV : env.mmu.tlbpd0 &&& d.PD0_V ≠ 0) (set w w' : Nat)
    (hc : wayCompare d env.mmu env.mmu.tlbpd0 (scanMask d env.mmu_v3_page_size ||| d.PD0_V)
      set w = true)
    (hc' : wayCompare d env.mmu env.mmu.tlbpd0 (scanMask d env.mmu_v3_page_size ||| d.PD0_V)
      set w' = true) : w = w' := by
  have hpid : env.mmu.tlbpd0 &&& d.PD0_ASID = env.mmu.pid_asid &&& d.PD0_ASID := by
    rw [← hA, Nat.and_assoc, Nat.and_self]
  rw [scan_compare_iff d env.mmu _ _ set w hL hpid, scan_fields d _ _ _ hL] at hc
  rw [scan_compare_iff d env.mmu _ _ set w' hL hpid, scan_fields d _ _ _ hL] at hc'
  obtain ⟨f1, _, _, _, f5, f6⟩ := hc
  obtain ⟨g1, _, _, _, g5, g6⟩ := hc'
  apply hinv.uniq set w w'
  · rw [← f6]
    exact hV
  · rw [← g6]
    exact hV
  · rw [VPN_eq, VPN_eq, ← f1, g1]
  · rw [← f5, g5]


theorem inv_congr (d : Decls) (env env' : V3Env) (hinv : TlbInv d env)
    (hsz : env'.mmu_v3_page_size = env.mmu_v3_page_size)
    (hn : env'.mmu.nTLB = env.mmu.nTLB)
    (hcur : ∀ s, env'.mmu.way_sel s < d.N_WAYS) : TlbInv d env' := by
  constructor
  · intro s w
    rw [hn]
    exact hinv.plain s w
  · intro s w
    rw [hn, setOf_sz d env env' _ hsz]
    exact hinv.home s w
  · intro s w w'
    rw [hn, hsz]
    exact hinv.uniq s w w'
  · exact hcur

theorem inv_no_blocks (d : Decls) (env : V3Env) (hinv : TlbInv d env) (set w : Nat) :
    wayBlocks d env.mmu set w = false := by
  unfold wayBlocks
  simp [(hinv.plain set w).2.1]

theorem inv_insert (d : Decls) (fuel : Nat) (env : V3Env) (tlb0 : Nat × Nat) (index0 : Nat)
    (hL : LayoutOK d env.mmu_v3_page_size) (hinv : TlbInv d env) (hpd : PlainDesc d env) :
    ∃ env', arc_mmu_aux_set_tlbcmd d fuel env d.TLB_CMD_INSERT tlb0 index0 = .ok env'
      ∧ TlbInv d env' ∧ env'.mmu_v3_page_size = env.mmu_v3_page_size := by
  obtain ⟨hV, hG, hS, hSZ, hA⟩ := hpd
  obtain ⟨wstar, hwstar, hle, hret, hothers, _⟩ :=
    lookup_at_most_one d env.mmu_v3_page_size env.mmu.tlbpd0
      (scanMask d env.mmu_v3_page_size ||| d.PD0_V) env.mmu
      (fun w _ => inv_no_blocks d env hinv _ w)
      (fun w w' _ _ hc hc' => inv_scan_unique d env hL hinv hA hV _ w w' hc hc')
      (hinv.cursor _)
  obtain ⟨env', hcmd, hn, hws, _, _, _, _, _, _, hsz, _⟩ :=
    insert_cases d fuel env tlb0 index0 hL hV hG hle
  rw [hret] at hn
  have hpid : env.mmu.tlbpd0 &&& d.PD0_ASID = env.mmu.pid_asid &&& d.PD0_ASID := by
    rw [← hA, Nat.and_assoc, Nat.and_self]
  have hv1 : env.mmu.tlbpd0 &&& d.PD0_V = d.PD0_V := by
    rcases single_bit_cases env.mmu.tlbpd0 d.PD0_V hL.v_bit with h | h
    · exact absurd h hV
    · exact h
  refine ⟨env', hcmd, ?_, hsz⟩
  apply inv_setSlot d env env' _ wstar _ hinv hsz hn ⟨hG, hS, hSZ⟩
  · intro _
    refine ⟨rfl, hwstar, ?_⟩
    intro w' hne hv' hvpn hasid
    obtain ⟨_, hw'⟩ := hinv.home _ w' hv'
    obtain ⟨pG, pS, pSZ⟩ := hinv.plain
      ((env.mmu.tlbpd0 >>> d.MMU_V3_PAGE_BITS env.mmu_v3_page_size) &&& (d.N_SETS - 1)) w'
    have hv2 : (env.mmu.nTLB
        ((env.mmu.tlbpd0 >>> d.MMU_V3_PAGE_BITS env.mmu_v3_page_size) &&& (d.N_SETS - 1)) w').pd0
        &&& d.PD0_V = d.PD0_V := by
      rcases single_bit_cases (env.mmu.nTLB
        ((env.mmu.tlbpd0 >>> d.MMU_V3_PAGE_BITS env.mmu_v3_page_size) &&& (d.N_SETS - 1)) w').pd0
        d.PD0_V hL.v_bit with h | h
      · exact absurd h hv'
      · exact h
    have hc : wayCompare d env.mmu env.mmu.tlbpd0 (scanMask d env.mmu_v3_page_size ||| d.PD0_V)
        ((env.mmu.tlbpd0 >>> d.MMU_V3_PAGE_BITS env.mmu_v3_page_size) &&& (d.N_SETS - 1)) w'
        = true := by
      rw [scan_compare_iff d env.mmu _ _ _ w' hL hpid, scan_fields d _ _ _ hL]
      refine ⟨?_, ?_, ?_, ?_, hasid.symm, ?_⟩
      · rw [← VPN_eq, ← VPN_eq, hvpn]
      · rw [hSZ, pSZ]
      · rw [hG, pG]
      · rw [hS, pS]
      · rw [hv1, hv2]
    rw [hothers w' hw' hne] at hc
    cases hc
  · rw [hws]
    exact lookup_cursor d _ _ _ env.mmu hL.ways_pos hinv.cursor

theorem inv_delete (d : Decls) (fuel : Nat) (env : V3Env) (tlb0 : Nat × Nat) (index0 : Nat)
    (hL : LayoutOK d env.mmu_v3_page_size) (hinv : TlbInv d env) (hpd : PlainDesc d env) :
    ∃ env', arc_mmu_aux_set_tlbcmd d fuel env d.TLB_CMD_DELETE tlb0 index0 = .ok env'
      ∧ TlbInv d env' ∧ env'.mmu_v3_page_size = env.mmu_v3_page_size := by
  obtain ⟨hV, hG, hS, hSZ, hA⟩ := hpd
  obtain ⟨wstar, hwstar, hle, hret, hothers, _⟩ :=
    lookup_at_most_one d env.mmu_v3_page_size env.mmu.tlbpd0
      (scanMask d env.mmu_v3_page_size ||| d.PD0_V) env.mmu
      (fun w _ => inv_no_blocks d env hinv _ w)
      (fun w w' _ _ hc hc' => inv_scan_unique d env hL hinv hA hV _ w w' hc hc')
      (hinv.cursor _)
  obtain ⟨env', hcmd, hn, hws, hsz⟩ := delete_cases d fuel env tlb0 index0 hL hG hle
  have hcur : ∀ s, env'.mmu.way_sel s < d.N_WAYS := by
    rw [hws]
    exact lookup_cursor d _ _ _ env.mmu hL.ways_pos hinv.cursor
  refine ⟨env', hcmd, ?_, hsz⟩
  by_cases h0 : (arc_mmu_lookup_tlb d env.mmu_v3_page_size env.mmu.tlbpd0
      (scanMask d env.mmu_v3_page_size ||| d.PD0_V) env.mmu).num_finds = 0
  · rw [if_pos h0] at hn
    exact inv_congr d env env' hinv hsz hn hcur
  · rw [if_neg h0] at hn
    obtain ⟨wG, wS, wSZ, _⟩ := hL.words
    have hvlt := single_bit_lt d.PD0_V hL.v_bit
    apply inv_setSlot d env env' _ _ _ hinv hsz hn
    · obtain ⟨pG, pS, pSZ⟩ := hinv.plain
        (arc_mmu_lookup_tlb d env.mmu_v3_page_size env.mmu.tlbpd0
          (scanMask d env.mmu_v3_page_size ||| d.PD0_V) env.mmu).ret.1
        (arc_mmu_lookup_tlb d env.mmu_v3_page_size env.mmu.tlbpd0
          (scanMask d env.mmu_v3_page_size ||| d.PD0_V) env.mmu).ret.2
      refine ⟨?_, ?_, ?_⟩
      · show (_ &&& not32 d.PD0_V) &&& d.PD0_G = 0
        rw [and_not32_other _ _ _ hL.v_g wG, pG]
      · show (_ &&& not32 d.PD0_V) &&& d.PD0_S = 0
        rw [and_not32_other _ _ _ hL.v_s wS, pS]
      · show (_ &&& not32 d.PD0_V) &&& d.PD0_SZ = 0
        rw [and_not32_other _ _ _ hL.v_sz wSZ, pSZ]
    · intro hv
      exact absurd (and_not32_self _ _ hvlt) hv
    · exact hcur

/-- One restricted driver step completes and preserves the invariant. -/
theorem inv_step (d : Decls) (fuel : Nat) (env : V3Env) (op : V3Op)
    (hL : LayoutOK d env.mmu_v3_page_size) (hinv : TlbInv d env) (hop : Restricted d env op) :
    ∃ env', runOp d fuel env op = .ok env' ∧ TlbInv d env'
      ∧ env'.mmu_v3_page_size = env.mmu_v3_page_size := by
  cases op with
  | setReg id val =>
    obtain ⟨hn, hw, hsz⟩ := setReg_effect env id val
    refine ⟨_, rfl, inv_congr d env _ hinv hsz hn ?_, hsz⟩
    rw [hw]
    exact hinv.cursor
  | command val =>
    rcases hop with hr | ⟨hid, hpd⟩
    · subst hr
      obtain ⟨env', hcmd, hn, hw, hsz⟩ := read_effect d fuel env (0, 0) 0 hL
      refine ⟨env', hcmd, inv_congr d env env' hinv hsz hn ?_, hsz⟩
      rw [hw]
      exact hinv.cursor
    · rcases hid with hi | hdl
      · subst hi
        exact inv_insert d fuel env (0, 0) 0 hL hinv hpd
      · subst hdl
        exact inv_delete d fuel env (0, 0) 0 hL hinv hpd

theorem inv_run (d : Decls) (fuel : Nat) (ops : List V3Op) :
    ∀ env, LayoutOK d env.mmu_v3_page_size → TlbInv d env → RestrictedRun d fuel env ops →
      ∃ env', runOps d fuel env ops = .ok env' ∧ TlbInv d env'
        ∧ env'.mmu_v3_page_size = env.mmu_v3_page_size := by
  induction ops with
  | nil =>
    intro env _ hinv _
    exact ⟨env, rfl, hinv, rfl⟩
  | cons op ops ih =>
    intro env hL hinv hrun
    obtain ⟨hop, hrest⟩ := hrun
    obtain ⟨env1, h1, hinv1, hsz1⟩ := inv_step d fuel env op hL hinv hop
    obtain ⟨env2, h2, hinv2, hsz2⟩ := ih env1 (by rw [hsz1]; exact hL) hinv1 (hrest env1 h1)
    refine ⟨env2, ?_, hinv2, by rw [hsz2, hsz1]⟩
    simp only [runOps, h1, h2]

/-- C6 (amended): starting from the reset state (`arc_mmu_init_v3` with a
page-size selector in 12..24, the round-robin cursors being way numbers), every
sequence of register writes (TLBPD0, TLBPD1, TLBINDEX, PID and the others) and of
READ, INSERT and DELETE commands, in which each INSERT and DELETE is issued with
a TLBPD0 that is valid, neither global nor shared-library, of normal size and
carries the live process id, runs to completion and leaves no virtual page with
two distinct TLB slots both valid and enabled. -/
theorem legacy_single_match_restricted (d : Decls) (fuel sel : Nat) (env0 envR : V3Env)
    (ops : List V3Op)
    (hsel : 12 ≤ sel ∧ sel ≤ 24)
    (hL : LayoutOK d sel)
    (hinit : arc_mmu_init_v3 env0 sel = .ok envR)
    (hcur : ∀ s, env0.mmu.way_sel s < d.N_WAYS)
    (hrun : RestrictedRun d fuel envR ops) :
    ∃ env', runOps d fuel envR ops = .ok env' ∧ SingleMatch d env' := by
  have hselm : sel % 256 = sel := Nat.mod_eq_of_lt (by omega)
  have hR : envR = { env0 with
      mmu := { env0.mmu with
        enabled := 0, pid_asid := 0, sasid0 := 0, sasid1 := 0, tlbpd0 := 0, tlbpd1 := 0,
        tlbpd1_hi := 0, tlbindex := 0, tlbcmd := 0, scratch_data0 := 0,
        nTLB := fun _ _ => { pd0 := 0, pd1 := 0 } },
      mmu_v3_page_size := sel } := by
    unfold arc_mmu_init_v3 at hinit
    simp only [hselm] at hinit
    rw [if_neg (by omega)] at hinit
    injection hinit with h
    exact h.symm
  have hszR : envR.mmu_v3_page_size = sel := by rw [hR]
  have hinvR : TlbInv d envR := by
    rw [hR]
    constructor
    · intro s w
      exact ⟨Nat.zero_and _, Nat.zero_and _, Nat.zero_and _⟩
    · intro s w hv
      exact absurd (Nat.zero_and _) hv
    · intro s w w' hv
      exact absurd (Nat.zero_and _) hv
    · exact hcur
  obtain ⟨env', hrun', hinv', hsz'⟩ := inv_run d fuel ops envR (by rw [hszR]; exact hL) hinvR hrun
  exact ⟨env', hrun', inv_single d env' (by rw [hsz', hszR]; exact hL) hinv'⟩


theorem restrictedRun_of_check (d : Decls) (fuel : Nat) (ops : List V3Op) :
    ∀ env, restrictedCheck d fuel env ops = true → RestrictedRun d fuel env ops := by
  induction ops with
  | nil =>
    intro env _
    exact True.intro
  | cons op ops ih =>
    intro env h
    simp only [restrictedCheck, Bool.and_eq_true, decide_eq_true_eq] at h
    refine ⟨h.1, ?_⟩
    intro env' hrun
    have h2 := h.2
    rw [hrun] at h2
    exact ih env' h2

/-- Witness for C6 (amended): the program `progRestricted` (two processes insert
the page at 0x4000, process 5 re-inserts it, reads it back and deletes it) on the
reset state with 8 KiB pages. -/
theorem legacy_single_match_restricted_witness :
    ∃ env', runOps arcDecls 8 v3Reset progRestricted = .ok env' ∧ SingleMatch arcDecls env' :=
  legacy_single_match_restricted arcDecls 8 13 v3Zero v3Reset progRestricted (by decide)
    arcDecls_layout rfl (fun _ => (by decide : (0 : Nat) < 4))
    (restrictedRun_of_check arcDecls 8 progRestricted v3Reset (by decide))


/-! ### The access flag in the radix walker -/

theorem walk_reaches_eq (d : Decls) (s : V6State) (vaddr : Nat) (rwe : mmu_access_type)
    (pte0 n l root rem perms pte fs : Nat)
    (h : WalkReaches d s vaddr rwe pte0 n l root rem perms pte fs) :
    ∃ root0 valid, root_ptr_for_vaddr s vaddr = .ok (root0, valid)
      ∧ (valid = true ∨ mmuFault rwe 0x00 (d.CAUSE_CODE rwe) = none)
      ∧ walkLoop d s vaddr rwe (NLEVELS s) 0 root0 (VADDR_SIZE s % 256) 0 pte0 s.mmu_fault_status
          = walkLoop d s vaddr rwe n l root rem perms pte fs := by
  induction h with
  | entry root valid hroot hv => exact ⟨root, valid, hroot, hv, rfl⟩
  | next n l root rem perms pte fs rem' e fs' _ hload hhead hinv ih =>
    obtain ⟨root0, valid, hroot, hv, heq⟩ := ih
    refine ⟨root0, valid, hroot, hv, ?_⟩
    rw [heq, walkLoop]
    simp only [hload, bind, Except.bind, hhead]
    rcases hinv with hi | hi
    · simp [hi]
    · simp [hi]

/-- A walk that leaves the loop by `return -1` with a fault descriptor makes
`arc_get_physical_addr_v6` report the fault: a probe returns false, a live
request raises the descriptor; `*paddr` holds -1 and `mmu_fault_status` the
value the loop left. -/
theorem get_phys_of_walk_fault (d : Decls) (env : V6Env) (vaddr : Nat) (rwe : mmu_access_type)
    (probe : Bool) (junk : mem_exception) (pte0 root0 fs : Nat) (valid : Bool)
    (x : mem_exception)
    (hen : MMU_ENABLED env.st = true)
    (hlt : vaddr < 2 ^ d.TARGET_LONG_BITS)
    (hroot : root_ptr_for_vaddr env.st vaddr = .ok (root0, valid))
    (hv : valid = true ∨ mmuFault rwe 0x00 (d.CAUSE_CODE rwe) = none)
    (hx : x.number ≠ Excp.EXCP_NO_EXCEPTION)
    (hloop : walkLoop d env.st vaddr rwe (NLEVELS env.st) 0 root0 (VADDR_SIZE env.st % 256) 0 pte0
        env.st.mmu_fault_status = .ok (LoopExit.returned x fs)) :
    arc_get_physical_addr_v6 d env vaddr rwe probe junk pte0
      = .ok (if probe then GetPhys.returned false (some (minusOne d))
             else GetPhys.raised (some (minusOne d)) x,
             { st := { env.st with mmu_fault_status := fs },
               exception_number := Excp.EXCP_NO_EXCEPTION }) := by
  have hmod : vaddr % 2 ^ d.TARGET_LONG_BITS = vaddr := Nat.mod_eq_of_lt hlt
  have hsome : (if valid = false then mmuFault rwe 0x00 (d.CAUSE_CODE rwe) else none)
      = none := by
    rcases hv with h | h
    · simp [h]
    · simp [h]
  unfold arc_get_physical_addr_v6 arc_mmuv6_translate page_table_traverse
  simp only [mmuv6_decide_action, hen, if_true, hmod, bind, Except.bind, hroot, hsome, hloop,
    pure, Except.pure]
  cases probe <;> simp [hx]

/-- For a read, write, fetch or irrelevant access, in every
geometry profile and privilege, if the walk for `vaddr` reaches a loop iteration
whose loaded entry is a block or page descriptor with the access flag clear,
then `arc_get_physical_addr_v6` reports a fault: the descriptor is an
instruction- or data-MMU fault, a probe returns false and a live request raises
it, `*paddr` holds -1 and `mmu_fault_status` the level. -/
theorem radix_af_clear_reports_fault (d : Decls) (env : V6Env) (vaddr : Nat)
    (rwe : mmu_access_type) (probe : Bool) (junk : mem_exception)
    (pte0 n l root rem perms pte fs rem' e : Nat)
    (hen : MMU_ENABLED env.st = true)
    (hlt : vaddr < 2 ^ d.TARGET_LONG_BITS)
    (hrwe : rwe ≠ mmu_access_type.MMU_MEM_ATTOMIC)
    (hreach : WalkReaches d env.st vaddr rwe pte0 (n + 1) l root rem perms pte fs)
    (hload : loadEntry d env.st vaddr l root rem = .ok (rem', e))
    (hdesc : PTE_IS_BLOCK_DESCRIPTOR env.st e l = true ∨ PTE_IS_PAGE_DESCRIPTOR env.st e l = true)
    (haf : PTE_BLK_AF e = false) :
    ∃ x : mem_exception,
      (x.number = Excp.EXCP_IMMU_FAULT ∨ x.number = Excp.EXCP_DMMU_FAULT)
      ∧ arc_get_physical_addr_v6 d env vaddr rwe probe junk pte0
          = .ok (if probe then GetPhys.returned false (some (minusOne d))
                 else GetPhys.raised (some (minusOne d)) x,
                 { st := { env.st with mmu_fault_status := l &&& 0x7 },
                   exception_number := Excp.EXCP_NO_EXCEPTION }) := by
  obtain ⟨root0, valid, hroot, hv, heq⟩ :=
    walk_reaches_eq d env.st vaddr rwe pte0 (n + 1) l root rem perms pte fs hreach
  obtain ⟨x, hloop, hx⟩ :=
    walkLoop_af_clear_faults d env.st vaddr rwe n l root rem rem' perms pte fs e hload hdesc haf
      hrwe
  refine ⟨x, hx, ?_⟩
  have hne : x.number ≠ Excp.EXCP_NO_EXCEPTION := by
    rcases hx with h | h <;> rw [h] <;> decide
  exact get_phys_of_walk_fault d env vaddr rwe probe junk pte0 root0 (l &&& 0x7) valid x hen hlt
    hroot hv hne (heq.trans hloop)

/-- Instance: a live read of 0x202123 through the tables whose
level-2 page descriptor 0x90003 has the access flag clear. -/
theorem radix_af_clear_reports_fault_witness :
    ∃ x : mem_exception,
      (x.number = Excp.EXCP_IMMU_FAULT ∨ x.number = Excp.EXCP_DMMU_FAULT)
      ∧ arc_get_physical_addr_v6 arcDecls ⟨v6NoAF, Excp.EXCP_NO_EXCEPTION⟩ 0x202123
            mmu_access_type.MMU_MEM_READ false ⟨Excp.EXCP_NO_EXCEPTION, 0, 0⟩ 0
          = .ok (GetPhys.raised (some (minusOne arcDecls)) x,
                 { st := { v6NoAF with mmu_fault_status := 2 },
                   exception_number := Excp.EXCP_NO_EXCEPTION }) :=
  radix_af_clear_reports_fault arcDecls ⟨v6NoAF, Excp.EXCP_NO_EXCEPTION⟩ 0x202123
    mmu_access_type.MMU_MEM_READ false ⟨Excp.EXCP_NO_EXCEPTION, 0, 0⟩
    0 0 2 0x3000 21 0 0x3003 0 12 0x90003
    rfl (by decide) (by decide)
    (WalkReaches.next 1 1 0x2000 30 0 0x2003 0 21 0x3003 0
      (WalkReaches.next 2 0 0x1000 32 0 0 0 30 0x2003 0
        (WalkReaches.entry 0x1000 true rfl (Or.inl rfl)) rfl rfl (Or.inl rfl))
      rfl rfl (Or.inl rfl))
    rfl (Or.inr rfl) rfl


/-! ### Translations that find no entry -/

theorem lookup_fold_nofind (d : Decls) (mmu : arc_mmu) (v cm set n : Nat)
    (h : ∀ w, w < n → wayCompare d mmu v cm set w = true → wayBlocks d mmu set w = true) :
    ∃ g, (List.range n).foldl (lookupStep d mmu v cm set)
        { ret := none, num_finds := 0, index := none, general_match := true }
      = { ret := none, num_finds := 0, index := none, general_match := g } := by
  induction n with
  | zero => exact ⟨true, rfl⟩
  | succ n ih =>
    obtain ⟨g, hg⟩ := ih (fun w hw => h w (by omega))
    rw [List.range_succ, List.foldl_append, hg]
    by_cases hc : wayCompare d mmu v cm set n = true
    · have hb := h n (by omega) hc
      exact ⟨false, by simp [lookupStep_eq, hc, hb]⟩
    · exact ⟨(if wayBlocks d mmu set n = true then false else g), by simp [lookupStep_eq, hc]⟩

/-- A lookup in which every way whose comparison succeeds is itself a blocking
way finds nothing: it hands back the slot under the round-robin cursor and
advances the cursor. -/
theorem lookup_miss (d : Decls) (sz v cm : Nat) (mmu : arc_mmu)
    (h : ∀ w, w < d.N_WAYS →
      wayCompare d mmu v cm ((v >>> d.MMU_V3_PAGE_BITS sz) &&& (d.N_SETS - 1)) w = true →
      wayBlocks d mmu ((v >>> d.MMU_V3_PAGE_BITS sz) &&& (d.N_SETS - 1)) w = true) :
    arc_mmu_lookup_tlb d sz v cm mmu =
      { ret := ((v >>> d.MMU_V3_PAGE_BITS sz) &&& (d.N_SETS - 1),
                mmu.way_sel ((v >>> d.MMU_V3_PAGE_BITS sz) &&& (d.N_SETS - 1))),
        num_finds := 0,
        index := (((v >>> d.MMU_V3_PAGE_BITS sz) &&& (d.N_SETS - 1)) * d.N_WAYS
          + mmu.way_sel ((v >>> d.MMU_V3_PAGE_BITS sz) &&& (d.N_SETS - 1))) % 2 ^ 32,
        mmu := { mmu with
          way_sel := fun s =>
            if s = (v >>> d.MMU_V3_PAGE_BITS sz) &&& (d.N_SETS - 1) then
              (mmu.way_sel ((v >>> d.MMU_V3_PAGE_BITS sz) &&& (d.N_SETS - 1)) + 1) % 2 ^ 32
                &&& (d.N_WAYS - 1)
            else mmu.way_sel s } } := by
  obtain ⟨g, hg⟩ := lookup_fold_nofind d mmu v cm _ d.N_WAYS h
  unfold arc_mmu_lookup_tlb
  simp only [hg]

/-- The set `arc_mmu_translate` scans for an address without the shared-library
bit is the set `(vaddr >> page_bits) & (N_SETS - 1)`. -/
theorem set_of_vaddr (d : Decls) (env : V3Env) (vaddr : Nat)
    (hL : LayoutOK d env.mmu_v3_page_size) (hvS : vaddr &&& d.PD0_S = 0) :
    setOf d env (VPN d env.mmu_v3_page_size vaddr ||| d.PD0_V) = setOf d env vaddr := by
  unfold setOf
  apply setIdx_congr d env.mmu_v3_page_size _ _ hL
  rw [VPN_eq]
  apply Nat.eq_of_testBit_eq
  intro i
  have h1 := congrArg (fun t => Nat.testBit t i) hL.v_vpn
  have h2 := congrArg (fun t => Nat.testBit t i) hL.v_s
  have h4 := congrArg (fun t => Nat.testBit t i) hvS
  simp only [Nat.testBit_and, Nat.testBit_or, Nat.zero_testBit] at h1 h2 h4 ⊢
  revert h1 h2 h4
  cases vaddr.testBit i <;> cases (vpnMask d env.mmu_v3_page_size).testBit i <;>
    cases d.PD0_S.testBit i <;> cases d.PD0_V.testBit i <;> simp

theorem translateMatch_zero (d : Decls) (sz : Nat) (mmu : arc_mmu) (vaddr : Nat) (e : arc_tlb_e) :
    translateMatch d sz mmu vaddr 0 e = false := by
  unfold translateMatch
  simp

/-- The miss branch of `arc_mmu_translate` (lines 531 to 566) for a read, write
or fetch with both SASID registers zero. -/
theorem translateFinish_miss (d : Decls) (env : V3Env) (vaddr : Nat) (rwe : mmu_access_type)
    (index : Nat) (tlb : arc_tlb_e)
    (hk : rwe ≠ mmu_access_type.MMU_MEM_IRRELEVANT_TYPE)
    (hs0 : env.mmu.sasid0 = 0) (hs1 : env.mmu.sasid1 = 0) :
    translateFinish d env vaddr rwe index tlb false =
      .ok { ret := false, paddr := none, index := some index,
            excp :=
              if rwe = mmu_access_type.MMU_MEM_FETCH then
                { number := Excp.EXCP_TLB_MISS_I, causecode := 0x00, parameter := 0x00 }
              else
                { number := Excp.EXCP_TLB_MISS_D, causecode := d.CAUSE_CODE rwe,
                  parameter := 0x00 },
            env := { env with
              mmu := { env.mmu with
                tlbpd0 := (vaddr &&& VPN d env.mmu_v3_page_size d.PD0_VPN) ||| d.PD0_V
                  ||| (env.mmu.pid_asid &&& d.PD0_ASID) } } } := by
  unfold translateFinish
  by_cases hf : rwe = mmu_access_type.MMU_MEM_FETCH
  · simp [hk, hs0, hs1, hf]
  · simp [hk, hs0, hs1, hf]

/-- With the MMU enabled, `vaddr` below 0x80000000, both SASID registers zero
and no way of the addressed set satisfying the match rule, a request that is
not of the irrelevant kind takes the miss branch on the slot under the
round-robin cursor. -/
theorem translate_no_rule (d : Decls) (env : V3Env) (vaddr : Nat) (rwe : mmu_access_type)
    (hL : LayoutOK d env.mmu_v3_page_size)
    (hen : env.mmu.enabled ≠ 0) (hv : vaddr < 0x80000000)
    (hvS : vaddr &&& d.PD0_S = 0)
    (hs0 : env.mmu.sasid0 = 0) (hs1 : env.mmu.sasid1 = 0)
    (hpid : env.mmu.pid_asid &&& d.PD0_ASID = env.mmu.pid_asid)
    (hk : rwe ≠ mmu_access_type.MMU_MEM_IRRELEVANT_TYPE)
    (hnone : ∀ w, w < d.N_WAYS →
      ¬ MatchRule d env vaddr (env.mmu.nTLB (setOf d env vaddr) w)) :
    arc_mmu_translate d env vaddr rwe =
      .ok { ret := false, paddr := none,
            index := some ((setOf d env vaddr * d.N_WAYS + env.mmu.way_sel (setOf d env vaddr))
              % 2 ^ 32),
            excp :=
              if rwe = mmu_access_type.MMU_MEM_FETCH then
                { number := Excp.EXCP_TLB_MISS_I, causecode := 0x00, parameter := 0x00 }
              else
                { number := Excp.EXCP_TLB_MISS_D, causecode := d.CAUSE_CODE rwe,
                  parameter := 0x00 },
            env := { env with
              mmu := { env.mmu with
                way_sel := fun s =>
                  if s = setOf d env vaddr then
                    (env.mmu.way_sel (setOf d env vaddr) + 1) % 2 ^ 32 &&& (d.N_WAYS - 1)
                  else env.mmu.way_sel s,
                tlbpd0 := (vaddr &&& VPN d env.mmu_v3_page_size d.PD0_VPN) ||| d.PD0_V
                  ||| (env.mmu.pid_asid &&& d.PD0_ASID) } } } := by
  have hmod : vaddr % 2 ^ 32 = vaddr := Nat.mod_eq_of_lt (by omega)
  have hset := set_of_vaddr d env vaddr hL hvS
  have hlk : translateLookup d env vaddr =
      { ret := (setOf d env vaddr, env.mmu.way_sel (setOf d env vaddr)),
        num_finds := 0,
        index := (setOf d env vaddr * d.N_WAYS + env.mmu.way_sel (setOf d env vaddr)) % 2 ^ 32,
        mmu := { env.mmu with
          way_sel := fun s =>
            if s = setOf d env vaddr then
              (env.mmu.way_sel (setOf d env vaddr) + 1) % 2 ^ 32 &&& (d.N_WAYS - 1)
            else env.mmu.way_sel s } } := by
    unfold translateLookup
    rw [hmod, ← hset]
    apply lookup_miss
    intro w hw hc
    cases hb : wayBlocks d env.mmu
      ((VPN d env.mmu_v3_page_size vaddr ||| d.PD0_V) >>> d.MMU_V3_PAGE_BITS env.mmu_v3_page_size
        &&& (d.N_SETS - 1)) w
    · exfalso
      have hr := rule_of_compare d env vaddr _ w hL hpid hb hc
      have hset' : (VPN d env.mmu_v3_page_size vaddr ||| d.PD0_V)
          >>> d.MMU_V3_PAGE_BITS env.mmu_v3_page_size &&& (d.N_SETS - 1) = setOf d env vaddr := hset
      rw [hset'] at hr
      exact hnone w hw hr
    · rfl
  rw [translate_mmu_path d env vaddr rwe hv hen, hlk]
  simp only [gt_iff_lt, Nat.not_lt_zero, if_false, translateMatch_zero]
  refine translateFinish_miss d _ vaddr rwe _ _ hk ?_ ?_
  · exact hs0
  · exact hs1

/-- C11: with the MMU enabled, `vaddr` below 0x80000000 (outside the
shared-library bit), both SASID registers zero, a process id that fits the ASID
field, and no way of the set `(vaddr >> page_bits) & (N_SETS - 1)` satisfying the
match rule, `arc_mmu_translate` returns false without a physical address, with
the descriptor (EXCP_TLB_MISS_I, 0, 0) for a fetch and
(EXCP_TLB_MISS_D, CAUSE_CODE(kind), 0) for a read or write. -/
theorem legacy_miss_fault (d : Decls) (env : V3Env) (vaddr : Nat) (rwe : mmu_access_type)
    (hL : LayoutOK d env.mmu_v3_page_size)
    (hen : env.mmu.enabled ≠ 0) (hv : vaddr < 0x80000000)
    (hvS : vaddr &&& d.PD0_S = 0)
    (hs0 : env.mmu.sasid0 = 0) (hs1 : env.mmu.sasid1 = 0)
    (hpid : env.mmu.pid_asid &&& d.PD0_ASID = env.mmu.pid_asid)
    (hnone : ∀ w, w < d.N_WAYS →
      ¬ MatchRule d env vaddr (env.mmu.nTLB (setOf d env vaddr) w)) :
    (rwe = mmu_access_type.MMU_MEM_FETCH →
      ∃ out, arc_mmu_translate d env vaddr rwe = .ok out ∧ out.ret = false ∧ out.paddr = none
        ∧ out.excp = { number := Excp.EXCP_TLB_MISS_I, causecode := 0, parameter := 0 })
    ∧ (rwe = mmu_access_type.MMU_MEM_READ ∨ rwe = mmu_access_type.MMU_MEM_WRITE →
      ∃ out, arc_mmu_translate d env vaddr rwe = .ok out ∧ out.ret = false ∧ out.paddr = none
        ∧ out.excp = { number := Excp.EXCP_TLB_MISS_D, causecode := d.CAUSE_CODE rwe,
                       parameter := 0 }) := by
  constructor
  · intro hf
    refine ⟨_, translate_no_rule d env vaddr rwe hL hen hv hvS hs0 hs1 hpid (by rw [hf]; decide)
      hnone, rfl, rfl, ?_⟩
    simp [hf]
  · intro hrw
    have hne : rwe ≠ mmu_access_type.MMU_MEM_FETCH := by
      rcases hrw with h | h <;> rw [h] <;> decide
    have hk : rwe ≠ mmu_access_type.MMU_MEM_IRRELEVANT_TYPE := by
      rcases hrw with h | h <;> rw [h] <;> decide
    refine ⟨_, translate_no_rule d env vaddr rwe hL hen hv hvS hs0 hs1 hpid hk hnone,
      rfl, rfl, ?_⟩
    simp [hne]

/-- Witness for C11: the empty TLB with the MMU enabled for process 5, read and
fetch of 0x4000. -/
theorem legacy_miss_fault_witness :
    (∃ out, arc_mmu_translate arcDecls v3Fresh 0x4000 mmu_access_type.MMU_MEM_FETCH = .ok out
        ∧ out.ret = false ∧ out.paddr = none
        ∧ out.excp = { number := Excp.EXCP_TLB_MISS_I, causecode := 0, parameter := 0 })
    ∧ (∃ out, arc_mmu_translate arcDecls v3Fresh 0x4000 mmu_access_type.MMU_MEM_READ = .ok out
        ∧ out.ret = false ∧ out.paddr = none
        ∧ out.excp = { number := Excp.EXCP_TLB_MISS_D,
                       causecode := arcDecls.CAUSE_CODE mmu_access_type.MMU_MEM_READ,
                       parameter := 0 }) :=
  ⟨(legacy_miss_fault arcDecls v3Fresh 0x4000 mmu_access_type.MMU_MEM_FETCH arcDecls_layout
      (by decide) (by decide) (by decide) rfl rfl (by decide) (by decide)).1 rfl,
   (legacy_miss_fault arcDecls v3Fresh 0x4000 mmu_access_type.MMU_MEM_READ arcDecls_layout
      (by decide) (by decide) (by decide) rfl rfl (by decide) (by decide)).2 (Or.inl rfl)⟩


/-! ### The miss side effect -/

theorem decide_action_after (calls : List DispatchReq) (mmu_enabled mpu_enabled : Bool)
    (addr : Nat) (mmu_idx : Int) :
    (decide_action (staticsAfter calls) mmu_enabled mpu_enabled addr mmu_idx).1 =
      dispatcherRule mmu_enabled mpu_enabled (decide (addr < 0x80000000))
        (decide (mmu_idx = 1)) := by
  have hrange : (decide (addr ≥ MMU_VA_START) && decide (addr < MMU_VA_END))
      = decide (addr < 0x80000000) := by
    simp [MMU_VA_START, MMU_VA_END]
  rcases staticsAfter_cases calls with h0 | ⟨hi, ht⟩
  · rw [h0]
    simp only [decide_action, DecideStatics.zero, Bool.not_false, if_true]
    rw [hrange]
    exact fillTable_eq _ _ _ _ _
  · simp only [decide_action, hi, Bool.not_true]
    rw [hrange]
    exact ht _ _ _ _

theorem translateFinish_miss_tlbpd0 (d : Decls) (env : V3Env) (vaddr : Nat)
    (rwe : mmu_access_type) (index : Nat) (tlb : arc_tlb_e) (mtch : Bool) (out : TranslateOut)
    (h : translateFinish d env vaddr rwe index tlb mtch = .ok out)
    (hmiss : out.excp.number = Excp.EXCP_TLB_MISS_I ∨ out.excp.number = Excp.EXCP_TLB_MISS_D) :
    out.ret = false ∧ out.paddr = none ∧ out.env.mmu.tlbpd0 = missPd0 d env vaddr := by
  unfold translateFinish at h
  simp only [] at h
  split_ifs at h <;>
    first
    | (injection h with h; subst h; exact ⟨rfl, rfl, rfl⟩)
    | (injection h with h; subst h; simp at hmiss)

/-- A read, write or fetch translation below 0x80000000 with the MMU enabled
that ends in a TLB-miss descriptor leaves TLBPD0 equal to
`(vaddr & VPN(PD0_VPN)) | PD0_V | (pid_asid & PD0_ASID)`; a probe through
`arc_get_physical_addr_v3` returns false and leaves the same register content. -/
theorem legacy_miss_side_effect (d : Decls) (env : V3Env) (vaddr : Nat) (rwe : mmu_access_type)
    (out : TranslateOut) (calls : List DispatchReq) (mpu_enabled : Bool) (mmu_idx : Int)
    (hen : env.mmu.enabled = 1) (hv : vaddr < 0x80000000)
    (h : arc_mmu_translate d env vaddr rwe = .ok out)
    (hmiss : out.excp.number = Excp.EXCP_TLB_MISS_I ∨ out.excp.number = Excp.EXCP_TLB_MISS_D) :
    out.env.mmu.tlbpd0 = missPd0 d env vaddr
      ∧ ∃ st, arc_get_physical_addr_v3 d (staticsAfter calls) mpu_enabled mmu_idx env vaddr rwe
          true = .ok (GetPhys.returned false none, out.env, st) := by
  have hen' : env.mmu.enabled ≠ 0 := by rw [hen]; decide
  have hpath := translate_mmu_path d env vaddr rwe hv hen'
  have hfin : out.ret = false ∧ out.paddr = none
      ∧ out.env.mmu.tlbpd0 = missPd0 d env vaddr := by
    rw [hpath] at h
    split_ifs at h with hmc
    · injection h with h
      subst h
      simp at hmiss
    · have := translateFinish_miss_tlbpd0 d _ vaddr rwe _ _ _ out h hmiss
      refine ⟨this.1, this.2.1, ?_⟩
      have hp : (translateLookup d env vaddr).mmu.pid_asid = env.mmu.pid_asid :=
        (lookup_mmu_fields d env.mmu_v3_page_size _ _ env.mmu).2.2.2.1
      rw [this.2.2]
      show vaddr &&& VPN d env.mmu_v3_page_size d.PD0_VPN ||| d.PD0_V
        ||| (translateLookup d env vaddr).mmu.pid_asid &&& d.PD0_ASID = _
      rw [hp]
      rfl
  refine ⟨hfin.2.2, ?_⟩
  have hlt : vaddr % 2 ^ d.TARGET_LONG_BITS < 0x80000000 :=
    Nat.lt_of_le_of_lt (Nat.mod_le _ _) hv
  have hact := decide_action_after calls true mpu_enabled (vaddr % 2 ^ d.TARGET_LONG_BITS) mmu_idx
  have hrule : dispatcherRule true mpu_enabled
      (decide (vaddr % 2 ^ d.TARGET_LONG_BITS < 0x80000000)) (decide (mmu_idx = 1))
      = ACTION.MMU_ACTION := by
    simp only [hlt, decide_True]
    cases mpu_enabled <;> rfl
  rw [hrule] at hact
  refine ⟨(decide_action (staticsAfter calls) true mpu_enabled
    (vaddr % 2 ^ d.TARGET_LONG_BITS) mmu_idx).2, ?_⟩
  unfold arc_get_physical_addr_v3
  simp only [hen, le_refl, if_true, decide_True, hact, h, hfin.1, hfin.2.1, Bool.false_eq_true,
    if_false]

/-- C12 (failing input): in `v3SharedOnly` a kernel read of 0x4000 misses and
leaves TLBPD0 = 0x4205, the requested page with the valid bit and process id 5;
after TLBPD1 := 0x9007e and INSERT the entry (0x4205, 0x9007e) sits in way 2 of
set 2, yet the same read misses again: the shared-library entry of way 0 clears
`general_match` for every later way. The state is the one the driver program
`progSharedOnly` builds from reset. -/
theorem legacy_miss_insert_still_misses :
    v3SharedOnly.mmu.enabled ≠ 0
    ∧ v3SharedOnly.mmu.sasid0 = 0 ∧ v3SharedOnly.mmu.sasid1 = 0
    ∧ missPd0 arcDecls v3SharedOnly 0x4000 = 0x4205
    ∧ missInsertRetryObs arcDecls 8 v3SharedOnly 0x4000 mmu_access_type.MMU_MEM_READ 0x9007e
        = some ({ number := Excp.EXCP_TLB_MISS_D, causecode := 1, parameter := 0 }, 0x4205,
            [{ pd0 := 0x80204203, pd1 := 0x7e }, { pd0 := 0, pd1 := 0 },
             { pd0 := 0x4205, pd1 := 0x9007e }, { pd0 := 0, pd1 := 0 }],
            false, { number := Excp.EXCP_TLB_MISS_D, causecode := 1, parameter := 0 })
    ∧ set2After progSharedOnly
        = some (setEntries v3SharedOnly 2, v3SharedOnly.mmu.way_sel 2) := by
  refine ⟨by decide, rfl, rfl, by decide, by decide, by decide⟩


theorem missPd0_fields (d : Decls) (env : V3Env) (vaddr : Nat)
    (hL : LayoutOK d env.mmu_v3_page_size)
    (hG1 : vpnMask d env.mmu_v3_page_size &&& d.PD0_G = 0)
    (hG2 : d.PD0_ASID &&& d.PD0_G = 0) (hS2 : d.PD0_ASID &&& d.PD0_S = 0)
    (hpid : env.mmu.pid_asid &&& d.PD0_ASID = env.mmu.pid_asid) :
    missPd0 d env vaddr &&& d.PD0_V ≠ 0
      ∧ missPd0 d env vaddr &&& d.PD0_G = 0
      ∧ missPd0 d env vaddr &&& d.PD0_S = 0
      ∧ missPd0 d env vaddr &&& d.PD0_ASID = env.mmu.pid_asid
      ∧ VPN d env.mmu_v3_page_size vaddr = VPN d env.mmu_v3_page_size (missPd0 d env vaddr) := by
  unfold missPd0
  rw [VPN_PD0_VPN d _ hL, VPN_eq, VPN_eq]
  refine ⟨?_, ?_, ?_, ?_, ?_⟩
  · have hV : (vaddr &&& vpnMask d env.mmu_v3_page_size ||| d.PD0_V
        ||| env.mmu.pid_asid &&& d.PD0_ASID) &&& d.PD0_V = d.PD0_V := by
      apply Nat.eq_of_testBit_eq
      intro i
      simp only [Nat.testBit_and, Nat.testBit_or]
      cases vaddr.testBit i <;> cases (vpnMask d env.mmu_v3_page_size).testBit i <;>
        cases d.PD0_V.testBit i <;> cases env.mmu.pid_asid.testBit i <;>
        cases d.PD0_ASID.testBit i <;> simp
    rw [hV]
    exact single_bit_ne_zero _ hL.v_bit
  · apply Nat.eq_of_testBit_eq
    intro i
    have h1 := congrArg (fun t => Nat.testBit t i) hG1
    have h2 := congrArg (fun t => Nat.testBit t i) hL.v_g
    have h3 := congrArg (fun t => Nat.testBit t i) hG2
    simp only [Nat.testBit_and, Nat.testBit_or, Nat.zero_testBit] at h1 h2 h3 ⊢
    revert h1 h2 h3
    cases vaddr.testBit i <;> cases (vpnMask d env.mmu_v3_page_size).testBit i <;>
      cases d.PD0_V.testBit i <;> cases env.mmu.pid_asid.testBit i <;>
      cases d.PD0_ASID.testBit i <;> cases d.PD0_G.testBit i <;> simp
  · apply Nat.eq_of_testBit_eq
    intro i
    have h1 := congrArg (fun t => Nat.testBit t i) hL.vpn_s
    have h2 := congrArg (fun t => Nat.testBit t i) hL.v_s
    have h3 := congrArg (fun t => Nat.testBit t i) hS2
    simp only [Nat.testBit_and, Nat.testBit_or, Nat.zero_testBit] at h1 h2 h3 ⊢
    revert h1 h2 h3
    cases vaddr.testBit i <;> cases (vpnMask d env.mmu_v3_page_size).testBit i <;>
      cases d.PD0_V.testBit i <;> cases env.mmu.pid_asid.testBit i <;>
      cases d.PD0_ASID.testBit i <;> cases d.PD0_S.testBit i <;> simp
  · apply Nat.eq_of_testBit_eq
    intro i
    have h1 := congrArg (fun t => Nat.testBit t i) hL.vpn_asid
    have h2 := congrArg (fun t => Nat.testBit t i) hL.v_asid
    have h3 := congrArg (fun t => Nat.testBit t i) hpid
    simp only [Nat.testBit_and, Nat.testBit_or, Nat.zero_testBit] at h1 h2 h3 ⊢
    revert h1 h2 h3
    cases vaddr.testBit i <;> cases (vpnMask d env.mmu_v3_page_size).testBit i <;>
      cases d.PD0_V.testBit i <;> cases env.mmu.pid_asid.testBit i <;>
      cases d.PD0_ASID.testBit i <;> simp
  · apply Nat.eq_of_testBit_eq
    intro i
    have h1 := congrArg (fun t => Nat.testBit t i) hL.vpn_asid
    have h2 := congrArg (fun t => Nat.testBit t i) hL.v_vpn
    simp only [Nat.testBit_and, Nat.testBit_or, Nat.zero_testBit] at h1 h2 ⊢
    revert h1 h2
    cases vaddr.testBit i <;> cases (vpnMask d env.mmu_v3_page_size).testBit i <;>
      cases d.PD0_V.testBit i <;> cases env.mmu.pid_asid.testBit i <;>
      cases d.PD0_ASID.testBit i <;> simp

/-- When no way of the addressed set blocks the scan, the miss side effect does
prepare the insertion: after a miss for `vaddr` (no way of the set satisfies the
match rule), a write of TLBPD1 and INSERT, the translation of `vaddr` works on
the installed entry `(TLBPD0, pd1)` with `match` true, under either privilege. -/
theorem miss_insert_hits_unblocked (d : Decls) (fuel : Nat) (env : V3Env) (tlb0 : Nat × Nat)
    (index0 vaddr pd1 : Nat) (rwe : mmu_access_type) (user : Bool)
    (hL : LayoutOK d env.mmu_v3_page_size)
    (hG1 : vpnMask d env.mmu_v3_page_size &&& d.PD0_G = 0)
    (hG2 : d.PD0_ASID &&& d.PD0_G = 0) (hS2 : d.PD0_ASID &&& d.PD0_S = 0)
    (hen : env.mmu.enabled ≠ 0) (hv : vaddr < 0x80000000)
    (hvS : vaddr &&& d.PD0_S = 0)
    (hs0 : env.mmu.sasid0 = 0) (hs1 : env.mmu.sasid1 = 0)
    (hpid : env.mmu.pid_asid &&& d.PD0_ASID = env.mmu.pid_asid)
    (hk : rwe ≠ mmu_access_type.MMU_MEM_IRRELEVANT_TYPE)
    (h1 : pd1 < 2 ^ 32)
    (hnone : ∀ w, w < d.N_WAYS →
      ¬ MatchRule d env vaddr (env.mmu.nTLB (setOf d env vaddr) w))
    (hb : ∀ w, w < d.N_WAYS → wayBlocks d env.mmu (setOf d env vaddr) w = false) :
    ∃ o1 env2 index, arc_mmu_translate d env vaddr rwe = .ok o1
      ∧ o1.ret = false ∧ o1.env.mmu.tlbpd0 = missPd0 d env vaddr
      ∧ arc_mmu_aux_set_tlbcmd d fuel (arc_mmu_aux_set o1.env AuxId.tlbpd1 pd1)
          d.TLB_CMD_INSERT tlb0 index0 = .ok env2
      ∧ arc_mmu_translate d { env2 with Uf := user } vaddr rwe
          = translateFinish d { env2 with Uf := user } vaddr rwe index
              { pd0 := missPd0 d env vaddr, pd1 := pd1 } true := by
  have hmiss := translate_no_rule d env vaddr rwe hL hen hv hvS hs0 hs1 hpid hk hnone
  obtain ⟨fV, fG, fS, fA, fvpn⟩ := missPd0_fields d env vaddr hL hG1 hG2 hS2 hpid
  have hm1 : pd1 % 2 ^ 32 = pd1 := Nat.mod_eq_of_lt h1
  have hsetA : setOf d env (missPd0 d env vaddr) = setOf d env vaddr := by
    rw [← set_of_vaddr d env vaddr hL hvS]
    exact (set_of_translate_eq d env.mmu_v3_page_size vaddr _ hL fvpn fS).symm
  obtain ⟨env', index, hcmd, htr, _⟩ := insert_then_translate d fuel
    (arc_mmu_aux_set
      { env with
        mmu := { env.mmu with
          way_sel := fun s =>
            if s = setOf d env vaddr then
              (env.mmu.way_sel (setOf d env vaddr) + 1) % 2 ^ 32 &&& (d.N_WAYS - 1)
            else env.mmu.way_sel s,
          tlbpd0 := (vaddr &&& VPN d env.mmu_v3_page_size d.PD0_VPN) ||| d.PD0_V
            ||| (env.mmu.pid_asid &&& d.PD0_ASID) } } AuxId.tlbpd1 pd1)
    tlb0 index0 vaddr rwe user hL hen fV fG fS fA hv fvpn
    (by
      show (if setOf d env (missPd0 d env vaddr) = setOf d env vaddr then
          (env.mmu.way_sel (setOf d env vaddr) + 1) % 2 ^ 32 &&& (d.N_WAYS - 1)
        else env.mmu.way_sel (setOf d env (missPd0 d env vaddr))) < d.N_WAYS
      rw [if_pos hsetA]
      have := hL.ways_pos
      exact Nat.lt_of_le_of_lt Nat.and_le_right (by omega))
    (by
      intro w hw
      show wayBlocks d _ (setOf d env (missPd0 d env vaddr)) w = false
      rw [hsetA, ← hb w hw]
      exact wayBlocks_congr d _ _ _ _ rfl rfl rfl)
    (by
      intro w hw hr
      exfalso
      have hr' : MatchRule d env vaddr (env.mmu.nTLB (setOf d env (missPd0 d env vaddr)) w) :=
        (MatchRule_congr d _ env vaddr _ rfl rfl rfl rfl).1 hr
      rw [hsetA] at hr'
      exact hnone w hw hr')
    (by
      intro w w' hw _ hr _
      exfalso
      have hr' : MatchRule d env vaddr (env.mmu.nTLB (setOf d env (missPd0 d env vaddr)) w) :=
        (MatchRule_congr d _ env vaddr _ rfl rfl rfl rfl).1 hr
      rw [hsetA] at hr'
      exact hnone w hw hr')
  have hp1 : (arc_mmu_aux_set
      { env with
        mmu := { env.mmu with
          way_sel := fun s =>
            if s = setOf d env vaddr then
              (env.mmu.way_sel (setOf d env vaddr) + 1) % 2 ^ 32 &&& (d.N_WAYS - 1)
            else env.mmu.way_sel s,
          tlbpd0 := (vaddr &&& VPN d env.mmu_v3_page_size d.PD0_VPN) ||| d.PD0_V
            ||| (env.mmu.pid_asid &&& d.PD0_ASID) } } AuxId.tlbpd1 pd1).mmu.tlbpd1 = pd1 := hm1
  rw [hp1] at htr
  exact ⟨_, env', index, hmiss, rfl, rfl, hcmd, htr⟩


/-! ### Outcomes of a translation -/

theorem translateFinish_outcomes (d : Decls) (env : V3Env) (vaddr : Nat) (rwe : mmu_access_type)
    (index : Nat) (tlb : arc_tlb_e) (mtch : Bool)
    (hk : rwe ≠ mmu_access_type.MMU_MEM_IRRELEVANT_TYPE) :
    (∃ out, translateFinish d env vaddr rwe index tlb mtch = .ok out
      ∧ ((out.ret = true ∧ out.excp.number = Excp.EXCP_NO_EXCEPTION ∧ out.paddr ≠ none)
        ∨ (out.ret = false ∧ out.paddr = none
          ∧ (out.excp.number = Excp.EXCP_TLB_MISS_I ∨ out.excp.number = Excp.EXCP_TLB_MISS_D
            ∨ out.excp.number = Excp.EXCP_PROTV
            ∨ out.excp.number = Excp.EXCP_MACHINE_CHECK))))
    ∨ ((env.mmu.sasid0 ≠ 0 ∨ env.mmu.sasid1 ≠ 0) ∧ mtch = false
      ∧ translateFinish d env vaddr rwe index tlb mtch = .error Stop.assertion) := by
  unfold translateFinish
  simp only []
  by_cases h1 : mtch = true ∧ (!arc_mmu_have_permission d env tlb rwe) = true
  · left
    rw [if_pos h1]
    exact ⟨_, rfl, Or.inr ⟨rfl, rfl, Or.inr (Or.inr (Or.inl rfl))⟩⟩
  · rw [if_neg h1]
    by_cases h2 : mtch = true
    · left
      rw [if_pos h2]
      exact ⟨_, rfl, Or.inl ⟨rfl, rfl, by simp⟩⟩
    · rw [if_neg h2, if_pos hk]
      by_cases h3 : env.mmu.sasid0 ≠ 0 ∨ env.mmu.sasid1 ≠ 0
      · right
        rw [if_pos h3]
        exact ⟨h3, by simpa using h2, rfl⟩
      · left
        rw [if_neg h3]
        by_cases h4 : rwe = mmu_access_type.MMU_MEM_FETCH
        · rw [if_pos h4]
          exact ⟨_, rfl, Or.inr ⟨rfl, rfl, Or.inl rfl⟩⟩
        · rw [if_neg h4]
          exact ⟨_, rfl, Or.inr ⟨rfl, rfl, Or.inr (Or.inl rfl)⟩⟩

/-- C13 (counterexample): with the MMU enabled for process 5, an empty TLB and
SASID0 = 1, a kernel read of 0x4000 finds no entry and `arc_mmu_translate` stops
at `assert(0)` instead of returning a TLB-miss descriptor. The registers are
reached from reset by PID := 0x80000005 and SASID0 := 1. -/
theorem legacy_translate_assert_counterexample :
    v3Sasid.mmu.enabled ≠ 0 ∧ v3Sasid.mmu.sasid0 ≠ 0
    ∧ translateStop arcDecls v3Sasid 0x4000 mmu_access_type.MMU_MEM_READ = some Stop.assertion
    ∧ (fromReset arcDecls progSasid).toOption.map
          (fun e => (e.mmu.enabled, e.mmu.pid_asid, e.mmu.sasid0, e.mmu.sasid1, setEntries e 2))
        = some (v3Sasid.mmu.enabled, v3Sasid.mmu.pid_asid, v3Sasid.mmu.sasid0,
            v3Sasid.mmu.sasid1, setEntries v3Sasid 2) := by
  refine ⟨by decide, by decide, by decide, by decide⟩

/-- C13 (amended): for every state of the set-associative MMU, every address
and every read, write or fetch request, `arc_mmu_translate` either returns
normally, with a success (flag true, no exception, a physical address) or with
a fault descriptor (TLB miss, protection violation or machine check) and no
physical address, or it reaches `assert(0)`; the assertion is reached only when
a shared-ASID register is non-zero and the request, in the TLB path, matches no
entry. The flag returned by the direct path for address 0 with the MMU disabled
is left open. -/
theorem legacy_translate_outcomes (d : Decls) (env : V3Env) (vaddr : Nat)
    (rwe : mmu_access_type)
    (hk : rwe = mmu_access_type.MMU_MEM_READ ∨ rwe = mmu_access_type.MMU_MEM_WRITE
      ∨ rwe = mmu_access_type.MMU_MEM_FETCH) :
    (∃ out, arc_mmu_translate d env vaddr rwe = .ok out
      ∧ (¬ (env.mmu.enabled = 0 ∧ vaddr % 2 ^ 32 = 0) →
        (out.ret = true ∧ out.excp.number = Excp.EXCP_NO_EXCEPTION ∧ out.paddr ≠ none)
        ∨ (out.ret = false ∧ out.paddr = none
          ∧ (out.excp.number = Excp.EXCP_TLB_MISS_I ∨ out.excp.number = Excp.EXCP_TLB_MISS_D
            ∨ out.excp.number = Excp.EXCP_PROTV
            ∨ out.excp.number = Excp.EXCP_MACHINE_CHECK))))
    ∨ ((env.mmu.sasid0 ≠ 0 ∨ env.mmu.sasid1 ≠ 0)
      ∧ env.mmu.enabled ≠ 0 ∧ vaddr % 2 ^ 32 < 0x80000000
      ∧ (translateLookup d env vaddr).num_finds ≤ 1
      ∧ translateMatch d env.mmu_v3_page_size (translateLookup d env vaddr).mmu (vaddr % 2 ^ 32)
          (translateLookup d env vaddr).num_finds (hitEntry d env vaddr) = false
      ∧ arc_mmu_translate d env vaddr rwe = .error Stop.assertion) := by
  have hk' : rwe ≠ mmu_access_type.MMU_MEM_IRRELEVANT_TYPE := by
    rcases hk with h | h | h <;> rw [h] <;> decide
  unfold arc_mmu_translate
  simp only []
  by_cases hu : rwe ≠ mmu_access_type.MMU_MEM_IRRELEVANT_TYPE ∧ env.Uf ≠ false
      ∧ vaddr % 2 ^ 32 ≥ 0x80000000
  · left
    rw [if_pos hu]
    exact ⟨_, rfl, fun _ => Or.inr ⟨rfl, rfl, Or.inr (Or.inr (Or.inl rfl))⟩⟩
  · rw [if_neg hu]
    by_cases hd : vaddr % 2 ^ 32 ≥ 0x80000000 ∨ env.mmu.enabled = 0
    · left
      rw [if_pos hd]
      refine ⟨_, rfl, fun hn => Or.inl ⟨?_, rfl, by simp⟩⟩
      have hne : vaddr % 2 ^ 32 ≠ 0 := by
        rcases hd with h | h
        · omega
        · exact fun h0 => hn ⟨h, h0⟩
      exact decide_eq_true hne
    · rw [if_neg hd]
      have hen : env.mmu.enabled ≠ 0 := fun h => hd (Or.inr h)
      have hlt : vaddr % 2 ^ 32 < 0x80000000 := by
        by_contra h
        exact hd (Or.inl (by omega))
      by_cases hmc : (arc_mmu_lookup_tlb d env.mmu_v3_page_size
          (VPN d env.mmu_v3_page_size (vaddr % 2 ^ 32) ||| d.PD0_V)
          (VPN d env.mmu_v3_page_size d.PD0_VPN ||| d.PD0_V) env.mmu).num_finds > 1
      · left
        rw [if_pos hmc]
        exact ⟨_, rfl, fun _ => Or.inr ⟨rfl, rfl, Or.inr (Or.inr (Or.inr rfl))⟩⟩
      · rw [if_neg hmc]
        have hf := lookup_mmu_fields d env.mmu_v3_page_size
          (VPN d env.mmu_v3_page_size (vaddr % 2 ^ 32) ||| d.PD0_V)
          (VPN d env.mmu_v3_page_size d.PD0_VPN ||| d.PD0_V) env.mmu
        rcases translateFinish_outcomes d
          { env with mmu := (arc_mmu_lookup_tlb d env.mmu_v3_page_size
            (VPN d env.mmu_v3_page_size (vaddr % 2 ^ 32) ||| d.PD0_V)
            (VPN d env.mmu_v3_page_size d.PD0_VPN ||| d.PD0_V) env.mmu).mmu }
          (vaddr % 2 ^ 32) rwe
          (arc_mmu_lookup_tlb d env.mmu_v3_page_size
            (VPN d env.mmu_v3_page_size (vaddr % 2 ^ 32) ||| d.PD0_V)
            (VPN d env.mmu_v3_page_size d.PD0_VPN ||| d.PD0_V) env.mmu).index
          ((arc_mmu_lookup_tlb d env.mmu_v3_page_size
            (VPN d env.mmu_v3_page_size (vaddr % 2 ^ 32) ||| d.PD0_V)
            (VPN d env.mmu_v3_page_size d.PD0_VPN ||| d.PD0_V) env.mmu).mmu.nTLB
            (arc_mmu_lookup_tlb d env.mmu_v3_page_size
              (VPN d env.mmu_v3_page_size (vaddr % 2 ^ 32) ||| d.PD0_V)
              (VPN d env.mmu_v3_page_size d.PD0_VPN ||| d.PD0_V) env.mmu).ret.1
            (arc_mmu_lookup_tlb d env.mmu_v3_page_size
              (VPN d env.mmu_v3_page_size (vaddr % 2 ^ 32) ||| d.PD0_V)
              (VPN d env.mmu_v3_page_size d.PD0_VPN ||| d.PD0_V) env.mmu).ret.2)
          (translateMatch d env.mmu_v3_page_size
            (arc_mmu_lookup_tlb d env.mmu_v3_page_size
              (VPN d env.mmu_v3_page_size (vaddr % 2 ^ 32) ||| d.PD0_V)
              (VPN d env.mmu_v3_page_size d.PD0_VPN ||| d.PD0_V) env.mmu).mmu (vaddr % 2 ^ 32)
            (arc_mmu_lookup_tlb d env.mmu_v3_page_size
              (VPN d env.mmu_v3_page_size (vaddr % 2 ^ 32) ||| d.PD0_V)
              (VPN d env.mmu_v3_page_size d.PD0_VPN ||| d.PD0_V) env.mmu).num_finds
            ((arc_mmu_lookup_tlb d env.mmu_v3_page_size
              (VPN d env.mmu_v3_page_size (vaddr % 2 ^ 32) ||| d.PD0_V)
              (VPN d env.mmu_v3_page_size d.PD0_VPN ||| d.PD0_V) env.mmu).mmu.nTLB
              (arc_mmu_lookup_tlb d env.mmu_v3_page_size
                (VPN d env.mmu_v3_page_size (vaddr % 2 ^ 32) ||| d.PD0_V)
                (VPN d env.mmu_v3_page_size d.PD0_VPN ||| d.PD0_V) env.mmu).ret.1
              (arc_mmu_lookup_tlb d env.mmu_v3_page_size
                (VPN d env.mmu_v3_page_size (vaddr % 2 ^ 32) ||| d.PD0_V)
                (VPN d env.mmu_v3_page_size d.PD0_VPN ||| d.PD0_V) env.mmu).ret.2)) hk'
          with ⟨out, ho, hres⟩ | ⟨hs, hm, herr⟩
        · left
          exact ⟨out, ho, fun _ => hres⟩
        · right
          refine ⟨?_, hen, hlt, Nat.not_lt.mp hmc, hm, herr⟩
          rcases hs with h | h
          · left
            rw [← hf.2.1]
            exact h
          · right
            rw [← hf.2.2.1]
            exact h

/-- Witness for C13 (amended): a kernel read of 0x4000 in the empty TLB with
the MMU enabled for process 5. -/
theorem legacy_translate_outcomes_witness :
    (∃ out, arc_mmu_translate arcDecls v3Fresh 0x4000 mmu_access_type.MMU_MEM_READ = .ok out
      ∧ (¬ (v3Fresh.mmu.enabled = 0 ∧ 0x4000 % 2 ^ 32 = 0) →
        (out.ret = true ∧ out.excp.number = Excp.EXCP_NO_EXCEPTION ∧ out.paddr ≠ none)
        ∨ (out.ret = false ∧ out.paddr = none
          ∧ (out.excp.number = Excp.EXCP_TLB_MISS_I ∨ out.excp.number = Excp.EXCP_TLB_MISS_D
            ∨ out.excp.number = Excp.EXCP_PROTV
            ∨ out.excp.number = Excp.EXCP_MACHINE_CHECK))))
    ∨ ((v3Fresh.mmu.sasid0 ≠ 0 ∨ v3Fresh.mmu.sasid1 ≠ 0)
      ∧ v3Fresh.mmu.enabled ≠ 0 ∧ 0x4000 % 2 ^ 32 < 0x80000000
      ∧ (translateLookup arcDecls v3Fresh 0x4000).num_finds ≤ 1
      ∧ translateMatch arcDecls v3Fresh.mmu_v3_page_size
          (translateLookup arcDecls v3Fresh 0x4000).mmu (0x4000 % 2 ^ 32)
          (translateLookup arcDecls v3Fresh 0x4000).num_finds
          (hitEntry arcDecls v3Fresh 0x4000) = false
      ∧ arc_mmu_translate arcDecls v3Fresh 0x4000 mmu_access_type.MMU_MEM_READ
          = .error Stop.assertion) :=
  legacy_translate_outcomes arcDecls v3Fresh 0x4000 mmu_access_type.MMU_MEM_READ (Or.inl rfl)


/-! ### The validity rule of the radix walker -/

theorem low_byte_and (pte m : Nat) (hm : 255 &&& m = m) : pte % 256 &&& m = pte &&& m := by
  have h : pte % 256 = pte &&& 255 := (Nat.and_pow_two_sub_one_eq_mod pte 8).symm
  rw [h, Nat.and_assoc, hm]

theorem and3_and (pte m : Nat) (hm : 3 &&& m = m) : (pte &&& 3) &&& m = pte &&& m := by
  rw [Nat.and_assoc, hm]

/-- C14: `pte_is_invalid` depends only on the two low bits of the entry, the
level and the profile. Under the profiles 48_4K, 48_16K, 48_64K and 32_4K an
entry is invalid exactly when bit 0 is clear, or bit 1 is clear at level 0 or at
the last level; under 52_64K exactly when bit 0 is clear, or bit 1 is clear at
the last level. An entry with low bits 01 at level 0 is valid only under
52_64K. -/
theorem radix_entry_validity (s s' : V6State) (p : mmuv6_version_enum) (pte level k : Nat) :
    pte_is_invalid { s with mmu_v6_version := mmuv6_info p } pte level
        = pte_is_invalid { s' with mmu_v6_version := mmuv6_info p } (pte &&& 3) level
    ∧ (pte_is_invalid { s with mmu_v6_version := mmuv6_info p } pte level = true
        ↔ (pte &&& 1 = 0
          ∨ (pte &&& 2 = 0
            ∧ ((p ≠ mmuv6_version_enum.MMUV6_52_64K ∧ level = 0)
              ∨ level + 1 = (mmuv6_info p).nlevels))))
    ∧ (pte_is_invalid { s with mmu_v6_version := mmuv6_info p } (4 * k + 1) 0 = false
        ↔ p = mmuv6_version_enum.MMUV6_52_64K) := by
  have e1 : pte % 256 &&& 1 = pte &&& 1 := low_byte_and pte 1 (by decide)
  have e2 : pte % 256 &&& 2 = pte &&& 2 := low_byte_and pte 2 (by decide)
  have f1 : (pte &&& 3) % 256 &&& 1 = pte &&& 1 := by
    rw [low_byte_and _ 1 (by decide), and3_and pte 1 (by decide)]
  have f2 : (pte &&& 3) % 256 &&& 2 = pte &&& 2 := by
    rw [low_byte_and _ 2 (by decide), and3_and pte 2 (by decide)]
  have g1 : (4 * k + 1) % 256 &&& 1 = 1 := by
    rw [low_byte_and _ 1 (by decide), Nat.and_one_is_mod]
    omega
  have g2 : (4 * k + 1) % 256 &&& 2 = 0 := by
    have hb : (4 * k + 1).testBit 1 = false := by
      rw [Nat.testBit_to_div_mod]
      have : (4 * k + 1) / 2 % 2 = 0 := by omega
      simp [this]
    rw [low_byte_and _ 2 (by decide), show (2 : Nat) = 2 ^ 1 from rfl, Nat.and_two_pow, hb]
    rfl
  refine ⟨?_, ?_, ?_⟩
  · cases p <;> simp only [pte_is_invalid, mmuv6_info, NLEVELS, e1, e2, f1, f2]
  · cases p <;>
      simp only [pte_is_invalid, mmuv6_info, NLEVELS, e1, e2, Bool.or_eq_true, Bool.and_eq_true,
        beq_iff_eq, decide_eq_true_eq, ne_eq, not_true_eq_false, false_and, false_or,
        reduceCtorEq, not_false_eq_true, true_and] <;>
      constructor <;> intro h <;> omega
  · cases p <;>
      simp [pte_is_invalid, mmuv6_info, NLEVELS, g1, g2]


/-! ### Root selection -/

theorem tnsz_le (s : V6State) (i : Nat) : MMU_TTBCR_TNSZ s i ≤ 31 := by
  unfold MMU_TTBCR_TNSZ
  exact Nat.and_le_right

theorem x_for_ttbc_le (s : V6State) (i : Nat) : x_for_ttbc s i ≤ 30 := by
  have h := tnsz_le s i
  unfold x_for_ttbc
  cases s.mmu_v6_version.id <;> simp only [] <;> (try split_ifs) <;> omega

theorem shift_zero_iff (w t v : Nat) (hv : v < 2 ^ w) :
    v >>> (w - t) = 0 ↔ TopBitsZero w t v := by
  constructor
  · intro h i _ hle
    have hb := congrArg (fun x => Nat.testBit x (i - (w - t))) h
    simp only [Nat.testBit_shiftRight, Nat.zero_testBit] at hb
    rw [show w - t + (i - (w - t)) = i by omega] at hb
    exact hb
  · intro h
    apply Nat.eq_of_testBit_eq
    intro j
    rw [Nat.testBit_shiftRight, Nat.zero_testBit]
    by_cases hj : w - t + j < w
    · exact h _ hj (by omega)
    · exact Nat.testBit_lt_two_pow
        (Nat.lt_of_lt_of_le hv (Nat.pow_le_pow_right (by decide) (by omega)))

theorem shift_ones_iff (w t v : Nat) (hv : v < 2 ^ w) (ht : t ≤ w) :
    v >>> (w - t) = 2 ^ t - 1 ↔ TopBitsOne w t v := by
  constructor
  · intro h i hi hle
    have hb := congrArg (fun x => Nat.testBit x (i - (w - t))) h
    simp only [Nat.testBit_shiftRight, Nat.testBit_two_pow_sub_one] at hb
    rw [show w - t + (i - (w - t)) = i by omega] at hb
    rw [hb]
    exact decide_eq_true (by omega)
  · intro h
    apply Nat.eq_of_testBit_eq
    intro j
    rw [Nat.testBit_shiftRight, Nat.testBit_two_pow_sub_one]
    by_cases hj : j < t
    · rw [h _ (by omega) (by omega)]
      exact (decide_eq_true hj).symm
    · rw [Nat.testBit_lt_two_pow
        (Nat.lt_of_lt_of_le hv (Nat.pow_le_pow_right (by decide) (by omega)))]
      exact (decide_eq_false hj).symm

theorem root_address_defined (s : V6State) (n : Nat) (h : 0 ≤ x_for_ttbc s n) :
    ∃ r, MMU_RTPN_ROOT_ADDRESS s n = .ok r := by
  unfold MMU_RTPN_ROOT_ADDRESS MASK_FOR_ROOT_ADDRESS
  rw [if_pos ⟨h, x_for_ttbc_le s n⟩]
  exact ⟨_, rfl⟩

theorem rootWordBits_ge (s : V6State) : 32 ≤ rootWordBits s := by
  unfold rootWordBits
  cases s.mmu_v6_version.id <;> simp

/-- Under a supported MMU_TTBCR, `root_ptr_for_vaddr` is the three-way choice on
the top bits of the address. -/
theorem root_ptr_cases (s : V6State) (vaddr r0 r1 : Nat)
    (hsup : TtbcrSupported s) (hv : vaddr < 2 ^ rootWordBits s)
    (h0 : MMU_RTPN_ROOT_ADDRESS s 0 = .ok r0) (h1 : MMU_RTPN_ROOT_ADDRESS s 1 = .ok r1) :
    root_ptr_for_vaddr s vaddr =
      .ok (if TopBitsZero (rootWordBits s) (MMU_TTBCR_TNSZ s 0) vaddr then (r0, true)
           else if TopBitsOne (rootWordBits s) (MMU_TTBCR_TNSZ s 1) vaddr then (r1, true)
           else (0, false)) := by
  obtain ⟨hA, hs0, hs1, ht1, _, _⟩ := hsup
  have hW := rootWordBits_ge s
  have hz := shift_zero_iff (rootWordBits s) (MMU_TTBCR_TNSZ s 0) vaddr hv
  have ho := shift_ones_iff (rootWordBits s) (MMU_TTBCR_TNSZ s 1) vaddr hv (by omega)
  have hassert : ¬ (s.mmu_v6_version.id = mmuv6_version_enum.MMUV6_48_4K ∧
      ¬ (MMU_TTBCR_TNSZ s 0 = MMU_TTBCR_TNSZ s 1
        ∧ (MMU_TTBCR_TNSZ s 0 = 16 ∨ MMU_TTBCR_TNSZ s 0 = 25))) := by
    rintro ⟨hid, hn⟩
    exact hn (hA hid)
  have hwidth : (match s.mmu_v6_version.id with
      | mmuv6_version_enum.MMUV6_32_4K => 32
      | _ => 64) = rootWordBits s := rfl
  unfold root_ptr_for_vaddr
  simp only [hwidth, hassert, if_false, bind, Except.bind, pure, Except.pure, shrU, hs0, hs1,
    if_true, intOnes, ht1, h0, h1]
  by_cases hZ : TopBitsZero (rootWordBits s) (MMU_TTBCR_TNSZ s 0) vaddr
  · rw [if_pos hZ, if_pos (hz.2 hZ)]
  · rw [if_neg hZ, if_neg (fun h => hZ (hz.1 h))]
    by_cases hO : TopBitsOne (rootWordBits s) (MMU_TTBCR_TNSZ s 1) vaddr
    · rw [if_pos hO, if_pos (ho.2 hO)]
    · rw [if_neg hO, if_neg (fun h => hO (ho.1 h))]

/-- C15: under a supported MMU_TTBCR, for an address that fits the address word
of the profile (32 bits under 32_4K, 64 bits otherwise), `root_ptr_for_vaddr`
returns `MMU_RTPN_ROOT_ADDRESS(0)` when the top T0SZ bits of the address are all
zero, otherwise `MMU_RTPN_ROOT_ADDRESS(1)` when the top T1SZ bits are all one,
and otherwise reports no valid root; in that last case `page_table_traverse`
returns -1 at once, whatever the memory holds and leaving `mmu_fault_status`
unchanged, with (EXCP_IMMU_FAULT, 0, 0) for a fetch or irrelevant access and
(EXCP_DMMU_FAULT, CAUSE_CODE(kind), 0) for a read or write. -/
theorem radix_root_selection (d : Decls) (s : V6State) (vaddr : Nat) (rwe : mmu_access_type)
    (prot_given : Bool) (excp0 : mem_exception) (pte0 : Nat)
    (hsup : TtbcrSupported s) (hv : vaddr < 2 ^ rootWordBits s) :
    ∃ r0 r1, MMU_RTPN_ROOT_ADDRESS s 0 = .ok r0 ∧ MMU_RTPN_ROOT_ADDRESS s 1 = .ok r1
      ∧ root_ptr_for_vaddr s vaddr =
          .ok (if TopBitsZero (rootWordBits s) (MMU_TTBCR_TNSZ s 0) vaddr then (r0, true)
               else if TopBitsOne (rootWordBits s) (MMU_TTBCR_TNSZ s 1) vaddr then (r1, true)
               else (0, false))
      ∧ (¬ TopBitsZero (rootWordBits s) (MMU_TTBCR_TNSZ s 0) vaddr →
          ¬ TopBitsOne (rootWordBits s) (MMU_TTBCR_TNSZ s 1) vaddr →
          (rwe = mmu_access_type.MMU_MEM_FETCH ∨ rwe = mmu_access_type.MMU_MEM_IRRELEVANT_TYPE →
            page_table_traverse d s vaddr rwe prot_given excp0 pte0 =
              .ok { ret := minusOne d, prot := none,
                    excp := { number := Excp.EXCP_IMMU_FAULT, causecode := 0, parameter := 0 },
                    mmu_fault_status := s.mmu_fault_status })
          ∧ (rwe = mmu_access_type.MMU_MEM_READ ∨ rwe = mmu_access_type.MMU_MEM_WRITE →
            page_table_traverse d s vaddr rwe prot_given excp0 pte0 =
              .ok { ret := minusOne d, prot := none,
                    excp := { number := Excp.EXCP_DMMU_FAULT, causecode := d.CAUSE_CODE rwe,
                              parameter := 0 },
                    mmu_fault_status := s.mmu_fault_status })) := by
  obtain ⟨r0, h0⟩ := root_address_defined s 0 hsup.2.2.2.2.1
  obtain ⟨r1, h1⟩ := root_address_defined s 1 hsup.2.2.2.2.2
  have hroot := root_ptr_cases s vaddr r0 r1 hsup hv h0 h1
  refine ⟨r0, r1, h0, h1, hroot, ?_⟩
  intro hZ hO
  rw [if_neg hZ, if_neg hO] at hroot
  constructor
  · intro hk
    unfold page_table_traverse
    simp only [hroot, bind, Except.bind, pure, Except.pure]
    rcases hk with h | h <;> subst h <;> rfl
  · intro hk
    unfold page_table_traverse
    simp only [hroot, bind, Except.bind, pure, Except.pure]
    rcases hk with h | h <;> subst h <;> rfl

/-- Witness for C15: the 32_4K scenario with both split sizes 2 and a read of
0x40000000, whose top two bits are 01. -/
theorem radix_root_selection_witness :
    ∃ r0 r1, MMU_RTPN_ROOT_ADDRESS v6Split 0 = .ok r0 ∧ MMU_RTPN_ROOT_ADDRESS v6Split 1 = .ok r1
      ∧ root_ptr_for_vaddr v6Split 0x40000000 =
          .ok (if TopBitsZero (rootWordBits v6Split) (MMU_TTBCR_TNSZ v6Split 0) 0x40000000
               then (r0, true)
               else if TopBitsOne (rootWordBits v6Split) (MMU_TTBCR_TNSZ v6Split 1) 0x40000000
               then (r1, true)
               else (0, false))
      ∧ (¬ TopBitsZero (rootWordBits v6Split) (MMU_TTBCR_TNSZ v6Split 0) 0x40000000 →
          ¬ TopBitsOne (rootWordBits v6Split) (MMU_TTBCR_TNSZ v6Split 1) 0x40000000 →
          (mmu_access_type.MMU_MEM_READ = mmu_access_type.MMU_MEM_FETCH
              ∨ mmu_access_type.MMU_MEM_READ = mmu_access_type.MMU_MEM_IRRELEVANT_TYPE →
            page_table_traverse arcDecls v6Split 0x40000000 mmu_access_type.MMU_MEM_READ true
                ⟨Excp.EXCP_NO_EXCEPTION, 0, 0⟩ 0 =
              .ok { ret := minusOne arcDecls, prot := none,
                    excp := { number := Excp.EXCP_IMMU_FAULT, causecode := 0, parameter := 0 },
                    mmu_fault_status := v6Split.mmu_fault_status })
          ∧ (mmu_access_type.MMU_MEM_READ = mmu_access_type.MMU_MEM_READ
              ∨ mmu_access_type.MMU_MEM_READ = mmu_access_type.MMU_MEM_WRITE →
            page_table_traverse arcDecls v6Split 0x40000000 mmu_access_type.MMU_MEM_READ true
                ⟨Excp.EXCP_NO_EXCEPTION, 0, 0⟩ 0 =
              .ok { ret := minusOne arcDecls, prot := none,
                    excp := { number := Excp.EXCP_DMMU_FAULT,
                              causecode := arcDecls.CAUSE_CODE mmu_access_type.MMU_MEM_READ,
                              parameter := 0 },
                    mmu_fault_status := v6Split.mmu_fault_status })) :=
  radix_root_selection arcDecls v6Split 0x40000000 mmu_access_type.MMU_MEM_READ true
    ⟨Excp.EXCP_NO_EXCEPTION, 0, 0⟩ 0 (by decide) (by decide)


/-! ### Faults raised inside the walk -/

/-- The fault descriptor the walker writes for the access kinds its fault
branches name: an instruction-MMU fault with cause `ci` for a fetch or
irrelevant access, a data-MMU fault with cause `cd` for a read or write. -/
theorem mmuFault_kinds (rwe : mmu_access_type) (ci cd : Nat)
    (hk : rwe ≠ mmu_access_type.MMU_MEM_ATTOMIC) :
    mmuFault rwe ci cd = some
      (if rwe = mmu_access_type.MMU_MEM_FETCH ∨ rwe = mmu_access_type.MMU_MEM_IRRELEVANT_TYPE
        then { number := Excp.EXCP_IMMU_FAULT, causecode := ci, parameter := 0x00 }
        else { number := Excp.EXCP_DMMU_FAULT, causecode := cd, parameter := 0x00 }) := by
  cases rwe <;> first | exact absurd rfl hk | rfl

theorem traverse_of_returned (d : Decls) (s : V6State) (vaddr : Nat) (rwe : mmu_access_type)
    (prot_given : Bool) (excp0 : mem_exception) (pte0 n l root rem perms pte fs fs' : Nat)
    (x : mem_exception)
    (hreach : WalkReaches d s vaddr rwe pte0 n l root rem perms pte fs)
    (hloop : walkLoop d s vaddr rwe n l root rem perms pte fs = .ok (LoopExit.returned x fs')) :
    page_table_traverse d s vaddr rwe prot_given excp0 pte0 =
      .ok { ret := minusOne d, prot := none, excp := x, mmu_fault_status := fs' } := by
  obtain ⟨root0, valid, hroot, hv, heq⟩ :=
    walk_reaches_eq d s vaddr rwe pte0 n l root rem perms pte fs hreach
  have hsome : (if valid = false then mmuFault rwe 0x00 (d.CAUSE_CODE rwe) else none)
      = none := by
    rcases hv with h | h
    · simp [h]
    · simp [h]
  unfold page_table_traverse
  simp only [hroot, bind, Except.bind, hsome, heq, hloop, pure, Except.pure]

/-- A loop iteration that loads an invalid entry leaves the walk by `return -1`
with the invalid-entry descriptor and `mmu_fault_status = l & 7`. -/
theorem walkLoop_invalid (d : Decls) (s : V6State) (vaddr : Nat) (rwe : mmu_access_type)
    (n l root rem rem' perms pte fs e : Nat)
    (hload : loadEntry d s vaddr l root rem = .ok (rem', e))
    (hinv : pte_is_invalid s e l = true)
    (hk : rwe ≠ mmu_access_type.MMU_MEM_ATTOMIC) :
    walkLoop d s vaddr rwe (n + 1) l root rem perms pte fs =
      .ok (LoopExit.returned
        (if rwe = mmu_access_type.MMU_MEM_FETCH ∨ rwe = mmu_access_type.MMU_MEM_IRRELEVANT_TYPE
          then { number := Excp.EXCP_IMMU_FAULT, causecode := 0x00, parameter := 0x00 }
          else { number := Excp.EXCP_DMMU_FAULT, causecode := d.CAUSE_CODE rwe,
                 parameter := 0x00 })
        (l &&& 0x7)) := by
  rw [walkLoop]
  simp only [hload, bind, Except.bind, pure, Except.pure, walkHead, hinv, if_true,
    mmuFault_kinds rwe _ _ hk]

/-- A loop iteration that loads a valid block or page descriptor whose access
flag is clear leaves the walk by `return -1` with the access-flag descriptor and
`mmu_fault_status = l & 7`. -/
theorem walkLoop_af_clear (d : Decls) (s : V6State) (vaddr : Nat) (rwe : mmu_access_type)
    (n l root rem rem' perms pte fs e : Nat)
    (hload : loadEntry d s vaddr l root rem = .ok (rem', e))
    (hvalid : pte_is_invalid s e l = false)
    (hdesc : PTE_IS_BLOCK_DESCRIPTOR s e l = true ∨ PTE_IS_PAGE_DESCRIPTOR s e l = true)
    (haf : PTE_BLK_AF e = false)
    (hk : rwe ≠ mmu_access_type.MMU_MEM_ATTOMIC) :
    walkLoop d s vaddr rwe (n + 1) l root rem perms pte fs =
      .ok (LoopExit.returned
        (if rwe = mmu_access_type.MMU_MEM_FETCH ∨ rwe = mmu_access_type.MMU_MEM_IRRELEVANT_TYPE
          then { number := Excp.EXCP_IMMU_FAULT, causecode := 0x10, parameter := 0x00 }
          else { number := Excp.EXCP_DMMU_FAULT, causecode := 0x10 ||| d.CAUSE_CODE rwe,
                 parameter := 0x00 })
        (l &&& 0x7)) := by
  have hor : (PTE_IS_BLOCK_DESCRIPTOR s e l || PTE_IS_PAGE_DESCRIPTOR s e l) = true := by
    rcases hdesc with h | h <;> simp [h]
  rw [walkLoop]
  simp only [hload, bind, Except.bind, pure, Except.pure, walkHead, hvalid, hor, haf,
    mmuFault_kinds rwe _ _ hk]
  simp

/-- C18: when the walk of `page_table_traverse` reaches level `l` and the entry
loaded there is invalid under `pte_is_invalid`, the function returns -1 from that
iteration with `mmu_fault_status = l & 7` and the complete descriptor
(EXCP_IMMU_FAULT, 0, 0) for a fetch or irrelevant access and
(EXCP_DMMU_FAULT, CAUSE_CODE(kind), 0) for a read or write, whatever `*excp`
held before. -/
theorem radix_invalid_entry_fault (d : Decls) (s : V6State) (vaddr : Nat)
    (rwe : mmu_access_type) (prot_given : Bool) (excp0 : mem_exception)
    (pte0 n l root rem perms pte fs rem' e : Nat)
    (hreach : WalkReaches d s vaddr rwe pte0 (n + 1) l root rem perms pte fs)
    (hload : loadEntry d s vaddr l root rem = .ok (rem', e))
    (hinv : pte_is_invalid s e l = true) :
    (rwe = mmu_access_type.MMU_MEM_FETCH ∨ rwe = mmu_access_type.MMU_MEM_IRRELEVANT_TYPE →
      page_table_traverse d s vaddr rwe prot_given excp0 pte0 =
        .ok { ret := minusOne d, prot := none,
              excp := { number := Excp.EXCP_IMMU_FAULT, causecode := 0, parameter := 0 },
              mmu_fault_status := l &&& 0x7 })
    ∧ (rwe = mmu_access_type.MMU_MEM_READ ∨ rwe = mmu_access_type.MMU_MEM_WRITE →
      page_table_traverse d s vaddr rwe prot_given excp0 pte0 =
        .ok { ret := minusOne d, prot := none,
              excp := { number := Excp.EXCP_DMMU_FAULT, causecode := d.CAUSE_CODE rwe,
                        parameter := 0 },
              mmu_fault_status := l &&& 0x7 }) := by
  constructor
  · intro hk
    have hne : rwe ≠ mmu_access_type.MMU_MEM_ATTOMIC := by
      rcases hk with h | h <;> rw [h] <;> decide
    rw [traverse_of_returned d s vaddr rwe prot_given excp0 pte0 (n + 1) l root rem perms pte fs _ _
      hreach (walkLoop_invalid d s vaddr rwe n l root rem rem' perms pte fs e hload hinv hne),
      if_pos hk]
  · intro hk
    have hne : rwe ≠ mmu_access_type.MMU_MEM_ATTOMIC := by
      rcases hk with h | h <;> rw [h] <;> decide
    have hnf : ¬ (rwe = mmu_access_type.MMU_MEM_FETCH
        ∨ rwe = mmu_access_type.MMU_MEM_IRRELEVANT_TYPE) := by
      rcases hk with h | h <;> rw [h] <;> decide
    rw [traverse_of_returned d s vaddr rwe prot_given excp0 pte0 (n + 1) l root rem perms pte fs _ _
      hreach (walkLoop_invalid d s vaddr rwe n l root rem rem' perms pte fs e hload hinv hne),
      if_neg hnf]

/-- Witness for C18: in the scenario tables the level-1 entry for 0x00000123
(index 0, address 0x2000) is zero; a read stops there with
`mmu_fault_status = 1`. -/
theorem radix_invalid_entry_fault_witness :
    (mmu_access_type.MMU_MEM_READ = mmu_access_type.MMU_MEM_FETCH
        ∨ mmu_access_type.MMU_MEM_READ = mmu_access_type.MMU_MEM_IRRELEVANT_TYPE →
      page_table_traverse arcDecls v6Scenario 0x123 mmu_access_type.MMU_MEM_READ true
          ⟨Excp.EXCP_MACHINE_CHECK, 7, 7⟩ 0 =
        .ok { ret := minusOne arcDecls, prot := none,
              excp := { number := Excp.EXCP_IMMU_FAULT, causecode := 0, parameter := 0 },
              mmu_fault_status := 1 &&& 0x7 })
    ∧ (mmu_access_type.MMU_MEM_READ = mmu_access_type.MMU_MEM_READ
        ∨ mmu_access_type.MMU_MEM_READ = mmu_access_type.MMU_MEM_WRITE →
      page_table_traverse arcDecls v6Scenario 0x123 mmu_access_type.MMU_MEM_READ true
          ⟨Excp.EXCP_MACHINE_CHECK, 7, 7⟩ 0 =
        .ok { ret := minusOne arcDecls, prot := none,
              excp := { number := Excp.EXCP_DMMU_FAULT,
                        causecode := arcDecls.CAUSE_CODE mmu_access_type.MMU_MEM_READ,
                        parameter := 0 },
              mmu_fault_status := 1 &&& 0x7 }) :=
  radix_invalid_entry_fault arcDecls v6Scenario 0x123 mmu_access_type.MMU_MEM_READ true
    ⟨Excp.EXCP_MACHINE_CHECK, 7, 7⟩ 0 1 1 0x2000 30 0 0x2003 0 21 0
    (WalkReaches.next 2 0 0x1000 32 0 0 0 30 0x2003 0
      (WalkReaches.entry 0x1000 true rfl (Or.inl rfl)) rfl rfl (Or.inl rfl))
    rfl rfl


theorem traverse_no_root (d : Decls) (s : V6State) (vaddr : Nat) (rwe : mmu_access_type)
    (prot_given : Bool) (excp0 : mem_exception) (pte0 root : Nat)
    (hroot : root_ptr_for_vaddr s vaddr = .ok (root, false))
    (hk : rwe ≠ mmu_access_type.MMU_MEM_ATTOMIC) :
    page_table_traverse d s vaddr rwe prot_given excp0 pte0 =
      .ok { ret := minusOne d, prot := none,
            excp :=
              if rwe = mmu_access_type.MMU_MEM_FETCH
                  ∨ rwe = mmu_access_type.MMU_MEM_IRRELEVANT_TYPE
              then { number := Excp.EXCP_IMMU_FAULT, causecode := 0x00, parameter := 0x00 }
              else { number := Excp.EXCP_DMMU_FAULT, causecode := d.CAUSE_CODE rwe,
                     parameter := 0x00 },
            mmu_fault_status := s.mmu_fault_status } := by
  unfold page_table_traverse
  simp only [hroot, bind, Except.bind, pure, Except.pure, if_true, mmuFault_kinds rwe _ _ hk]

/-- C19: for a fetch, irrelevant, read or write access, let one walk reach a
valid block or page descriptor whose access flag is clear, another walk load an
invalid entry, and a third find no valid root. Then the three calls of
`page_table_traverse` return -1 with descriptors `xa`, `xi`, `xu` such that `xa`
has the kind of `xi` (instruction- or data-MMU fault) and the parameter of `xi`,
its cause code is that of `xi` with the bit 0x10 added, and neither `xi` nor
`xu` carries that bit. The cause code `CAUSE_CODE(kind)` of the header is
assumed not to use the bit 0x10. -/
theorem radix_af_fault_descriptor (d : Decls) (rwe : mmu_access_type)
    (sa si su : V6State) (va vi vu : Nat) (pga pgi pgu : Bool) (ea0 ei0 eu0 : mem_exception)
    (pa0 na la roota rema permsa ptea fsa rema' ea : Nat)
    (pi0 ni li rooti remi permsi ptei fsi remi' ei : Nat)
    (pu0 rootu : Nat)
    (hk : rwe ≠ mmu_access_type.MMU_MEM_ATTOMIC)
    (hcc : d.CAUSE_CODE rwe &&& 0x10 = 0)
    (hreachA : WalkReaches d sa va rwe pa0 (na + 1) la roota rema permsa ptea fsa)
    (hloadA : loadEntry d sa va la roota rema = .ok (rema', ea))
    (hvalidA : pte_is_invalid sa ea la = false)
    (hdescA : PTE_IS_BLOCK_DESCRIPTOR sa ea la = true ∨ PTE_IS_PAGE_DESCRIPTOR sa ea la = true)
    (hafA : PTE_BLK_AF ea = false)
    (hreachI : WalkReaches d si vi rwe pi0 (ni + 1) li rooti remi permsi ptei fsi)
    (hloadI : loadEntry d si vi li rooti remi = .ok (remi', ei))
    (hinvI : pte_is_invalid si ei li = true)
    (hrootU : root_ptr_for_vaddr su vu = .ok (rootu, false)) :
    ∃ xa xi xu : mem_exception,
      page_table_traverse d sa va rwe pga ea0 pa0 =
          .ok { ret := minusOne d, prot := none, excp := xa, mmu_fault_status := la &&& 0x7 }
      ∧ page_table_traverse d si vi rwe pgi ei0 pi0 =
          .ok { ret := minusOne d, prot := none, excp := xi, mmu_fault_status := li &&& 0x7 }
      ∧ page_table_traverse d su vu rwe pgu eu0 pu0 =
          .ok { ret := minusOne d, prot := none, excp := xu,
                mmu_fault_status := su.mmu_fault_status }
      ∧ (xa.number = Excp.EXCP_IMMU_FAULT ∨ xa.number = Excp.EXCP_DMMU_FAULT)
      ∧ xa.number = xi.number ∧ xa.parameter = xi.parameter
      ∧ xa.causecode = xi.causecode ||| 0x10
      ∧ xi.causecode &&& 0x10 = 0 ∧ xu.causecode &&& 0x10 = 0 ∧ xu = xi := by
  refine ⟨_, _, _,
    traverse_of_returned d sa va rwe pga ea0 pa0 (na + 1) la roota rema permsa ptea fsa _ _
      hreachA (walkLoop_af_clear d sa va rwe na la roota rema rema' permsa ptea fsa ea hloadA
        hvalidA hdescA hafA hk),
    traverse_of_returned d si vi rwe pgi ei0 pi0 (ni + 1) li rooti remi permsi ptei fsi _ _
      hreachI (walkLoop_invalid d si vi rwe ni li rooti remi remi' permsi ptei fsi ei hloadI
        hinvI hk),
    traverse_no_root d su vu rwe pgu eu0 pu0 rootu hrootU hk, ?_⟩
  by_cases hf : rwe = mmu_access_type.MMU_MEM_FETCH
      ∨ rwe = mmu_access_type.MMU_MEM_IRRELEVANT_TYPE
  · rw [if_pos hf, if_pos hf]
    exact ⟨Or.inl rfl, rfl, rfl, rfl, rfl, rfl, rfl⟩
  · rw [if_neg hf, if_neg hf]
    exact ⟨Or.inr rfl, rfl, rfl, Nat.lor_comm _ _, hcc, hcc, rfl⟩

/-- Witness for C19: a read of 0x202123 through the tables whose page descriptor
lacks the access flag, a read of 0x123 through the scenario tables (level-1 entry
zero), and a read of 0x40000000 under the split sizes 2/2 (no valid root). -/
theorem radix_af_fault_descriptor_witness :
    ∃ xa xi xu : mem_exception,
      page_table_traverse arcDecls v6NoAF 0x202123 mmu_access_type.MMU_MEM_READ true
          ⟨Excp.EXCP_NO_EXCEPTION, 0, 0⟩ 0 =
          .ok { ret := minusOne arcDecls, prot := none, excp := xa,
                mmu_fault_status := 2 &&& 0x7 }
      ∧ page_table_traverse arcDecls v6Scenario 0x123 mmu_access_type.MMU_MEM_READ true
          ⟨Excp.EXCP_NO_EXCEPTION, 0, 0⟩ 0 =
          .ok { ret := minusOne arcDecls, prot := none, excp := xi,
                mmu_fault_status := 1 &&& 0x7 }
      ∧ page_table_traverse arcDecls v6Split 0x40000000 mmu_access_type.MMU_MEM_READ true
          ⟨Excp.EXCP_NO_EXCEPTION, 0, 0⟩ 0 =
          .ok { ret := minusOne arcDecls, prot := none, excp := xu,
                mmu_fault_status := v6Split.mmu_fault_status }
      ∧ (xa.number = Excp.EXCP_IMMU_FAULT ∨ xa.number = Excp.EXCP_DMMU_FAULT)
      ∧ xa.number = xi.number ∧ xa.parameter = xi.parameter
      ∧ xa.causecode = xi.causecode ||| 0x10
      ∧ xi.causecode &&& 0x10 = 0 ∧ xu.causecode &&& 0x10 = 0 ∧ xu = xi :=
  radix_af_fault_descriptor arcDecls mmu_access_type.MMU_MEM_READ v6NoAF v6Scenario v6Split
    0x202123 0x123 0x40000000 true true true
    ⟨Excp.EXCP_NO_EXCEPTION, 0, 0⟩ ⟨Excp.EXCP_NO_EXCEPTION, 0, 0⟩ ⟨Excp.EXCP_NO_EXCEPTION, 0, 0⟩
    0 0 2 0x3000 21 0 0x3003 0 12 0x90003
    0 1 1 0x2000 30 0 0x2003 0 21 0
    0 0
    (by decide) (by decide)
    (WalkReaches.next 1 1 0x2000 30 0 0x2003 0 21 0x3003 0
      (WalkReaches.next 2 0 0x1000 32 0 0 0 30 0x2003 0
        (WalkReaches.entry 0x1000 true rfl (Or.inl rfl)) rfl rfl (Or.inl rfl))
      rfl rfl (Or.inl rfl))
    rfl rfl (Or.inr rfl) rfl
    (WalkReaches.next 2 0 0x1000 32 0 0 0 30 0x2003 0
      (WalkReaches.entry 0x1000 true rfl (Or.inl rfl)) rfl rfl (Or.inl rfl))
    rfl rfl
    rfl


/-! ### Override accumulation -/

theorem walkPath_reaches (d : Decls) (s : V6State) (vaddr : Nat) (rwe : mmu_access_type)
    (pte0 : Nat) (es : List (Nat × Nat)) (n l root rem perms pte fs : Nat)
    (h : WalkPath d s vaddr rwe pte0 es n l root rem perms pte fs) :
    WalkReaches d s vaddr rwe pte0 n l root rem perms pte fs := by
  induction h with
  | entry root valid hroot hv => exact WalkReaches.entry root valid hroot hv
  | next es n l root rem perms pte fs rem' e fs' _ hload hhead hinv ih =>
    exact WalkReaches.next n l root rem perms pte fs rem' e fs' ih hload hhead hinv

theorem tbl_attr_testBit (pte j : Nat) (hj : j < 5) :
    (PTE_TBL_ATTRIBUTES pte).testBit j = pte.testBit (59 + j) := by
  unfold PTE_TBL_ATTRIBUTES
  rw [Nat.testBit_shiftRight, Nat.testBit_and]
  have hm : Nat.testBit 0xf800000000000000 (59 + j) = true := by
    interval_cases j <;> decide
  rw [hm, Bool.and_true]

theorem kxn_bit (pte : Nat) : PTE_TBL_KERNEL_EXECUTE_NEVER_NEXT pte = pte.testBit 59 := by
  unfold PTE_TBL_KERNEL_EXECUTE_NEVER_NEXT
  rw [show (0x1 : Nat) = 2 ^ 0 from rfl, Nat.and_two_pow, tbl_attr_testBit pte 0 (by decide)]
  cases pte.testBit 59 <;> rfl

theorem uxn_bit (pte : Nat) : PTE_TBL_USER_EXECUTE_NEVER_NEXT pte = pte.testBit 60 := by
  unfold PTE_TBL_USER_EXECUTE_NEVER_NEXT
  rw [show (0x2 : Nat) = 2 ^ 1 from rfl, Nat.and_two_pow, tbl_attr_testBit pte 1 (by decide)]
  cases pte.testBit 60 <;> rfl

theorem ap_field (pte : Nat) : PTE_TBL_ACCESS_PERMITIONS_NEXT pte = (pte >>> 61) % 4 := by
  unfold PTE_TBL_ACCESS_PERMITIONS_NEXT
  apply Nat.eq_of_testBit_eq
  intro j
  rw [Nat.testBit_shiftRight, Nat.testBit_and, show (4 : Nat) = 2 ^ 2 from rfl,
    Nat.testBit_mod_two_pow, Nat.testBit_shiftRight]
  by_cases hj : j < 2
  · rw [tbl_attr_testBit pte (2 + j) (by omega)]
    have hc : Nat.testBit 0xc (2 + j) = true := by
      interval_cases j <;> decide
    rw [hc, Bool.and_true, decide_eq_true hj, Bool.true_and, show 59 + (2 + j) = 61 + j by omega]
  · have hc : Nat.testBit 0xc (2 + j) = false :=
      Nat.testBit_lt_two_pow (Nat.lt_of_lt_of_le (by decide : 0xc < 2 ^ 4)
        (Nat.pow_le_pow_right (by decide) (by omega)))
    rw [hc, Bool.and_false, decide_eq_false hj, Bool.false_and]

/-- The statements of lines 637 to 653 add exactly the contribution of the
claim when the entry is a table descriptor, and nothing otherwise. -/
theorem accumulate_eq (s : V6State) (e l p : Nat) :
    accumulate_overrides s e l p =
      if PTE_IS_TABLE_DESCRIPTOR s e l = true then p ||| tableOverride e else p := by
  unfold accumulate_overrides
  by_cases ht : PTE_IS_TABLE_DESCRIPTOR s e l = true
  · simp only [ht, if_true, PTE_TBL_AP_NO_USER_MODE, PTE_TBL_AP_NO_WRITES,
      PTE_TBL_AP_NO_USER_READS_OR_WRITES, kxn_bit, uxn_bit, ap_field, tableOverride,
      beq_iff_eq]
    have hap : (e >>> 61) % 4 < 4 := Nat.mod_lt _ (by decide)
    generalize (e >>> 61) % 4 = a at hap
    cases e.testBit 59 <;> cases e.testBit 60 <;> interval_cases a <;>
      simp [Nat.or_assoc]
  · simp only [ht, if_false, Bool.false_eq_true]

theorem overrideMask_snoc (s : V6State) (es : List (Nat × Nat)) (l e : Nat) :
    overrideMask s (es ++ [(l, e)]) =
      if PTE_IS_TABLE_DESCRIPTOR s e l = true then overrideMask s es ||| tableOverride e
      else overrideMask s es := by
  unfold overrideMask
  rw [List.filter_append, List.map_append, List.foldl_append]
  by_cases ht : PTE_IS_TABLE_DESCRIPTOR s e l = true
  · simp [List.filter, ht]
  · simp [List.filter, ht]

theorem walkPath_perms (d : Decls) (s : V6State) (vaddr : Nat) (rwe : mmu_access_type)
    (pte0 : Nat) (es : List (Nat × Nat)) (n l root rem perms pte fs : Nat)
    (h : WalkPath d s vaddr rwe pte0 es n l root rem perms pte fs) :
    perms = overrideMask s es := by
  induction h with
  | entry root valid hroot hv => rfl
  | next es n l root rem perms pte fs rem' e fs' _ hload hhead hinv ih =>
    rw [accumulate_eq, overrideMask_snoc, ih]

theorem foldl_or_keeps (cs : List Nat) : ∀ a : Nat, a &&& cs.foldl (fun m c => m ||| c) a = a := by
  induction cs with
  | nil =>
    intro a
    exact Nat.and_self a
  | cons c cs ih =>
    intro a
    have h := ih (a ||| c)
    rw [List.foldl_cons]
    apply Nat.eq_of_testBit_eq
    intro i
    have hi := congrArg (fun t => Nat.testBit t i) h
    simp only [Nat.testBit_and, Nat.testBit_or] at hi ⊢
    revert hi
    cases a.testBit i <;> cases c.testBit i <;>
      cases (List.foldl (fun m c => m ||| c) (a ||| c) cs).testBit i <;> simp

/-- A flag of the override mask, once set, stays set at every deeper level. -/
theorem overrideMask_mono (s : V6State) (es1 es2 : List (Nat × Nat)) :
    overrideMask s es1 &&& overrideMask s (es1 ++ es2) = overrideMask s es1 := by
  unfold overrideMask
  rw [List.filter_append, List.map_append, List.foldl_append]
  exact foldl_or_keeps _ _

/-- An entry that is not a table descriptor adds nothing to the override mask. -/
theorem overrideMask_skip (s : V6State) (es1 es2 : List (Nat × Nat)) (l e : Nat)
    (h : PTE_IS_TABLE_DESCRIPTOR s e l = false) :
    overrideMask s (es1 ++ (l, e) :: es2) = overrideMask s (es1 ++ es2) := by
  unfold overrideMask
  simp [List.filter_append, List.filter_cons, h]

theorem walkLoop_found (d : Decls) (s : V6State) (vaddr : Nat) (rwe : mmu_access_type)
    (n l root rem rem' perms pte fs e : Nat)
    (hload : loadEntry d s vaddr l root rem = .ok (rem', e))
    (hvalid : pte_is_invalid s e l = false)
    (hdesc : PTE_IS_BLOCK_DESCRIPTOR s e l = true ∨ PTE_IS_PAGE_DESCRIPTOR s e l = true)
    (haf : PTE_BLK_AF e = true) :
    walkLoop d s vaddr rwe (n + 1) l root rem perms pte fs =
      .ok (LoopExit.finished true e l perms rem' fs) := by
  have hor : (PTE_IS_BLOCK_DESCRIPTOR s e l || PTE_IS_PAGE_DESCRIPTOR s e l) = true := by
    rcases hdesc with h | h <;> simp [h]
  rw [walkLoop]
  simp [hload, bind, Except.bind, pure, Except.pure, walkHead, hvalid, hor, haf]

/-- The tail of `page_table_traverse` (lines 668 to 683) once the loop was left
by `break` on the descriptor `e` at level `l`. -/
theorem traverse_of_found (d : Decls) (s : V6State) (vaddr : Nat) (rwe : mmu_access_type)
    (prot_given : Bool) (excp0 : mem_exception) (pte0 n l root rem perms pte fs : Nat)
    (e l' perms' rem' fs' : Nat)
    (hreach : WalkReaches d s vaddr rwe pte0 n l root rem perms pte fs)
    (hloop : walkLoop d s vaddr rwe n l root rem perms pte fs
      = .ok (LoopExit.finished true e l' perms' rem' fs')) :
    page_table_traverse d s vaddr rwe prot_given excp0 pte0 =
      if protv_violation s e l' perms' rwe = true then
        .ok { ret := minusOne d, prot := none,
              excp := { number := Excp.EXCP_PROTV, causecode := d.CAUSE_CODE rwe,
                        parameter := 0x08 },
              mmu_fault_status := fs' }
      else
        match V6_PADDR s rem' e vaddr with
        | .ok pa =>
          .ok { ret := pa % 2 ^ d.TARGET_LONG_BITS,
                prot := if prot_given = true then some (get_prot_for_pte d s e perms') else none,
                excp := excp0, mmu_fault_status := fs' }
        | .error x => .error x := by
  obtain ⟨root0, valid, hroot, hv, heq⟩ :=
    walk_reaches_eq d s vaddr rwe pte0 n l root rem perms pte fs hreach
  have hsome : (if valid = false then mmuFault rwe 0x00 (d.CAUSE_CODE rwe) else none)
      = none := by
    rcases hv with h | h
    · simp [h]
    · simp [h]
  unfold page_table_traverse
  simp only [hroot, bind, Except.bind, hsome, heq, hloop, pure, Except.pure, if_true]
  by_cases hp : protv_violation s e l' perms' rwe = true
  · simp only [hp, if_true]
  · simp only [hp, if_false, Bool.false_eq_true]
    cases V6_PADDR s rem' e vaddr <;> rfl

/-- C16: let the walk of `page_table_traverse` arrive at level `l` having
traversed the entries `es`, and let the entry loaded at level `l` be a valid
block or page descriptor with the access flag set. Then the override mask the
walk carries equals the bitwise OR of the contributions of the table descriptors
among `es` (bit 59: kernel-execute-never, bit 60: user-execute-never,
access-permission field 1, 2, 3: no-user-mode, no-write, no-user-read/write), and
it is that mask which `protv_violation` and `get_prot_for_pte` receive for the
terminal descriptor. The mask of the empty path is empty, a flag set by a prefix
of the path is set for every extension, and an entry that is not a table
descriptor adds nothing. -/
theorem radix_override_accumulation (d : Decls) (s : V6State) (vaddr : Nat)
    (rwe : mmu_access_type) (prot_given : Bool) (excp0 : mem_exception) (pte0 : Nat)
    (es : List (Nat × Nat)) (n l root rem perms pte fs rem' e : Nat)
    (hpath : WalkPath d s vaddr rwe pte0 es (n + 1) l root rem perms pte fs)
    (hload : loadEntry d s vaddr l root rem = .ok (rem', e))
    (hvalid : pte_is_invalid s e l = false)
    (hdesc : PTE_IS_BLOCK_DESCRIPTOR s e l = true ∨ PTE_IS_PAGE_DESCRIPTOR s e l = true)
    (haf : PTE_BLK_AF e = true) :
    perms = overrideMask s es
    ∧ page_table_traverse d s vaddr rwe prot_given excp0 pte0 =
        (if protv_violation s e l (overrideMask s es) rwe = true then
          .ok { ret := minusOne d, prot := none,
                excp := { number := Excp.EXCP_PROTV, causecode := d.CAUSE_CODE rwe,
                          parameter := 0x08 },
                mmu_fault_status := fs }
        else
          match V6_PADDR s rem' e vaddr with
          | .ok pa =>
            .ok { ret := pa % 2 ^ d.TARGET_LONG_BITS,
                  prot := if prot_given = true then
                      some (get_prot_for_pte d s e (overrideMask s es))
                    else none,
                  excp := excp0, mmu_fault_status := fs }
          | .error x => .error x)
    ∧ overrideMask s [] = 0
    ∧ (∀ es1 es2, overrideMask s es1 &&& overrideMask s (es1 ++ es2) = overrideMask s es1)
    ∧ (∀ es1 es2 l' e', PTE_IS_TABLE_DESCRIPTOR s e' l' = false →
        overrideMask s (es1 ++ (l', e') :: es2) = overrideMask s (es1 ++ es2))
    ∧ (∀ es1 l' e', PTE_IS_TABLE_DESCRIPTOR s e' l' = true →
        overrideMask s (es1 ++ [(l', e')]) = overrideMask s es1 ||| tableOverride e') := by
  have hperms := walkPath_perms d s vaddr rwe pte0 es (n + 1) l root rem perms pte fs hpath
  refine ⟨hperms, ?_, rfl, overrideMask_mono s, ?_, ?_⟩
  · rw [← hperms]
    exact traverse_of_found d s vaddr rwe prot_given excp0 pte0 (n + 1) l root rem perms pte fs
      e l perms rem' fs
      (walkPath_reaches d s vaddr rwe pte0 es (n + 1) l root rem perms pte fs hpath)
      (walkLoop_found d s vaddr rwe n l root rem rem' perms pte fs e hload hvalid hdesc haf)
  · intro es1 es2 l' e' h
    exact overrideMask_skip s es1 es2 l' e' h
  · intro es1 l' e' h
    rw [overrideMask_snoc, if_pos h]

/-- Witness for C16: a read of 0x202123 through the tables whose level-0 table
descriptor carries the access-permission field 2; the walk traverses that
descriptor and the level-1 table descriptor and reaches the page descriptor
0x90403 with the mask `RESTRICT_TBL_NO_WRITE_ACCESS`. -/
theorem radix_override_accumulation_witness :
    RESTRICT_TBL_NO_WRITE_ACCESS
        = overrideMask v6NoWrite [(0, 0x4000000000002003), (1, 0x3003)]
    ∧ page_table_traverse arcDecls v6NoWrite 0x202123 mmu_access_type.MMU_MEM_READ true
          ⟨Excp.EXCP_NO_EXCEPTION, 0, 0⟩ 0 =
        (if protv_violation v6NoWrite 0x90403 2
            (overrideMask v6NoWrite [(0, 0x4000000000002003), (1, 0x3003)])
            mmu_access_type.MMU_MEM_READ = true then
          .ok { ret := minusOne arcDecls, prot := none,
                excp := { number := Excp.EXCP_PROTV,
                          causecode := arcDecls.CAUSE_CODE mmu_access_type.MMU_MEM_READ,
                          parameter := 0x08 },
                mmu_fault_status := 0 }
        else
          match V6_PADDR v6NoWrite 12 0x90403 0x202123 with
          | .ok pa =>
            .ok { ret := pa % 2 ^ arcDecls.TARGET_LONG_BITS,
                  prot := if true = true then
                      some (get_prot_for_pte arcDecls v6NoWrite 0x90403
                        (overrideMask v6NoWrite [(0, 0x4000000000002003), (1, 0x3003)]))
                    else none,
                  excp := ⟨Excp.EXCP_NO_EXCEPTION, 0, 0⟩, mmu_fault_status := 0 }
          | .error x => .error x)
    ∧ overrideMask v6NoWrite [] = 0
    ∧ (∀ es1 es2, overrideMask v6NoWrite es1 &&& overrideMask v6NoWrite (es1 ++ es2)
        = overrideMask v6NoWrite es1)
    ∧ (∀ es1 es2 l' e', PTE_IS_TABLE_DESCRIPTOR v6NoWrite e' l' = false →
        overrideMask v6NoWrite (es1 ++ (l', e') :: es2) = overrideMask v6NoWrite (es1 ++ es2))
    ∧ (∀ es1 l' e', PTE_IS_TABLE_DESCRIPTOR v6NoWrite e' l' = true →
        overrideMask v6NoWrite (es1 ++ [(l', e')])
          = overrideMask v6NoWrite es1 ||| tableOverride e') :=
  radix_override_accumulation arcDecls v6NoWrite 0x202123 mmu_access_type.MMU_MEM_READ true
    ⟨Excp.EXCP_NO_EXCEPTION, 0, 0⟩ 0 [(0, 0x4000000000002003), (1, 0x3003)]
    0 2 0x3000 21 RESTRICT_TBL_NO_WRITE_ACCESS 0x3003 0 12 0x90403
    (WalkPath.next [(0, 0x4000000000002003)] 1 1 0x2000 30 RESTRICT_TBL_NO_WRITE_ACCESS
      0x4000000000002003 0 21 0x3003 0
      (WalkPath.next [] 2 0 0x1000 32 0 0 0 30 0x4000000000002003 0
        (WalkPath.entry 0x1000 true rfl (Or.inl rfl)) rfl rfl (Or.inl rfl))
      rfl rfl (Or.inl rfl))
    rfl rfl (Or.inr rfl) rfl


/-! ### The physical address of a successful walk -/

theorem profile_bits (p : mmuv6_version_enum) (s : V6State) (l : Nat)
    (hp : s.mmu_v6_version = mmuv6_info p) (hl : l < NLEVELS s) :
    indexBitsBelow s (l + 1) ≤ VADDR_SIZE s ∧ VADDR_SIZE s ≤ 52
      ∧ indexBitsBelow s (l + 1) = indexBitsBelow s l + N_BITS_ON_LEVEL s l := by
  refine ⟨?_, ?_, ?_⟩
  · unfold indexBitsBelow N_BITS_ON_LEVEL VADDR_SIZE
    unfold NLEVELS at hl
    rw [hp] at hl ⊢
    cases p <;> simp only [mmuv6_info] at hl ⊢ <;> interval_cases l <;> decide
  · unfold VADDR_SIZE
    rw [hp]
    cases p <;> decide
  · unfold indexBitsBelow
    rw [List.range_succ, List.map_append, List.sum_append]
    simp

theorem loadEntry_rem (d : Decls) (s : V6State) (vaddr l root rem rem' e : Nat)
    (h : loadEntry d s vaddr l root rem = .ok (rem', e)) :
    rem' = (rem + 256 - N_BITS_ON_LEVEL s l) % 256 := by
  unfold loadEntry shrU intOnes at h
  simp only [bind, Except.bind, pure, Except.pure] at h
  split_ifs at h
  cases h
  rfl

/-- At the top of the iteration for level `l` of a profile of `mmuv6_info`, the
walk has `NLEVELS() - l` iterations left and `remainig_bits` is the address width
minus the index widths of the levels below `l`. -/
theorem reach_rem (d : Decls) (s : V6State) (p : mmuv6_version_enum) (vaddr : Nat)
    (rwe : mmu_access_type) (pte0 n l root rem perms pte fs : Nat)
    (hp : s.mmu_v6_version = mmuv6_info p)
    (h : WalkReaches d s vaddr rwe pte0 n l root rem perms pte fs) :
    n + l = NLEVELS s ∧ rem + indexBitsBelow s l = VADDR_SIZE s := by
  induction h with
  | entry root valid hroot hv =>
    refine ⟨rfl, ?_⟩
    have hW : VADDR_SIZE s ≤ 52 := by
      unfold VADDR_SIZE
      rw [hp]
      cases p <;> decide
    have : VADDR_SIZE s % 256 = VADDR_SIZE s := Nat.mod_eq_of_lt (by omega)
    rw [this]
    rfl
  | next n l root rem perms pte fs rem' e fs' _ hload hhead hinv ih =>
    obtain ⟨hn, hr⟩ := ih
    obtain ⟨hle, hW, hsum⟩ := profile_bits p s l hp (by omega)
    have hrem := loadEntry_rem d s vaddr l root rem rem' e hload
    refine ⟨by omega, ?_⟩
    rw [hsum, hrem]
    have : (rem + 256 - N_BITS_ON_LEVEL s l) % 256 = rem - N_BITS_ON_LEVEL s l := by
      have h1 : rem + 256 - N_BITS_ON_LEVEL s l = (rem - N_BITS_ON_LEVEL s l) + 256 := by omega
      rw [h1, Nat.add_mod_right]
      exact Nat.mod_eq_of_lt (by omega)
    rw [this]
    omega

theorem not64_low_bit (r i : Nat) (hr : r ≤ 64) (hi : i < r) :
    (not64 (2 ^ r - 1)).testBit i = false := by
  unfold not64
  have hlt : 2 ^ r - 1 < 2 ^ 64 :=
    Nat.lt_of_lt_of_le (Nat.sub_lt (Nat.two_pow_pos r) (by decide))
      (Nat.pow_le_pow_right (by decide) hr)
  rw [Nat.mod_eq_of_lt hlt, Nat.testBit_xor, Nat.testBit_two_pow_sub_one,
    Nat.testBit_two_pow_sub_one, decide_eq_true (by omega : i < 64), decide_eq_true hi]
  rfl

/-- The value of `V6_PADDR` agrees with `vaddr` on the low `r` bits. -/
theorem paddr_low_bits (e vaddr w r : Nat) (hr : r ≤ 64) :
    ((e &&& (2 ^ w - 1) &&& not64 (2 ^ r - 1)) ||| (vaddr &&& (2 ^ r - 1))) % 2 ^ r
      = vaddr % 2 ^ r := by
  apply Nat.eq_of_testBit_eq
  intro i
  simp only [Nat.testBit_mod_two_pow, Nat.testBit_or, Nat.testBit_and,
    Nat.testBit_two_pow_sub_one]
  by_cases hi : i < r
  · rw [not64_low_bit r i hr hi]
    simp [hi]
  · simp [hi]

theorem paddr_lt (e vaddr w r : Nat) (hrw : r ≤ w) :
    (e &&& (2 ^ w - 1) &&& not64 (2 ^ r - 1)) ||| (vaddr &&& (2 ^ r - 1)) < 2 ^ w := by
  have hw : 2 ^ w - 1 < 2 ^ w := Nat.sub_lt (Nat.two_pow_pos w) (by decide)
  have h1 : e &&& (2 ^ w - 1) &&& not64 (2 ^ r - 1) < 2 ^ w :=
    Nat.lt_of_le_of_lt Nat.and_le_left (Nat.and_lt_two_pow e hw)
  have h2 : vaddr &&& (2 ^ r - 1) < 2 ^ w :=
    Nat.lt_of_lt_of_le
      (Nat.and_lt_two_pow vaddr (Nat.sub_lt (Nat.two_pow_pos r) (by decide)))
      (Nat.pow_le_pow_right (by decide) hrw)
  exact Nat.or_lt_two_pow h1 h2

/-- C17: in a profile of `mmuv6_info` whose address width fits `target_ulong`,
when the walk reaches level `l`, the entry `e` loaded there is a valid block or
page descriptor with the access flag set and `protv_violation` reports no
violation, `page_table_traverse` succeeds (`*excp` untouched) and returns
`(e & (2^W - 1) & ~(2^r - 1)) | (vaddr & (2^r - 1))`, where `W` is the address
width of the profile and `r` is `W` minus the index widths of the levels 0 to
`l`; the low `r` bits of the result are those of `vaddr`. -/
theorem radix_physical_address (d : Decls) (s : V6State) (p : mmuv6_version_enum)
    (vaddr : Nat) (rwe : mmu_access_type) (prot_given : Bool) (excp0 : mem_exception)
    (pte0 n l root rem perms pte fs rem' e : Nat)
    (hp : s.mmu_v6_version = mmuv6_info p)
    (hT : VADDR_SIZE s ≤ d.TARGET_LONG_BITS)
    (hreach : WalkReaches d s vaddr rwe pte0 (n + 1) l root rem perms pte fs)
    (hload : loadEntry d s vaddr l root rem = .ok (rem', e))
    (hvalid : pte_is_invalid s e l = false)
    (hdesc : PTE_IS_BLOCK_DESCRIPTOR s e l = true ∨ PTE_IS_PAGE_DESCRIPTOR s e l = true)
    (haf : PTE_BLK_AF e = true)
    (hperm : protv_violation s e l perms rwe = false) :
    ∃ out, page_table_traverse d s vaddr rwe prot_given excp0 pte0 = .ok out
      ∧ out.excp = excp0
      ∧ indexBitsBelow s (l + 1) ≤ VADDR_SIZE s
      ∧ out.ret = (e &&& (2 ^ VADDR_SIZE s - 1)
            &&& not64 (2 ^ (VADDR_SIZE s - indexBitsBelow s (l + 1)) - 1))
          ||| (vaddr &&& (2 ^ (VADDR_SIZE s - indexBitsBelow s (l + 1)) - 1))
      ∧ out.ret % 2 ^ (VADDR_SIZE s - indexBitsBelow s (l + 1))
          = vaddr % 2 ^ (VADDR_SIZE s - indexBitsBelow s (l + 1)) := by
  obtain ⟨hn, hr⟩ := reach_rem d s p vaddr rwe pte0 (n + 1) l root rem perms pte fs hp hreach
  obtain ⟨hle, hW, hsum⟩ := profile_bits p s l hp (by omega)
  have hrem := loadEntry_rem d s vaddr l root rem rem' e hload
  have hrem' : rem' = VADDR_SIZE s - indexBitsBelow s (l + 1) := by
    rw [hrem]
    have h1 : rem + 256 - N_BITS_ON_LEVEL s l = (rem - N_BITS_ON_LEVEL s l) + 256 := by omega
    rw [h1, Nat.add_mod_right, Nat.mod_eq_of_lt (by omega)]
    omega
  have hfound := traverse_of_found d s vaddr rwe prot_given excp0 pte0 (n + 1) l root rem perms
    pte fs e l perms rem' fs hreach
    (walkLoop_found d s vaddr rwe n l root rem rem' perms pte fs e hload hvalid hdesc haf)
  have hlt64 : VADDR_SIZE s - indexBitsBelow s (l + 1) < 64 := by omega
  have hpa : V6_PADDR s (VADDR_SIZE s - indexBitsBelow s (l + 1)) e vaddr =
      .ok ((e &&& (2 ^ VADDR_SIZE s - 1)
            &&& not64 (2 ^ (VADDR_SIZE s - indexBitsBelow s (l + 1)) - 1))
          ||| (vaddr &&& (2 ^ (VADDR_SIZE s - indexBitsBelow s (l + 1)) - 1))) := by
    unfold V6_PADDR
    rw [if_pos hlt64, Nat.and_assoc]
  have hbound := paddr_lt e vaddr (VADDR_SIZE s) (VADDR_SIZE s - indexBitsBelow s (l + 1))
    (Nat.sub_le _ _)
  have hmod : ((e &&& (2 ^ VADDR_SIZE s - 1)
        &&& not64 (2 ^ (VADDR_SIZE s - indexBitsBelow s (l + 1)) - 1))
      ||| (vaddr &&& (2 ^ (VADDR_SIZE s - indexBitsBelow s (l + 1)) - 1)))
        % 2 ^ d.TARGET_LONG_BITS
      = (e &&& (2 ^ VADDR_SIZE s - 1)
        &&& not64 (2 ^ (VADDR_SIZE s - indexBitsBelow s (l + 1)) - 1))
      ||| (vaddr &&& (2 ^ (VADDR_SIZE s - indexBitsBelow s (l + 1)) - 1)) :=
    Nat.mod_eq_of_lt (Nat.lt_of_lt_of_le hbound (Nat.pow_le_pow_right (by decide) hT))
  rw [hperm, hrem', hpa] at hfound
  simp only [Bool.false_eq_true, if_false, hmod] at hfound
  exact ⟨_, hfound, rfl, hle, rfl, paddr_low_bits e vaddr _ _ (by omega)⟩

/-- Witness for C17: the scenario walk of 0x202123; the page descriptor 0x90403
is found at level 2, where `r = 32 - (2 + 9 + 9) = 12`. -/
theorem radix_physical_address_witness :
    ∃ out, page_table_traverse arcDecls v6Scenario 0x202123 mmu_access_type.MMU_MEM_READ true
        ⟨Excp.EXCP_NO_EXCEPTION, 0, 0⟩ 0 = .ok out
      ∧ out.excp = ⟨Excp.EXCP_NO_EXCEPTION, 0, 0⟩
      ∧ indexBitsBelow v6Scenario (2 + 1) ≤ VADDR_SIZE v6Scenario
      ∧ out.ret = (0x90403 &&& (2 ^ VADDR_SIZE v6Scenario - 1)
            &&& not64 (2 ^ (VADDR_SIZE v6Scenario - indexBitsBelow v6Scenario (2 + 1)) - 1))
          ||| (0x202123 &&& (2 ^ (VADDR_SIZE v6Scenario - indexBitsBelow v6Scenario (2 + 1)) - 1))
      ∧ out.ret % 2 ^ (VADDR_SIZE v6Scenario - indexBitsBelow v6Scenario (2 + 1))
          = 0x202123 % 2 ^ (VADDR_SIZE v6Scenario - indexBitsBelow v6Scenario (2 + 1)) :=
  radix_physical_address arcDecls v6Scenario mmuv6_version_enum.MMUV6_32_4K 0x202123
    mmu_access_type.MMU_MEM_READ true ⟨Excp.EXCP_NO_EXCEPTION, 0, 0⟩
    0 0 2 0x3000 21 0 0x3003 0 12 0x90403
    rfl (by decide)
    (WalkReaches.next 1 1 0x2000 30 0 0x2003 0 21 0x3003 0
      (WalkReaches.next 2 0 0x1000 32 0 0 0 30 0x2003 0
        (WalkReaches.entry 0x1000 true rfl (Or.inl rfl)) rfl rfl (Or.inl rfl))
      rfl rfl (Or.inl rfl))
    rfl rfl (Or.inr rfl) rfl rfl


/-! ### The invalidate-all loop -/

theorem lookup_fold_all (d : Decls) (mmu : arc_mmu) (v cm set n : Nat)
    (hb : ∀ w, w < n + 1 → wayBlocks d mmu set w = false)
    (hc : ∀ w, w < n + 1 → wayCompare d mmu v cm set w = true) :
    (List.range (n + 1)).foldl (lookupStep d mmu v cm set)
        { ret := none, num_finds := 0, index := none, general_match := true }
      = { ret := some (set, n), num_finds := n + 1,
          index := some ((set * d.N_WAYS + n) % 2 ^ 32), general_match := true } := by
  induction n with
  | zero =>
    simp [List.range_succ, lookupStep_eq, hb 0 (by omega), hc 0 (by omega)]
  | succ n ih =>
    rw [List.range_succ, List.foldl_append, ih (fun w hw => hb w (by omega))
      (fun w hw => hc w (by omega))]
    simp [lookupStep_eq, hb (n + 1) (by omega), hc (n + 1) (by omega)]

/-- With every `pd0` zero and process id 0, the lookup for the descriptor 0
counts all four ways of set 0, whatever the compare mask. -/
theorem lookup_zero_tlb (mmu : arc_mmu) (cm : Nat)
    (hz : ∀ s w, (mmu.nTLB s w).pd0 = 0) (hpid : mmu.pid_asid = 0) :
    arc_mmu_lookup_tlb arcDecls 13 0 cm mmu
      = { ret := (0, 3), num_finds := 4, index := 3, mmu := mmu } := by
  have hb : ∀ w, w < 3 + 1 → wayBlocks arcDecls mmu 0 w = false := by
    intro w _
    simp [wayBlocks, hz]
  have hc : ∀ w, w < 3 + 1 → wayCompare arcDecls mmu 0 cm 0 w = true := by
    intro w _
    simp [wayCompare, hz, hpid]
  have hfold := lookup_fold_all arcDecls mmu 0 cm 0 3 hb hc
  unfold arc_mmu_lookup_tlb
  have hset : (0 >>> arcDecls.MMU_V3_PAGE_BITS 13) &&& (arcDecls.N_SETS - 1) = 0 := by decide
  have hN : arcDecls.N_WAYS = 3 + 1 := rfl
  simp only [hset, hN, hfold]
  rfl

theorem deleteLoop_zero_tlb :
    ∀ (fuel : Nat) (mmu : arc_mmu) (tlb : Nat × Nat) (k : Nat),
      (∀ s w, (mmu.nTLB s w).pd0 = 0) → mmu.pid_asid = 0 →
      deleteLoop arcDecls 13 0 fuel mmu tlb (k + 1) = .error Stop.fuel := by
  intro fuel
  induction fuel with
  | zero =>
    intro mmu tlb k _ _
    rfl
  | succ fuel ih =>
    intro mmu tlb k hz hpid
    have hz' : ∀ s w, ((clearValid arcDecls mmu tlb).nTLB s w).pd0 = 0 := by
      intro s w
      unfold clearValid setSlot
      by_cases h : s = tlb.1 ∧ w = tlb.2
      · simp [h, hz]
      · simp [h, hz]
    have hl := lookup_zero_tlb (clearValid arcDecls mmu tlb)
      (VPN arcDecls 13 arcDecls.PD0_VPN ||| arcDecls.PD0_V ||| arcDecls.PD0_SZ ||| arcDecls.PD0_G
        ||| arcDecls.PD0_S) hz' hpid
    rw [deleteLoop]
    simp only [hl]
    exact ih _ _ 3 hz' hpid

/-- In a state with 8 KiB pages where TLBPD0, every `pd0` and the process id are
zero, a DELETE or INSERT command exhausts every iteration budget. -/
theorem tlbcmd_zero_loops (fuel : Nat) (env : V3Env) (val : Nat) (tlb0 : Nat × Nat)
    (index0 : Nat)
    (hsz : env.mmu_v3_page_size = 13) (hpd0 : env.mmu.tlbpd0 = 0)
    (hz : ∀ s w, (env.mmu.nTLB s w).pd0 = 0) (hpid : env.mmu.pid_asid = 0)
    (hval : val = arcDecls.TLB_CMD_DELETE ∨ val = arcDecls.TLB_CMD_INSERT) :
    arc_mmu_aux_set_tlbcmd arcDecls fuel env val tlb0 index0 = .error Stop.fuel := by
  have hl := lookup_zero_tlb { env.mmu with tlbpd0 := 0, tlbcmd := val % 2 ^ 32 }
    ((arcDecls.PD0_VPN ||| arcDecls.PD0_SZ ||| arcDecls.PD0_G ||| arcDecls.PD0_S
        ||| arcDecls.PD0_ASID) &&& (VPN arcDecls 13 arcDecls.PD0_VPN ||| not32 arcDecls.PD0_VPN)
      ||| arcDecls.PD0_V) hz hpid
  have hloop := deleteLoop_zero_tlb fuel { env.mmu with tlbpd0 := 0, tlbcmd := val % 2 ^ 32 }
    (0, 3) 3 hz hpid
  have hw : ¬ (val = arcDecls.TLB_CMD_WRITE ∨ val = arcDecls.TLB_CMD_WRITENI) := by
    rcases hval with h | h <;> rw [h] <;> decide
  have hr : ¬ (val = arcDecls.TLB_CMD_READ) := by
    rcases hval with h | h <;> rw [h] <;> decide
  have hg : ¬ ((0 : Nat) &&& arcDecls.PD0_G ≠ 0) := by decide
  unfold arc_mmu_aux_set_tlbcmd
  simp only [hsz, hpd0, hw, hr, hg, hval, if_false, if_true, bind, Except.bind, hl, hloop]
  rfl

/-- C20 (failing input): in the reset state (`arc_mmu_init_v3` with 8 KiB
pages: TLBPD0 = 0, process id 0, every entry zero) the scan of a DELETE or
INSERT command counts all four ways of set 0, and the loop that follows clears a
valid bit that is already clear and counts the same four ways again: whatever
the iteration budget, the command does not finish. -/
theorem legacy_delete_insert_never_finish :
    arc_mmu_init_v3 v3Zero 13 = .ok v3Reset
    ∧ v3Reset.mmu.tlbpd0 = 0
    ∧ (∀ fuel, arc_mmu_aux_set_tlbcmd arcDecls fuel v3Reset arcDecls.TLB_CMD_DELETE (0, 0) 0
        = .error Stop.fuel)
    ∧ (∀ fuel, arc_mmu_aux_set_tlbcmd arcDecls fuel v3Reset arcDecls.TLB_CMD_INSERT (0, 0) 0
        = .error Stop.fuel) :=
  ⟨rfl, rfl,
    fun fuel => tlbcmd_zero_loops fuel v3Reset _ (0, 0) 0 rfl rfl (fun _ _ => rfl) rfl
      (Or.inl rfl),
    fun fuel => tlbcmd_zero_loops fuel v3Reset _ (0, 0) 0 rfl rfl (fun _ _ => rfl) rfl
      (Or.inr rfl)⟩

theorem lookup_fold_found (d : Decls) (mmu : arc_mmu) (v cm set n : Nat) :
    ((List.range n).foldl (lookupStep d mmu v cm set)
        { ret := none, num_finds := 0, index := none, general_match := true }).num_finds = 0
    ∨ ∃ w, w < n
      ∧ ((List.range n).foldl (lookupStep d mmu v cm set)
          { ret := none, num_finds := 0, index := none, general_match := true }).ret
          = some (set, w)
      ∧ wayCompare d mmu v cm set w = true := by
  induction n with
  | zero => exact Or.inl rfl
  | succ n ih =>
    rw [List.range_succ, List.foldl_append]
    simp only [List.foldl_cons, List.foldl_nil, lookupStep_eq]
    generalize (List.range n).foldl (lookupStep d mmu v cm set)
      { ret := none, num_finds := 0, index := none, general_match := true } = acc at ih ⊢
    by_cases hc : wayCompare d mmu v cm set n = true
        ∧ (if wayBlocks d mmu set n = true then false else acc.general_match) = true
    · rw [if_pos hc]
      exact Or.inr ⟨n, by omega, rfl, hc.1⟩
    · rw [if_neg hc]
      rcases ih with h0 | ⟨w, hw, hret, hcw⟩
      · exact Or.inl h0
      · exact Or.inr ⟨w, by omega, hret, hcw⟩

/-- A lookup that counts at least one match returns a way of the addressed set
whose comparison succeeded, and leaves the MMU state as it was. -/
theorem lookup_found (d : Decls) (sz v cm : Nat) (mmu : arc_mmu)
    (h : (arc_mmu_lookup_tlb d sz v cm mmu).num_finds ≠ 0) :
    ∃ w, w < d.N_WAYS
      ∧ (arc_mmu_lookup_tlb d sz v cm mmu).ret
          = ((v >>> d.MMU_V3_PAGE_BITS sz) &&& (d.N_SETS - 1), w)
      ∧ wayCompare d mmu v cm ((v >>> d.MMU_V3_PAGE_BITS sz) &&& (d.N_SETS - 1)) w = true
      ∧ (arc_mmu_lookup_tlb d sz v cm mmu).mmu = mmu := by
  rcases lookup_fold_found d mmu v cm ((v >>> d.MMU_V3_PAGE_BITS sz) &&& (d.N_SETS - 1))
    d.N_WAYS with h0 | ⟨w, hw, hret, hcw⟩
  · exfalso
    apply h
    unfold arc_mmu_lookup_tlb
    simp only []
    split <;> exact h0
  · refine ⟨w, hw, ?_, hcw, ?_⟩
    · unfold arc_mmu_lookup_tlb
      simp only [hret]
    · unfold arc_mmu_lookup_tlb
      simp only [hret]

theorem bit_of_and_ne (x k : Nat) (h : x &&& 2 ^ k ≠ 0) : x.testBit k = true := by
  rw [Nat.and_two_pow] at h
  cases hb : x.testBit k
  · simp [hb] at h
  · rfl

/-- A way whose comparison succeeds against a descriptor with the valid bit,
under a compare mask containing the valid bit, holds a valid entry. -/
theorem compare_valid (d : Decls) (mmu : arc_mmu) (v cm set w : Nat)
    (hbit : ∃ k, k < 32 ∧ d.PD0_V = 2 ^ k)
    (hv : v &&& d.PD0_V ≠ 0) (hcm : cm &&& d.PD0_V ≠ 0)
    (h : wayCompare d mmu v cm set w = true) :
    (mmu.nTLB set w).pd0 &&& d.PD0_V ≠ 0 := by
  obtain ⟨k, _, hk⟩ := hbit
  rw [hk] at hv hcm ⊢
  have bv := bit_of_and_ne v k hv
  have bc := bit_of_and_ne cm k hcm
  have be : (mmu.nTLB set w).pd0.testBit k = true := by
    unfold wayCompare at h
    split_ifs at h
    · have hb := congrArg (fun t => Nat.testBit t k) (of_decide_eq_true h)
      simp only [Nat.testBit_and, Nat.testBit_or, bv, bc, Bool.and_true, Bool.true_or,
        Bool.true_and] at hb
      exact hb.symm
    · have hb := congrArg (fun t => Nat.testBit t k) (of_decide_eq_true h)
      simp only [Nat.testBit_and, bv, bc, Bool.and_true] at hb
      exact hb.symm
  rw [Nat.and_two_pow, be]
  simp

theorem validCount_le (d : Decls) (mmu : arc_mmu) (set : Nat) :
    validCount d mmu set ≤ d.N_WAYS := by
  unfold validCount
  have h := List.sum_le_card_nsmul ((List.range d.N_WAYS).map
    (fun w => if (mmu.nTLB set w).pd0 &&& d.PD0_V ≠ 0 then 1 else 0)) 1 (by
      intro x hx
      simp only [List.mem_map] at hx
      obtain ⟨w, _, rfl⟩ := hx
      split_ifs <;> omega)
  simpa using h

theorem validCount_clear_lt (d : Decls) (mmu : arc_mmu) (set w : Nat) (hw : w < d.N_WAYS)
    (hV32 : d.PD0_V < 2 ^ 32)
    (hv : (mmu.nTLB set w).pd0 &&& d.PD0_V ≠ 0) :
    validCount d (clearValid d mmu (set, w)) set < validCount d mmu set := by
  unfold validCount
  apply List.sum_lt_sum
  · intro i _
    unfold clearValid setSlot
    by_cases h : i = w
    · subst h
      simp [and_not32_self _ _ hV32, hv]
    · simp [h]
  · refine ⟨w, List.mem_range.2 hw, ?_⟩
    unfold clearValid setSlot
    simp [and_not32_self _ _ hV32, hv]

theorem validCount_pos (d : Decls) (mmu : arc_mmu) (set w : Nat) (hw : w < d.N_WAYS)
    (hV32 : d.PD0_V < 2 ^ 32)
    (hv : (mmu.nTLB set w).pd0 &&& d.PD0_V ≠ 0) : 0 < validCount d mmu set :=
  Nat.lt_of_le_of_lt (Nat.zero_le _) (validCount_clear_lt d mmu set w hw hV32 hv)

theorem and_ne_of_bit (x k : Nat) (h : x.testBit k = true) : x &&& 2 ^ k ≠ 0 := by
  rw [Nat.and_two_pow, h]
  simp

/-- With the valid bit in the descriptor, the invalidate-all loop ends within as
many iterations as the addressed set has valid entries. -/
theorem deleteLoop_terminates (d : Decls) (sz pd0 : Nat)
    (hbit : ∃ k, k < 32 ∧ d.PD0_V = 2 ^ k) (hpd0 : pd0 &&& d.PD0_V ≠ 0) :
    ∀ (c fuel : Nat) (mmu : arc_mmu) (w k : Nat),
      validCount d mmu ((pd0 >>> d.MMU_V3_PAGE_BITS sz) &&& (d.N_SETS - 1)) ≤ c → c ≤ fuel →
      w < d.N_WAYS →
      (mmu.nTLB ((pd0 >>> d.MMU_V3_PAGE_BITS sz) &&& (d.N_SETS - 1)) w).pd0 &&& d.PD0_V ≠ 0 →
      ∃ out, deleteLoop d sz pd0 fuel mmu
        ((pd0 >>> d.MMU_V3_PAGE_BITS sz) &&& (d.N_SETS - 1), w) (k + 1) = .ok out := by
  have hV32 : d.PD0_V < 2 ^ 32 := by
    obtain ⟨k, hk, hV⟩ := hbit
    rw [hV]
    exact Nat.pow_lt_pow_right (by decide) hk
  have hcm : (VPN d sz d.PD0_VPN ||| d.PD0_V ||| d.PD0_SZ ||| d.PD0_G ||| d.PD0_S)
      &&& d.PD0_V ≠ 0 := by
    obtain ⟨k, _, hV⟩ := hbit
    rw [hV]
    apply and_ne_of_bit
    simp [Nat.testBit_or, Nat.testBit_two_pow_self]
  intro c
  induction c with
  | zero =>
    intro fuel mmu w k hc _ hw hv
    have := validCount_pos d mmu _ w hw hV32 hv
    omega
  | succ c ih =>
    intro fuel mmu w k hc hf hw hv
    cases fuel with
    | zero => omega
    | succ f =>
      have hlt := validCount_clear_lt d mmu _ w hw hV32 hv
      rw [deleteLoop]
      by_cases hn : (arc_mmu_lookup_tlb d sz pd0
          (VPN d sz d.PD0_VPN ||| d.PD0_V ||| d.PD0_SZ ||| d.PD0_G ||| d.PD0_S)
          (clearValid d mmu ((pd0 >>> d.MMU_V3_PAGE_BITS sz) &&& (d.N_SETS - 1), w))).num_finds = 0
      · rw [hn, deleteLoop]
        exact ⟨_, rfl⟩
      · obtain ⟨w', hw', hret, hcw, hmmu⟩ := lookup_found d sz pd0 _ _ hn
        obtain ⟨k', hk'⟩ := Nat.exists_eq_succ_of_ne_zero hn
        rw [hret, hmmu, hk']
        exact ih f _ w' k' (by omega) (by omega) hw'
          (compare_valid d _ pd0 _ _ w' hbit hpd0 hcm hcw)

theorem deleteLoop_after_scan (d : Decls) (sz pd0 fuel cm : Nat) (mmu : arc_mmu)
    (hbit : ∃ k, k < 32 ∧ d.PD0_V = 2 ^ k) (hpd0 : pd0 &&& d.PD0_V ≠ 0)
    (hfuel : d.N_WAYS ≤ fuel) (e : Stop) :
    deleteLoop d sz pd0 fuel (arc_mmu_lookup_tlb d sz pd0 (cm ||| d.PD0_V) mmu).mmu
      (arc_mmu_lookup_tlb d sz pd0 (cm ||| d.PD0_V) mmu).ret
      (arc_mmu_lookup_tlb d sz pd0 (cm ||| d.PD0_V) mmu).num_finds ≠ .error e := by
  have hcm : (cm ||| d.PD0_V) &&& d.PD0_V ≠ 0 := by
    obtain ⟨k, _, hV⟩ := hbit
    rw [hV]
    apply and_ne_of_bit
    simp [Nat.testBit_or, Nat.testBit_two_pow_self]
  by_cases hn : (arc_mmu_lookup_tlb d sz pd0 (cm ||| d.PD0_V) mmu).num_finds = 0
  · rw [hn, deleteLoop]
    exact fun h => by cases h
  · obtain ⟨w, hw, hret, hcw, hmmu⟩ := lookup_found d sz pd0 _ _ hn
    obtain ⟨k, hk⟩ := Nat.exists_eq_succ_of_ne_zero hn
    rw [hret, hmmu, hk]
    obtain ⟨out, hout⟩ := deleteLoop_terminates d sz pd0 hbit hpd0 d.N_WAYS fuel mmu w k
      (validCount_le d mmu _) hfuel hw (compare_valid d mmu pd0 _ _ w hbit hpd0 hcm hcw)
    rw [hout]
    exact fun h => by cases h

/-- With the valid bit set in TLBPD0, a DELETE or INSERT command completes
within an iteration budget of `N_WAYS`. -/
theorem tlbcmd_terminates_valid (d : Decls) (fuel : Nat) (env : V3Env) (val : Nat)
    (tlb0 : Nat × Nat) (index0 : Nat)
    (hL : LayoutOK d env.mmu_v3_page_size)
    (hV : env.mmu.tlbpd0 &&& d.PD0_V ≠ 0)
    (hval : val = d.TLB_CMD_DELETE ∨ val = d.TLB_CMD_INSERT)
    (hfuel : d.N_WAYS ≤ fuel) :
    ∃ env', arc_mmu_aux_set_tlbcmd d fuel env val tlb0 index0 = .ok env' := by
  rcases hval with rfl | rfl
  · obtain ⟨h1, h2, h3⟩ := hL.cmd_delete
    have h4 : d.TLB_CMD_DELETE ≠ d.TLB_CMD_INSERT := fun h => hL.cmd_insert.2.2.2 h.symm
    unfold arc_mmu_aux_set_tlbcmd
    simp only [h1, h2, h3, h4, or_self, or_false, false_or, true_or, or_true, if_true, if_false,
      bind, Except.bind, pure, Except.pure]
    split_ifs
    · exact ⟨_, rfl⟩
    · exact ⟨_, rfl⟩
    · split
      · rename_i e he
        exact absurd he (deleteLoop_after_scan d _ _ fuel _ _ hL.v_bit hV hfuel e)
      · exact ⟨_, rfl⟩
    · exact ⟨_, rfl⟩
    · exact ⟨_, rfl⟩
    · split
      · rename_i e he
        exact absurd he (deleteLoop_after_scan d _ _ fuel _ _ hL.v_bit hV hfuel e)
      · exact ⟨_, rfl⟩
  · obtain ⟨h1, h2, h3, h4⟩ := hL.cmd_insert
    unfold arc_mmu_aux_set_tlbcmd
    simp only [h1, h2, h3, h4, or_self, or_false, false_or, true_or, or_true, if_true, if_false,
      bind, Except.bind, pure, Except.pure]
    split_ifs
    · exact ⟨_, rfl⟩
    · exact ⟨_, rfl⟩
    · split
      · rename_i e he
        exact absurd he (deleteLoop_after_scan d _ _ fuel _ _ hL.v_bit hV hfuel e)
      · exact ⟨_, rfl⟩
    · exact ⟨_, rfl⟩
    · exact ⟨_, rfl⟩
    · split
      · rename_i e he
        exact absurd he (deleteLoop_after_scan d _ _ fuel _ _ hL.v_bit hV hfuel e)
      · exact ⟨_, rfl⟩


/-- The DELETE command in terms of its scan: the three branches on `num_finds`. -/
theorem tlbcmd_delete_eq (d : Decls) (fuel : Nat) (env : V3Env) (tlb0 : Nat × Nat)
    (index0 : Nat) (hL : LayoutOK d env.mmu_v3_page_size) :
    arc_mmu_aux_set_tlbcmd d fuel env d.TLB_CMD_DELETE tlb0 index0 =
      (if (tlbcmdScan d env).num_finds = 0 then
        .ok { env with
          mmu := { (tlbcmdScan d env).mmu with
            tlbcmd := d.TLB_CMD_DELETE % 2 ^ 32, tlbindex := 0x80000000 },
          flushes := FlushEvent.page (VPN d env.mmu_v3_page_size env.mmu.tlbpd0) 3
            :: env.flushes }
      else if (tlbcmdScan d env).num_finds = 1 then
        .ok { env with
          mmu := clearValid d
            { (tlbcmdScan d env).mmu with
              tlbcmd := d.TLB_CMD_DELETE % 2 ^ 32, tlbindex := (tlbcmdScan d env).index }
            (tlbcmdScan d env).ret,
          flushes := FlushEvent.page (VPN d env.mmu_v3_page_size env.mmu.tlbpd0) 3
            :: env.flushes }
      else
        match deleteLoop d env.mmu_v3_page_size env.mmu.tlbpd0 fuel
            { (tlbcmdScan d env).mmu with tlbcmd := d.TLB_CMD_DELETE % 2 ^ 32 }
            (tlbcmdScan d env).ret (tlbcmdScan d env).num_finds with
        | .ok out =>
          .ok { env with
            mmu := out.1,
            flushes := FlushEvent.page (VPN d env.mmu_v3_page_size env.mmu.tlbpd0) 3
              :: env.flushes }
        | .error e => .error e) := by
  obtain ⟨h1, h2, h3⟩ := hL.cmd_delete
  have h4 : d.TLB_CMD_DELETE ≠ d.TLB_CMD_INSERT := fun h => hL.cmd_insert.2.2.2 h.symm
  unfold arc_mmu_aux_set_tlbcmd tlbcmdScan tlbcmdScanMask
  simp only [h1, h2, h3, h4, or_self, or_false, false_or, true_or, or_true, if_true, if_false,
    bind, Except.bind, pure, Except.pure, lookup_tlbcmd]
  split_ifs
  · rfl
  · rfl
  · split <;> (rename_i h; rw [h])
  · rfl
  · rfl
  · split <;> (rename_i h; rw [h])

theorem not32_testBit (v i : Nat) :
    (not32 v).testBit i = (decide (i < 32) && !v.testBit i) := by
  simp only [not32, Nat.testBit_xor, Nat.testBit_two_pow_sub_one, Nat.testBit_mod_two_pow]
  by_cases h : i < 32 <;> cases v.testBit i <;> simp [h]

/-- Clearing a single bit of a 32-bit word: `x & ~2^k`, bit by bit. -/
theorem clear_bit_testBit (x k i : Nat) :
    (x &&& not32 (2 ^ k)).testBit i = (x.testBit i && decide (i < 32) && decide (i ≠ k)) := by
  rw [Nat.testBit_and, not32_testBit, Nat.testBit_two_pow]
  by_cases h : i < 32 <;> by_cases hk : k = i <;> cases x.testBit i <;> simp [h, hk]
  · exact fun h' => hk h'.symm

theorem lookup_fold_index (d : Decls) (mmu : arc_mmu) (v cm set n : Nat) :
    ∀ r, ((List.range n).foldl (lookupStep d mmu v cm set)
          { ret := none, num_finds := 0, index := none, general_match := true }).ret
          = some r →
      r.1 = set ∧
      ((List.range n).foldl (lookupStep d mmu v cm set)
          { ret := none, num_finds := 0, index := none, general_match := true }).index
          = some ((set * d.N_WAYS + r.2) % 2 ^ 32) := by
  induction n with
  | zero => intro r h; cases h
  | succ n ih =>
    rw [List.range_succ, List.foldl_append]
    simp only [List.foldl_cons, List.foldl_nil, lookupStep_eq]
    generalize (List.range n).foldl (lookupStep d mmu v cm set)
      { ret := none, num_finds := 0, index := none, general_match := true } = acc at ih ⊢
    by_cases hc : wayCompare d mmu v cm set n = true
        ∧ (if wayBlocks d mmu set n = true then false else acc.general_match) = true
    · rw [if_pos hc]
      intro r h
      have hr : (set, n) = r := Option.some.inj h
      rw [← hr]
      exact ⟨rfl, rfl⟩
    · rw [if_neg hc]
      exact ih

/-- The value the lookup stores through `index` is the index of the slot it
returns. -/
theorem lookup_index (d : Decls) (sz v cm : Nat) (mmu : arc_mmu) :
    (arc_mmu_lookup_tlb d sz v cm mmu).index
      = ((arc_mmu_lookup_tlb d sz v cm mmu).ret.1 * d.N_WAYS
          + (arc_mmu_lookup_tlb d sz v cm mmu).ret.2) % 2 ^ 32 := by
  have hi := lookup_fold_index d mmu v cm ((v >>> d.MMU_V3_PAGE_BITS sz) &&& (d.N_SETS - 1))
    d.N_WAYS
  unfold arc_mmu_lookup_tlb
  simp only []
  split
  · rename_i r hr
    obtain ⟨h1, h2⟩ := hi r hr
    show Option.getD _ 0 = (r.1 * d.N_WAYS + r.2) % 2 ^ 32
    rw [h2, h1]
    rfl
  · rfl

/-- The slot index of a way of a set fits the 32-bit index word. -/
theorem slot_index_lt (d : Decls) (x w : Nat) (hw : w < d.N_WAYS)
    (hgeo : (d.N_SETS - 1) * d.N_WAYS + d.N_WAYS ≤ 2 ^ 32) :
    (x &&& (d.N_SETS - 1)) * d.N_WAYS + w < 2 ^ 32 := by
  have h1 : x &&& (d.N_SETS - 1) ≤ d.N_SETS - 1 := Nat.and_le_right
  have h2 : (x &&& (d.N_SETS - 1)) * d.N_WAYS ≤ (d.N_SETS - 1) * d.N_WAYS :=
    Nat.mul_le_mul_right _ h1
  omega

/-- C21: let the DELETE command be written and consider the scan it starts with
(`tlbcmdScan`). When the scan counts no match, the command completes, TLBINDEX is
0x80000000 and every TLB entry is as before. When it counts exactly one match,
the scan returned a way of the set the descriptor selects whose comparison
succeeded; the command completes, TLBINDEX is `set * N_WAYS + way`, the `pd1` of
that slot and every bit of its `pd0` but the valid bit are as before, the valid
bit is clear, and every other slot is unchanged. -/
theorem legacy_delete_outcome (d : Decls) (fuel : Nat) (env : V3Env) (tlb0 : Nat × Nat)
    (index0 : Nat)
    (hL : LayoutOK d env.mmu_v3_page_size)
    (hgeo : (d.N_SETS - 1) * d.N_WAYS + d.N_WAYS ≤ 2 ^ 32) :
    ((tlbcmdScan d env).num_finds = 0 →
      ∃ env', arc_mmu_aux_set_tlbcmd d fuel env d.TLB_CMD_DELETE tlb0 index0 = .ok env'
        ∧ env'.mmu.tlbindex = 0x80000000
        ∧ env'.mmu.nTLB = env.mmu.nTLB)
    ∧ ((tlbcmdScan d env).num_finds = 1 →
      ∃ env' set way k,
        arc_mmu_aux_set_tlbcmd d fuel env d.TLB_CMD_DELETE tlb0 index0 = .ok env'
        ∧ (tlbcmdScan d env).ret = (set, way)
        ∧ set = setOf d env env.mmu.tlbpd0 ∧ way < d.N_WAYS
        ∧ wayCompare d env.mmu env.mmu.tlbpd0
            (tlbcmdScanMask d env.mmu_v3_page_size env.mmu.tlbpd0 ||| d.PD0_V) set way = true
        ∧ env'.mmu.tlbindex = set * d.N_WAYS + way
        ∧ (env'.mmu.nTLB set way).pd1 = (env.mmu.nTLB set way).pd1
        ∧ d.PD0_V = 2 ^ k
        ∧ (env'.mmu.nTLB set way).pd0.testBit k = false
        ∧ (∀ i, i < 32 → i ≠ k →
            (env'.mmu.nTLB set way).pd0.testBit i = (env.mmu.nTLB set way).pd0.testBit i)
        ∧ (∀ s w, ¬ (s = set ∧ w = way) → env'.mmu.nTLB s w = env.mmu.nTLB s w)) := by
  have heq := tlbcmd_delete_eq d fuel env tlb0 index0 hL
  constructor
  · intro h0
    rw [if_pos h0] at heq
    exact ⟨_, heq, rfl, (lookup_mmu_fields d _ _ _ env.mmu).1⟩
  · intro h1
    rw [if_neg (by omega), if_pos h1] at heq
    obtain ⟨w, hw, hret, hcw, hmmu⟩ := lookup_found d env.mmu_v3_page_size env.mmu.tlbpd0
      (tlbcmdScanMask d env.mmu_v3_page_size env.mmu.tlbpd0 ||| d.PD0_V) env.mmu
      (show (tlbcmdScan d env).num_finds ≠ 0 by omega)
    obtain ⟨k, hk, hV⟩ := hL.v_bit
    have hret' : (tlbcmdScan d env).ret = (setOf d env env.mmu.tlbpd0, w) := hret
    have hmmu' : (tlbcmdScan d env).mmu = env.mmu := hmmu
    have hidx : (tlbcmdScan d env).index = setOf d env env.mmu.tlbpd0 * d.N_WAYS + w := by
      have := lookup_index d env.mmu_v3_page_size env.mmu.tlbpd0
        (tlbcmdScanMask d env.mmu_v3_page_size env.mmu.tlbpd0 ||| d.PD0_V) env.mmu
      rw [hret] at this
      rw [show (tlbcmdScan d env).index = _ from this]
      exact Nat.mod_eq_of_lt (slot_index_lt d _ w hw hgeo)
    refine ⟨_, setOf d env env.mmu.tlbpd0, w, k, heq, hret', rfl, hw, hcw, ?_, ?_, hV, ?_, ?_, ?_⟩
    · show (tlbcmdScan d env).index = _
      exact hidx
    · simp only [clearValid, hret', hmmu', setSlot, and_self, if_true]
    · simp only [clearValid, hret', hmmu', setSlot, and_self, if_true, hV, clear_bit_testBit]
      simp
    · intro i hi hik
      simp only [clearValid, hret', hmmu', setSlot, and_self, if_true, hV, clear_bit_testBit]
      simp [hi, hik]
    · intro s w' hne
      simp only [clearValid, hret', hmmu', setSlot, hne, if_false]

/-- Witness for C21: the kernel-only scenario, whose single entry for the page at
0x4000 is the one match of the DELETE scan for the descriptor 0x4205. -/
theorem legacy_delete_outcome_witness :
    ∃ env' set way k,
      arc_mmu_aux_set_tlbcmd arcDecls 4 (v3KernelOnly false) arcDecls.TLB_CMD_DELETE (0, 0) 0
        = .ok env'
      ∧ (tlbcmdScan arcDecls (v3KernelOnly false)).ret = (set, way)
      ∧ set = setOf arcDecls (v3KernelOnly false) (v3KernelOnly false).mmu.tlbpd0
      ∧ way < arcDecls.N_WAYS
      ∧ wayCompare arcDecls (v3KernelOnly false).mmu (v3KernelOnly false).mmu.tlbpd0
          (tlbcmdScanMask arcDecls (v3KernelOnly false).mmu_v3_page_size
            (v3KernelOnly false).mmu.tlbpd0 ||| arcDecls.PD0_V) set way = true
      ∧ env'.mmu.tlbindex = set * arcDecls.N_WAYS + way
      ∧ (env'.mmu.nTLB set way).pd1 = ((v3KernelOnly false).mmu.nTLB set way).pd1
      ∧ arcDecls.PD0_V = 2 ^ k
      ∧ (env'.mmu.nTLB set way).pd0.testBit k = false
      ∧ (∀ i, i < 32 → i ≠ k →
          (env'.mmu.nTLB set way).pd0.testBit i
            = ((v3KernelOnly false).mmu.nTLB set way).pd0.testBit i)
      ∧ (∀ s w, ¬ (s = set ∧ w = way) →
          env'.mmu.nTLB s w = (v3KernelOnly false).mmu.nTLB s w) :=
  (legacy_delete_outcome arcDecls 4 (v3KernelOnly false) (0, 0) 0 arcDecls_layout
    (by decide)).2 rfl

/-- The INSERT command in terms of its scan: the three branches on `num_finds`,
each followed by the store of lines 364 to 385. -/
theorem tlbcmd_insert_eq (d : Decls) (fuel : Nat) (env : V3Env) (tlb0 : Nat × Nat)
    (index0 : Nat) (hL : LayoutOK d env.mmu_v3_page_size) :
    arc_mmu_aux_set_tlbcmd d fuel env d.TLB_CMD_INSERT tlb0 index0 =
      (if (tlbcmdScan d env).num_finds = 0 then
        .ok { env with
          mmu := tlbcmdInsertStore d env.mmu.tlbpd0 env.mmu.tlbpd1
            { (tlbcmdScan d env).mmu with
              tlbcmd := d.TLB_CMD_INSERT % 2 ^ 32, tlbindex := 0x80000000 }
            (tlbcmdScan d env).ret (tlbcmdScan d env).index,
          flushes := FlushEvent.page (VPN d env.mmu_v3_page_size env.mmu.tlbpd0) 3
            :: env.flushes }
      else if (tlbcmdScan d env).num_finds = 1 then
        .ok { env with
          mmu := tlbcmdInsertStore d env.mmu.tlbpd0 env.mmu.tlbpd1
            (clearValid d
              { (tlbcmdScan d env).mmu with
                tlbcmd := d.TLB_CMD_INSERT % 2 ^ 32, tlbindex := (tlbcmdScan d env).index }
              (tlbcmdScan d env).ret)
            (tlbcmdScan d env).ret (tlbcmdScan d env).index,
          flushes := FlushEvent.page (VPN d env.mmu_v3_page_size env.mmu.tlbpd0) 3
            :: env.flushes }
      else
        match deleteLoop d env.mmu_v3_page_size env.mmu.tlbpd0 fuel
            { (tlbcmdScan d env).mmu with tlbcmd := d.TLB_CMD_INSERT % 2 ^ 32 }
            (tlbcmdScan d env).ret (tlbcmdScan d env).num_finds with
        | .ok out =>
          .ok { env with
            mmu := tlbcmdInsertStore d env.mmu.tlbpd0 env.mmu.tlbpd1 out.1 out.2
              (tlbcmdScan d env).index,
            flushes := FlushEvent.page (VPN d env.mmu_v3_page_size env.mmu.tlbpd0) 3
              :: env.flushes }
        | .error e => .error e) := by
  obtain ⟨h1, h2, h3, h4⟩ := hL.cmd_insert
  unfold arc_mmu_aux_set_tlbcmd tlbcmdScan tlbcmdScanMask tlbcmdInsertStore
  simp only [h1, h2, h3, h4, or_self, or_false, false_or, true_or, or_true, if_true, if_false,
    bind, Except.bind, pure, Except.pure, lookup_tlbcmd]
  split_ifs <;> first | rfl | (split <;> (rename_i h; rw [h]))

/-- An INSERT of a valid descriptor whose scan counts at most one match
completes, stores (TLBPD0, TLBPD1) in the slot the scan returned, and leaves in
TLBINDEX the index of that slot when the scan counted one match, but that index
ORed with 0x80000000 when it counted none. -/
theorem insert_effect (d : Decls) (fuel : Nat) (env : V3Env) (tlb0 : Nat × Nat) (index0 : Nat)
    (hL : LayoutOK d env.mmu_v3_page_size)
    (hV : env.mmu.tlbpd0 &&& d.PD0_V ≠ 0)
    (hn : (tlbcmdScan d env).num_finds ≤ 1) :
    ∃ env', arc_mmu_aux_set_tlbcmd d fuel env d.TLB_CMD_INSERT tlb0 index0 = .ok env'
      ∧ env'.mmu.nTLB (tlbcmdScan d env).ret.1 (tlbcmdScan d env).ret.2
          = { pd0 := env.mmu.tlbpd0, pd1 := env.mmu.tlbpd1 }
      ∧ env'.mmu.tlbindex =
          (if (tlbcmdScan d env).num_finds = 0 then 0x80000000 ||| (tlbcmdScan d env).index
           else (tlbcmdScan d env).index)
      ∧ (tlbcmdScan d env).index
          = ((tlbcmdScan d env).ret.1 * d.N_WAYS + (tlbcmdScan d env).ret.2) % 2 ^ 32 := by
  have heq := tlbcmd_insert_eq d fuel env tlb0 index0 hL
  have hidx := lookup_index d env.mmu_v3_page_size env.mmu.tlbpd0
    (tlbcmdScanMask d env.mmu_v3_page_size env.mmu.tlbpd0 ||| d.PD0_V) env.mmu
  by_cases h0 : (tlbcmdScan d env).num_finds = 0
  · rw [if_pos h0] at heq
    refine ⟨_, heq, ?_, ?_, hidx⟩
    · simp only [tlbcmdInsertStore, if_neg hV, setSlot, and_self, if_true]
    · simp only [tlbcmdInsertStore, if_neg hV, if_pos h0]
  · have h1 : (tlbcmdScan d env).num_finds = 1 := by omega
    rw [if_neg h0, if_pos h1] at heq
    refine ⟨_, heq, ?_, ?_, hidx⟩
    · simp only [tlbcmdInsertStore, if_neg hV, setSlot, and_self, if_true]
    · simp only [tlbcmdInsertStore, if_neg hV, if_neg h0, clearValid, Nat.or_self]

/-- C23 (failing input): with the MMU enabled for process 5, an empty TLB and
(TLBPD0, TLBPD1) = (0x4205, 0x9007e), the scan of INSERT returns slot (2, 0);
the command completes and stores the pair there, but TLBINDEX is 0x80000008 and
not the index 2 * N_WAYS + 0 = 8 of that slot. The same holds for the run from
reset that writes PID, TLBPD0, TLBPD1 and the INSERT command. -/
theorem legacy_insert_index_keeps_sentinel :
    (tlbcmdScan arcDecls v3InsertReady).ret = (2, 0)
    ∧ v3InsertReady.mmu.tlbpd0 &&& arcDecls.PD0_V ≠ 0
    ∧ (∀ fuel, ∃ env',
        arc_mmu_aux_set_tlbcmd arcDecls fuel v3InsertReady arcDecls.TLB_CMD_INSERT (0, 0) 0
          = .ok env'
        ∧ env'.mmu.nTLB 2 0 = { pd0 := 0x4205, pd1 := 0x9007e }
        ∧ env'.mmu.tlbindex = 0x80000008)
    ∧ 2 * arcDecls.N_WAYS + 0 = 8
    ∧ (∃ env', fromReset arcDecls progInsertOnce = .ok env'
        ∧ env'.mmu.nTLB 2 0 = { pd0 := 0x4205, pd1 := 0x9007e }
        ∧ env'.mmu.tlbindex = 0x80000008) :=
  ⟨rfl, by decide, fun _ => ⟨_, rfl, rfl, rfl⟩, rfl, ⟨_, rfl, rfl, rfl⟩⟩

theorem setSlot_self (t : Nat → Nat → arc_tlb_e) (s w : Nat) : setSlot t s w (t s w) = t := by
  funext a b
  unfold setSlot
  split_ifs with h
  · rw [h.1, h.2]
  · rfl

/-- Clearing the valid bit of a 32-bit `pd0` that does not have it changes
nothing. -/
theorem clearValid_invalid (d : Decls) (mmu : arc_mmu) (tlb : Nat × Nat)
    (hbit : ∃ k, k < 32 ∧ d.PD0_V = 2 ^ k)
    (hword : (mmu.nTLB tlb.1 tlb.2).pd0 < 2 ^ 32)
    (hv : (mmu.nTLB tlb.1 tlb.2).pd0 &&& d.PD0_V = 0) :
    clearValid d mmu tlb = mmu := by
  obtain ⟨k, _, hk⟩ := hbit
  have hx : (mmu.nTLB tlb.1 tlb.2).pd0 &&& not32 d.PD0_V = (mmu.nTLB tlb.1 tlb.2).pd0 := by
    rw [hk] at hv ⊢
    apply Nat.eq_of_testBit_eq
    intro i
    rw [clear_bit_testBit]
    by_cases h32 : i < 32
    · by_cases hik : i = k
      · subst hik
        rw [Nat.and_two_pow] at hv
        cases hb : (mmu.nTLB tlb.1 tlb.2).pd0.testBit i
        · simp
        · simp [hb] at hv
      · simp [h32, hik]
    · have : (mmu.nTLB tlb.1 tlb.2).pd0.testBit i = false :=
        Nat.testBit_lt_two_pow (Nat.lt_of_lt_of_le hword
          (Nat.pow_le_pow_right (by decide) (Nat.le_of_not_lt h32)))
      simp [this]
  unfold clearValid
  rw [hx]
  show { mmu with nTLB := setSlot mmu.nTLB tlb.1 tlb.2 (mmu.nTLB tlb.1 tlb.2) } = mmu
  rw [setSlot_self]

/-- A way whose comparison succeeds against a descriptor without the valid bit,
under a compare mask containing the valid bit, holds an invalid entry. -/
theorem compare_invalid (d : Decls) (mmu : arc_mmu) (v cm set w : Nat)
    (hbit : ∃ k, k < 32 ∧ d.PD0_V = 2 ^ k)
    (hpm : d.PD0_PID_MATCH &&& d.PD0_V = 0)
    (hv : v &&& d.PD0_V = 0) (hcm : cm &&& d.PD0_V ≠ 0)
    (h : wayCompare d mmu v cm set w = true) :
    (mmu.nTLB set w).pd0 &&& d.PD0_V = 0 := by
  obtain ⟨k, _, hk⟩ := hbit
  rw [hk] at hv hcm hpm ⊢
  have bp : d.PD0_PID_MATCH.testBit k = false := by
    rw [Nat.and_two_pow] at hpm
    cases hb : d.PD0_PID_MATCH.testBit k
    · rfl
    · simp [hb] at hpm
  have bc := bit_of_and_ne cm k hcm
  have bv : v.testBit k = false := by
    rw [Nat.and_two_pow] at hv
    cases hb : v.testBit k
    · rfl
    · simp [hb] at hv
  have be : (mmu.nTLB set w).pd0.testBit k = false := by
    unfold wayCompare at h
    split_ifs at h
    · have hb := congrArg (fun t => Nat.testBit t k) (of_decide_eq_true h)
      simp only [Nat.testBit_and, Nat.testBit_or, bv, bc, bp, Bool.and_true, Bool.true_or,
        Bool.true_and, Bool.false_and, Bool.false_or, Bool.and_false, Bool.or_false] at hb
      exact hb.symm
    · have hb := congrArg (fun t => Nat.testBit t k) (of_decide_eq_true h)
      simp only [Nat.testBit_and, bv, bc, Bool.and_true, Bool.false_and] at hb
      exact hb.symm
  rw [Nat.and_two_pow, be]
  simp

/-- With a descriptor whose valid bit is clear, the invalidate-all loop changes
no TLB entry: every slot it clears the valid bit of is already invalid. -/
theorem deleteLoop_invalid_keeps (d : Decls) (sz pd0 : Nat)
    (hbit : ∃ k, k < 32 ∧ d.PD0_V = 2 ^ k) (hpm : d.PD0_PID_MATCH &&& d.PD0_V = 0)
    (hpd0 : pd0 &&& d.PD0_V = 0) :
    ∀ (fuel : Nat) (mmu : arc_mmu) (tlb : Nat × Nat) (n : Nat) (out : arc_mmu × (Nat × Nat)),
      (∀ s w, (mmu.nTLB s w).pd0 < 2 ^ 32) →
      (n ≠ 0 → (mmu.nTLB tlb.1 tlb.2).pd0 &&& d.PD0_V = 0) →
      deleteLoop d sz pd0 fuel mmu tlb n = .ok out → out.1.nTLB = mmu.nTLB := by
  have hcm : (VPN d sz d.PD0_VPN ||| d.PD0_V ||| d.PD0_SZ ||| d.PD0_G ||| d.PD0_S)
      &&& d.PD0_V ≠ 0 := by
    obtain ⟨k, _, hV⟩ := hbit
    rw [hV]
    apply and_ne_of_bit
    simp [Nat.testBit_or, Nat.testBit_two_pow_self]
  intro fuel
  induction fuel with
  | zero =>
    intro mmu tlb n out _ _ h
    cases n with
    | zero =>
      rw [deleteLoop] at h
      cases h
      rfl
    | succ n =>
      rw [deleteLoop] at h
      cases h
  | succ f ih =>
    intro mmu tlb n out hword hv h
    cases n with
    | zero =>
      rw [deleteLoop] at h
      cases h
      rfl
    | succ n =>
      rw [deleteLoop] at h
      have hclr : clearValid d mmu tlb = mmu :=
        clearValid_invalid d mmu tlb hbit (hword _ _) (hv (Nat.succ_ne_zero n))
      rw [hclr] at h
      have hN := (lookup_mmu_fields d sz pd0
        (VPN d sz d.PD0_VPN ||| d.PD0_V ||| d.PD0_SZ ||| d.PD0_G ||| d.PD0_S) mmu).1
      have := ih _ _ _ out (by rw [hN]; exact hword) (by
        intro hne
        obtain ⟨w, hw, hret, hcw, hmmu⟩ := lookup_found d sz pd0 _ mmu hne
        rw [hret, hmmu]
        exact compare_invalid d mmu pd0 _ _ w hbit hpm hpd0 hcm hcw) h
      rw [this, hN]

/-- C24: let TLBPD0 have the valid bit clear and every `pd0` of the TLB be a
32-bit word. Whenever the INSERT command completes, TLBINDEX is 0x80000000 and
every TLB entry is as before; and the command does complete when its scan
counts at most one match. -/
theorem legacy_insert_invalid_descriptor (d : Decls) (fuel : Nat) (env : V3Env)
    (tlb0 : Nat × Nat) (index0 : Nat)
    (hL : LayoutOK d env.mmu_v3_page_size)
    (hword : ∀ s w, (env.mmu.nTLB s w).pd0 < 2 ^ 32)
    (hV : env.mmu.tlbpd0 &&& d.PD0_V = 0) :
    (∀ env', arc_mmu_aux_set_tlbcmd d fuel env d.TLB_CMD_INSERT tlb0 index0 = .ok env' →
      env'.mmu.tlbindex = 0x80000000 ∧ env'.mmu.nTLB = env.mmu.nTLB)
    ∧ ((tlbcmdScan d env).num_finds ≤ 1 →
      ∃ env', arc_mmu_aux_set_tlbcmd d fuel env d.TLB_CMD_INSERT tlb0 index0 = .ok env') := by
  have heq := tlbcmd_insert_eq d fuel env tlb0 index0 hL
  have hpm : d.PD0_PID_MATCH &&& d.PD0_V = 0 := by rw [hL.pid_eq]; exact hL.v_asid
  have hN : (tlbcmdScan d env).mmu.nTLB = env.mmu.nTLB := (lookup_mmu_fields d _ _ _ env.mmu).1
  have hcm : (tlbcmdScanMask d env.mmu_v3_page_size env.mmu.tlbpd0 ||| d.PD0_V)
      &&& d.PD0_V ≠ 0 := by
    obtain ⟨k, _, hk⟩ := hL.v_bit
    rw [hk]
    apply and_ne_of_bit
    simp [Nat.testBit_or, Nat.testBit_two_pow_self]
  have hfound : (tlbcmdScan d env).num_finds ≠ 0 →
      (env.mmu.nTLB (tlbcmdScan d env).ret.1 (tlbcmdScan d env).ret.2).pd0 &&& d.PD0_V = 0 := by
    intro hne
    obtain ⟨w, hw, hret, hcw, hmmu⟩ := lookup_found d env.mmu_v3_page_size env.mmu.tlbpd0
      (tlbcmdScanMask d env.mmu_v3_page_size env.mmu.tlbpd0 ||| d.PD0_V) env.mmu hne
    rw [show (tlbcmdScan d env).ret = _ from hret]
    exact compare_invalid d env.mmu env.mmu.tlbpd0 _ _ w hL.v_bit hpm hV hcm hcw
  constructor
  · intro env' hdone
    rw [heq] at hdone
    by_cases h0 : (tlbcmdScan d env).num_finds = 0
    · rw [if_pos h0] at hdone
      cases hdone
      simp only [tlbcmdInsertStore, if_pos hV]
      exact ⟨trivial, hN⟩
    · by_cases h1 : (tlbcmdScan d env).num_finds = 1
      · rw [if_neg h0, if_pos h1] at hdone
        cases hdone
        simp only [tlbcmdInsertStore, if_pos hV]
        refine ⟨trivial, ?_⟩
        rw [clearValid_invalid d _ _ hL.v_bit (by rw [hN]; exact hword _ _)
          (by rw [hN]; exact hfound h0)]
        exact hN
      · rw [if_neg h0, if_neg h1] at hdone
        split at hdone
        · rename_i out hout
          cases hdone
          simp only [tlbcmdInsertStore, if_pos hV]
          refine ⟨trivial, ?_⟩
          have := deleteLoop_invalid_keeps d env.mmu_v3_page_size env.mmu.tlbpd0 hL.v_bit hpm hV
            fuel _ _ _ out (by intro s w; rw [hN]; exact hword s w)
            (by intro _; rw [hN]; exact hfound h0) hout
          rw [this]
          exact hN
        · cases hdone
  · intro hn
    rw [heq]
    by_cases h0 : (tlbcmdScan d env).num_finds = 0
    · rw [if_pos h0]
      exact ⟨_, rfl⟩
    · rw [if_neg h0, if_pos (by omega)]
      exact ⟨_, rfl⟩

/-- Witness for C24: INSERT of the descriptor 0x4005 (valid bit clear) while set 2
holds an invalid entry with the same fields, which the scan counts as one match. -/
theorem legacy_insert_invalid_descriptor_witness :
    ∃ env', arc_mmu_aux_set_tlbcmd arcDecls 4 v3InvalidDesc arcDecls.TLB_CMD_INSERT (0, 0) 0
        = .ok env'
      ∧ (tlbcmdScan arcDecls v3InvalidDesc).num_finds = 1
      ∧ env'.mmu.tlbindex = 0x80000000
      ∧ env'.mmu.nTLB = v3InvalidDesc.mmu.nTLB := by
  have h := legacy_insert_invalid_descriptor arcDecls 4 v3InvalidDesc (0, 0) 0 arcDecls_layout
    (by
      intro s w
      show (if s = 2 then [({ pd0 := 0x4005, pd1 := 0x7e } : arc_tlb_e)].getD w
        { pd0 := 0, pd1 := 0 } else { pd0 := 0, pd1 := 0 }).pd0 < 2 ^ 32
      split_ifs
      · cases w with
        | zero => decide
        | succ n => simp
      · decide)
    (by decide)
  obtain ⟨env', he⟩ := h.2 (by decide)
  exact ⟨env', he, rfl, h.1 env' he⟩


/-- The WRITE and WRITENI commands as one assignment to the state. -/
theorem tlbcmd_write_eq (d : Decls) (fuel : Nat) (env : V3Env) (val : Nat) (tlb0 : Nat × Nat)
    (index0 : Nat) (hL : LayoutOK d env.mmu_v3_page_size)
    (hval : val = d.TLB_CMD_WRITE ∨ val = d.TLB_CMD_WRITENI) :
    arc_mmu_aux_set_tlbcmd d fuel env val tlb0 index0 =
      .ok { env with
        mmu := { env.mmu with
          tlbcmd := val % 2 ^ 32,
          nTLB := setSlot env.mmu.nTLB
            ((env.mmu.tlbindex &&& d.TLBINDEX_INDEX) / d.N_WAYS)
            ((env.mmu.tlbindex &&& d.TLBINDEX_INDEX) % d.N_WAYS)
            { pd0 := env.mmu.tlbpd0, pd1 := env.mmu.tlbpd1 } },
        flushes := FlushEvent.all :: env.flushes } := by
  obtain ⟨r1, r2⟩ := hL.cmd_read
  obtain ⟨d1, d2, _⟩ := hL.cmd_delete
  obtain ⟨i1, i2, _, _⟩ := hL.cmd_insert
  unfold arc_mmu_aux_set_tlbcmd arc_mmu_get_tlb_at_index
  rcases hval with rfl | rfl
  · simp only [r1.symm, d1.symm, i1.symm, or_self, or_false, false_or, true_or, or_true,
      if_true, if_false, bind, Except.bind, pure, Except.pure]
  · simp only [r2.symm, d2.symm, i2.symm, or_self, or_false, false_or, true_or, or_true,
      if_true, if_false, bind, Except.bind, pure, Except.pure]

/-- The READ command as one assignment to the state. -/
theorem tlbcmd_read_eq (d : Decls) (fuel : Nat) (env : V3Env) (tlb0 : Nat × Nat)
    (index0 : Nat) (hL : LayoutOK d env.mmu_v3_page_size) :
    arc_mmu_aux_set_tlbcmd d fuel env d.TLB_CMD_READ tlb0 index0 =
      .ok { env with
        mmu := { env.mmu with
          tlbcmd := d.TLB_CMD_READ % 2 ^ 32,
          tlbpd0 := (env.mmu.nTLB ((env.mmu.tlbindex &&& d.TLBINDEX_INDEX) / d.N_WAYS)
            ((env.mmu.tlbindex &&& d.TLBINDEX_INDEX) % d.N_WAYS)).pd0,
          tlbpd1 := (env.mmu.nTLB ((env.mmu.tlbindex &&& d.TLBINDEX_INDEX) / d.N_WAYS)
            ((env.mmu.tlbindex &&& d.TLBINDEX_INDEX) % d.N_WAYS)).pd1,
          tlbindex := env.mmu.tlbindex &&& not32 (d.TLBINDEX_E ||| d.TLBINDEX_RC) } } := by
  obtain ⟨r1, r2⟩ := hL.cmd_read
  obtain ⟨_, _, d3⟩ := hL.cmd_delete
  obtain ⟨_, _, i3, _⟩ := hL.cmd_insert
  unfold arc_mmu_aux_set_tlbcmd arc_mmu_get_tlb_at_index
  simp only [r1, r2, d3.symm, i3.symm, or_self, or_false, false_or, true_or, or_true,
    if_true, if_false, bind, Except.bind, pure, Except.pure]

/-- C25: when `TLBINDEX & TLBINDEX_INDEX` addresses a slot of the TLB, the WRITE
and WRITENI commands complete; the slot `(idx / N_WAYS, idx % N_WAYS)` then holds
(TLBPD0, TLBPD1); every other slot, every round-robin cursor and every register
but the command register are as before, the command register holds the value
written, and one `tlb_flush` was requested. WRITENI leaves the state WRITE
leaves, apart from the command register. -/
theorem legacy_write_effect (d : Decls) (fuel : Nat) (env : V3Env) (val : Nat)
    (tlb0 : Nat × Nat) (index0 : Nat)
    (hL : LayoutOK d env.mmu_v3_page_size)
    (hval : val = d.TLB_CMD_WRITE ∨ val = d.TLB_CMD_WRITENI)
    (hidx : (env.mmu.tlbindex &&& d.TLBINDEX_INDEX) / d.N_WAYS < d.N_SETS) :
    ∃ env', arc_mmu_aux_set_tlbcmd d fuel env val tlb0 index0 = .ok env'
      ∧ (env.mmu.tlbindex &&& d.TLBINDEX_INDEX) / d.N_WAYS < d.N_SETS
      ∧ (env.mmu.tlbindex &&& d.TLBINDEX_INDEX) % d.N_WAYS < d.N_WAYS
      ∧ env'.mmu.nTLB ((env.mmu.tlbindex &&& d.TLBINDEX_INDEX) / d.N_WAYS)
          ((env.mmu.tlbindex &&& d.TLBINDEX_INDEX) % d.N_WAYS)
          = { pd0 := env.mmu.tlbpd0, pd1 := env.mmu.tlbpd1 }
      ∧ (∀ s w, ¬ (s = (env.mmu.tlbindex &&& d.TLBINDEX_INDEX) / d.N_WAYS
            ∧ w = (env.mmu.tlbindex &&& d.TLBINDEX_INDEX) % d.N_WAYS) →
          env'.mmu.nTLB s w = env.mmu.nTLB s w)
      ∧ env'.mmu.way_sel = env.mmu.way_sel
      ∧ env'.mmu = { env.mmu with tlbcmd := val % 2 ^ 32, nTLB := env'.mmu.nTLB }
      ∧ env'.Uf = env.Uf ∧ env'.mmu_v3_page_size = env.mmu_v3_page_size
      ∧ env'.flushes = FlushEvent.all :: env.flushes
      ∧ (∃ e1 e2, arc_mmu_aux_set_tlbcmd d fuel env d.TLB_CMD_WRITE tlb0 index0 = .ok e1
          ∧ arc_mmu_aux_set_tlbcmd d fuel env d.TLB_CMD_WRITENI tlb0 index0 = .ok e2
          ∧ e2 = { e1 with mmu := { e1.mmu with tlbcmd := d.TLB_CMD_WRITENI % 2 ^ 32 } }) := by
  refine ⟨_, tlbcmd_write_eq d fuel env val tlb0 index0 hL hval, hidx,
    Nat.mod_lt _ hL.ways_pos, ?_, ?_, rfl, rfl, rfl, rfl, rfl,
    ⟨_, _, tlbcmd_write_eq d fuel env _ tlb0 index0 hL (Or.inl rfl),
      tlbcmd_write_eq d fuel env _ tlb0 index0 hL (Or.inr rfl), rfl⟩⟩
  · simp only [setSlot, and_self, if_true]
  · intro s w hne
    simp only [setSlot, hne, if_false]

/-- Witness for C25: WRITE of (0x4205, 0x9007e) with TLBINDEX = 9, slot (2, 1). -/
theorem legacy_write_effect_witness :
    ∃ env', arc_mmu_aux_set_tlbcmd arcDecls 4 (arc_mmu_aux_set v3InsertReady AuxId.tlbindex 9)
        arcDecls.TLB_CMD_WRITE (0, 0) 0 = .ok env'
      ∧ env'.mmu.nTLB 2 1 = { pd0 := 0x4205, pd1 := 0x9007e }
      ∧ env'.mmu.nTLB 2 0 = { pd0 := 0, pd1 := 0 }
      ∧ env'.mmu.tlbindex = 9 ∧ env'.mmu.tlbcmd = 1
      ∧ env'.flushes = [FlushEvent.all] := by
  obtain ⟨env', he, _, _, hslot, hother, _, hregs, _, _, hfl, _⟩ :=
    legacy_write_effect arcDecls 4 (arc_mmu_aux_set v3InsertReady AuxId.tlbindex 9)
      arcDecls.TLB_CMD_WRITE (0, 0) 0 arcDecls_layout (Or.inl rfl) (by decide)
  refine ⟨env', he, hslot, ?_, ?_, ?_, hfl⟩
  · rw [hother 2 0 (by decide)]
    rfl
  · rw [hregs]
    rfl
  · rw [hregs]
    rfl

/-- C26: when `TLBINDEX & TLBINDEX_INDEX` addresses a slot of the TLB, WRITE,
then writes of arbitrary values to TLBPD0 and TLBPD1, then READ brings back in
TLBPD0 and TLBPD1 the pair WRITE stored. READ (in any state `env`) completes,
changes no TLB entry and no cursor, clears the E and RC bits of TLBINDEX and
keeps its index bits. `TLBINDEX_INDEX` is assumed disjoint from the E and RC
fields, all within 32 bits. -/
theorem legacy_write_read_round_trip (d : Decls) (fuel : Nat) (env : V3Env) (a b : Nat)
    (tlb0 tlb1 : Nat × Nat) (index0 index1 : Nat)
    (hL : LayoutOK d env.mmu_v3_page_size)
    (hI : d.TLBINDEX_INDEX &&& (d.TLBINDEX_E ||| d.TLBINDEX_RC) = 0)
    (hI32 : d.TLBINDEX_INDEX < 2 ^ 32) (hE32 : d.TLBINDEX_E ||| d.TLBINDEX_RC < 2 ^ 32)
    (hidx : (env.mmu.tlbindex &&& d.TLBINDEX_INDEX) / d.N_WAYS < d.N_SETS) :
    (∃ e1 e2, arc_mmu_aux_set_tlbcmd d fuel env d.TLB_CMD_WRITE tlb0 index0 = .ok e1
      ∧ arc_mmu_aux_set_tlbcmd d fuel
          (arc_mmu_aux_set (arc_mmu_aux_set e1 AuxId.tlbpd0 a) AuxId.tlbpd1 b)
          d.TLB_CMD_READ tlb1 index1 = .ok e2
      ∧ (env.mmu.tlbindex &&& d.TLBINDEX_INDEX) / d.N_WAYS < d.N_SETS
      ∧ e2.mmu.tlbpd0 = env.mmu.tlbpd0 ∧ e2.mmu.tlbpd1 = env.mmu.tlbpd1
      ∧ e2.mmu.nTLB = e1.mmu.nTLB
      ∧ e2.mmu.tlbindex &&& d.TLBINDEX_INDEX = env.mmu.tlbindex &&& d.TLBINDEX_INDEX)
    ∧ (∃ e, arc_mmu_aux_set_tlbcmd d fuel env d.TLB_CMD_READ tlb1 index1 = .ok e
      ∧ e.mmu.nTLB = env.mmu.nTLB ∧ e.mmu.way_sel = env.mmu.way_sel
      ∧ e.mmu.tlbindex &&& (d.TLBINDEX_E ||| d.TLBINDEX_RC) = 0
      ∧ e.mmu.tlbindex &&& d.TLBINDEX_INDEX = env.mmu.tlbindex &&& d.TLBINDEX_INDEX
      ∧ e.mmu.tlbpd0 = (env.mmu.nTLB ((env.mmu.tlbindex &&& d.TLBINDEX_INDEX) / d.N_WAYS)
          ((env.mmu.tlbindex &&& d.TLBINDEX_INDEX) % d.N_WAYS)).pd0
      ∧ e.mmu.tlbpd1 = (env.mmu.nTLB ((env.mmu.tlbindex &&& d.TLBINDEX_INDEX) / d.N_WAYS)
          ((env.mmu.tlbindex &&& d.TLBINDEX_INDEX) % d.N_WAYS)).pd1) := by
  constructor
  · refine ⟨_, _, tlbcmd_write_eq d fuel env _ tlb0 index0 hL (Or.inl rfl),
      tlbcmd_read_eq d fuel _ tlb1 index1 hL, hidx, ?_, ?_, rfl, ?_⟩
    · simp only [arc_mmu_aux_set, setSlot, and_self, if_true]
    · simp only [arc_mmu_aux_set, setSlot, and_self, if_true]
    · exact and_not32_other _ _ _ hI hI32
  · exact ⟨_, tlbcmd_read_eq d fuel env tlb1 index1 hL, rfl, rfl,
      and_not32_self _ _ hE32, and_not32_other _ _ _ hI hI32, rfl, rfl⟩

/-- Witness for C26: WRITE of (0x4205, 0x9007e) at index 9, TLBPD0 and TLBPD1
overwritten with 0x1111 and 0x2222, READ. -/
theorem legacy_write_read_round_trip_witness :
    ∃ e1 e2, arc_mmu_aux_set_tlbcmd arcDecls 4
          (arc_mmu_aux_set v3InsertReady AuxId.tlbindex 0x80000009)
          arcDecls.TLB_CMD_WRITE (0, 0) 0 = .ok e1
      ∧ arc_mmu_aux_set_tlbcmd arcDecls 4
          (arc_mmu_aux_set (arc_mmu_aux_set e1 AuxId.tlbpd0 0x1111) AuxId.tlbpd1 0x2222)
          arcDecls.TLB_CMD_READ (0, 0) 0 = .ok e2
      ∧ e2.mmu.tlbpd0 = 0x4205 ∧ e2.mmu.tlbpd1 = 0x9007e
      ∧ e2.mmu.tlbindex &&& arcDecls.TLBINDEX_INDEX = 9 := by
  obtain ⟨e1, e2, h1, h2, _, hp0, hp1, _, hi⟩ :=
    (legacy_write_read_round_trip arcDecls 4
      (arc_mmu_aux_set v3InsertReady AuxId.tlbindex 0x80000009) 0x1111 0x2222 (0, 0) (0, 0) 0 0
      arcDecls_layout (by decide) (by decide) (by decide) (by decide)).1
  exact ⟨e1, e2, h1, h2, hp0, hp1, hi⟩

/-- C29: the IVUTLB command of the set-associative MMU, its code being distinct
from the five other command codes, completes and changes nothing but the
command register, which records the value: no TLB entry, no cursor, no other
register, and no flush is requested. The `TLBRead` command of the radix MMU
leaves the registers and the requested flushes as they are, also when it
arrives through `arc_mmuv6_aux_set`. -/
theorem unimplemented_commands_are_noops (d : Decls) (fuel : Nat) (env : V3Env)
    (tlb0 : Nat × Nat) (index0 : Nat) (cpu : V6Cpu)
    (hiv : d.TLB_CMD_IVUTLB ≠ d.TLB_CMD_WRITE ∧ d.TLB_CMD_IVUTLB ≠ d.TLB_CMD_WRITENI
      ∧ d.TLB_CMD_IVUTLB ≠ d.TLB_CMD_READ ∧ d.TLB_CMD_IVUTLB ≠ d.TLB_CMD_DELETE
      ∧ d.TLB_CMD_IVUTLB ≠ d.TLB_CMD_INSERT) :
    (∃ env', arc_mmu_aux_set_tlbcmd d fuel env d.TLB_CMD_IVUTLB tlb0 index0 = .ok env'
      ∧ env' = { env with mmu := { env.mmu with tlbcmd := d.TLB_CMD_IVUTLB % 2 ^ 32 } }
      ∧ env'.mmu.nTLB = env.mmu.nTLB ∧ env'.mmu.way_sel = env.mmu.way_sel
      ∧ env'.mmu.tlbpd0 = env.mmu.tlbpd0 ∧ env'.mmu.tlbpd1 = env.mmu.tlbpd1
      ∧ env'.mmu.tlbindex = env.mmu.tlbindex
      ∧ env'.flushes = env.flushes)
    ∧ mmuv6_tlb_command cpu TLBRead = cpu
    ∧ (∀ val, (val % 2 ^ d.TARGET_LONG_BITS) % 2 ^ 32 = TLBRead →
        arc_mmuv6_aux_set d cpu AuxIdV6.mmuv6_tlbcommand val = .ok cpu) := by
  obtain ⟨h1, h2, h3, h4, h5⟩ := hiv
  refine ⟨⟨_, ?_, rfl, rfl, rfl, rfl, rfl, rfl, rfl⟩, rfl, ?_⟩
  · unfold arc_mmu_aux_set_tlbcmd
    simp only [h1, h2, h3, h4, h5, or_self, or_false, false_or, true_or, or_true,
      if_true, if_false, bind, Except.bind, pure, Except.pure]
  · intro val hval
    unfold arc_mmuv6_aux_set
    simp only [hval]
    rfl

/-- Witness for C29: the header command codes, IVUTLB written in the kernel-only
scenario. -/
theorem unimplemented_commands_are_noops_witness :
    (∃ env', arc_mmu_aux_set_tlbcmd arcDecls 4 (v3KernelOnly false) arcDecls.TLB_CMD_IVUTLB
          (0, 0) 0 = .ok env'
      ∧ env'.mmu.tlbcmd = 6
      ∧ env'.mmu.nTLB 2 0 = { pd0 := 0x4205, pd1 := 0x90060 }
      ∧ env'.flushes = [])
    ∧ mmuv6_tlb_command { st := v6Scenario, flushes := [] } TLBRead
        = { st := v6Scenario, flushes := [] } := by
  obtain ⟨⟨env', he, heq, _, _, _, _, _, hfl⟩, hr, _⟩ :=
    unimplemented_commands_are_noops arcDecls 4 (v3KernelOnly false) (0, 0) 0
      { st := v6Scenario, flushes := [] } (by decide)
  refine ⟨⟨env', he, ?_, ?_, hfl⟩, hr⟩
  · rw [heq]
    rfl
  · rw [heq]
    rfl

/-- C28: each of the five invalidation commands requests exactly one
`tlb_flush` and leaves every variable of the radix MMU (CTRL, TTBCR, RTP0, RTP1,
FAULT_STATUS, the profile) as it is, also when it arrives through
`arc_mmuv6_aux_set`. Two `TLBInvalidateAll` in a row leave the variables one
leaves, so every walk and every translation that follows returns the same. -/
theorem radix_invalidate_commands (cpu : V6Cpu) (command : Nat)
    (hc : command = TLBInvalidateAll ∨ command = TLBInvalidateASID
      ∨ command = TLBInvalidateAddr ∨ command = TLBInvalidateRegion
      ∨ command = TLBInvalidateRegionASID) :
    mmuv6_tlb_command cpu command = { cpu with flushes := FlushEvent.all :: cpu.flushes }
    ∧ (mmuv6_tlb_command cpu command).st = cpu.st
    ∧ (mmuv6_tlb_command cpu command).flushes = FlushEvent.all :: cpu.flushes
    ∧ (∀ (d : Decls) val, (val % 2 ^ d.TARGET_LONG_BITS) % 2 ^ 32 = command →
        arc_mmuv6_aux_set d cpu AuxIdV6.mmuv6_tlbcommand val
          = .ok { cpu with flushes := FlushEvent.all :: cpu.flushes })
    ∧ (mmuv6_tlb_command (mmuv6_tlb_command cpu TLBInvalidateAll) TLBInvalidateAll).st
        = (mmuv6_tlb_command cpu TLBInvalidateAll).st
    ∧ (∀ (d : Decls) vaddr rwe prot_given excp0 pte0,
        page_table_traverse d
            (mmuv6_tlb_command (mmuv6_tlb_command cpu TLBInvalidateAll) TLBInvalidateAll).st
            vaddr rwe prot_given excp0 pte0
          = page_table_traverse d (mmuv6_tlb_command cpu TLBInvalidateAll).st
            vaddr rwe prot_given excp0 pte0)
    ∧ (∀ (d : Decls) en vaddr rwe prot_given excp0 pte0,
        arc_mmuv6_translate d
            { st := (mmuv6_tlb_command (mmuv6_tlb_command cpu TLBInvalidateAll)
                TLBInvalidateAll).st, exception_number := en }
            vaddr rwe prot_given excp0 pte0
          = arc_mmuv6_translate d
            { st := (mmuv6_tlb_command cpu TLBInvalidateAll).st, exception_number := en }
            vaddr rwe prot_given excp0 pte0) := by
  have h1 : mmuv6_tlb_command cpu command
      = { cpu with flushes := FlushEvent.all :: cpu.flushes } := by
    unfold mmuv6_tlb_command
    rw [if_pos hc]
  have hall : ∀ c : V6Cpu, (mmuv6_tlb_command c TLBInvalidateAll).st = c.st := fun c => by
    unfold mmuv6_tlb_command
    rw [if_pos (Or.inl rfl)]
  refine ⟨h1, by rw [h1], by rw [h1], ?_, ?_, ?_, ?_⟩
  · intro d val hval
    unfold arc_mmuv6_aux_set
    simp only [hval]
    rw [h1]
  · rw [hall]
  · intro d vaddr rwe prot_given excp0 pte0
    rw [hall]
  · intro d en vaddr rwe prot_given excp0 pte0
    rw [hall]

/-- Witness for C28: `TLBInvalidateRegion` written through the register
interface in the scenario state. -/
theorem radix_invalidate_commands_witness :
    arc_mmuv6_aux_set arcDecls { st := v6Scenario, flushes := [] } AuxIdV6.mmuv6_tlbcommand 5
      = .ok { st := v6Scenario, flushes := [FlushEvent.all] } :=
  (radix_invalidate_commands { st := v6Scenario, flushes := [] } TLBInvalidateRegion
    (Or.inr (Or.inr (Or.inr (Or.inl rfl))))).2.2.2.1 arcDecls 5 rfl


/-- C30 (failing input): writes of SASID0, SASID1 and TTBCR change the address
mapping without any flush being requested. In `v3SharedLib` a kernel read of
0x204000 misses; after SASID0 := 8 the same read hits frame 0x90000, and the list
of requested flushes is as before (likewise SASID1 := 8 in `v3SharedLibHigh`). In
the radix scenario a read of 0x202123 translates to 0x90123; after
TTBCR := 0x000c000c the same read ends in a data-MMU fault, and no flush was
requested. No write of SASID0, SASID1 or TTBCR ever requests a flush. -/
theorem mapping_write_without_flush :
    translateObs arcDecls v3SharedLib 0x204000 mmu_access_type.MMU_MEM_READ
        = some (false, none, ⟨Excp.EXCP_TLB_MISS_D, 1, 0⟩)
    ∧ translateObs arcDecls (arc_mmu_aux_set v3SharedLib AuxId.sasid0 8) 0x204000
          mmu_access_type.MMU_MEM_READ
        = some (true, some 0x90000, ⟨Excp.EXCP_NO_EXCEPTION, 0, 0⟩)
    ∧ (arc_mmu_aux_set v3SharedLib AuxId.sasid0 8).flushes = v3SharedLib.flushes
    ∧ translateObs arcDecls v3SharedLibHigh 0x204000 mmu_access_type.MMU_MEM_READ
        = some (false, none, ⟨Excp.EXCP_TLB_MISS_D, 1, 0⟩)
    ∧ translateObs arcDecls (arc_mmu_aux_set v3SharedLibHigh AuxId.sasid1 8) 0x204000
          mmu_access_type.MMU_MEM_READ
        = some (true, some 0x90000, ⟨Excp.EXCP_NO_EXCEPTION, 0, 0⟩)
    ∧ (arc_mmu_aux_set v3SharedLibHigh AuxId.sasid1 8).flushes = v3SharedLibHigh.flushes
    ∧ walkObs arcDecls v6Scenario 0x202123 mmu_access_type.MMU_MEM_READ true
          ⟨Excp.EXCP_NO_EXCEPTION, 0, 0⟩ 0
        = some (0x90123, some 7, ⟨Excp.EXCP_NO_EXCEPTION, 0, 0⟩)
    ∧ (∃ cpu', arc_mmuv6_aux_set arcDecls { st := v6Scenario, flushes := [] }
            AuxIdV6.mmu_ttbcr 0x000c000c = .ok cpu'
        ∧ cpu'.st.mmu_ttbcr = 0x000c000c
        ∧ cpu'.flushes = []
        ∧ walkObs arcDecls cpu'.st 0x202123 mmu_access_type.MMU_MEM_READ true
              ⟨Excp.EXCP_NO_EXCEPTION, 0, 0⟩ 0
            = some (0xffffffff, none, ⟨Excp.EXCP_DMMU_FAULT, 1, 0⟩))
    ∧ (∀ (env : V3Env) val, (arc_mmu_aux_set env AuxId.sasid0 val).flushes = env.flushes
        ∧ (arc_mmu_aux_set env AuxId.sasid1 val).flushes = env.flushes)
    ∧ (∀ (d : Decls) (cpu : V6Cpu) val, ∃ cpu',
        arc_mmuv6_aux_set d cpu AuxIdV6.mmu_ttbcr val = .ok cpu'
        ∧ cpu'.flushes = cpu.flushes) :=
  ⟨by decide, by decide, rfl, by decide, by decide, rfl, by decide,
    ⟨_, rfl, by decide, rfl, by decide⟩,
    fun _ _ => ⟨rfl, rfl⟩, fun _ _ _ => ⟨_, rfl, rfl⟩⟩

theorem not64_testBit (v i : Nat) :
    (not64 v).testBit i = (decide (i < 64) && !v.testBit i) := by
  simp only [not64, Nat.testBit_xor, Nat.testBit_two_pow_sub_one, Nat.testBit_mod_two_pow]
  by_cases h : i < 64 <;> cases v.testBit i <;> simp [h]

/-- Replacing the upper half of a 64-bit word by itself gives the word back. -/
theorem upper_half_rebuild (x : Nat) (hx : x < 2 ^ 64) :
    (x &&& not64 0xffffffff00000000) ||| (((x >>> 32) <<< 32) % 2 ^ 64) = x := by
  have hM : (0xffffffff00000000 : Nat) = (2 ^ 32 - 1) <<< 32 := by decide
  apply Nat.eq_of_testBit_eq
  intro i
  rw [hM]
  simp only [Nat.testBit_or, Nat.testBit_and, not64_testBit, Nat.testBit_mod_two_pow,
    Nat.testBit_shiftLeft, Nat.testBit_shiftRight, Nat.testBit_two_pow_sub_one]
  by_cases h64 : i < 64
  · by_cases h32 : 32 ≤ i
    · have : 32 + (i - 32) = i := by omega
      have h2 : i - 32 < 32 := by omega
      simp [h64, h32, this, h2]
    · simp [h64, h32]
  · have : x.testBit i = false :=
      Nat.testBit_lt_two_pow (Nat.lt_of_lt_of_le hx
        (Nat.pow_le_pow_right (by decide) (Nat.le_of_not_lt h64)))
    simp [h64, this]

/-- The register writes that do request a flush: every write of PID, and every
write of CTRL, RTP0, RTP0_HI, RTP1 or RTP1_HI that changes a variable of the
radix MMU (the variables holding values of their C types). -/
theorem mapping_writes_that_flush :
    (∀ (env : V3Env) val,
      (arc_mmu_aux_set env AuxId.pid val).flushes = FlushEvent.all :: env.flushes)
    ∧ (∀ (d : Decls) (cpu cpu' : V6Cpu) (id : AuxIdV6) val,
        id = AuxIdV6.mmu_ctrl ∨ id = AuxIdV6.mmu_rtp0 ∨ id = AuxIdV6.mmu_rtp0hi
          ∨ id = AuxIdV6.mmu_rtp1 ∨ id = AuxIdV6.mmu_rtp1hi →
        cpu.st.mmu_ctrl < 2 ^ 32 → cpu.st.mmu_rtp0 < 2 ^ 64 → cpu.st.mmu_rtp1 < 2 ^ 64 →
        arc_mmuv6_aux_set d cpu id val = .ok cpu' →
        (cpu'.st.mmu_ctrl ≠ cpu.st.mmu_ctrl ∨ cpu'.st.mmu_rtp0 ≠ cpu.st.mmu_rtp0
          ∨ cpu'.st.mmu_rtp1 ≠ cpu.st.mmu_rtp1) →
        cpu'.flushes = FlushEvent.all :: cpu.flushes) := by
  refine ⟨fun _ _ => rfl, ?_⟩
  intro d cpu cpu' id val hid hc h0 h1 hset hch
  rcases hid with rfl | rfl | rfl | rfl | rfl
  · unfold arc_mmuv6_aux_set at hset
    simp only [] at hset
    cases hset
    by_cases hf : cpu.st.mmu_ctrl ≠ val % 2 ^ d.TARGET_LONG_BITS
    · simp only [if_pos hf]
    · exfalso
      have hf' : cpu.st.mmu_ctrl = val % 2 ^ d.TARGET_LONG_BITS := not_not.1 hf
      rcases hch with h | h | h
      · apply h
        show val % 2 ^ d.TARGET_LONG_BITS % 2 ^ 32 = cpu.st.mmu_ctrl
        rw [← hf']
        exact Nat.mod_eq_of_lt hc
      · exact h rfl
      · exact h rfl
  · unfold arc_mmuv6_aux_set at hset
    simp only [] at hset
    cases hset
    by_cases hf : cpu.st.mmu_rtp0 ≠ val % 2 ^ d.TARGET_LONG_BITS % 2 ^ 64
    · simp only [if_pos hf]
    · exfalso
      have hf' : cpu.st.mmu_rtp0 = val % 2 ^ d.TARGET_LONG_BITS % 2 ^ 64 := not_not.1 hf
      rcases hch with h | h | h
      · exact h rfl
      · exact h hf'.symm
      · exact h rfl
  · unfold arc_mmuv6_aux_set at hset
    simp only [] at hset
    cases hset
    by_cases hf : cpu.st.mmu_rtp0 >>> 32 ≠ val % 2 ^ d.TARGET_LONG_BITS % 2 ^ 64
    · simp only [if_pos hf]
    · exfalso
      have hf' : cpu.st.mmu_rtp0 >>> 32 = val % 2 ^ d.TARGET_LONG_BITS % 2 ^ 64 := not_not.1 hf
      rcases hch with h | h | h
      · exact h rfl
      · apply h
        show (cpu.st.mmu_rtp0 &&& not64 0xffffffff00000000)
          ||| ((val % 2 ^ d.TARGET_LONG_BITS % 2 ^ 64) <<< 32) % 2 ^ 64 = cpu.st.mmu_rtp0
        rw [← hf']
        exact upper_half_rebuild _ h0
      · exact h rfl
  · unfold arc_mmuv6_aux_set at hset
    simp only [] at hset
    cases hset
    by_cases hf : cpu.st.mmu_rtp1 ≠ val % 2 ^ d.TARGET_LONG_BITS % 2 ^ 64
    · simp only [if_pos hf]
    · exfalso
      have hf' : cpu.st.mmu_rtp1 = val % 2 ^ d.TARGET_LONG_BITS % 2 ^ 64 := not_not.1 hf
      rcases hch with h | h | h
      · exact h rfl
      · exact h rfl
      · exact h hf'.symm
  · unfold arc_mmuv6_aux_set at hset
    simp only [] at hset
    cases hset
    by_cases hf : cpu.st.mmu_rtp1 >>> 32 ≠ val % 2 ^ d.TARGET_LONG_BITS % 2 ^ 64
    · simp only [if_pos hf]
    · exfalso
      have hf' : cpu.st.mmu_rtp1 >>> 32 = val % 2 ^ d.TARGET_LONG_BITS % 2 ^ 64 := not_not.1 hf
      rcases hch with h | h | h
      · exact h rfl
      · exact h rfl
      · apply h
        show (cpu.st.mmu_rtp1 &&& not64 0xffffffff00000000)
          ||| ((val % 2 ^ d.TARGET_LONG_BITS % 2 ^ 64) <<< 32) % 2 ^ 64 = cpu.st.mmu_rtp1
        rw [← hf']
        exact upper_half_rebuild _ h1


/-- C22 (failing input): in `v3BlockedDelete` TLBPD0 holds the valid descriptor
0x4205 and way 1 of set 2 holds the valid entry (0x4205, 0x9007e), equal to it in
every field. The DELETE command completes, reports "no entry" (TLBINDEX =
0x80000000) and leaves that entry valid and matching. The same holds for the run
from reset that inserts the shared-library entry and the entry of process 5 and
then writes DELETE. -/
theorem legacy_delete_leaves_blocked_match :
    v3BlockedDelete.mmu.tlbpd0 &&& arcDecls.PD0_V ≠ 0
    ∧ SpecDeleteMatch arcDecls 13 v3BlockedDelete.mmu.tlbpd0 (v3BlockedDelete.mmu.nTLB 2 1)
    ∧ (∀ fuel, ∃ env',
        arc_mmu_aux_set_tlbcmd arcDecls fuel v3BlockedDelete arcDecls.TLB_CMD_DELETE (0, 0) 0
          = .ok env'
        ∧ env'.mmu.tlbindex = 0x80000000
        ∧ env'.mmu.nTLB 2 1 = { pd0 := 0x4205, pd1 := 0x9007e }
        ∧ SpecDeleteMatch arcDecls 13 env'.mmu.tlbpd0 (env'.mmu.nTLB 2 1))
    ∧ (∃ env', fromReset arcDecls (progBlocked ++ [V3Op.command 8]) = .ok env'
        ∧ env'.mmu.tlbindex = 0x80000000
        ∧ env'.mmu.tlbpd0 = 0x4205
        ∧ env'.mmu.nTLB 2 1 = { pd0 := 0x4205, pd1 := 0x9007e }
        ∧ SpecDeleteMatch arcDecls 13 env'.mmu.tlbpd0 (env'.mmu.nTLB 2 1)) :=
  ⟨by decide, by decide, fun _ => ⟨_, rfl, rfl, rfl, by decide⟩,
    ⟨_, rfl, rfl, rfl, rfl, by decide⟩⟩

theorem lookup_fold_counts (d : Decls) (mmu : arc_mmu) (v cm set n : Nat)
    (hb : ∀ w, w < n → wayBlocks d mmu set w = false) :
    ((List.range n).foldl (lookupStep d mmu v cm set)
        { ret := none, num_finds := 0, index := none, general_match := true }).general_match
        = true
    ∧ ∀ w, w < n → wayCompare d mmu v cm set w = true →
      ((List.range n).foldl (lookupStep d mmu v cm set)
        { ret := none, num_finds := 0, index := none, general_match := true }).num_finds
        ≠ 0 := by
  induction n with
  | zero => exact ⟨rfl, fun w hw => absurd hw (Nat.not_lt_zero w)⟩
  | succ n ih =>
    obtain ⟨hg, hc⟩ := ih (fun w hw => hb w (Nat.lt_succ_of_lt hw))
    rw [List.range_succ, List.foldl_append]
    simp only [List.foldl_cons, List.foldl_nil, lookupStep_eq, hb n (Nat.lt_succ_self n)]
    generalize (List.range n).foldl (lookupStep d mmu v cm set)
      { ret := none, num_finds := 0, index := none, general_match := true } = acc at hg hc ⊢
    simp only [hg, Bool.false_eq_true, if_false, and_true]
    by_cases hn : wayCompare d mmu v cm set n = true
    · rw [if_pos hn]
      exact ⟨rfl, fun _ _ _ => Nat.succ_ne_zero _⟩
    · rw [if_neg hn]
      refine ⟨rfl, fun w hw hcw => ?_⟩
      rcases Nat.lt_succ_iff_lt_or_eq.1 hw with h | h
      · exact hc w h hcw
      · rw [h] at hcw
        exact absurd hcw hn

/-- When no way of the addressed set clears `general_match`, a way whose
comparison succeeds is counted. -/
theorem lookup_counts (d : Decls) (sz v cm w : Nat) (mmu : arc_mmu)
    (hb : ∀ w, w < d.N_WAYS →
      wayBlocks d mmu ((v >>> d.MMU_V3_PAGE_BITS sz) &&& (d.N_SETS - 1)) w = false)
    (hw : w < d.N_WAYS)
    (hc : wayCompare d mmu v cm ((v >>> d.MMU_V3_PAGE_BITS sz) &&& (d.N_SETS - 1)) w = true) :
    (arc_mmu_lookup_tlb d sz v cm mmu).num_finds ≠ 0 := by
  have h := (lookup_fold_counts d mmu v cm _ d.N_WAYS hb).2 w hw hc
  unfold arc_mmu_lookup_tlb
  simp only []
  split <;> exact h

theorem tlbcmdScanMask_plain (d : Decls) (sz pd0 : Nat) (hG : pd0 &&& d.PD0_G = 0) :
    tlbcmdScanMask d sz pd0 = scanMask d sz := by
  unfold tlbcmdScanMask scanMask
  simp only [hG, ne_eq, not_true_eq_false, if_false]

/-- For a valid descriptor without the global bit, the DELETE criteria of the
claim say that entry and descriptor agree under the scan mask with `PD0_V`. -/
theorem spec_match_iff (d : Decls) (sz pd0 : Nat) (e : arc_tlb_e) (hL : LayoutOK d sz)
    (hV : pd0 &&& d.PD0_V ≠ 0) (hG : pd0 &&& d.PD0_G = 0) :
    SpecDeleteMatch d sz pd0 e
      ↔ pd0 &&& (scanMask d sz ||| d.PD0_V) = e.pd0 &&& (scanMask d sz ||| d.PD0_V) := by
  rw [scan_fields d sz _ _ hL]
  have hpV : pd0 &&& d.PD0_V = d.PD0_V := by
    rcases single_bit_cases pd0 d.PD0_V hL.v_bit with h | h
    · exact absurd h hV
    · exact h
  constructor
  · rintro ⟨eV, evpn, eSZ, eG, eSA⟩
    obtain ⟨eS, eA⟩ := eSA hG
    have heV : e.pd0 &&& d.PD0_V = d.PD0_V := by
      rcases single_bit_cases e.pd0 d.PD0_V hL.v_bit with h | h
      · exact absurd h eV
      · exact h
    rw [VPN_eq, VPN_eq] at evpn
    exact ⟨evpn.symm, eSZ.symm, eG.symm, eS.symm, eA.symm, by rw [hpV, heV]⟩
  · rintro ⟨f1, f2, f3, f4, f5, f6⟩
    refine ⟨by rw [← f6]; exact hV, by rw [VPN_eq, VPN_eq, f1], f2.symm, f3.symm,
      fun _ => ⟨f4.symm, f5.symm⟩⟩

/-- A DELETE for a valid descriptor without the global bit that carries the live
process id, issued when no way of the addressed set matches the descriptor,
completes and reports "no entry". -/
theorem delete_no_match (d : Decls) (fuel : Nat) (env : V3Env) (tlb0 : Nat × Nat)
    (index0 : Nat) (hL : LayoutOK d env.mmu_v3_page_size)
    (hV : env.mmu.tlbpd0 &&& d.PD0_V ≠ 0) (hG : env.mmu.tlbpd0 &&& d.PD0_G = 0)
    (hpid : env.mmu.tlbpd0 &&& d.PD0_ASID = env.mmu.pid_asid &&& d.PD0_ASID)
    (hnone : ∀ w, w < d.N_WAYS → ¬ SpecDeleteMatch d env.mmu_v3_page_size env.mmu.tlbpd0
      (env.mmu.nTLB (setOf d env env.mmu.tlbpd0) w)) :
    ∃ env', arc_mmu_aux_set_tlbcmd d fuel env d.TLB_CMD_DELETE tlb0 index0 = .ok env'
      ∧ env'.mmu.tlbindex = 0x80000000 := by
  have hmask := tlbcmdScanMask_plain d env.mmu_v3_page_size env.mmu.tlbpd0 hG
  have h0 : (tlbcmdScan d env).num_finds = 0 := by
    unfold tlbcmdScan
    rw [hmask, lookup_miss d _ _ _ env.mmu (by
      intro w hw hc
      exfalso
      rw [scan_compare_iff d env.mmu _ _ _ w hL hpid] at hc
      exact hnone w hw ((spec_match_iff d _ _ _ hL hV hG).2 hc))]
  have heq := tlbcmd_delete_eq d fuel env tlb0 index0 hL
  rw [if_pos h0] at heq
  exact ⟨_, heq, rfl⟩

/-- In a state that satisfies the invariant of the restricted driver programs,
a DELETE for a plain descriptor carrying the live process id completes and
leaves no TLB entry that matches the descriptor under the DELETE criteria; a
second DELETE completes and reports "no entry". -/
theorem delete_complete_restricted (d : Decls) (fuel : Nat) (env : V3Env)
    (tlb0 tlb1 : Nat × Nat) (index0 index1 : Nat)
    (hL : LayoutOK d env.mmu_v3_page_size) (hinv : TlbInv d env) (hpd : PlainDesc d env) :
    ∃ env', arc_mmu_aux_set_tlbcmd d fuel env d.TLB_CMD_DELETE tlb0 index0 = .ok env'
      ∧ env'.mmu.tlbpd0 = env.mmu.tlbpd0
      ∧ (∀ s w, ¬ SpecDeleteMatch d env.mmu_v3_page_size env.mmu.tlbpd0 (env'.mmu.nTLB s w))
      ∧ ∃ env'', arc_mmu_aux_set_tlbcmd d fuel env' d.TLB_CMD_DELETE tlb1 index1 = .ok env''
          ∧ env''.mmu.tlbindex = 0x80000000 := by
  obtain ⟨hV, hG, hS, hSZ, hA⟩ := hpd
  have hpid : env.mmu.tlbpd0 &&& d.PD0_ASID = env.mmu.pid_asid &&& d.PD0_ASID := by
    rw [← hA, Nat.and_assoc, Nat.and_self]
  have hmask := tlbcmdScanMask_plain d env.mmu_v3_page_size env.mmu.tlbpd0 hG
  have hb : ∀ w, w < d.N_WAYS → wayBlocks d env.mmu (setOf d env env.mmu.tlbpd0) w = false :=
    fun w _ => inv_no_blocks d env hinv _ w
  obtain ⟨wstar, hwstar, hle, hret, hothers, _⟩ :=
    lookup_at_most_one d env.mmu_v3_page_size env.mmu.tlbpd0
      (scanMask d env.mmu_v3_page_size ||| d.PD0_V) env.mmu hb
      (fun w w' _ _ hc hc' => inv_scan_unique d env hL hinv hA hV _ w w' hc hc')
      (hinv.cursor _)
  have hscan : tlbcmdScan d env = arc_mmu_lookup_tlb d env.mmu_v3_page_size env.mmu.tlbpd0
      (scanMask d env.mmu_v3_page_size ||| d.PD0_V) env.mmu := by
    unfold tlbcmdScan
    rw [hmask]
  rw [← hscan] at hle hret
  have hN : (tlbcmdScan d env).mmu.nTLB = env.mmu.nTLB := (lookup_mmu_fields d _ _ _ env.mmu).1
  have hP : (tlbcmdScan d env).mmu.pid_asid = env.mmu.pid_asid :=
    (lookup_mmu_fields d _ _ _ env.mmu).2.2.2.1
  have hT : (tlbcmdScan d env).mmu.tlbpd0 = env.mmu.tlbpd0 :=
    (lookup_mmu_fields d _ _ _ env.mmu).2.2.2.2.2.1
  -- an entry of the old state that matches sits in the addressed set and compares
  have hold : ∀ s w, SpecDeleteMatch d env.mmu_v3_page_size env.mmu.tlbpd0 (env.mmu.nTLB s w) →
      s = setOf d env env.mmu.tlbpd0 ∧ w < d.N_WAYS
      ∧ wayCompare d env.mmu env.mmu.tlbpd0 (scanMask d env.mmu_v3_page_size ||| d.PD0_V)
          (setOf d env env.mmu.tlbpd0) w = true := by
    intro s w hm
    have hf := (spec_match_iff d _ _ _ hL hV hG).1 hm
    obtain ⟨hs, hw⟩ := hinv.home s w hm.1
    have hset : setOf d env (env.mmu.nTLB s w).pd0 = setOf d env env.mmu.tlbpd0 := by
      apply setIdx_congr d _ _ _ hL
      obtain ⟨f1, _, _, f4, _, _⟩ := (scan_fields d _ _ _ hL).1 hf
      rw [Nat.and_or_distrib_left, Nat.and_or_distrib_left, f1, f4]
    rw [hset] at hs
    refine ⟨hs, hw, ?_⟩
    rw [scan_compare_iff d env.mmu _ _ _ w hL hpid, ← hs]
    exact hf
  have heq := tlbcmd_delete_eq d fuel env tlb0 index0 hL
  by_cases h0 : (tlbcmdScan d env).num_finds = 0
  · rw [if_pos h0] at heq
    have hnone : ∀ s w, ¬ SpecDeleteMatch d env.mmu_v3_page_size env.mmu.tlbpd0
        (env.mmu.nTLB s w) := by
      intro s w hm
      obtain ⟨_, hw, hc⟩ := hold s w hm
      exact lookup_counts d _ _ _ w env.mmu hb hw hc (by rw [← hscan]; exact h0)
    refine ⟨_, heq, hT, ?_, ?_⟩
    · intro s w
      show ¬ SpecDeleteMatch d env.mmu_v3_page_size env.mmu.tlbpd0
        ((tlbcmdScan d env).mmu.nTLB s w)
      rw [hN]
      exact hnone s w
    · refine delete_no_match d fuel _ tlb1 index1 ?_ ?_ ?_ ?_ ?_
      · exact hL
      · show (tlbcmdScan d env).mmu.tlbpd0 &&& d.PD0_V ≠ 0
        rw [hT]
        exact hV
      · show (tlbcmdScan d env).mmu.tlbpd0 &&& d.PD0_G = 0
        rw [hT]
        exact hG
      · show (tlbcmdScan d env).mmu.tlbpd0 &&& d.PD0_ASID
          = (tlbcmdScan d env).mmu.pid_asid &&& d.PD0_ASID
        rw [hT, hP]
        exact hpid
      · intro w _
        show ¬ SpecDeleteMatch d env.mmu_v3_page_size (tlbcmdScan d env).mmu.tlbpd0
          ((tlbcmdScan d env).mmu.nTLB (setOf d env (tlbcmdScan d env).mmu.tlbpd0) w)
        rw [hN, hT]
        exact hnone _ w
  · have h1 : (tlbcmdScan d env).num_finds = 1 := by omega
    rw [if_neg h0, if_pos h1] at heq
    have hvlt := single_bit_lt d.PD0_V hL.v_bit
    have hnew : ∀ s w, ¬ SpecDeleteMatch d env.mmu_v3_page_size env.mmu.tlbpd0
        (setSlot env.mmu.nTLB (setOf d env env.mmu.tlbpd0) wstar
          { env.mmu.nTLB (setOf d env env.mmu.tlbpd0) wstar with
            pd0 := (env.mmu.nTLB (setOf d env env.mmu.tlbpd0) wstar).pd0 &&& not32 d.PD0_V }
          s w) := by
      intro s w hm
      unfold setSlot at hm
      by_cases hsw : s = setOf d env env.mmu.tlbpd0 ∧ w = wstar
      · rw [if_pos hsw] at hm
        exact hm.1 (and_not32_self _ _ hvlt)
      · rw [if_neg hsw] at hm
        obtain ⟨hs, hw, hc⟩ := hold s w hm
        by_cases hww : w = wstar
        · exact hsw ⟨hs, hww⟩
        · have hf : wayCompare d env.mmu env.mmu.tlbpd0
              (scanMask d env.mmu_v3_page_size ||| d.PD0_V) (setOf d env env.mmu.tlbpd0) w
              = false := hothers w hw hww
          rw [hf] at hc
          cases hc
    have hnT : (clearValid d
        { (tlbcmdScan d env).mmu with
          tlbcmd := d.TLB_CMD_DELETE % 2 ^ 32, tlbindex := (tlbcmdScan d env).index }
        (tlbcmdScan d env).ret).nTLB
        = setSlot env.mmu.nTLB (setOf d env env.mmu.tlbpd0) wstar
          { env.mmu.nTLB (setOf d env env.mmu.tlbpd0) wstar with
            pd0 := (env.mmu.nTLB (setOf d env env.mmu.tlbpd0) wstar).pd0 &&& not32 d.PD0_V } := by
      show setSlot (tlbcmdScan d env).mmu.nTLB (tlbcmdScan d env).ret.1 (tlbcmdScan d env).ret.2 _
        = _
      rw [hN, hret]
      rfl
    refine ⟨_, heq, hT, ?_, ?_⟩
    · intro s w
      show ¬ SpecDeleteMatch d env.mmu_v3_page_size env.mmu.tlbpd0
        ((clearValid d _ _).nTLB s w)
      rw [hnT]
      exact hnew s w
    · refine delete_no_match d fuel _ tlb1 index1 ?_ ?_ ?_ ?_ ?_
      · exact hL
      · show (tlbcmdScan d env).mmu.tlbpd0 &&& d.PD0_V ≠ 0
        rw [hT]
        exact hV
      · show (tlbcmdScan d env).mmu.tlbpd0 &&& d.PD0_G = 0
        rw [hT]
        exact hG
      · show (tlbcmdScan d env).mmu.tlbpd0 &&& d.PD0_ASID
          = (tlbcmdScan d env).mmu.pid_asid &&& d.PD0_ASID
        rw [hT, hP]
        exact hpid
      · intro w _
        show ¬ SpecDeleteMatch d env.mmu_v3_page_size (tlbcmdScan d env).mmu.tlbpd0
          ((clearValid d _ _).nTLB (setOf d env (tlbcmdScan d env).mmu.tlbpd0) w)
        rw [hnT, hT]
        exact hnew _ w

/-- A DELETE whose descriptor carries another ASID than the live process id
compares the entries with the OR of the two: in `v3OtherAsid` (process 5 live,
descriptor and entry of process 6) the scan counts nothing, the command reports
"no entry" and the entry stays valid. -/
theorem delete_skips_other_asid :
    SpecDeleteMatch arcDecls 13 v3OtherAsid.mmu.tlbpd0 (v3OtherAsid.mmu.nTLB 2 0)
    ∧ (tlbcmdScan arcDecls v3OtherAsid).num_finds = 0
    ∧ ∀ fuel, ∃ env',
        arc_mmu_aux_set_tlbcmd arcDecls fuel v3OtherAsid arcDecls.TLB_CMD_DELETE (0, 0) 0
          = .ok env'
        ∧ env'.mmu.tlbindex = 0x80000000
        ∧ env'.mmu.nTLB 2 0 = { pd0 := 0x4206, pd1 := 0xa007e } :=
  ⟨by decide, rfl, fun _ => ⟨_, rfl, rfl, rfl⟩⟩


theorem lookupStep_congr (d : Decls) (mmu mmu' : arc_mmu) (v cm set : Nat)
    (hN : mmu.nTLB = mmu'.nTLB) (hP : mmu.pid_asid = mmu'.pid_asid)
    (h0 : mmu.sasid0 = mmu'.sasid0) (h1 : mmu.sasid1 = mmu'.sasid1) :
    lookupStep d mmu v cm set = lookupStep d mmu' v cm set := by
  funext acc w
  unfold lookupStep
  simp only [hN, hP, fun e => match_sasid_congr d e mmu mmu' h0 h1]

/-- The count of a lookup, and the slot it returns when it counted a match,
depend on the TLB entries, the process id and the SASID registers only. -/
theorem lookup_congr (d : Decls) (sz v cm : Nat) (mmu mmu' : arc_mmu)
    (hN : mmu.nTLB = mmu'.nTLB) (hP : mmu.pid_asid = mmu'.pid_asid)
    (h0 : mmu.sasid0 = mmu'.sasid0) (h1 : mmu.sasid1 = mmu'.sasid1) :
    (arc_mmu_lookup_tlb d sz v cm mmu).num_finds = (arc_mmu_lookup_tlb d sz v cm mmu').num_finds
    ∧ ((arc_mmu_lookup_tlb d sz v cm mmu).num_finds ≠ 0 →
        (arc_mmu_lookup_tlb d sz v cm mmu).ret = (arc_mmu_lookup_tlb d sz v cm mmu').ret) := by
  have hs := lookupStep_congr d mmu mmu' v cm ((v >>> d.MMU_V3_PAGE_BITS sz) &&& (d.N_SETS - 1))
    hN hP h0 h1
  have hf := lookup_fold_found d mmu v cm ((v >>> d.MMU_V3_PAGE_BITS sz) &&& (d.N_SETS - 1))
    d.N_WAYS
  unfold arc_mmu_lookup_tlb
  simp only [← hs]
  generalize (List.range d.N_WAYS).foldl
    (lookupStep d mmu v cm ((v >>> d.MMU_V3_PAGE_BITS sz) &&& (d.N_SETS - 1)))
    { ret := none, num_finds := 0, index := none, general_match := true } = acc at hf ⊢
  cases hr : acc.ret with
  | some r => exact ⟨rfl, fun _ => rfl⟩
  | none =>
    refine ⟨rfl, fun hne => ?_⟩
    rcases hf with h | ⟨w, _, hw, _⟩
    · exact absurd h hne
    · rw [hr] at hw
      cases hw

/-- The observation of an outcome of `arc_mmu_translate`. -/
theorem translateObs_eq (d : Decls) (env : V3Env) (vaddr : Nat) (rwe : mmu_access_type) :
    translateObs d env vaddr rwe =
      (match arc_mmu_translate d env vaddr rwe with
       | .ok o => some (o.ret, o.paddr, o.excp)
       | .error _ => none) := rfl

theorem translateMatch_congr (d : Decls) (sz : Nat) (mmu mmu' : arc_mmu) (vaddr n : Nat)
    (tlb : arc_tlb_e) (hP : mmu.pid_asid = mmu'.pid_asid)
    (h0 : mmu.sasid0 = mmu'.sasid0) (h1 : mmu.sasid1 = mmu'.sasid1) :
    translateMatch d sz mmu vaddr n tlb = translateMatch d sz mmu' vaddr n tlb := by
  unfold translateMatch
  simp only [hP, fun e => match_sasid_congr d e mmu mmu' h0 h1]

/-- What `translateFinish` hands to the caller depends on the computed match,
on the entry when there is a match, on the privilege, the page size and the
SASID registers. -/
theorem translateFinish_obs_congr (d : Decls) (env env' : V3Env) (vaddr : Nat)
    (rwe : mmu_access_type) (index index' : Nat) (tlb tlb' : arc_tlb_e) (mtch : Bool)
    (hUf : env.Uf = env'.Uf) (hsz : env.mmu_v3_page_size = env'.mmu_v3_page_size)
    (h0 : env.mmu.sasid0 = env'.mmu.sasid0) (h1 : env.mmu.sasid1 = env'.mmu.sasid1)
    (htlb : mtch = true → tlb = tlb') :
    (match translateFinish d env vaddr rwe index tlb mtch with
     | .ok o => some (o.ret, o.paddr, o.excp)
     | .error _ => none)
    = (match translateFinish d env' vaddr rwe index' tlb' mtch with
       | .ok o => some (o.ret, o.paddr, o.excp)
       | .error _ => none) := by
  cases mtch with
  | false =>
    unfold translateFinish
    simp only [Bool.false_eq_true, false_and, if_false, h0, h1]
    split_ifs <;> rfl
  | true =>
    rw [htlb rfl]
    unfold translateFinish arc_mmu_have_permission
    simp only [hUf, hsz]
    split_ifs <;> rfl

/-- The result of `arc_mmu_translate` depends on the TLB entries, the enable
flag, the process id, the SASID registers, the page size and the privilege
only. -/
theorem translateObs_congr (d : Decls) (env env' : V3Env) (vaddr : Nat) (rwe : mmu_access_type)
    (hN : env.mmu.nTLB = env'.mmu.nTLB) (hE : env.mmu.enabled = env'.mmu.enabled)
    (hP : env.mmu.pid_asid = env'.mmu.pid_asid)
    (h0 : env.mmu.sasid0 = env'.mmu.sasid0) (h1 : env.mmu.sasid1 = env'.mmu.sasid1)
    (hsz : env.mmu_v3_page_size = env'.mmu_v3_page_size) (hUf : env.Uf = env'.Uf) :
    translateObs d env vaddr rwe = translateObs d env' vaddr rwe := by
  rw [translateObs_eq, translateObs_eq]
  unfold arc_mmu_translate
  simp only [← hUf, ← hE, ← hsz]
  by_cases c1 : rwe ≠ mmu_access_type.MMU_MEM_IRRELEVANT_TYPE ∧ env.Uf ≠ false
      ∧ vaddr % 2 ^ 32 ≥ 0x80000000
  · rw [if_pos c1, if_pos c1]
  · rw [if_neg c1, if_neg c1]
    by_cases c2 : vaddr % 2 ^ 32 ≥ 0x80000000 ∨ env.mmu.enabled = 0
    · rw [if_pos c2, if_pos c2]
    · rw [if_neg c2, if_neg c2]
      obtain ⟨hn, hr⟩ := lookup_congr d env.mmu_v3_page_size
        (VPN d env.mmu_v3_page_size (vaddr % 2 ^ 32) ||| d.PD0_V)
        (VPN d env.mmu_v3_page_size d.PD0_VPN ||| d.PD0_V) env.mmu env'.mmu hN hP h0 h1
      obtain ⟨aN, a0, a1, aP, _, _, _⟩ := lookup_mmu_fields d env.mmu_v3_page_size
        (VPN d env.mmu_v3_page_size (vaddr % 2 ^ 32) ||| d.PD0_V)
        (VPN d env.mmu_v3_page_size d.PD0_VPN ||| d.PD0_V) env.mmu
      obtain ⟨bN, b0, b1, bP, _, _, _⟩ := lookup_mmu_fields d env.mmu_v3_page_size
        (VPN d env.mmu_v3_page_size (vaddr % 2 ^ 32) ||| d.PD0_V)
        (VPN d env.mmu_v3_page_size d.PD0_VPN ||| d.PD0_V) env'.mmu
      generalize arc_mmu_lookup_tlb d env.mmu_v3_page_size
        (VPN d env.mmu_v3_page_size (vaddr % 2 ^ 32) ||| d.PD0_V)
        (VPN d env.mmu_v3_page_size d.PD0_VPN ||| d.PD0_V) env.mmu = r at *
      generalize arc_mmu_lookup_tlb d env.mmu_v3_page_size
        (VPN d env.mmu_v3_page_size (vaddr % 2 ^ 32) ||| d.PD0_V)
        (VPN d env.mmu_v3_page_size d.PD0_VPN ||| d.PD0_V) env'.mmu = r' at *
      rw [← hn]
      by_cases c3 : r.num_finds > 1
      · rw [if_pos c3, if_pos c3]
      · rw [if_neg c3, if_neg c3]
        have htlb : r.num_finds ≠ 0 → r.mmu.nTLB r.ret.1 r.ret.2 = r'.mmu.nTLB r'.ret.1 r'.ret.2 := by
          intro hne
          rw [aN, bN, ← hr hne, hN]
        have hm : translateMatch d env.mmu_v3_page_size r'.mmu (vaddr % 2 ^ 32) r.num_finds
              (r'.mmu.nTLB r'.ret.1 r'.ret.2)
            = translateMatch d env.mmu_v3_page_size r.mmu (vaddr % 2 ^ 32) r.num_finds
              (r.mmu.nTLB r.ret.1 r.ret.2) := by
          by_cases hz : r.num_finds = 0
          · rw [hz, translateMatch_zero, translateMatch_zero]
          · rw [← htlb hz]
            exact translateMatch_congr d _ _ _ _ _ _ (by rw [aP, bP, hP]) (by rw [a0, b0, h0])
              (by rw [a1, b1, h1])
        rw [hm]
        refine translateFinish_obs_congr d _ _ _ _ _ _ _ _ _ rfl rfl ?_ ?_ ?_
        · show r.mmu.sasid0 = r'.mmu.sasid0
          rw [a0, b0, h0]
        · show r.mmu.sasid1 = r'.mmu.sasid1
          rw [a1, b1, h1]
        · intro hmt
          apply htlb
          intro hz
          rw [hz, translateMatch_zero] at hmt
          cases hmt

theorem translateFinish_env (d : Decls) (env : V3Env) (vaddr : Nat) (rwe : mmu_access_type)
    (index : Nat) (tlb : arc_tlb_e) (mtch : Bool) (o : TranslateOut)
    (h : translateFinish d env vaddr rwe index tlb mtch = .ok o) :
    o.env.mmu.nTLB = env.mmu.nTLB ∧ o.env.mmu.enabled = env.mmu.enabled
      ∧ o.env.mmu.pid_asid = env.mmu.pid_asid ∧ o.env.mmu.sasid0 = env.mmu.sasid0
      ∧ o.env.mmu.sasid1 = env.mmu.sasid1
      ∧ o.env.mmu_v3_page_size = env.mmu_v3_page_size ∧ o.env.Uf = env.Uf := by
  unfold translateFinish at h
  simp only [] at h
  split_ifs at h <;> cases h <;> exact ⟨rfl, rfl, rfl, rfl, rfl, rfl, rfl⟩

/-- A call of `arc_mmu_translate` changes no TLB entry, neither the enable flag,
the process id nor a SASID register, nor the page size or the privilege. -/
theorem translate_env_mapping (d : Decls) (env : V3Env) (vaddr : Nat) (rwe : mmu_access_type)
    (o : TranslateOut) (h : arc_mmu_translate d env vaddr rwe = .ok o) :
    o.env.mmu.nTLB = env.mmu.nTLB ∧ o.env.mmu.enabled = env.mmu.enabled
      ∧ o.env.mmu.pid_asid = env.mmu.pid_asid ∧ o.env.mmu.sasid0 = env.mmu.sasid0
      ∧ o.env.mmu.sasid1 = env.mmu.sasid1
      ∧ o.env.mmu_v3_page_size = env.mmu_v3_page_size ∧ o.env.Uf = env.Uf := by
  obtain ⟨aN, a0, a1, aP, aE, _, _⟩ := lookup_mmu_fields d env.mmu_v3_page_size
    (VPN d env.mmu_v3_page_size (vaddr % 2 ^ 32) ||| d.PD0_V)
    (VPN d env.mmu_v3_page_size d.PD0_VPN ||| d.PD0_V) env.mmu
  unfold arc_mmu_translate at h
  simp only [] at h
  split_ifs at h
  · cases h
    exact ⟨rfl, rfl, rfl, rfl, rfl, rfl, rfl⟩
  · cases h
    exact ⟨rfl, rfl, rfl, rfl, rfl, rfl, rfl⟩
  · cases h
    exact ⟨aN, aE, aP, a0, a1, rfl, rfl⟩
  · obtain ⟨fN, fE, fP, f0, f1, fsz, fU⟩ := translateFinish_env d _ _ _ _ _ _ o h
    exact ⟨fN.trans aN, fE.trans aE, fP.trans aP, f0.trans a0, f1.trans a1, fsz, fU⟩

/-- The first half of a loop iteration leaves the loop, or goes on, in the same
way and with the same descriptor whatever `mmu_fault_status` holds. -/
theorem walkHead_shape (d : Decls) (s : V6State) (rwe : mmu_access_type) (pte l fs fs' : Nat) :
    (∃ e a b, walkHead d s rwe pte l fs = WalkHead.ret e a
        ∧ walkHead d s rwe pte l fs' = WalkHead.ret e b)
    ∨ (∃ a b, walkHead d s rwe pte l fs = WalkHead.brk a
        ∧ walkHead d s rwe pte l fs' = WalkHead.brk b)
    ∨ (∃ a b, walkHead d s rwe pte l fs = WalkHead.cont a
        ∧ walkHead d s rwe pte l fs' = WalkHead.cont b) := by
  unfold walkHead
  simp only []
  generalize pte_is_invalid s pte l = inv
  generalize mmuFault rwe 0x00 (d.CAUSE_CODE rwe) = m0
  generalize (PTE_IS_BLOCK_DESCRIPTOR s pte l || PTE_IS_PAGE_DESCRIPTOR s pte l) = bp
  generalize PTE_BLK_AF pte = af
  generalize mmuFault rwe 0x10 (0x10 ||| d.CAUSE_CODE rwe) = m1
  cases inv <;> cases m0 <;> cases bp <;> cases af <;> cases m1 <;>
    first
    | exact Or.inl ⟨_, _, _, rfl, rfl⟩
    | exact Or.inr (Or.inl ⟨_, _, rfl, rfl⟩)
    | exact Or.inr (Or.inr ⟨_, _, rfl, rfl⟩)

/-- The loop of the walker does not read `mmu_fault_status` of the state. -/
theorem walkLoop_state (d : Decls) (s : V6State) (x : Nat) (vaddr : Nat)
    (rwe : mmu_access_type) :
    ∀ n l root rem perms pte fs,
      walkLoop d { s with mmu_fault_status := x } vaddr rwe n l root rem perms pte fs
        = walkLoop d s vaddr rwe n l root rem perms pte fs := by
  intro n
  induction n with
  | zero => intro l root rem perms pte fs; rfl
  | succ n ih =>
    intro l root rem perms pte fs
    rw [walkLoop, walkLoop]
    have hl : loadEntry d { s with mmu_fault_status := x } vaddr l root rem
        = loadEntry d s vaddr l root rem := rfl
    rw [hl]
    cases loadEntry d s vaddr l root rem with
    | error e => rfl
    | ok p =>
      obtain ⟨rem', e⟩ := p
      simp only [bind, Except.bind]
      have hh : walkHead d { s with mmu_fault_status := x } rwe e l fs
          = walkHead d s rwe e l fs := rfl
      rw [hh]
      cases walkHead d s rwe e l fs with
      | ret e' f => rfl
      | brk f => rfl
      | cont f =>
        simp only []
        have hi : pte_is_invalid { s with mmu_fault_status := x } e l = pte_is_invalid s e l := rfl
        have ha : accumulate_overrides { s with mmu_fault_status := x } e l perms
            = accumulate_overrides s e l perms := rfl
        have hn : pte_tbl_next_level_table_address { s with mmu_fault_status := x } l e
            = pte_tbl_next_level_table_address s l e := rfl
        rw [hi, ha, hn]
        cases (if pte_is_invalid s e l = true then mmuFault rwe 0x00 (d.CAUSE_CODE rwe)
          else none) with
        | some e' => rfl
        | none => exact ih _ _ _ _ _ _

/-- What `page_table_traverse` uses of the outcome of its loop depends neither
on the initial content of the local `pte` nor on `mmu_fault_status`. -/
theorem walkLoop_obs (d : Decls) (s : V6State) (vaddr : Nat) (rwe : mmu_access_type) :
    ∀ n l root rem perms pte pte' fs fs',
      (walkLoop d s vaddr rwe n l root rem perms pte fs).map loopObs
        = (walkLoop d s vaddr rwe n l root rem perms pte' fs').map loopObs := by
  intro n
  induction n with
  | zero => intro l root rem perms pte pte' fs fs'; rfl
  | succ n ih =>
    intro l root rem perms pte pte' fs fs'
    rw [walkLoop, walkLoop]
    cases loadEntry d s vaddr l root rem with
    | error e => rfl
    | ok p =>
      obtain ⟨rem', e⟩ := p
      simp only [bind, Except.bind]
      rcases walkHead_shape d s rwe e l fs fs' with
        ⟨x, a, b, h1, h2⟩ | ⟨a, b, h1, h2⟩ | ⟨a, b, h1, h2⟩
      · rw [h1, h2]
        rfl
      · rw [h1, h2]
        rfl
      · rw [h1, h2]
        simp only []
        cases (if pte_is_invalid s e l = true then mmuFault rwe 0x00 (d.CAUSE_CODE rwe)
          else none) with
        | some e' => rfl
        | none => exact ih _ _ _ _ _ _ _ _

/-- The result of `page_table_traverse` depends neither on `mmu_fault_status`
nor on the initial content of the local `pte`. -/
theorem traverse_obs_indep (d : Decls) (s : V6State) (x : Nat) (vaddr : Nat)
    (rwe : mmu_access_type) (prot_given : Bool) (excp0 : mem_exception) (pte0 pte0' : Nat) :
    walkObs d { s with mmu_fault_status := x } vaddr rwe prot_given excp0 pte0'
      = walkObs d s vaddr rwe prot_given excp0 pte0 := by
  unfold walkObs page_table_traverse
  have hroot : root_ptr_for_vaddr { s with mmu_fault_status := x } vaddr
      = root_ptr_for_vaddr s vaddr := rfl
  rw [hroot]
  cases root_ptr_for_vaddr s vaddr with
  | error e => rfl
  | ok p =>
    obtain ⟨root, valid⟩ := p
    simp only [bind, Except.bind]
    cases (if valid = false then mmuFault rwe 0x00 (d.CAUSE_CODE rwe) else none) with
    | some e => rfl
    | none =>
      simp only []
      have key := walkLoop_obs d s vaddr rwe (NLEVELS s) 0 root (VADDR_SIZE s % 256) 0
        pte0' pte0 x s.mmu_fault_status
      have hst := walkLoop_state d s x vaddr rwe (NLEVELS s) 0 root (VADDR_SIZE s % 256) 0
        pte0' x
      have hst' : walkLoop d { s with mmu_fault_status := x } vaddr rwe
          (NLEVELS { s with mmu_fault_status := x }) 0 root
          (VADDR_SIZE { s with mmu_fault_status := x } % 256) 0 pte0'
          ({ s with mmu_fault_status := x } : V6State).mmu_fault_status
          = walkLoop d s vaddr rwe (NLEVELS s) 0 root (VADDR_SIZE s % 256) 0 pte0' x := hst
      rw [hst']
      cases h1 : walkLoop d s vaddr rwe (NLEVELS s) 0 root (VADDR_SIZE s % 256) 0 pte0' x with
      | error e1 =>
        cases h2 : walkLoop d s vaddr rwe (NLEVELS s) 0 root (VADDR_SIZE s % 256) 0 pte0
            s.mmu_fault_status with
        | error e2 => rfl
        | ok r2 =>
          rw [h1, h2] at key
          cases key
      | ok r1 =>
        cases h2 : walkLoop d s vaddr rwe (NLEVELS s) 0 root (VADDR_SIZE s % 256) 0 pte0
            s.mmu_fault_status with
        | error e2 =>
          rw [h1, h2] at key
          cases key
        | ok r2 =>
          rw [h1, h2] at key
          have hk : loopObs r1 = loopObs r2 := by
            simpa [Except.map] using key
          have hp : ∀ p l o, protv_violation { s with mmu_fault_status := x } p l o rwe
              = protv_violation s p l o rwe := fun _ _ _ => rfl
          have hV : ∀ r p, V6_PADDR { s with mmu_fault_status := x } r p vaddr
              = V6_PADDR s r p vaddr := fun _ _ => rfl
          have hg : ∀ p o, get_prot_for_pte d { s with mmu_fault_status := x } p o
              = get_prot_for_pte d s p o := fun _ _ => rfl
          simp only [hp, hV, hg]
          cases r1 with
          | returned e1 f1 =>
            cases r2 with
            | returned e2 f2 =>
              simp only [loopObs, LoopExit.returned.injEq, and_true] at hk
              subst hk
              rfl
            | finished b2 p2 l2 o2 m2 f2 => cases b2 <;> simp [loopObs] at hk
          | finished b1 p1 l1 o1 m1 f1 =>
            cases r2 with
            | returned e2 f2 => cases b1 <;> simp [loopObs] at hk
            | finished b2 p2 l2 o2 m2 f2 =>
              cases b1 <;> cases b2 <;> simp [loopObs] at hk
              · rfl
              · obtain ⟨h1', h2', h3', h4'⟩ := hk
                subst h1' h2' h3' h4'
                simp only [if_true, pure, Except.pure]
                split_ifs <;> first | rfl | (cases V6_PADDR s m1 p1 vaddr <;> rfl)

theorem walkObs_pte (d : Decls) (s : V6State) (vaddr : Nat) (rwe : mmu_access_type)
    (prot_given : Bool) (excp0 : mem_exception) (pte0 pte1 : Nat) :
    walkObs d s vaddr rwe prot_given excp0 pte1 = walkObs d s vaddr rwe prot_given excp0 pte0 :=
  traverse_obs_indep d s s.mmu_fault_status vaddr rwe prot_given excp0 pte0 pte1

theorem translateObsV6_eq (d : Decls) (env : V6Env) (vaddr : Nat) (rwe : mmu_access_type)
    (prot_given : Bool) (excp0 : mem_exception) (pte0 : Nat) :
    translateObsV6 d env vaddr rwe prot_given excp0 pte0
      = walkObs d env.st vaddr rwe prot_given excp0 pte0 := by
  unfold translateObsV6 walkObs arc_mmuv6_translate
  simp only [bind, Except.bind, pure, Except.pure]
  cases page_table_traverse d env.st vaddr rwe prot_given excp0 pte0 <;> rfl

/-- C27: the same translation performed twice in succession returns the same
result both times, in both MMU designs. For the set-associative MMU the result
of `arc_mmu_translate` (returned flag, `*paddr`, fault descriptor, or the stop at
`assert(0)`) in the state the first call leaves equals the result of the first
call, and the result does not depend on the round-robin cursors or on TLBPD0.
For the radix MMU the result of `arc_mmuv6_translate` (returned value, `*prot`,
fault descriptor, or the stop) in the state the first call leaves equals the
result of the first call, for the same initial `*excp` and whatever the local
`pte` holds initially, and the result of `page_table_traverse` does not depend
on `mmu_fault_status`. -/
theorem translation_deterministic (d : Decls) :
    (∀ (env : V3Env) (vaddr : Nat) (rwe : mmu_access_type),
      translateObs d (translateAfter d env vaddr rwe) vaddr rwe = translateObs d env vaddr rwe)
    ∧ (∀ (env : V3Env) (vaddr : Nat) (rwe : mmu_access_type) (ws : Nat → Nat) (pd0 : Nat),
        translateObs d { env with mmu := { env.mmu with way_sel := ws, tlbpd0 := pd0 } }
            vaddr rwe
          = translateObs d env vaddr rwe)
    ∧ (∀ (env : V6Env) (vaddr : Nat) (rwe : mmu_access_type) (prot_given : Bool)
        (excp0 : mem_exception) (pte0 pte1 : Nat),
        translateObsV6 d (translateAfterV6 d env vaddr rwe prot_given excp0 pte0) vaddr rwe
            prot_given excp0 pte1
          = translateObsV6 d env vaddr rwe prot_given excp0 pte0)
    ∧ (∀ (s : V6State) (vaddr : Nat) (rwe : mmu_access_type) (prot_given : Bool)
        (excp0 : mem_exception) (pte0 pte1 fs : Nat),
        walkObs d { s with mmu_fault_status := fs } vaddr rwe prot_given excp0 pte1
          = walkObs d s vaddr rwe prot_given excp0 pte0) := by
  refine ⟨?_, ?_, ?_, ?_⟩
  · intro env vaddr rwe
    unfold translateAfter
    cases h : arc_mmu_translate d env vaddr rwe with
    | error e => rfl
    | ok o =>
      obtain ⟨fN, fE, fP, f0, f1, fsz, fU⟩ := translate_env_mapping d env vaddr rwe o h
      exact translateObs_congr d o.env env vaddr rwe fN fE fP f0 f1 fsz fU
  · intro env vaddr rwe ws pd0
    exact translateObs_congr d _ env vaddr rwe rfl rfl rfl rfl rfl rfl rfl
  · intro env vaddr rwe prot_given excp0 pte0 pte1
    rw [translateObsV6_eq, translateObsV6_eq]
    unfold translateAfterV6 arc_mmuv6_translate
    simp only [bind, Except.bind, pure, Except.pure]
    cases page_table_traverse d env.st vaddr rwe prot_given excp0 pte0 with
    | error e => exact walkObs_pte d env.st vaddr rwe prot_given excp0 pte0 pte1
    | ok w =>
      exact traverse_obs_indep d env.st w.mmu_fault_status vaddr rwe prot_given excp0 pte0 pte1
  · intro s vaddr rwe prot_given excp0 pte0 pte1 fs
    exact traverse_obs_indep d s fs vaddr rwe prot_given excp0 pte0 pte1

/-- Witness for C27: in the empty TLB with the MMU enabled for process 5, a
kernel read of 0x4000 misses and leaves the cursor of set 2 at 1 and TLBPD0 =
0x4205; the same read in that state misses with the same descriptor. -/
theorem translation_deterministic_witness :
    (translateAfter arcDecls v3Fresh 0x4000 mmu_access_type.MMU_MEM_READ).mmu.way_sel 2 = 1
    ∧ v3Fresh.mmu.way_sel 2 = 0
    ∧ (translateAfter arcDecls v3Fresh 0x4000 mmu_access_type.MMU_MEM_READ).mmu.tlbpd0 = 0x4205
    ∧ v3Fresh.mmu.tlbpd0 = 0
    ∧ translateObs arcDecls
        (translateAfter arcDecls v3Fresh 0x4000 mmu_access_type.MMU_MEM_READ) 0x4000
        mmu_access_type.MMU_MEM_READ
      = some (false, none, ⟨Excp.EXCP_TLB_MISS_D, 1, 0⟩) :=
  ⟨rfl, rfl, rfl, rfl, by
    rw [(translation_deterministic arcDecls).1 v3Fresh 0x4000 mmu_access_type.MMU_MEM_READ]
    decide⟩

/-! ## Radix profile table -/

/-- C38: the record stored at `mmuv6_info[MMUV6_48_64K]` carries the id of the
48_16K profile. After `arc_mmu_init_v6` on an ARC64 core configured with
"48_64k" the switch of `x_for_ttbc` therefore reads the row of 48_16K (4 and 6)
where a record with its own id reads 9 and 13, and the root mask keeps bits 4 to
8 of the root register: with RTP0 = 0x1010 the root is 0x1010 instead of
0x1000. -/
theorem radix_profile_id_mismatch :
    arc_mmu_init_v6 ArcFamily.ARC_OPCODE_ARC64 (some "48_64k")
        = .ok (mmuv6_info mmuv6_version_enum.MMUV6_48_64K)
      ∧ (mmuv6_info mmuv6_version_enum.MMUV6_48_64K).id = mmuv6_version_enum.MMUV6_48_16K
      ∧ (mmuv6_info mmuv6_version_enum.MMUV6_48_64K).id ≠ mmuv6_version_enum.MMUV6_48_64K
      ∧ x_for_ttbc (v6After (mmuv6_info mmuv6_version_enum.MMUV6_48_64K) 0x1010) 0 = 4
      ∧ x_for_ttbc (v6After (mmuv6_info mmuv6_version_enum.MMUV6_48_64K) 0x1010) 1 = 6
      ∧ x_for_ttbc (v6After { mmuv6_info mmuv6_version_enum.MMUV6_48_64K with
            id := mmuv6_version_enum.MMUV6_48_64K } 0x1010) 0 = 9
      ∧ x_for_ttbc (v6After { mmuv6_info mmuv6_version_enum.MMUV6_48_64K with
            id := mmuv6_version_enum.MMUV6_48_64K } 0x1010) 1 = 13
      ∧ MMU_RTPN_ROOT_ADDRESS (v6After (mmuv6_info mmuv6_version_enum.MMUV6_48_64K) 0x1010) 0
          = .ok 0x1010
      ∧ MMU_RTPN_ROOT_ADDRESS (v6After { mmuv6_info mmuv6_version_enum.MMUV6_48_64K with
            id := mmuv6_version_enum.MMUV6_48_64K } 0x1010) 0 = .ok 0x1000 := by
  refine ⟨rfl, rfl, by decide, by decide, by decide, by decide, by decide, rfl, rfl⟩

/-- The other four records of `mmuv6_info` carry their own id. -/
theorem radix_profile_ids_other (p : mmuv6_version_enum)
    (hp : p ≠ mmuv6_version_enum.MMUV6_48_64K) : (mmuv6_info p).id = p := by
  cases p <;> first | rfl | exact absurd rfl hp

/-- Every record `arc_mmu_init_v6` can select is a record of `mmuv6_info`, and it
carries the id of its own slot unless the configuration string is "48_64k". -/
theorem init_v6_selects (family : ArcFamily) (version : Option String)
    (info : mmu_version_info) (h : arc_mmu_init_v6 family version = .ok info) :
    ∃ p, info = mmuv6_info p ∧ (version ≠ some "48_64k" → info.id = p) := by
  unfold arc_mmu_init_v6 at h
  cases family with
  | ARC_OPCODE_ARC64 =>
    cases version with
    | none =>
      simp only at h
      cases h
      exact ⟨_, rfl, fun _ => rfl⟩
    | some v =>
      simp only at h
      split_ifs at h with h1 h2 h3 h4
      · cases h
        exact ⟨_, rfl, fun _ => rfl⟩
      · cases h
        exact ⟨_, rfl, fun _ => rfl⟩
      · cases h
        exact ⟨_, rfl, fun hne => absurd (by rw [h3]) hne⟩
      · cases h
        exact ⟨_, rfl, fun _ => rfl⟩
  | ARC_OPCODE_ARC32 =>
    simp only at h
    cases h
    exact ⟨_, rfl, fun _ => rfl⟩
  | other => cases h

/-- C39: for a walker state whose profile is a record of `mmuv6_info`, every
level below `NLEVELS()` has a positive index width, and the widths of all levels
plus the page-offset width the profile name announces (12, 14 or 16) give
`VADDR_SIZE()`. In the walk, the subtraction `remainig_bits - bits_to_compare`
at any level the loop reaches never goes below zero, the counter then holds the
address width minus the index widths of the levels up to this one, and at the
last level it holds the page-offset width. -/
theorem radix_profile_geometry (p : mmuv6_version_enum) (s : V6State)
    (hp : s.mmu_v6_version = mmuv6_info p) :
    (∀ l, l < NLEVELS s → 0 < N_BITS_ON_LEVEL s l)
      ∧ indexBitsBelow s (NLEVELS s) + profilePageOffsetBits p = VADDR_SIZE s
      ∧ ∀ (d : Decls) (vaddr : Nat) (rwe : mmu_access_type)
          (pte0 n l root rem perms pte fs rem' e : Nat),
          WalkReaches d s vaddr rwe pte0 (n + 1) l root rem perms pte fs →
          loadEntry d s vaddr l root rem = .ok (rem', e) →
          N_BITS_ON_LEVEL s l ≤ rem ∧ rem' = rem - N_BITS_ON_LEVEL s l
            ∧ rem' + indexBitsBelow s (l + 1) = VADDR_SIZE s
            ∧ (n = 0 → rem' = profilePageOffsetBits p) := by
  have hsum : indexBitsBelow s (NLEVELS s) + profilePageOffsetBits p = VADDR_SIZE s := by
    unfold indexBitsBelow N_BITS_ON_LEVEL VADDR_SIZE NLEVELS
    rw [hp]
    cases p <;> decide
  refine ⟨?_, hsum, ?_⟩
  · intro l hl
    unfold N_BITS_ON_LEVEL
    unfold NLEVELS at hl
    rw [hp] at hl ⊢
    cases p <;> simp only [mmuv6_info] at hl ⊢ <;> interval_cases l <;> decide
  · intro d vaddr rwe pte0 n l root rem perms pte fs rem' e hreach hload
    obtain ⟨hn, hr⟩ := reach_rem d s p vaddr rwe pte0 (n + 1) l root rem perms pte fs hp hreach
    obtain ⟨hle, hW, hstep⟩ := profile_bits p s l hp (by omega)
    have hrem := loadEntry_rem d s vaddr l root rem rem' e hload
    have hmod : (rem + 256 - N_BITS_ON_LEVEL s l) % 256 = rem - N_BITS_ON_LEVEL s l := by
      have h1 : rem + 256 - N_BITS_ON_LEVEL s l = (rem - N_BITS_ON_LEVEL s l) + 256 := by omega
      rw [h1, Nat.add_mod_right]
      exact Nat.mod_eq_of_lt (by omega)
    rw [hmod] at hrem
    refine ⟨by omega, hrem, by omega, ?_⟩
    intro h0
    have hl : l + 1 = NLEVELS s := by omega
    rw [hl] at hstep hle
    omega

/-- Witness for C39: the 32_4K scenario; the walk of 0x202123 enters level 0 with
32 remaining bits and leaves 30 after the level-0 index of 2 bits. -/
theorem radix_profile_geometry_witness :
    v6Scenario.mmu_v6_version = mmuv6_info mmuv6_version_enum.MMUV6_32_4K
      ∧ indexBitsBelow v6Scenario (NLEVELS v6Scenario) + 12 = 32
      ∧ loadEntry arcDecls v6Scenario 0x202123 0 0x1000 32 = .ok (30, 0x2003)
      ∧ 30 + indexBitsBelow v6Scenario 1 = VADDR_SIZE v6Scenario :=
  ⟨rfl, (radix_profile_geometry mmuv6_version_enum.MMUV6_32_4K v6Scenario rfl).2.1, rfl,
    ((radix_profile_geometry mmuv6_version_enum.MMUV6_32_4K v6Scenario rfl).2.2 arcDecls
      0x202123 mmu_access_type.MMU_MEM_READ 0 2 0 0x1000 32 0 0 0 30 0x2003
      (WalkReaches.entry 0x1000 true rfl (Or.inl rfl)) rfl).2.2.1⟩

/-! ## Set-associative MMU: permissions of atomic accesses and slot addressing -/

theorem one_and_masked (x m : Nat) (hm : m &&& 1 = 0) : 1 &&& (x &&& m) = 0 := by
  rw [Nat.and_comm 1, Nat.and_assoc, hm, Nat.and_zero]

/-- C37: with the permission bits of the MMUv3 layout, `arc_mmu_have_permission`
grants no atomic access at all, whatever the entry and the privilege: the result
of the read test is stored in the `bool` `ret`, and `ret & (pd1 & PD1_WK)` (or
`PD1_WU`) then ANDs the value 0 or 1 with a word whose only possible bit is bit
5 (or bit 2). In kernel mode the entry with `pd1 = 0x9007e` grants a read and a
write, has both `PD1_RK` and `PD1_WK`, and is refused for an atomic access; the
translation of an atomic access to its page ends in a protection violation. -/
theorem legacy_atomic_never_granted :
    (∀ (env : V3Env) (tlb : arc_tlb_e),
      arc_mmu_have_permission arcDecls env tlb mmu_access_type.MMU_MEM_ATTOMIC = false)
      ∧ (0x9007e &&& arcDecls.PD1_RK ≠ 0 ∧ 0x9007e &&& arcDecls.PD1_WK ≠ 0)
      ∧ v3Fresh.Uf = false
      ∧ arc_mmu_have_permission arcDecls v3Fresh { pd0 := 0x4205, pd1 := 0x9007e }
          mmu_access_type.MMU_MEM_READ = true
      ∧ arc_mmu_have_permission arcDecls v3Fresh { pd0 := 0x4205, pd1 := 0x9007e }
          mmu_access_type.MMU_MEM_WRITE = true
      ∧ arc_mmu_have_permission arcDecls v3Fresh { pd0 := 0x4205, pd1 := 0x9007e }
          mmu_access_type.MMU_MEM_ATTOMIC = false
      ∧ translateObs arcDecls (v3With [{ pd0 := 0x4205, pd1 := 0x9007e }] 1) 0x4000
          mmu_access_type.MMU_MEM_READ
          = some (true, some 0x90000,
              { number := Excp.EXCP_NO_EXCEPTION, causecode := 0, parameter := 0 })
      ∧ translateObs arcDecls (v3With [{ pd0 := 0x4205, pd1 := 0x9007e }] 1) 0x4000
          mmu_access_type.MMU_MEM_ATTOMIC
          = some (false, none,
              { number := Excp.EXCP_PROTV, causecode := 3, parameter := 8 }) := by
  refine ⟨?_, by decide, rfl, by decide, by decide, by decide, by decide, by decide⟩
  intro env tlb
  unfold arc_mmu_have_permission
  simp only []
  have hK : ∀ x : Nat, 1 &&& (x &&& arcDecls.PD1_WK) = 0 :=
    fun x => one_and_masked x _ (by decide)
  have hU : ∀ x : Nat, 1 &&& (x &&& arcDecls.PD1_WU) = 0 :=
    fun x => one_and_masked x _ (by decide)
  cases env.Uf <;> simp only [Bool.not_false, Bool.not_true, if_true, Bool.false_eq_true,
    if_false] <;> split_ifs <;> simp [hK, hU]

/-- An atomic access is granted only to an entry that has the read bit and the
write bit of the current privilege, for every layout of the permission bits. -/
theorem atomic_granted_only_if (d : Decls) (env : V3Env) (tlb : arc_tlb_e)
    (h : arc_mmu_have_permission d env tlb mmu_access_type.MMU_MEM_ATTOMIC = true) :
    tlb.pd1 &&& permBit d env.Uf mmu_access_type.MMU_MEM_READ ≠ 0
      ∧ tlb.pd1 &&& permBit d env.Uf mmu_access_type.MMU_MEM_WRITE ≠ 0 := by
  unfold arc_mmu_have_permission at h
  simp only [] at h
  cases hu : env.Uf <;> rw [hu] at h <;>
    simp only [Bool.not_false, Bool.not_true, if_true, Bool.false_eq_true, if_false,
      permBit] at h ⊢
  · constructor
    · intro h0
      rw [h0] at h
      simp at h
    · intro h0
      rw [h0] at h
      simp at h
  · constructor
    · intro h0
      rw [h0] at h
      simp at h
    · intro h0
      rw [h0] at h
      simp at h

/-- C36: the index mask of the MMUv3 layout admits indices up to 0x1fff while
the TLB has 256 sets of 4 ways. With TLBINDEX = 0x1fff the slot WRITE, WRITENI
and READ address is (2047, 3), and with TLBINDEX = 0x400 it is (256, 0): neither
row exists in `nTLB[N_SETS][N_WAYS]`. The WRITE command performs no check and
stores (TLBPD0, TLBPD1) at row 2047. -/
theorem legacy_indexed_slot_out_of_bounds :
    indexedSlot arcDecls (arc_mmu_aux_set v3InsertReady AuxId.tlbindex 0x1fff) = (2047, 3)
      ∧ ¬ InTlbArray arcDecls
          (indexedSlot arcDecls (arc_mmu_aux_set v3InsertReady AuxId.tlbindex 0x1fff))
      ∧ indexedSlot arcDecls (arc_mmu_aux_set v3InsertReady AuxId.tlbindex 0x400) = (256, 0)
      ∧ ¬ InTlbArray arcDecls
          (indexedSlot arcDecls (arc_mmu_aux_set v3InsertReady AuxId.tlbindex 0x400))
      ∧ ∃ env', arc_mmu_aux_set_tlbcmd arcDecls 4
            (arc_mmu_aux_set v3InsertReady AuxId.tlbindex 0x1fff)
            arcDecls.TLB_CMD_WRITE (0, 0) 0 = .ok env'
          ∧ env'.mmu.nTLB 2047 3 = { pd0 := 0x4205, pd1 := 0x9007e } := by
  refine ⟨by decide, by decide, by decide, by decide, ?_⟩
  refine ⟨_, tlbcmd_write_eq arcDecls 4 _ _ (0, 0) 0 arcDecls_layout (Or.inl rfl), ?_⟩
  decide

/-- The slot an index names lies inside the array exactly when the index is
below `N_SETS * N_WAYS`; the way coordinate is always inside. -/
theorem indexed_slot_in_bounds_iff (d : Decls) (env : V3Env) (hw : 0 < d.N_WAYS) :
    (indexedSlot d env).2 < d.N_WAYS
      ∧ (InTlbArray d (indexedSlot d env)
          ↔ env.mmu.tlbindex &&& d.TLBINDEX_INDEX < d.N_SETS * d.N_WAYS) := by
  unfold InTlbArray indexedSlot arc_mmu_get_tlb_at_index
  refine ⟨Nat.mod_lt _ hw, ?_⟩
  constructor
  · intro h
    exact (Nat.div_lt_iff_lt_mul hw).mp h.1
  · intro h
    exact ⟨(Nat.div_lt_iff_lt_mul hw).mpr h, Nat.mod_lt _ hw⟩

theorem lookup_fold_way (d : Decls) (mmu : arc_mmu) (v cm set n : Nat) :
    ∀ r, ((List.range n).foldl (lookupStep d mmu v cm set)
          { ret := none, num_finds := 0, index := none, general_match := true }).ret
          = some r →
      r.1 = set ∧ r.2 < n := by
  induction n with
  | zero => intro r h; cases h
  | succ n ih =>
    rw [List.range_succ, List.foldl_append]
    simp only [List.foldl_cons, List.foldl_nil, lookupStep_eq]
    generalize (List.range n).foldl (lookupStep d mmu v cm set)
      { ret := none, num_finds := 0, index := none, general_match := true } = acc at ih ⊢
    by_cases hc : wayCompare d mmu v cm set n = true
        ∧ (if wayBlocks d mmu set n = true then false else acc.general_match) = true
    · rw [if_pos hc]
      intro r h
      have hr : (set, n) = r := Option.some.inj h
      rw [← hr]
      exact ⟨rfl, Nat.lt_succ_self n⟩
    · rw [if_neg hc]
      intro r h
      obtain ⟨h1, h2⟩ := ih r h
      exact ⟨h1, Nat.lt_succ_of_lt h2⟩

/-- The slot the lookup returns lies inside the array: its set is masked with
`N_SETS - 1` and its way is a loop index or the round-robin cursor of the set. -/
theorem lookup_slot_in_bounds (d : Decls) (sz v cm : Nat) (mmu : arc_mmu)
    (hs : 0 < d.N_SETS) (hcur : ∀ s, mmu.way_sel s < d.N_WAYS) :
    InTlbArray d (arc_mmu_lookup_tlb d sz v cm mmu).ret := by
  have hset : (v >>> d.MMU_V3_PAGE_BITS sz) &&& (d.N_SETS - 1) < d.N_SETS :=
    Nat.lt_of_le_of_lt Nat.and_le_right (by omega)
  have hw := lookup_fold_way d mmu v cm ((v >>> d.MMU_V3_PAGE_BITS sz) &&& (d.N_SETS - 1))
    d.N_WAYS
  unfold arc_mmu_lookup_tlb InTlbArray
  simp only []
  split
  · rename_i r hr
    obtain ⟨h1, h2⟩ := hw r hr
    show r.1 < d.N_SETS ∧ r.2 < d.N_WAYS
    rw [h1]
    exact ⟨hset, h2⟩
  · exact ⟨hset, hcur _⟩

/-! ## Set-associative MMU: the PID register and reset -/

theorem shr31_of_lt (v : Nat) (hv : v < 2 ^ 32) :
    (v >>> 31) % 2 ^ 32 = if v.testBit 31 then 1 else 0 := by
  have h1 : v >>> 31 = v / 2 ^ 31 := Nat.shiftRight_eq_div_pow v 31
  have h2 : v / 2 ^ 31 < 2 := by
    apply Nat.div_lt_of_lt_mul
    omega
  have h3 : v.testBit 31 = decide (v / 2 ^ 31 % 2 = 1) := Nat.testBit_to_div_mod
  rw [h1, h3]
  have h4 : v / 2 ^ 31 = 0 ∨ v / 2 ^ 31 = 1 := by omega
  rcases h4 with h | h <;> rw [h] <;> decide

theorem pid_readback (v : Nat) :
    (((if v.testBit 31 then 1 else 0) <<< 31) % 2 ^ 32) ||| (v &&& 0xff) = v &&& 0x800000FF := by
  have hm : (0x800000FF : Nat) = 2 ^ 31 ||| 0xff := by decide
  rw [hm, Nat.and_or_distrib_left, Nat.and_two_pow]
  cases v.testBit 31 <;> rfl

/-- C35: a write of a 32-bit value `v` to PID leaves the enable flag equal to
bit 31 of `v` and the process id equal to the low byte of `v`; every TLB entry,
every round-robin cursor and every other MMU register are as before (the write
requests one `tlb_flush`). A read of PID in the resulting state returns
`v & 0x800000FF`. The flag is 0 or 1, and the table index
`env->mmu.v3.enabled` that `arc_get_physical_addr_v3` hands to `decide_action`
selects the row "MMU enabled" exactly when bit 31 of `v` is set; with bit 31
clear and the protection unit disabled every request of the first call is
answered directly. -/
theorem legacy_pid_register (env : V3Env) (v : Nat) (hv : v < 2 ^ 32) :
    (arc_mmu_aux_set env AuxId.pid v).mmu.enabled = (if v.testBit 31 then 1 else 0)
      ∧ (arc_mmu_aux_set env AuxId.pid v).mmu.pid_asid = v % 256
      ∧ (arc_mmu_aux_set env AuxId.pid v).mmu
          = { env.mmu with enabled := (if v.testBit 31 then 1 else 0), pid_asid := v % 256 }
      ∧ (arc_mmu_aux_set env AuxId.pid v).mmu_v3_page_size = env.mmu_v3_page_size
      ∧ (arc_mmu_aux_set env AuxId.pid v).Uf = env.Uf
      ∧ (arc_mmu_aux_set env AuxId.pid v).flushes = FlushEvent.all :: env.flushes
      ∧ arc_mmu_aux_get (arc_mmu_aux_set env AuxId.pid v) AuxId.pid = .ok (v &&& 0x800000FF)
      ∧ (arc_mmu_aux_set env AuxId.pid v).mmu.enabled ≤ 1
      ∧ decide ((arc_mmu_aux_set env AuxId.pid v).mmu.enabled = 1) = v.testBit 31
      ∧ (v.testBit 31 = false →
          ∀ (d : Decls) (mmu_idx : Int) (addr : Nat) (rwe : mmu_access_type) (probe : Bool),
            ∃ st, arc_get_physical_addr_v3 d DecideStatics.zero false mmu_idx
                (arc_mmu_aux_set env AuxId.pid v) addr rwe probe
              = .ok (GetPhys.returned true (some addr), arc_mmu_aux_set env AuxId.pid v, st)) := by
  have he := shr31_of_lt v hv
  have hp : v &&& 0xff = v % 256 := Nat.and_pow_two_sub_one_eq_mod v 8
  have hen : (arc_mmu_aux_set env AuxId.pid v).mmu.enabled = (if v.testBit 31 then 1 else 0) := he
  refine ⟨hen, hp, ?_, rfl, rfl, rfl, ?_, ?_, ?_, ?_⟩
  · show ({ env.mmu with enabled := (v >>> 31) % 2 ^ 32, pid_asid := v &&& 0xff } : arc_mmu) = _
    rw [he, hp]
  · show Except.ok ((((v >>> 31) % 2 ^ 32) <<< 31) % 2 ^ 32 ||| (v &&& 0xff)) = _
    rw [he, pid_readback]
  · rw [hen]
    split <;> omega
  · rw [hen]
    cases v.testBit 31 <;> rfl
  · intro hb d mmu_idx addr rwe probe
    have h0 : (arc_mmu_aux_set env AuxId.pid v).mmu.enabled = 0 := by
      rw [hen, hb]
      rfl
    unfold arc_get_physical_addr_v3
    simp only [h0, Nat.zero_le, if_true, decide_False, zero_ne_one]
    have hact : (decide_action DecideStatics.zero false false (addr % 2 ^ d.TARGET_LONG_BITS)
        mmu_idx).1 = ACTION.DIRECT_ACTION := by
      simp only [decide_action, DecideStatics.zero, Bool.not_false, if_true]
      exact fillTable_eq _ _ _ _ _
    rw [hact]
    exact ⟨_, rfl⟩

/-- Witness for C35: PID := 0x80000005 on the zero state enables the MMU for
process 5 and reads back as 0x80000005; PID := 0x7fffff05 disables it and reads
back as 5. -/
theorem legacy_pid_register_witness :
    (arc_mmu_aux_set v3Zero AuxId.pid 0x80000005).mmu.enabled = 1
      ∧ (arc_mmu_aux_set v3Zero AuxId.pid 0x80000005).mmu.pid_asid = 5
      ∧ arc_mmu_aux_get (arc_mmu_aux_set v3Zero AuxId.pid 0x80000005) AuxId.pid
          = .ok 0x80000005
      ∧ arc_mmu_aux_get (arc_mmu_aux_set v3Zero AuxId.pid 0x7fffff05) AuxId.pid = .ok 5 :=
  ⟨(legacy_pid_register v3Zero 0x80000005 (by decide)).1,
    (legacy_pid_register v3Zero 0x80000005 (by decide)).2.1,
    (legacy_pid_register v3Zero 0x80000005 (by decide)).2.2.2.2.2.2.1,
    (legacy_pid_register v3Zero 0x7fffff05 (by decide)).2.2.2.2.2.2.1⟩

theorem or_v_and_or_v (a b v : Nat) : (a ||| v) &&& (b ||| v) = (a &&& b) ||| v := by
  apply Nat.eq_of_testBit_eq
  intro i
  simp only [Nat.testBit_and, Nat.testBit_or]
  cases a.testBit i <;> cases b.testBit i <;> cases v.testBit i <;> rfl

theorem or_ne_zero_right (a v : Nat) (hv : v ≠ 0) : a ||| v ≠ 0 := by
  intro h
  apply hv
  apply Nat.eq_of_testBit_eq
  intro i
  have := congrArg (fun t => Nat.testBit t i) h
  simp only [Nat.testBit_or, Nat.zero_testBit, Bool.or_eq_false_iff] at this
  rw [this.2]
  simp

theorem or_ne_zero_left (a v : Nat) (hv : v ≠ 0) : v ||| a ≠ 0 := by
  rw [Nat.or_comm]
  exact or_ne_zero_right a v hv

/-- A zero entry fails the comparison of the translation lookup: the compared
word carries the valid bit. -/
theorem compare_zero_entry (d : Decls) (mmu : arc_mmu) (sz vaddr set w : Nat)
    (hV : d.PD0_V ≠ 0) (hz : mmu.nTLB set w = { pd0 := 0, pd1 := 0 }) :
    wayCompare d mmu (VPN d sz vaddr ||| d.PD0_V) (VPN d sz d.PD0_VPN ||| d.PD0_V) set w
      = false := by
  unfold wayCompare
  rw [hz]
  simp only [Nat.zero_and, or_v_and_or_v]
  have h1 : (VPN d sz vaddr &&& VPN d sz d.PD0_VPN) ||| d.PD0_V ≠ 0 :=
    or_ne_zero_right _ _ hV
  have h2 : ((VPN d sz vaddr &&& VPN d sz d.PD0_VPN) ||| d.PD0_V)
      ||| (mmu.pid_asid &&& d.PD0_PID_MATCH) ≠ 0 := or_ne_zero_left _ _ h1
  split_ifs <;> simp [h1, h2]

/-- With every entry zero and both SASID registers zero, a request that is not
of the irrelevant kind, below 0x80000000 with the MMU enabled, is a TLB miss,
and the TLB is as empty afterwards. -/
theorem empty_tlb_miss (d : Decls) (env : V3Env) (vaddr : Nat) (rwe : mmu_access_type)
    (hV : d.PD0_V ≠ 0) (hE : EmptyTlb env) (hen : env.mmu.enabled ≠ 0)
    (hv : vaddr < 0x80000000) (hk : rwe ≠ mmu_access_type.MMU_MEM_IRRELEVANT_TYPE) :
    ∃ o, arc_mmu_translate d env vaddr rwe = .ok o
      ∧ o.ret = false ∧ o.paddr = none
      ∧ o.excp =
          (if rwe = mmu_access_type.MMU_MEM_FETCH then
            { number := Excp.EXCP_TLB_MISS_I, causecode := 0x00, parameter := 0x00 }
          else
            { number := Excp.EXCP_TLB_MISS_D, causecode := d.CAUSE_CODE rwe,
              parameter := 0x00 })
      ∧ EmptyTlb o.env ∧ o.env.mmu.enabled = env.mmu.enabled := by
  obtain ⟨hz, hs0, hs1⟩ := hE
  have hmod : vaddr % 2 ^ 32 = vaddr := Nat.mod_eq_of_lt (by omega)
  have hlk := lookup_miss d env.mmu_v3_page_size
    (VPN d env.mmu_v3_page_size vaddr ||| d.PD0_V)
    (VPN d env.mmu_v3_page_size d.PD0_VPN ||| d.PD0_V) env.mmu
    (fun w _ hc => by
      rw [compare_zero_entry d env.mmu env.mmu_v3_page_size vaddr _ w hV (hz _ w)] at hc
      cases hc)
  have hlk2 : translateLookup d env vaddr
      = arc_mmu_lookup_tlb d env.mmu_v3_page_size
          (VPN d env.mmu_v3_page_size vaddr ||| d.PD0_V)
          (VPN d env.mmu_v3_page_size d.PD0_VPN ||| d.PD0_V) env.mmu := by
    unfold translateLookup
    rw [hmod]
  rw [translate_mmu_path d env vaddr rwe hv hen]
  have hnum : (translateLookup d env vaddr).num_finds = 0 := by rw [hlk2, hlk]
  have hs0' : (translateLookup d env vaddr).mmu.sasid0 = 0 := by rw [hlk2, hlk]; exact hs0
  have hs1' : (translateLookup d env vaddr).mmu.sasid1 = 0 := by rw [hlk2, hlk]; exact hs1
  have hn' : (translateLookup d env vaddr).mmu.nTLB = env.mmu.nTLB := by rw [hlk2, hlk]
  have he' : (translateLookup d env vaddr).mmu.enabled = env.mmu.enabled := by rw [hlk2, hlk]
  rw [hnum, if_neg (by decide), translateMatch_zero,
    translateFinish_miss d _ vaddr rwe _ _ hk hs0' hs1']
  refine ⟨_, rfl, rfl, rfl, rfl, ⟨?_, hs0', hs1'⟩, he'⟩
  intro s w
  show (translateLookup d env vaddr).mmu.nTLB s w = _
  rw [hn']
  exact hz s w

/-- Translation requests keep an empty TLB empty and the enable flag as it is. -/
theorem translateMany_empty (d : Decls) (reqs : List (Nat × mmu_access_type)) :
    ∀ env : V3Env, EmptyTlb env →
      EmptyTlb (translateMany d env reqs)
        ∧ (translateMany d env reqs).mmu.enabled = env.mmu.enabled := by
  induction reqs with
  | nil => intro env hE; exact ⟨hE, rfl⟩
  | cons r rs ih =>
    intro env hE
    have hstep : EmptyTlb (translateAfter d env r.1 r.2)
        ∧ (translateAfter d env r.1 r.2).mmu.enabled = env.mmu.enabled := by
      unfold translateAfter
      cases h : arc_mmu_translate d env r.1 r.2 with
      | error e => exact ⟨hE, rfl⟩
      | ok o =>
        obtain ⟨aN, aE, _, a0, a1, _, _⟩ := translate_env_mapping d env r.1 r.2 o h
        refine ⟨⟨?_, ?_, ?_⟩, aE⟩
        · intro s w
          show o.env.mmu.nTLB s w = _
          rw [aN]
          exact hE.1 s w
        · show o.env.mmu.sasid0 = 0
          rw [a0]
          exact hE.2.1
        · show o.env.mmu.sasid1 = 0
          rw [a1]
          exact hE.2.2
    obtain ⟨h1, h2⟩ := ih _ hstep.1
    refine ⟨h1, ?_⟩
    show (translateMany d (translateAfter d env r.1 r.2) rs).mmu.enabled = _
    rw [h2, hstep.2]

/-- C34: `arc_mmu_init_v3` with a page-size selector in 12..24 returns; in the
state it leaves every TLB slot is the zero pair (valid bit clear), the MMU is
disabled, PID, SASID0, SASID1, TLBPD0, TLBPD1, TLBPD1_HI, TLBINDEX, the command
register and SCRATCH_DATA0 are zero and the page size is the selector. After a
PID write with bit 31 set, and after any sequence of translation requests that
follows it, every read, write or fetch of an address below 0x80000000 returns
false with the TLB-miss descriptor of its kind, and leaves the TLB empty. -/
theorem legacy_reset_state (d : Decls) (env : V3Env) (sel : Nat)
    (hsel : 12 ≤ sel ∧ sel ≤ 24) (hV : d.PD0_V ≠ 0) :
    ∃ env0, arc_mmu_init_v3 env sel = .ok env0
      ∧ (∀ s w, env0.mmu.nTLB s w = { pd0 := 0, pd1 := 0 })
      ∧ (∀ s w, (env0.mmu.nTLB s w).pd0 &&& d.PD0_V = 0)
      ∧ env0.mmu.enabled = 0 ∧ env0.mmu.pid_asid = 0 ∧ env0.mmu.sasid0 = 0
      ∧ env0.mmu.sasid1 = 0 ∧ env0.mmu.tlbpd0 = 0 ∧ env0.mmu.tlbpd1 = 0
      ∧ env0.mmu.tlbpd1_hi = 0 ∧ env0.mmu.tlbindex = 0 ∧ env0.mmu.tlbcmd = 0
      ∧ env0.mmu.scratch_data0 = 0 ∧ env0.mmu_v3_page_size = sel
      ∧ ∀ (v : Nat) (reqs : List (Nat × mmu_access_type)) (vaddr : Nat)
          (rwe : mmu_access_type),
          v < 2 ^ 32 → v.testBit 31 = true → vaddr < 0x80000000 →
          (rwe = mmu_access_type.MMU_MEM_READ ∨ rwe = mmu_access_type.MMU_MEM_WRITE
            ∨ rwe = mmu_access_type.MMU_MEM_FETCH) →
          ∃ o, arc_mmu_translate d (translateMany d (arc_mmu_aux_set env0 AuxId.pid v) reqs)
                vaddr rwe = .ok o
            ∧ o.ret = false ∧ o.paddr = none
            ∧ o.excp =
                (if rwe = mmu_access_type.MMU_MEM_FETCH then
                  { number := Excp.EXCP_TLB_MISS_I, causecode := 0x00, parameter := 0x00 }
                else
                  { number := Excp.EXCP_TLB_MISS_D, causecode := d.CAUSE_CODE rwe,
                    parameter := 0x00 })
            ∧ ∀ s w, o.env.mmu.nTLB s w = { pd0 := 0, pd1 := 0 } := by
  have hmod : sel % 256 = sel := Nat.mod_eq_of_lt (by omega)
  have hnot : ¬ (sel < 12 ∨ sel > 24) := by omega
  have hinit : arc_mmu_init_v3 env sel = .ok
      ({ env with
          mmu := { env.mmu with
            enabled := 0, pid_asid := 0, sasid0 := 0, sasid1 := 0, tlbpd0 := 0, tlbpd1 := 0,
            tlbpd1_hi := 0, tlbindex := 0, tlbcmd := 0, scratch_data0 := 0,
            nTLB := fun _ _ => { pd0 := 0, pd1 := 0 } },
          mmu_v3_page_size := sel } : V3Env) := by
    unfold arc_mmu_init_v3
    simp only [hmod, hnot, if_false]
  refine ⟨_, hinit, fun _ _ => rfl, fun _ _ => Nat.zero_and _, rfl, rfl, rfl,
    rfl, rfl, rfl, rfl, rfl, rfl, rfl, rfl, ?_⟩
  intro v reqs vaddr rwe hv hb hva hk
  have hE0 : EmptyTlb (arc_mmu_aux_set
      ({ env with
          mmu := { env.mmu with
            enabled := 0, pid_asid := 0, sasid0 := 0, sasid1 := 0, tlbpd0 := 0, tlbpd1 := 0,
            tlbpd1_hi := 0, tlbindex := 0, tlbcmd := 0, scratch_data0 := 0,
            nTLB := fun _ _ => { pd0 := 0, pd1 := 0 } },
          mmu_v3_page_size := sel } : V3Env) AuxId.pid v) :=
    ⟨fun _ _ => rfl, rfl, rfl⟩
  obtain ⟨hE, hen⟩ := translateMany_empty d reqs _ hE0
  have hen1 : (translateMany d (arc_mmu_aux_set
      ({ env with
          mmu := { env.mmu with
            enabled := 0, pid_asid := 0, sasid0 := 0, sasid1 := 0, tlbpd0 := 0, tlbpd1 := 0,
            tlbpd1_hi := 0, tlbindex := 0, tlbcmd := 0, scratch_data0 := 0,
            nTLB := fun _ _ => { pd0 := 0, pd1 := 0 } },
          mmu_v3_page_size := sel } : V3Env) AuxId.pid v) reqs).mmu.enabled ≠ 0 := by
    rw [hen]
    show (v >>> 31) % 2 ^ 32 ≠ 0
    rw [shr31_of_lt v hv, hb]
    decide
  have hk' : rwe ≠ mmu_access_type.MMU_MEM_IRRELEVANT_TYPE := by
    rcases hk with h | h | h <;> rw [h] <;> decide
  obtain ⟨o, ho, h1, h2, h3, h4, _⟩ := empty_tlb_miss d _ vaddr rwe hV hE hen1 hva hk'
  exact ⟨o, ho, h1, h2, h3, h4.1⟩

/-- Witness for C34: reset of the zero-filled state with 8 KiB pages, then
PID := 0x80000005; the read of 0x4000 misses with the data-miss descriptor. -/
theorem legacy_reset_state_witness :
    ∃ env0, arc_mmu_init_v3 v3Zero 13 = .ok env0
      ∧ env0.mmu.enabled = 0 ∧ env0.mmu_v3_page_size = 13
      ∧ ∃ o, arc_mmu_translate arcDecls (arc_mmu_aux_set env0 AuxId.pid 0x80000005) 0x4000
            mmu_access_type.MMU_MEM_READ = .ok o
          ∧ o.ret = false
          ∧ o.excp = { number := Excp.EXCP_TLB_MISS_D, causecode := 1, parameter := 0 } := by
  obtain ⟨env0, h0, _, _, hen, _, _, _, _, _, _, _, _, _, hsz, hmiss⟩ :=
    legacy_reset_state arcDecls v3Zero 13 (by decide) (by decide)
  obtain ⟨o, ho, hr, _, hx, _⟩ := hmiss 0x80000005 [] 0x4000 mmu_access_type.MMU_MEM_READ
    (by decide) (by decide) (by decide) (Or.inl rfl)
  exact ⟨env0, h0, hen, hsz, o, ho, hr, hx⟩

/-! ## Set-associative MMU: what a translation may change -/

/-- The lookup changes nothing but the round-robin cursor of the set it
addresses. -/
theorem lookup_frame (d : Decls) (sz v cm : Nat) (mmu : arc_mmu) :
    (arc_mmu_lookup_tlb d sz v cm mmu).mmu
        = { mmu with way_sel := (arc_mmu_lookup_tlb d sz v cm mmu).mmu.way_sel }
      ∧ ∀ s, s ≠ (v >>> d.MMU_V3_PAGE_BITS sz) &&& (d.N_SETS - 1) →
          (arc_mmu_lookup_tlb d sz v cm mmu).mmu.way_sel s = mmu.way_sel s := by
  unfold arc_mmu_lookup_tlb
  simp only []
  split
  · exact ⟨rfl, fun _ _ => rfl⟩
  · refine ⟨rfl, ?_⟩
    intro s hs
    show (if s = _ then _ else _) = _
    rw [if_neg hs]

/-- The tail of `arc_mmu_translate` changes nothing but TLBPD0. -/
theorem translateFinish_frame (d : Decls) (env : V3Env) (vaddr : Nat) (rwe : mmu_access_type)
    (index : Nat) (tlb : arc_tlb_e) (mtch : Bool) (o : TranslateOut)
    (h : translateFinish d env vaddr rwe index tlb mtch = .ok o) :
    o.env = { env with mmu := { env.mmu with tlbpd0 := o.env.mmu.tlbpd0 } } := by
  unfold translateFinish at h
  simp only [] at h
  split_ifs at h <;> cases h <;> rfl

/-- A call of `arc_mmu_translate` that returns changes nothing but TLBPD0 and
the round-robin cursor of the set its lookup addresses. -/
theorem translate_frame (d : Decls) (env : V3Env) (vaddr : Nat) (rwe : mmu_access_type)
    (o : TranslateOut) (h : arc_mmu_translate d env vaddr rwe = .ok o) :
    o.env = { env with
        mmu := { env.mmu with tlbpd0 := o.env.mmu.tlbpd0, way_sel := o.env.mmu.way_sel } }
      ∧ ∀ s, s ≠ setOf d env (VPN d env.mmu_v3_page_size (vaddr % 2 ^ 32) ||| d.PD0_V) →
          o.env.mmu.way_sel s = env.mmu.way_sel s := by
  obtain ⟨hrec, hway⟩ := lookup_frame d env.mmu_v3_page_size
    (VPN d env.mmu_v3_page_size (vaddr % 2 ^ 32) ||| d.PD0_V)
    (VPN d env.mmu_v3_page_size d.PD0_VPN ||| d.PD0_V) env.mmu
  unfold arc_mmu_translate at h
  simp only [] at h
  split_ifs at h
  · cases h
    exact ⟨rfl, fun _ _ => rfl⟩
  · cases h
    exact ⟨rfl, fun _ _ => rfl⟩
  · cases h
    refine ⟨?_, hway⟩
    show ({ env with mmu := _ } : V3Env) = _
    rw [hrec]
  · have hf := translateFinish_frame d _ _ rwe _ _ _ o h
    have hw : o.env.mmu.way_sel = (arc_mmu_lookup_tlb d env.mmu_v3_page_size
        (VPN d env.mmu_v3_page_size (vaddr % 2 ^ 32) ||| d.PD0_V)
        (VPN d env.mmu_v3_page_size d.PD0_VPN ||| d.PD0_V) env.mmu).mmu.way_sel := by
      rw [hf]
    refine ⟨?_, ?_⟩
    · rw [hf, hrec]
    · intro s hs
      rw [hw]
      exact hway s hs

/-- C32: whatever the state and the request, the state `arc_mmu_translate`
leaves (the state it was called in when the call stops at `assert(0)`) has every
TLB slot, the enable flag, the process id, SASID0, SASID1, TLBPD1, TLBPD1_HI,
TLBINDEX, the command register and SCRATCH_DATA0 as before: the `struct arc_mmu`
is the old one with at most TLBPD0 and the cursors replaced, and the cursor of
every set but the one the lookup addresses is as before. Page size, privilege
and the requested flushes are untouched. A call of `arc_get_physical_addr_v3`,
probe or not, leaves either the state it was called in or the state of that
translation. -/
theorem legacy_translate_frame (d : Decls) (env : V3Env) (vaddr : Nat)
    (rwe : mmu_access_type) :
    translateAfter d env vaddr rwe
        = { env with
            mmu := { env.mmu with
              tlbpd0 := (translateAfter d env vaddr rwe).mmu.tlbpd0,
              way_sel := (translateAfter d env vaddr rwe).mmu.way_sel } }
      ∧ (∀ s w, (translateAfter d env vaddr rwe).mmu.nTLB s w = env.mmu.nTLB s w)
      ∧ (translateAfter d env vaddr rwe).mmu.enabled = env.mmu.enabled
      ∧ (translateAfter d env vaddr rwe).mmu.pid_asid = env.mmu.pid_asid
      ∧ (translateAfter d env vaddr rwe).mmu.sasid0 = env.mmu.sasid0
      ∧ (translateAfter d env vaddr rwe).mmu.sasid1 = env.mmu.sasid1
      ∧ (translateAfter d env vaddr rwe).mmu.tlbpd1 = env.mmu.tlbpd1
      ∧ (translateAfter d env vaddr rwe).mmu.tlbindex = env.mmu.tlbindex
      ∧ (translateAfter d env vaddr rwe).mmu.tlbcmd = env.mmu.tlbcmd
      ∧ (∀ s, s ≠ setOf d env (VPN d env.mmu_v3_page_size (vaddr % 2 ^ 32) ||| d.PD0_V) →
          (translateAfter d env vaddr rwe).mmu.way_sel s = env.mmu.way_sel s)
      ∧ (∀ (st : DecideStatics) (mpu_enabled : Bool) (mmu_idx : Int) (probe : Bool)
          (g : GetPhys) (env' : V3Env) (st' : DecideStatics),
          arc_get_physical_addr_v3 d st mpu_enabled mmu_idx env vaddr rwe probe
              = .ok (g, env', st') →
            env' = env ∨ env' = translateAfter d env vaddr rwe) := by
  have hmain : translateAfter d env vaddr rwe
        = { env with
            mmu := { env.mmu with
              tlbpd0 := (translateAfter d env vaddr rwe).mmu.tlbpd0,
              way_sel := (translateAfter d env vaddr rwe).mmu.way_sel } }
      ∧ (∀ s, s ≠ setOf d env (VPN d env.mmu_v3_page_size (vaddr % 2 ^ 32) ||| d.PD0_V) →
          (translateAfter d env vaddr rwe).mmu.way_sel s = env.mmu.way_sel s) := by
    unfold translateAfter
    cases h : arc_mmu_translate d env vaddr rwe with
    | error e => exact ⟨rfl, fun _ _ => rfl⟩
    | ok o => exact translate_frame d env vaddr rwe o h
  obtain ⟨hrec, hway⟩ := hmain
  refine ⟨hrec, ?_, ?_, ?_, ?_, ?_, ?_, ?_, ?_, hway, ?_⟩
  · intro s w
    rw [hrec]
  · rw [hrec]
  · rw [hrec]
  · rw [hrec]
  · rw [hrec]
  · rw [hrec]
  · rw [hrec]
  · rw [hrec]
  · intro st mpu_enabled mmu_idx probe g env' st' h
    unfold arc_get_physical_addr_v3 at h
    simp only [] at h
    by_cases hen : env.mmu.enabled ≤ 1
    · rw [if_pos hen] at h
      cases hact : (decide_action st (decide (env.mmu.enabled = 1)) mpu_enabled
          (vaddr % 2 ^ d.TARGET_LONG_BITS) mmu_idx).1 with
      | DIRECT_ACTION =>
        rw [hact] at h
        cases h
        exact Or.inl rfl
      | MPU_ACTION =>
        rw [hact] at h
        cases h
        exact Or.inl rfl
      | MMU_ACTION =>
        rw [hact] at h
        cases ht : arc_mmu_translate d env vaddr rwe with
        | error e =>
          rw [ht] at h
          cases h
        | ok o =>
          rw [ht] at h
          have hta : translateAfter d env vaddr rwe = o.env := by
            unfold translateAfter
            rw [ht]
          right
          rw [hta]
          simp only [] at h
          split_ifs at h <;> cases h <;> rfl
      | EXCEPTION_ACTION =>
        rw [hact] at h
        simp only [] at h
        split_ifs at h <;> cases h <;> exact Or.inl rfl
    · rw [if_neg hen] at h
      cases h

/-- Witness for C32: a read miss of 0x4000 in the state with an empty TLB leaves
every register but TLBPD0 (now 0x4205) and every cursor but that of set 2 (now
1). -/
theorem legacy_translate_frame_witness :
    (translateAfter arcDecls v3Fresh 0x4000 mmu_access_type.MMU_MEM_READ).mmu.tlbpd0 = 0x4205
      ∧ (translateAfter arcDecls v3Fresh 0x4000 mmu_access_type.MMU_MEM_READ).mmu.way_sel 2 = 1
      ∧ setOf arcDecls v3Fresh (VPN arcDecls 13 (0x4000 % 2 ^ 32) ||| arcDecls.PD0_V) = 2
      ∧ (translateAfter arcDecls v3Fresh 0x4000 mmu_access_type.MMU_MEM_READ).mmu.way_sel 3
          = v3Fresh.mmu.way_sel 3
      ∧ (translateAfter arcDecls v3Fresh 0x4000 mmu_access_type.MMU_MEM_READ).mmu.tlbindex
          = v3Fresh.mmu.tlbindex :=
  ⟨by decide, by decide, by decide,
    (legacy_translate_frame arcDecls v3Fresh 0x4000 mmu_access_type.MMU_MEM_READ).2.2.2.2.2.2.2.2.2.1
      3 (by decide),
    (legacy_translate_frame arcDecls v3Fresh 0x4000
      mmu_access_type.MMU_MEM_READ).2.2.2.2.2.2.2.1⟩

/-! ## Set-associative MMU: soundness of a hit -/

theorem translateFinish_index (d : Decls) (env : V3Env) (vaddr : Nat) (rwe : mmu_access_type)
    (index : Nat) (tlb : arc_tlb_e) (mtch : Bool) (o : TranslateOut)
    (h : translateFinish d env vaddr rwe index tlb mtch = .ok o) :
    o.index = some index := by
  unfold translateFinish at h
  simp only [] at h
  split_ifs at h <;> cases h <;> rfl

/-- The re-check of `arc_mmu_translate` passes only for an entry and a count
that satisfy its tests. -/
theorem translateMatch_true (d : Decls) (sz : Nat) (mmu : arc_mmu) (vaddr num : Nat)
    (e : arc_tlb_e) (h : translateMatch d sz mmu vaddr num e = true) :
    num ≠ 0 ∧ VPN d sz vaddr = VPN d sz e.pd0 ∧ (e.pd0 &&& d.PD0_V) ≠ 0
      ∧ ((e.pd0 &&& d.PD0_G) ≠ 0
        ∨ ((e.pd0 &&& d.PD0_G) = 0 ∧ (e.pd0 &&& d.PD0_S) ≠ 0 ∧ match_sasid d e mmu = true)
        ∨ ((e.pd0 &&& d.PD0_G) = 0 ∧ (e.pd0 &&& d.PD0_S) = 0
          ∧ (e.pd0 &&& d.PD0_PID_MATCH) = (mmu.pid_asid &&& d.PD0_PID_MATCH))) := by
  unfold translateMatch at h
  simp only [] at h
  by_cases hn : num = 0
  · simp [hn] at h
  · by_cases hv : VPN d sz vaddr ≠ VPN d sz e.pd0 ∨ (e.pd0 &&& d.PD0_V) = 0
    · simp [hn, hv] at h
    · have hv1 : VPN d sz vaddr = VPN d sz e.pd0 := by
        by_contra hc
        exact hv (Or.inl hc)
      have hv2 : (e.pd0 &&& d.PD0_V) ≠ 0 := fun hc => hv (Or.inr hc)
      refine ⟨hn, hv1, hv2, ?_⟩
      simp only [hn, hv, if_false, if_true] at h
      by_cases hG : (e.pd0 &&& d.PD0_G) = 0
      · by_cases hS : (e.pd0 &&& d.PD0_S) = 0
        · right
          right
          refine ⟨hG, hS, ?_⟩
          by_contra hc
          simp [hG, hS, hc] at h
        · right
          left
          refine ⟨hG, hS, ?_⟩
          cases hm : match_sasid d e mmu with
          | true => rfl
          | false => simp [hG, hS, hm] at h
      · exact Or.inl hG

/-- C40: with the MMU enabled and `vaddr` below 0x80000000, a call of
`arc_mmu_translate` that returns true found a way `w` of the set
`(vaddr >> page_bits) & (N_SETS - 1)` whose entry satisfies the match rule
(valid, same virtual page number as `vaddr`, and global, or shared-library with
its match position present in SASID1:SASID0, or ASID equal to the live process
id); the address stored through `paddr` is
`(pd1 & MMU_V3_PAGE_MASK) | (vaddr & ~MMU_V3_PAGE_MASK)` for that entry, no
fault is described, and the index stored through `index` is
`set * N_WAYS + w`. The process id is assumed to fit the ASID field, as every
PID write leaves it, and `vaddr` to lie below the shared-library bit. -/
theorem legacy_hit_sound (d : Decls) (env : V3Env) (vaddr : Nat) (rwe : mmu_access_type)
    (o : TranslateOut) (hL : LayoutOK d env.mmu_v3_page_size)
    (hen : env.mmu.enabled ≠ 0) (hv : vaddr < 0x80000000)
    (hvS : vaddr &&& d.PD0_S = 0)
    (hpid : env.mmu.pid_asid &&& d.PD0_ASID = env.mmu.pid_asid)
    (h : arc_mmu_translate d env vaddr rwe = .ok o) (hret : o.ret = true) :
    ∃ w, w < d.N_WAYS
      ∧ MatchRule d env vaddr (env.mmu.nTLB (setOf d env vaddr) w)
      ∧ o.paddr = some (hitPaddr d env vaddr (env.mmu.nTLB (setOf d env vaddr) w))
      ∧ o.excp.number = Excp.EXCP_NO_EXCEPTION
      ∧ o.index = some ((setOf d env vaddr * d.N_WAYS + w) % 2 ^ 32) := by
  have hmod : vaddr % 2 ^ 32 = vaddr := Nat.mod_eq_of_lt (by omega)
  rw [translate_mmu_path d env vaddr rwe hv hen] at h
  split_ifs at h with hmc
  · cases h
    cases hret
  · obtain ⟨hm, _, hpa⟩ := translateFinish_success d _ vaddr rwe _ _ _ o h hret
    have hidx := translateFinish_index d _ vaddr rwe _ _ _ o h
    obtain ⟨hnum, hvpn, hV, hkind⟩ := translateMatch_true d _ _ vaddr _ _ hm
    have hlk : translateLookup d env vaddr
        = arc_mmu_lookup_tlb d env.mmu_v3_page_size
            (VPN d env.mmu_v3_page_size vaddr ||| d.PD0_V)
            (VPN d env.mmu_v3_page_size d.PD0_VPN ||| d.PD0_V) env.mmu := by
      unfold translateLookup
      rw [hmod]
    have hnum' : (arc_mmu_lookup_tlb d env.mmu_v3_page_size
        (VPN d env.mmu_v3_page_size vaddr ||| d.PD0_V)
        (VPN d env.mmu_v3_page_size d.PD0_VPN ||| d.PD0_V) env.mmu).num_finds ≠ 0 := by
      rw [← hlk]
      exact hnum
    obtain ⟨w, hw, hret', _, hmmu⟩ := lookup_found d env.mmu_v3_page_size _ _ env.mmu hnum'
    have hset : (VPN d env.mmu_v3_page_size vaddr ||| d.PD0_V)
        >>> d.MMU_V3_PAGE_BITS env.mmu_v3_page_size &&& (d.N_SETS - 1) = setOf d env vaddr :=
      set_of_vaddr d env vaddr hL hvS
    rw [hset] at hret'
    have hentry : hitEntry d env vaddr = env.mmu.nTLB (setOf d env vaddr) w := by
      unfold hitEntry
      rw [hlk, hret', hmmu]
    have hmm : (translateLookup d env vaddr).mmu = env.mmu := by rw [hlk, hmmu]
    rw [hentry] at hvpn hV hkind hpa
    rw [hmm] at hkind
    refine ⟨w, hw, ⟨hV, hvpn, ?_⟩, ?_, ?_, ?_⟩
    · rcases hkind with hG | hS | ⟨hG, hS, hA⟩
      · exact Or.inl hG
      · exact Or.inr (Or.inl hS)
      · right
        right
        refine ⟨hG, hS, ?_⟩
        rw [hL.pid_eq, hpid] at hA
        exact hA
    · rw [hpa]
      rfl
    · unfold translateFinish at h
      simp only [] at h
      split_ifs at h <;> cases h <;> first | rfl | cases hret
    · rw [hidx, hlk, lookup_index, hret']

/-- Witness for C40: the kernel read of 0x4123 in the scenario whose set 2 holds
a global entry for the page at 0x4000 in way 0 returns 0x80123 and index 8. -/
theorem legacy_hit_sound_witness :
    ∃ o, arc_mmu_translate arcDecls v3GlobalFirst 0x4123 mmu_access_type.MMU_MEM_READ = .ok o
      ∧ o.ret = true
      ∧ ∃ w, w < 4
        ∧ MatchRule arcDecls v3GlobalFirst 0x4123
            (v3GlobalFirst.mmu.nTLB (setOf arcDecls v3GlobalFirst 0x4123) w)
        ∧ o.paddr = some (hitPaddr arcDecls v3GlobalFirst 0x4123
            (v3GlobalFirst.mmu.nTLB (setOf arcDecls v3GlobalFirst 0x4123) w))
        ∧ o.paddr = some 0x80123 ∧ o.index = some 8 := by
  have h : arc_mmu_translate arcDecls v3GlobalFirst 0x4123 mmu_access_type.MMU_MEM_READ
      = .ok { ret := true, paddr := some 0x80123, index := some 8,
              excp := { number := Excp.EXCP_NO_EXCEPTION, causecode := 0, parameter := 0 },
              env := v3GlobalFirst } := by
    rfl
  obtain ⟨w, hw, hr, hp, _, _⟩ := legacy_hit_sound arcDecls v3GlobalFirst 0x4123
    mmu_access_type.MMU_MEM_READ _ arcDecls_layout (by decide) (by decide) (by decide)
    (by decide) h rfl
  exact ⟨_, h, rfl, w, hw, hr, hp, rfl, rfl⟩

/-! ## Debug translation -/

/-- `arc_mmu_translate` for the access kind "irrelevant", branch by branch. -/
theorem translate_irrelevant (d : Decls) (env : V3Env) (vaddr : Nat) :
    arc_mmu_translate d env vaddr mmu_access_type.MMU_MEM_IRRELEVANT_TYPE =
      .ok
        (if vaddr % 2 ^ 32 ≥ 0x80000000 ∨ env.mmu.enabled = 0 then
          { ret := decide (vaddr % 2 ^ 32 ≠ 0), paddr := some (vaddr % 2 ^ 32), index := none,
            excp := { number := Excp.EXCP_NO_EXCEPTION, causecode := 0, parameter := 0 },
            env := env }
        else if (translateLookup d env vaddr).num_finds > 1 then
          { ret := false, paddr := none, index := some (translateLookup d env vaddr).index,
            excp := { number := Excp.EXCP_MACHINE_CHECK, causecode := 0x01, parameter := 0x00 },
            env := { env with mmu := (translateLookup d env vaddr).mmu } }
        else if translateMatch d env.mmu_v3_page_size (translateLookup d env vaddr).mmu
            (vaddr % 2 ^ 32) (translateLookup d env vaddr).num_finds (hitEntry d env vaddr)
            = true then
          { ret := true,
            paddr := some (((hitEntry d env vaddr).pd1 &&& d.MMU_V3_PAGE_MASK env.mmu_v3_page_size)
              ||| (vaddr % 2 ^ 32 &&& not32 (d.MMU_V3_PAGE_MASK env.mmu_v3_page_size))),
            index := some (translateLookup d env vaddr).index,
            excp := { number := Excp.EXCP_NO_EXCEPTION, causecode := 0, parameter := 0 },
            env := { env with mmu := (translateLookup d env vaddr).mmu } }
        else
          { ret := false, paddr := none, index := some (translateLookup d env vaddr).index,
            excp := { number := Excp.EXCP_NO_EXCEPTION, causecode := 0, parameter := 0 },
            env := { env with mmu := (translateLookup d env vaddr).mmu } }) := by
  unfold arc_mmu_translate translateFinish arc_mmu_have_permission hitEntry translateLookup
  simp only [ne_eq, not_true_eq_false, false_and, if_false, Bool.not_true, Bool.false_eq_true,
    and_false]
  split_ifs <;> rfl

/-- The lookup reads the `pd0` words of the TLB only. -/
theorem lookup_pd0_only (d : Decls) (sz v cm : Nat) (mmu : arc_mmu) (t' : Nat → Nat → arc_tlb_e)
    (h : ∀ s w, (t' s w).pd0 = (mmu.nTLB s w).pd0) :
    (arc_mmu_lookup_tlb d sz v cm { mmu with nTLB := t' }).ret
        = (arc_mmu_lookup_tlb d sz v cm mmu).ret
      ∧ (arc_mmu_lookup_tlb d sz v cm { mmu with nTLB := t' }).num_finds
        = (arc_mmu_lookup_tlb d sz v cm mmu).num_finds
      ∧ (arc_mmu_lookup_tlb d sz v cm { mmu with nTLB := t' }).mmu
        = { (arc_mmu_lookup_tlb d sz v cm mmu).mmu with nTLB := t' } := by
  have hs : lookupStep d { mmu with nTLB := t' } v cm
        ((v >>> d.MMU_V3_PAGE_BITS sz) &&& (d.N_SETS - 1))
      = lookupStep d mmu v cm ((v >>> d.MMU_V3_PAGE_BITS sz) &&& (d.N_SETS - 1)) := by
    funext acc w
    unfold lookupStep match_sasid
    simp only [h]
  unfold arc_mmu_lookup_tlb
  simp only [hs]
  split <;> exact ⟨rfl, rfl, rfl⟩

/-- The re-check of `arc_mmu_translate` reads the `pd0` word of the entry only. -/
theorem translateMatch_pd0_only (d : Decls) (sz : Nat) (mmu mmu' : arc_mmu) (vaddr n : Nat)
    (e e' : arc_tlb_e) (he : e'.pd0 = e.pd0) (hP : mmu'.pid_asid = mmu.pid_asid)
    (h0 : mmu'.sasid0 = mmu.sasid0) (h1 : mmu'.sasid1 = mmu.sasid1) :
    translateMatch d sz mmu' vaddr n e' = translateMatch d sz mmu vaddr n e := by
  unfold translateMatch match_sasid
  simp only [he, hP, h0, h1]

theorem and_of_stripped (e e' n m : Nat) (h : e' &&& n = e &&& n) (hm : n &&& m = m) :
    e' &&& m = e &&& m := by
  rw [← hm, ← Nat.and_assoc, ← Nat.and_assoc, h]

/-- The address the debug translation returns is determined by the enable flag,
the page size, the count of the lookup, the re-check and the frame bits of the
entry the lookup returned. -/
theorem debug_v3_congr (d : Decls) (env env' : V3Env) (addr : Nat)
    (hsz : env'.mmu_v3_page_size = env.mmu_v3_page_size)
    (hen : env'.mmu.enabled = env.mmu.enabled)
    (hn : (translateLookup d env' addr).num_finds = (translateLookup d env addr).num_finds)
    (hm : translateMatch d env'.mmu_v3_page_size (translateLookup d env' addr).mmu
          (addr % 2 ^ 32) (translateLookup d env' addr).num_finds (hitEntry d env' addr)
        = translateMatch d env.mmu_v3_page_size (translateLookup d env addr).mmu
          (addr % 2 ^ 32) (translateLookup d env addr).num_finds (hitEntry d env addr))
    (hpa : (hitEntry d env' addr).pd1 &&& d.MMU_V3_PAGE_MASK env'.mmu_v3_page_size
        = (hitEntry d env addr).pd1 &&& d.MMU_V3_PAGE_MASK env.mmu_v3_page_size) :
    (arc_mmu_debug_translate_v3 d env' addr).map Prod.fst
      = (arc_mmu_debug_translate_v3 d env addr).map Prod.fst := by
  unfold arc_mmu_debug_translate_v3
  rw [translate_irrelevant, translate_irrelevant]
  simp only [Except.map]
  rw [hm, hpa, hn, hen, hsz]
  split_ifs <;> rfl

/-- The address the debug translation of the set-associative MMU returns does not
depend on the privilege, and not on the permission bits of any `pd1` word when
these lie outside the page mask. -/
theorem debug_v3_indep (d : Decls) (env : V3Env) (addr : Nat) :
    (∀ u : Bool, (arc_mmu_debug_translate_v3 d { env with Uf := u } addr).map Prod.fst
        = (arc_mmu_debug_translate_v3 d env addr).map Prod.fst)
      ∧ (∀ t' : Nat → Nat → arc_tlb_e,
          not32 (permBits d) &&& d.MMU_V3_PAGE_MASK env.mmu_v3_page_size
            = d.MMU_V3_PAGE_MASK env.mmu_v3_page_size →
          PermVariant d env.mmu.nTLB t' →
          (arc_mmu_debug_translate_v3 d { env with mmu := { env.mmu with nTLB := t' } }
              addr).map Prod.fst
            = (arc_mmu_debug_translate_v3 d env addr).map Prod.fst) := by
  constructor
  · intro u
    exact debug_v3_congr d env { env with Uf := u } addr rfl rfl rfl rfl rfl
  · intro t' hmask hvar
    have hpd0 : ∀ s w, (t' s w).pd0 = (env.mmu.nTLB s w).pd0 := fun s w => (hvar s w).1
    obtain ⟨hret, hnum, hmmu⟩ := lookup_pd0_only d env.mmu_v3_page_size
      (VPN d env.mmu_v3_page_size (addr % 2 ^ 32) ||| d.PD0_V)
      (VPN d env.mmu_v3_page_size d.PD0_VPN ||| d.PD0_V) env.mmu t' hpd0
    have hl : translateLookup d { env with mmu := { env.mmu with nTLB := t' } } addr
        = arc_mmu_lookup_tlb d env.mmu_v3_page_size
            (VPN d env.mmu_v3_page_size (addr % 2 ^ 32) ||| d.PD0_V)
            (VPN d env.mmu_v3_page_size d.PD0_VPN ||| d.PD0_V)
            { env.mmu with nTLB := t' } := rfl
    have hl0 : translateLookup d env addr
        = arc_mmu_lookup_tlb d env.mmu_v3_page_size
            (VPN d env.mmu_v3_page_size (addr % 2 ^ 32) ||| d.PD0_V)
            (VPN d env.mmu_v3_page_size d.PD0_VPN ||| d.PD0_V) env.mmu := rfl
    have hN0 : (translateLookup d env addr).mmu.nTLB = env.mmu.nTLB := by
      rw [hl0]
      exact (lookup_mmu_fields d _ _ _ env.mmu).1
    have hhit : hitEntry d { env with mmu := { env.mmu with nTLB := t' } } addr
        = t' (translateLookup d env addr).ret.1 (translateLookup d env addr).ret.2 := by
      unfold hitEntry
      rw [hl, hmmu, hret, ← hl0]
    have hhit0 : hitEntry d env addr
        = env.mmu.nTLB (translateLookup d env addr).ret.1 (translateLookup d env addr).ret.2 := by
      unfold hitEntry
      rw [hN0]
    have hv := hvar (translateLookup d env addr).ret.1 (translateLookup d env addr).ret.2
    have hn : (translateLookup d { env with mmu := { env.mmu with nTLB := t' } } addr).num_finds
        = (translateLookup d env addr).num_finds := by
      rw [hl, hnum, ← hl0]
    refine debug_v3_congr d env { env with mmu := { env.mmu with nTLB := t' } } addr rfl rfl
      hn ?_ ?_
    · rw [hhit, hhit0, hn]
      apply translateMatch_pd0_only d _ _ _ _ _ _ _ hv.1
      · rw [hl, hmmu, hl0]
      · rw [hl, hmmu, hl0]
      · rw [hl, hmmu, hl0]
    · rw [hhit, hhit0]
      exact and_of_stripped _ _ _ _ hv.2 hmask

/-- The debug translation of the set-associative MMU always returns, and the
translation it runs describes no fault other than a machine check. -/
theorem debug_v3_total (d : Decls) (env : V3Env) (addr : Nat) :
    (∃ r, arc_mmu_debug_translate_v3 d env addr = .ok r)
      ∧ ∀ o, arc_mmu_translate d env addr mmu_access_type.MMU_MEM_IRRELEVANT_TYPE = .ok o →
          o.excp.number = Excp.EXCP_NO_EXCEPTION ∨ o.excp.number = Excp.EXCP_MACHINE_CHECK := by
  constructor
  · unfold arc_mmu_debug_translate_v3
    rw [translate_irrelevant]
    exact ⟨_, rfl⟩
  · intro o h
    rw [translate_irrelevant] at h
    injection h with h
    rw [← h]
    split_ifs
    · exact Or.inl rfl
    · exact Or.inr rfl
    · exact Or.inl rfl
    · exact Or.inl rfl

/-! ### The radix walk for the access kind "irrelevant" -/

/-- `protv_violation` reports nothing for the access kind "irrelevant". -/
theorem protv_irrelevant (s : V6State) (pte level perms : Nat) :
    protv_violation s pte level perms mmu_access_type.MMU_MEM_IRRELEVANT_TYPE = false := by
  unfold protv_violation
  simp

theorem permStrip_mod (x : Nat) : permStrip (x % 2 ^ 64) = permStrip x := by
  unfold permStrip
  have h : x % 2 ^ 64 = x &&& (2 ^ 64 - 1) := (Nat.and_pow_two_sub_one_eq_mod x 64).symm
  rw [h, Nat.and_assoc]
  have h2 : (2 ^ 64 - 1) &&& not64 v6PermBits = not64 v6PermBits := by decide
  rw [h2]

/-- Two descriptors equal up to their permission bits agree under every mask
that avoids these bits. -/
theorem and_of_permStrip (e e' m : Nat) (h : permStrip e' = permStrip e)
    (hm : not64 v6PermBits &&& m = m) : e' &&& m = e &&& m :=
  and_of_stripped e e' (not64 v6PermBits) m h hm

theorem low_and_eq (e k : Nat) (hk : k < 2 ^ 8) : e % 256 &&& k = e &&& k :=
  (and_mod_of_lt e k 8 hk).symm

theorem pte_is_invalid_variant (s : V6State) (e e' l : Nat) (m' : Nat → Nat) (u : Bool)
    (h : permStrip e' = permStrip e) :
    pte_is_invalid { s with mem := m', Uf := u } e' l = pte_is_invalid s e l := by
  have h1 : e' &&& 0x1 = e &&& 0x1 := and_of_permStrip e e' _ h (by decide)
  have h2 : e' &&& 0x2 = e &&& 0x2 := and_of_permStrip e e' _ h (by decide)
  unfold pte_is_invalid NLEVELS
  simp only [low_and_eq _ 0x1 (by decide), low_and_eq _ 0x2 (by decide), h1, h2]

theorem pte_kind_variant (s : V6State) (e e' l : Nat) (m' : Nat → Nat) (u : Bool)
    (h : permStrip e' = permStrip e) :
    PTE_IS_BLOCK_DESCRIPTOR { s with mem := m', Uf := u } e' l = PTE_IS_BLOCK_DESCRIPTOR s e l
      ∧ PTE_IS_PAGE_DESCRIPTOR { s with mem := m', Uf := u } e' l = PTE_IS_PAGE_DESCRIPTOR s e l
      ∧ PTE_IS_TABLE_DESCRIPTOR { s with mem := m', Uf := u } e' l
          = PTE_IS_TABLE_DESCRIPTOR s e l := by
  have h3 : e' &&& 0x3 = e &&& 0x3 := and_of_permStrip e e' _ h (by decide)
  refine ⟨?_, ?_, ?_⟩
  · unfold PTE_IS_BLOCK_DESCRIPTOR NLEVELS
    rw [h3]
  · unfold PTE_IS_PAGE_DESCRIPTOR NLEVELS
    rw [h3]
  · unfold PTE_IS_TABLE_DESCRIPTOR PTE_IS_PAGE_DESCRIPTOR NLEVELS
    rw [h3]

theorem af_bit (x : Nat) : ((x >>> 2) &&& (2 ^ 10 - 1)) &&& 0x100 = (x &&& 0x400) >>> 2 := by
  apply Nat.eq_of_testBit_eq
  intro i
  have h256 : (0x100 : Nat) = 2 ^ 8 := by decide
  have h1024 : (0x400 : Nat) = 2 ^ 10 := by decide
  rw [h256, h1024]
  simp only [Nat.testBit_and, Nat.testBit_shiftRight, Nat.testBit_two_pow_sub_one,
    Nat.testBit_two_pow]
  by_cases h : i = 8
  · subst h
    simp
  · have h10 : ¬ (10 = 2 + i) := by omega
    have h8 : ¬ (8 = i) := fun h' => h h'.symm
    simp [h10, h8]

theorem pte_af_variant (e e' : Nat) (h : permStrip e' = permStrip e) :
    PTE_BLK_AF e' = PTE_BLK_AF e := by
  have h4 : e' &&& 0x400 = e &&& 0x400 := and_of_permStrip e e' _ h (by decide)
  unfold PTE_BLK_AF PTE_BLK_LOWER_ATTRS
  rw [af_bit, af_bit, h4]

theorem next_table_variant (s : V6State) (e e' l : Nat) (m' : Nat → Nat) (u : Bool)
    (h : permStrip e' = permStrip e) :
    pte_tbl_next_level_table_address { s with mem := m', Uf := u } l e'
      = pte_tbl_next_level_table_address s l e := by
  have h1 : e' &&& 0xf000 = e &&& 0xf000 := and_of_permStrip e e' _ h (by decide)
  have h2 : e' &&& 0x0000ffffffff0000 = e &&& 0x0000ffffffff0000 :=
    and_of_permStrip e e' _ h (by decide)
  have h3 : e' &&& 0x0000fffffffff000 = e &&& 0x0000fffffffff000 :=
    and_of_permStrip e e' _ h (by decide)
  unfold pte_tbl_next_level_table_address
  simp only [h1, h2, h3]

theorem walkHead_variant (d : Decls) (s : V6State) (rwe : mmu_access_type) (e e' l fs : Nat)
    (m' : Nat → Nat) (u : Bool) (h : permStrip e' = permStrip e) :
    walkHead d { s with mem := m', Uf := u } rwe e' l fs = walkHead d s rwe e l fs := by
  obtain ⟨hb, hp, _⟩ := pte_kind_variant s e e' l m' u h
  unfold walkHead
  rw [pte_is_invalid_variant s e e' l m' u h, hb, hp, pte_af_variant e e' h]

theorem loadEntry_variant (d : Decls) (s : V6State) (vaddr l root rem : Nat)
    (m' : Nat → Nat) (u : Bool) (hm : ∀ a, permStrip (m' a) = permStrip (s.mem a)) :
    (∃ x, loadEntry d s vaddr l root rem = .error x
        ∧ loadEntry d { s with mem := m', Uf := u } vaddr l root rem = .error x)
      ∨ ∃ rem' e e', loadEntry d s vaddr l root rem = .ok (rem', e)
        ∧ loadEntry d { s with mem := m', Uf := u } vaddr l root rem = .ok (rem', e')
        ∧ permStrip e' = permStrip e := by
  unfold loadEntry shrU intOnes N_BITS_ON_LEVEL
  simp only [bind, Except.bind, pure, Except.pure]
  split_ifs
  · right
    refine ⟨_, _, _, rfl, rfl, ?_⟩
    rw [permStrip_mod, permStrip_mod]
    exact hm _
  · exact Or.inl ⟨_, rfl, rfl⟩
  · exact Or.inl ⟨_, rfl, rfl⟩
  · exact Or.inl ⟨_, rfl, rfl⟩

/-- For the access kind "irrelevant" the loop of the walker leaves in the same
way, at the same level and with the same terminal entry up to permission bits,
whatever the privilege, the permission bits of the descriptors in memory and the
override mask are. -/
theorem walkLoop_variant (d : Decls) (s : V6State) (vaddr : Nat) (m' : Nat → Nat) (u : Bool)
    (hm : ∀ a, permStrip (m' a) = permStrip (s.mem a)) :
    ∀ n l root rem perms perms' pte pte' fs,
      (walkLoop d { s with mem := m', Uf := u } vaddr mmu_access_type.MMU_MEM_IRRELEVANT_TYPE
          n l root rem perms' pte' fs).map debugLoopObs
        = (walkLoop d s vaddr mmu_access_type.MMU_MEM_IRRELEVANT_TYPE
            n l root rem perms pte fs).map debugLoopObs := by
  intro n
  induction n with
  | zero => intro l root rem perms perms' pte pte' fs; rfl
  | succ n ih =>
    intro l root rem perms perms' pte pte' fs
    rw [walkLoop, walkLoop]
    rcases loadEntry_variant d s vaddr l root rem m' u hm with
      ⟨x, h1, h2⟩ | ⟨rem', e, e', h1, h2, he⟩
    · rw [h1, h2]
      rfl
    · rw [h1, h2]
      simp only [bind, Except.bind]
      rw [walkHead_variant d s _ e e' l fs m' u he]
      cases walkHead d s mmu_access_type.MMU_MEM_IRRELEVANT_TYPE e l fs with
      | ret x f => rfl
      | brk f =>
        simp only [pure, Except.pure, Except.map, debugLoopObs, he]
      | cont f =>
        simp only []
        rw [pte_is_invalid_variant s e e' l m' u he, next_table_variant s e e' l m' u he]
        cases (if pte_is_invalid s e l = true then
            mmuFault mmu_access_type.MMU_MEM_IRRELEVANT_TYPE 0x00
              (d.CAUSE_CODE mmu_access_type.MMU_MEM_IRRELEVANT_TYPE)
          else none) with
        | some x => rfl
        | none => exact ih _ _ _ _ _ _ _ _

theorem permBits_mid (i : Nat) (h8 : 8 ≤ i) (h52 : i < 53) : v6PermBits.testBit i = false := by
  interval_cases i <;> decide

/-- The frame mask of `V6_PADDR` avoids the permission bits once at least 8 bits
remain and the address is at most 52 bits wide. -/
theorem paddr_mask_avoids (w r : Nat) (hr : 8 ≤ r) (hw : w ≤ 52) :
    not64 v6PermBits &&& ((2 ^ w - 1) &&& not64 (2 ^ r - 1))
      = (2 ^ w - 1) &&& not64 (2 ^ r - 1) := by
  apply Nat.eq_of_testBit_eq
  intro i
  simp only [Nat.testBit_and, not64_testBit, Nat.testBit_two_pow_sub_one]
  by_cases hi : i < w
  · by_cases hir : i < r
    · simp [hi, hir]
    · have hp := permBits_mid i (by omega) (by omega)
      have h64 : i < 64 := by omega
      simp [hi, hir, hp, h64]
  · simp [hi]

theorem V6_PADDR_variant (s : V6State) (r e e' vaddr : Nat) (m' : Nat → Nat) (u : Bool)
    (h : permStrip e' = permStrip e) (hr : 8 ≤ r) (hw : VADDR_SIZE s ≤ 52) :
    V6_PADDR { s with mem := m', Uf := u } r e' vaddr = V6_PADDR s r e vaddr := by
  have hm := and_of_permStrip e e' _ h (paddr_mask_avoids (VADDR_SIZE s) r hr hw)
  unfold V6_PADDR
  have hv : VADDR_SIZE { s with mem := m', Uf := u } = VADDR_SIZE s := rfl
  simp only [hv, hm]

theorem profile_offset_bound (p : mmuv6_version_enum) (s : V6State) (l : Nat)
    (hp : s.mmu_v6_version = mmuv6_info p) (hl : l < NLEVELS s) :
    indexBitsBelow s (l + 1) + 12 ≤ VADDR_SIZE s := by
  unfold indexBitsBelow N_BITS_ON_LEVEL VADDR_SIZE
  unfold NLEVELS at hl
  rw [hp] at hl ⊢
  cases p <;> simp only [mmuv6_info] at hl ⊢ <;> interval_cases l <;> decide

/-- In a profile of `mmuv6_info`, a walk that ends on a block or page descriptor
has at least 12 remaining bits. -/
theorem walkLoop_found_rem (d : Decls) (s : V6State) (p : mmuv6_version_enum) (vaddr : Nat)
    (rwe : mmu_access_type) (hp : s.mmu_v6_version = mmuv6_info p) :
    ∀ n l root rem perms pte fs e l' perms' rem' fs',
      n + l = NLEVELS s → rem + indexBitsBelow s l = VADDR_SIZE s →
      walkLoop d s vaddr rwe n l root rem perms pte fs
        = .ok (LoopExit.finished true e l' perms' rem' fs') →
      12 ≤ rem' := by
  intro n
  induction n with
  | zero =>
    intro l root rem perms pte fs e l' perms' rem' fs' _ _ h
    rw [walkLoop] at h
    cases h
  | succ n ih =>
    intro l root rem perms pte fs e l' perms' rem' fs' hn hr h
    obtain ⟨hle, hW, hstep⟩ := profile_bits p s l hp (by omega)
    have hoff := profile_offset_bound p s l hp (by omega)
    rw [walkLoop] at h
    cases hload : loadEntry d s vaddr l root rem with
    | error x =>
      rw [hload] at h
      cases h
    | ok q =>
      obtain ⟨rem1, e1⟩ := q
      have hrem := loadEntry_rem d s vaddr l root rem rem1 e1 hload
      have hmod : (rem + 256 - N_BITS_ON_LEVEL s l) % 256 = rem - N_BITS_ON_LEVEL s l := by
        have h1 : rem + 256 - N_BITS_ON_LEVEL s l = (rem - N_BITS_ON_LEVEL s l) + 256 := by
          omega
        rw [h1, Nat.add_mod_right]
        exact Nat.mod_eq_of_lt (by omega)
      rw [hmod] at hrem
      rw [hload] at h
      simp only [bind, Except.bind] at h
      cases hh : walkHead d s rwe e1 l fs with
      | ret x f =>
        rw [hh] at h
        cases h
      | brk f =>
        rw [hh] at h
        simp only [pure, Except.pure] at h
        injection h with h
        injection h with _ _ _ _ h5 _
        omega
      | cont f =>
        rw [hh] at h
        simp only [] at h
        cases hinv : (if pte_is_invalid s e1 l = true then mmuFault rwe 0x00 (d.CAUSE_CODE rwe)
            else none) with
        | some x =>
          rw [hinv] at h
          cases h
        | none =>
          rw [hinv] at h
          exact ih _ _ _ _ _ _ _ _ _ _ _ (by omega) (by omega) h

/-- For the access kind "irrelevant" and a profile of `mmuv6_info`, the value
`page_table_traverse` returns and the `mmu_fault_status` it leaves do not depend
on the privilege, on the permission bits of the descriptors in memory, on the
initial `*excp` or on the initial content of the local `pte`. -/
theorem traverse_variant (d : Decls) (s : V6State) (p : mmuv6_version_enum) (vaddr : Nat)
    (m' : Nat → Nat) (u : Bool) (x0 x0' : mem_exception) (pte0 pte0' : Nat)
    (hp : s.mmu_v6_version = mmuv6_info p)
    (hm : ∀ a, permStrip (m' a) = permStrip (s.mem a)) :
    (page_table_traverse d { s with mem := m', Uf := u } vaddr
        mmu_access_type.MMU_MEM_IRRELEVANT_TYPE false x0' pte0').map
        (fun w => (w.ret, w.mmu_fault_status))
      = (page_table_traverse d s vaddr mmu_access_type.MMU_MEM_IRRELEVANT_TYPE false x0
          pte0).map (fun w => (w.ret, w.mmu_fault_status)) := by
  unfold page_table_traverse
  have hroot : root_ptr_for_vaddr { s with mem := m', Uf := u } vaddr
      = root_ptr_for_vaddr s vaddr := rfl
  rw [hroot]
  cases root_ptr_for_vaddr s vaddr with
  | error e => rfl
  | ok q =>
    obtain ⟨root, valid⟩ := q
    simp only [bind, Except.bind]
    cases (if valid = false then mmuFault mmu_access_type.MMU_MEM_IRRELEVANT_TYPE 0x00
        (d.CAUSE_CODE mmu_access_type.MMU_MEM_IRRELEVANT_TYPE) else none) with
    | some e => rfl
    | none =>
      simp only []
      have key := walkLoop_variant d s vaddr m' u hm (NLEVELS s) 0 root (VADDR_SIZE s % 256)
        0 0 pte0 pte0' s.mmu_fault_status
      have hW : VADDR_SIZE s ≤ 52 := by
        unfold VADDR_SIZE
        rw [hp]
        cases p <;> decide
      have hfound := walkLoop_found_rem d s p vaddr mmu_access_type.MMU_MEM_IRRELEVANT_TYPE hp
        (NLEVELS s) 0 root (VADDR_SIZE s % 256) 0 pte0 s.mmu_fault_status
      have hst : walkLoop d { s with mem := m', Uf := u } vaddr
          mmu_access_type.MMU_MEM_IRRELEVANT_TYPE (NLEVELS { s with mem := m', Uf := u }) 0 root
          (VADDR_SIZE { s with mem := m', Uf := u } % 256) 0 pte0'
          ({ s with mem := m', Uf := u } : V6State).mmu_fault_status
          = walkLoop d { s with mem := m', Uf := u } vaddr
              mmu_access_type.MMU_MEM_IRRELEVANT_TYPE (NLEVELS s) 0 root (VADDR_SIZE s % 256) 0
              pte0' s.mmu_fault_status := rfl
      rw [hst]
      cases h1 : walkLoop d { s with mem := m', Uf := u } vaddr
          mmu_access_type.MMU_MEM_IRRELEVANT_TYPE (NLEVELS s) 0 root (VADDR_SIZE s % 256) 0
          pte0' s.mmu_fault_status with
      | error e1 =>
        cases h2 : walkLoop d s vaddr mmu_access_type.MMU_MEM_IRRELEVANT_TYPE (NLEVELS s) 0 root
            (VADDR_SIZE s % 256) 0 pte0 s.mmu_fault_status with
        | error e2 =>
          rw [h1, h2] at key
          simp only [Except.map] at key
          injection key with key
          rw [key]
        | ok r2 =>
          rw [h1, h2] at key
          cases key
      | ok r1 =>
        cases h2 : walkLoop d s vaddr mmu_access_type.MMU_MEM_IRRELEVANT_TYPE (NLEVELS s) 0 root
            (VADDR_SIZE s % 256) 0 pte0 s.mmu_fault_status with
        | error e2 =>
          rw [h1, h2] at key
          cases key
        | ok r2 =>
          rw [h1, h2] at key
          have hk : debugLoopObs r1 = debugLoopObs r2 := by
            simpa [Except.map] using key
          simp only [protv_irrelevant, Bool.false_eq_true, if_false]
          cases r1 with
          | returned e1 f1 =>
            cases r2 with
            | returned e2 f2 =>
              simp only [debugLoopObs, LoopExit.returned.injEq] at hk
              obtain ⟨_, hk2⟩ := hk
              subst hk2
              rfl
            | finished b2 p2 l2 o2 r2 f2 => cases b2 <;> simp [debugLoopObs] at hk
          | finished b1 p1 l1 o1 q1 f1 =>
            cases r2 with
            | returned e2 f2 => cases b1 <;> simp [debugLoopObs] at hk
            | finished b2 p2 l2 o2 q2 f2 =>
              cases b1 <;> cases b2 <;> simp [debugLoopObs] at hk
              · subst hk
                rfl
              · obtain ⟨hs, hl, hq, hf⟩ := hk
                subst hl hq hf
                have hrem := hfound p2 l1 o2 q1 f1 (by simp) (by
                  have : VADDR_SIZE s % 256 = VADDR_SIZE s := Nat.mod_eq_of_lt (by omega)
                  rw [this]
                  simp [indexBitsBelow]) h2
                have hV := V6_PADDR_variant s q1 p2 p1 vaddr m' u hs (by omega) hW
                simp only [if_true, pure, Except.pure]
                rw [hV]
                cases V6_PADDR s q1 p2 vaddr <;> rfl

theorem mmuFault_irrelevant (ci cd : Nat) :
    mmuFault mmu_access_type.MMU_MEM_IRRELEVANT_TYPE ci cd
      = some { number := Excp.EXCP_IMMU_FAULT, causecode := ci, parameter := 0x00 } := by
  unfold mmuFault
  simp

/-- For the access kind "irrelevant" every `return -1` inside the loop of the
walker stores an instruction-MMU fault descriptor. -/
theorem walkLoop_irrelevant_excp (d : Decls) (s : V6State) (vaddr : Nat) :
    ∀ n l root rem perms pte fs x fs',
      walkLoop d s vaddr mmu_access_type.MMU_MEM_IRRELEVANT_TYPE n l root rem perms pte fs
        = .ok (LoopExit.returned x fs') →
      x.number = Excp.EXCP_IMMU_FAULT := by
  intro n
  induction n with
  | zero =>
    intro l root rem perms pte fs x fs' h
    rw [walkLoop] at h
    cases h
  | succ n ih =>
    intro l root rem perms pte fs x fs' h
    rw [walkLoop] at h
    cases hload : loadEntry d s vaddr l root rem with
    | error e =>
      rw [hload] at h
      cases h
    | ok q =>
      obtain ⟨rem1, e1⟩ := q
      rw [hload] at h
      simp only [bind, Except.bind] at h
      cases hh : walkHead d s mmu_access_type.MMU_MEM_IRRELEVANT_TYPE e1 l fs with
      | ret y f =>
        rw [hh] at h
        simp only [pure, Except.pure] at h
        injection h with h
        injection h with h1 _
        subst h1
        unfold walkHead at hh
        simp only [mmuFault_irrelevant] at hh
        split_ifs at hh <;> cases hh <;> rfl
      | brk f =>
        rw [hh] at h
        cases h
      | cont f =>
        rw [hh] at h
        simp only [mmuFault_irrelevant] at h
        by_cases hinv : pte_is_invalid s e1 l = true
        · rw [if_pos hinv] at h
          simp only [pure, Except.pure] at h
          injection h with h
          injection h with h1 _
          rw [← h1]
        · rw [if_neg hinv] at h
          exact ih _ _ _ _ _ _ _ _ h

/-- For the access kind "irrelevant" `page_table_traverse` leaves `*excp` as it
was or stores an instruction-MMU fault descriptor. -/
theorem traverse_irrelevant_excp (d : Decls) (s : V6State) (vaddr : Nat) (prot_given : Bool)
    (x0 : mem_exception) (pte0 : Nat) (w : WalkOut)
    (h : page_table_traverse d s vaddr mmu_access_type.MMU_MEM_IRRELEVANT_TYPE prot_given x0
      pte0 = .ok w) :
    w.excp = x0 ∨ w.excp.number = Excp.EXCP_IMMU_FAULT := by
  unfold page_table_traverse at h
  cases hroot : root_ptr_for_vaddr s vaddr with
  | error e =>
    rw [hroot] at h
    cases h
  | ok q =>
    obtain ⟨root, valid⟩ := q
    rw [hroot] at h
    simp only [bind, Except.bind, mmuFault_irrelevant, protv_irrelevant, Bool.false_eq_true,
      if_false] at h
    by_cases hv : valid = false
    · simp only [hv, if_true, pure, Except.pure] at h
      injection h with h
      rw [← h]
      exact Or.inr rfl
    · simp only [hv, if_false] at h
      cases hloop : walkLoop d s vaddr mmu_access_type.MMU_MEM_IRRELEVANT_TYPE (NLEVELS s) 0
          root (VADDR_SIZE s % 256) 0 pte0 s.mmu_fault_status with
      | error e =>
        rw [hloop] at h
        cases h
      | ok r =>
        rw [hloop] at h
        cases r with
        | returned x f =>
          simp only [pure, Except.pure] at h
          injection h with h
          rw [← h]
          exact Or.inr (walkLoop_irrelevant_excp d s vaddr _ _ _ _ _ _ _ _ _ hloop)
        | finished found pte l perms rem f =>
          cases found with
          | false =>
            simp only [Bool.false_eq_true, if_false, pure, Except.pure] at h
            injection h with h
            rw [← h]
            exact Or.inl rfl
          | true =>
            simp only [if_true] at h
            cases hpa : V6_PADDR s rem pte vaddr with
            | error e =>
              rw [hpa] at h
              cases h
            | ok pa =>
              rw [hpa] at h
              simp only [pure, Except.pure] at h
              injection h with h
              rw [← h]
              exact Or.inl rfl

/-- The address the debug translation of the radix MMU returns does not depend on
the privilege or on the permission bits of the descriptors in memory. -/
theorem debug_v6_variant (d : Decls) (env : V6Env) (p : mmuv6_version_enum) (addr : Nat)
    (m' : Nat → Nat) (u : Bool) (junk junk' : mem_exception) (pte0 pte0' : Nat)
    (hp : env.st.mmu_v6_version = mmuv6_info p)
    (hm : ∀ a, permStrip (m' a) = permStrip (env.st.mem a)) :
    (arc_mmu_debug_translate_v6 d { env with st := { env.st with mem := m', Uf := u } } addr
        junk' pte0').map Prod.fst
      = (arc_mmu_debug_translate_v6 d env addr junk pte0).map Prod.fst := by
  have key := traverse_variant d env.st p (addr % 2 ^ d.TARGET_LONG_BITS) m' u junk junk'
    pte0 pte0' hp hm
  unfold arc_mmu_debug_translate_v6 arc_mmuv6_translate
  have hen : MMU_ENABLED ({ env.st with mem := m', Uf := u } : V6State) = MMU_ENABLED env.st :=
    rfl
  simp only [hen]
  by_cases he : MMU_ENABLED env.st = true
  · simp only [he, if_true, bind, Except.bind, pure, Except.pure]
    cases h1 : page_table_traverse d { env.st with mem := m', Uf := u }
        (addr % 2 ^ d.TARGET_LONG_BITS) mmu_access_type.MMU_MEM_IRRELEVANT_TYPE false junk'
        pte0' with
    | error e1 =>
      cases h2 : page_table_traverse d env.st (addr % 2 ^ d.TARGET_LONG_BITS)
          mmu_access_type.MMU_MEM_IRRELEVANT_TYPE false junk pte0 with
      | error e2 =>
        rw [h1, h2] at key
        simp only [Except.map] at key
        injection key with key
        rw [key]
      | ok w2 =>
        rw [h1, h2] at key
        cases key
    | ok w1 =>
      cases h2 : page_table_traverse d env.st (addr % 2 ^ d.TARGET_LONG_BITS)
          mmu_access_type.MMU_MEM_IRRELEVANT_TYPE false junk pte0 with
      | error e2 =>
        rw [h1, h2] at key
        cases key
      | ok w2 =>
        rw [h1, h2] at key
        simp only [Except.map] at key
        injection key with key
        injection key with k1 _
        simp only [Except.map, k1]
  · simp only [he, if_false]
    rfl

/-- C33: the debug translations of both MMU designs (access kind "irrelevant").
Set-associative MMU: `arc_mmu_debug_translate_v3` always returns; the address
it returns is the same whatever the user-mode flag is, and the same for every
TLB content that differs in the six permission bits of `pd1` words only (these
bits lying below the page mask); the translation it runs describes no protection
violation. Radix MMU, for a profile of `mmuv6_info`: the value
`arc_mmu_debug_translate_v6` returns (or the stop of the walk) is the same
whatever the user-mode flag is and whatever the read-only, user-access,
execute-never and table-override bits of the descriptors in memory are;
`protv_violation` is false for the access kind "irrelevant", and the walk leaves
`*excp` untouched or stores an instruction-MMU fault. -/
theorem debug_translation_ignores_permissions (d : Decls) :
    (∀ (env : V3Env) (addr : Nat),
      (∃ r, arc_mmu_debug_translate_v3 d env addr = .ok r)
        ∧ (∀ u : Bool, (arc_mmu_debug_translate_v3 d { env with Uf := u } addr).map Prod.fst
            = (arc_mmu_debug_translate_v3 d env addr).map Prod.fst)
        ∧ (∀ t' : Nat → Nat → arc_tlb_e,
            not32 (permBits d) &&& d.MMU_V3_PAGE_MASK env.mmu_v3_page_size
              = d.MMU_V3_PAGE_MASK env.mmu_v3_page_size →
            PermVariant d env.mmu.nTLB t' →
            (arc_mmu_debug_translate_v3 d { env with mmu := { env.mmu with nTLB := t' } }
                addr).map Prod.fst
              = (arc_mmu_debug_translate_v3 d env addr).map Prod.fst)
        ∧ (∀ o, arc_mmu_translate d env addr mmu_access_type.MMU_MEM_IRRELEVANT_TYPE = .ok o →
            o.excp.number ≠ Excp.EXCP_PROTV))
      ∧ (∀ (env : V6Env) (p : mmuv6_version_enum) (addr : Nat) (m' : Nat → Nat) (u : Bool)
          (junk junk' : mem_exception) (pte0 pte0' : Nat),
          env.st.mmu_v6_version = mmuv6_info p →
          (∀ a, permStrip (m' a) = permStrip (env.st.mem a)) →
          (arc_mmu_debug_translate_v6 d { env with st := { env.st with mem := m', Uf := u } }
              addr junk' pte0').map Prod.fst
            = (arc_mmu_debug_translate_v6 d env addr junk pte0).map Prod.fst)
      ∧ (∀ (s : V6State) (pte level perms : Nat),
          protv_violation s pte level perms mmu_access_type.MMU_MEM_IRRELEVANT_TYPE = false)
      ∧ (∀ (env : V6Env) (vaddr : Nat) (junk : mem_exception) (pte0 : Nat) (w : WalkOut)
          (env' : V6Env),
          arc_mmuv6_translate d env vaddr mmu_access_type.MMU_MEM_IRRELEVANT_TYPE false junk pte0
            = .ok (w, env') →
          w.excp = junk ∨ w.excp.number = Excp.EXCP_IMMU_FAULT) := by
  refine ⟨?_, ?_, protv_irrelevant, ?_⟩
  · intro env addr
    obtain ⟨ht, hx⟩ := debug_v3_total d env addr
    obtain ⟨hu, hp⟩ := debug_v3_indep d env addr
    refine ⟨ht, hu, hp, ?_⟩
    intro o ho
    rcases hx o ho with h | h <;> rw [h] <;> decide
  · intro env p addr m' u junk junk' pte0 pte0' hp hm
    exact debug_v6_variant d env p addr m' u junk junk' pte0 pte0' hp hm
  · intro env vaddr junk pte0 w env' h
    unfold arc_mmuv6_translate at h
    simp only [bind, Except.bind, pure, Except.pure] at h
    cases ht : page_table_traverse d env.st vaddr mmu_access_type.MMU_MEM_IRRELEVANT_TYPE false
        junk pte0 with
    | error e =>
      rw [ht] at h
      cases h
    | ok w0 =>
      rw [ht] at h
      injection h with h
      injection h with h1 _
      rw [← h1]
      exact traverse_irrelevant_excp d env.st vaddr false junk pte0 w0 ht

/-- Witness for C33. Set-associative MMU: in the kernel-only scenario the debug
translation of 0x4123 returns 0x90123 in user mode as in kernel mode, and still
does with every permission bit of the entry cleared, while a user read of the
same address is refused. Radix MMU: the debug translation of 0x202123 returns
0x90123 in user mode on the tables whose level-0 descriptor forbids writes,
while a user read of that address in the scenario is a protection violation. -/
theorem debug_translation_ignores_permissions_witness :
    (arc_mmu_debug_translate_v3 arcDecls (v3KernelOnly false) 0x4123).map Prod.fst
        = .ok 0x90123
      ∧ (arc_mmu_debug_translate_v3 arcDecls { v3KernelOnly false with Uf := true }
          0x4123).map Prod.fst = .ok 0x90123
      ∧ (arc_mmu_debug_translate_v3 arcDecls
          { v3KernelOnly false with
            mmu := { (v3KernelOnly false).mmu with
              nTLB := fun s w => if s = 2 ∧ w = 0 then { pd0 := 0x4205, pd1 := 0x90000 }
                else { pd0 := 0, pd1 := 0 } } }
          0x4123).map Prod.fst = .ok 0x90123
      ∧ translateObs arcDecls (v3KernelOnly true) 0x4123 mmu_access_type.MMU_MEM_READ
          = some (false, none, { number := Excp.EXCP_PROTV, causecode := 1, parameter := 8 })
      ∧ (arc_mmu_debug_translate_v6 arcDecls
          { st := v6Scenario, exception_number := Excp.EXCP_NO_EXCEPTION } 0x202123
          { number := Excp.EXCP_PROTV, causecode := 0, parameter := 0 } 0).map Prod.fst
          = .ok 0x90123
      ∧ (arc_mmu_debug_translate_v6 arcDecls
          { st := { v6Scenario with mem := v6NoWrite.mem, Uf := true },
            exception_number := Excp.EXCP_NO_EXCEPTION } 0x202123
          { number := Excp.EXCP_NO_EXCEPTION, causecode := 0, parameter := 0 } 7).map Prod.fst
          = .ok 0x90123
      ∧ walkObs arcDecls { v6Scenario with Uf := true } 0x202123 mmu_access_type.MMU_MEM_READ
          true { number := Excp.EXCP_NO_EXCEPTION, causecode := 0, parameter := 0 } 0
          = some (0xffffffff, none,
              { number := Excp.EXCP_PROTV, causecode := 1, parameter := 8 }) := by
  have h0 : (arc_mmu_debug_translate_v3 arcDecls (v3KernelOnly false) 0x4123).map Prod.fst
      = .ok 0x90123 := rfl
  have h6 : (arc_mmu_debug_translate_v6 arcDecls
      { st := v6Scenario, exception_number := Excp.EXCP_NO_EXCEPTION } 0x202123
      { number := Excp.EXCP_PROTV, causecode := 0, parameter := 0 } 0).map Prod.fst
      = .ok 0x90123 := rfl
  obtain ⟨h3, hv6, _, _⟩ := debug_translation_ignores_permissions arcDecls
  obtain ⟨_, hu, hp, _⟩ := h3 (v3KernelOnly false) 0x4123
  refine ⟨h0, ?_, ?_, by decide, h6, ?_, by decide⟩
  · rw [hu true]
    exact h0
  · rw [hp _ (by decide) (by
      intro s w
      by_cases h : s = 2 ∧ w = 0
      · simp only [v3KernelOnly, h, and_self, if_true]
        decide
      · simp only [v3KernelOnly, h, if_false]
        trivial)]
    exact h0
  · have hm : ∀ a, permStrip (v6NoWrite.mem a) = permStrip (v6Scenario.mem a) := by
      intro a
      simp only [v6NoWrite, v6Scenario]
      split_ifs <;> rfl
    rw [hv6 { st := v6Scenario, exception_number := Excp.EXCP_NO_EXCEPTION }
      mmuv6_version_enum.MMUV6_32_4K 0x202123 v6NoWrite.mem true
      { number := Excp.EXCP_PROTV, causecode := 0, parameter := 0 }
      { number := Excp.EXCP_NO_EXCEPTION, causecode := 0, parameter := 0 } 0 7 rfl hm]
    exact h6

/-! ## Probing -/

/-- A probing call of `arc_get_physical_addr_v3` that returns, returns a flag:
it never reaches `raise_mem_exception`. -/
theorem probe_v3_returns (d : Decls) (st : DecideStatics) (mpu_enabled : Bool) (mmu_idx : Int)
    (env : V3Env) (addr : Nat) (rwe : mmu_access_type) (g : GetPhys) (env' : V3Env)
    (st' : DecideStatics)
    (h : arc_get_physical_addr_v3 d st mpu_enabled mmu_idx env addr rwe true
      = .ok (g, env', st')) :
    ∃ b p, g = GetPhys.returned b p := by
  unfold arc_get_physical_addr_v3 at h
  simp only [] at h
  by_cases hen : env.mmu.enabled ≤ 1
  · rw [if_pos hen] at h
    cases hact : (decide_action st (decide (env.mmu.enabled = 1)) mpu_enabled
        (addr % 2 ^ d.TARGET_LONG_BITS) mmu_idx).1 with
    | DIRECT_ACTION =>
      rw [hact] at h
      cases h
      exact ⟨_, _, rfl⟩
    | MPU_ACTION =>
      rw [hact] at h
      cases h
      exact ⟨_, _, rfl⟩
    | MMU_ACTION =>
      rw [hact] at h
      cases ht : arc_mmu_translate d env addr rwe with
      | error e =>
        rw [ht] at h
        cases h
      | ok o =>
        rw [ht] at h
        simp only [if_true] at h
        split_ifs at h <;> cases h <;> exact ⟨_, _, rfl⟩
    | EXCEPTION_ACTION =>
      rw [hact] at h
      simp only [if_true] at h
      cases h
      exact ⟨_, _, rfl⟩
  · rw [if_neg hen] at h
    cases h

/-- A probing call of `arc_get_physical_addr_v6` that returns, returns a flag. -/
theorem probe_v6_returns (d : Decls) (env : V6Env) (addr : Nat) (rwe : mmu_access_type)
    (junk : mem_exception) (pte0 : Nat) (g : GetPhys) (env' : V6Env)
    (h : arc_get_physical_addr_v6 d env addr rwe true junk pte0 = .ok (g, env')) :
    ∃ b p, g = GetPhys.returned b p := by
  unfold arc_get_physical_addr_v6 at h
  simp only [bind, Except.bind, pure, Except.pure] at h
  split_ifs at h
  · cases ht : arc_mmuv6_translate d env (addr % 2 ^ d.TARGET_LONG_BITS) rwe true
        { junk with number := Excp.EXCP_NO_EXCEPTION } pte0 with
    | error e =>
      rw [ht] at h
      cases h
    | ok q =>
      obtain ⟨w, e1⟩ := q
      rw [ht] at h
      simp only [if_true] at h
      split_ifs at h <;> cases h <;> exact ⟨_, _, rfl⟩
  · cases h
    exact ⟨_, _, rfl⟩

/-- With both SASID registers zero `arc_mmu_translate` returns for every
request. -/
theorem translate_returns_sasid_zero (d : Decls) (env : V3Env) (vaddr : Nat)
    (rwe : mmu_access_type) (hs0 : env.mmu.sasid0 = 0) (hs1 : env.mmu.sasid1 = 0) :
    ∃ o, arc_mmu_translate d env vaddr rwe = .ok o := by
  obtain ⟨_, a0, a1, _, _, _, _⟩ := lookup_mmu_fields d env.mmu_v3_page_size
    (VPN d env.mmu_v3_page_size (vaddr % 2 ^ 32) ||| d.PD0_V)
    (VPN d env.mmu_v3_page_size d.PD0_VPN ||| d.PD0_V) env.mmu
  unfold arc_mmu_translate translateFinish
  simp only [a0, a1, hs0, hs1, ne_eq, not_true_eq_false, or_self, if_false]
  split_ifs <;> exact ⟨_, rfl⟩

/-- C31, counterexample: with SASID0 = 1 and an empty TLB the probing read of
0x4000 misses and stops at `assert(0)`; the call does not return false. -/
theorem probe_miss_reaches_assertion :
    arc_get_physical_addr_v3 arcDecls DecideStatics.zero false 0 v3Sasid 0x4000
        mmu_access_type.MMU_MEM_READ true = .error Stop.assertion
      ∧ v3Sasid.mmu.sasid0 = 1 ∧ v3Sasid.mmu.enabled = 1
      ∧ (∀ s w, v3Sasid.mmu.nTLB s w = { pd0 := 0, pd1 := 0 }) := by
  refine ⟨rfl, rfl, rfl, ?_⟩
  intro s w
  simp [v3Sasid, v3Fresh, v3With]

/-- C31, amended: a probing call (`probe = true`) delivers no fault, in both MMU
designs and for every state, request and pending CPU exception state.
Set-associative MMU: when the dispatcher selects the MMU and `arc_mmu_translate`
returns false, `arc_get_physical_addr_v3` returns false with the state the
translation left; when the dispatcher selects the immediate fault it returns
false with the state untouched, and it does select it for a user-mode access
(`mmu_idx == 1`) at or above 0x80000000 with the MMU enabled and the protection
unit disabled; no probing call that returns has reached `raise_mem_exception`;
and with both SASID registers zero every probing call returns. Radix MMU: when
the walk stores a fault descriptor, `arc_get_physical_addr_v6` returns false, and
no probing call that returns has reached `raise_mem_exception`. In each case the
exception index, cause code, parameter, `efa`, `eret` and `erbta` are the ones
before the call. -/
theorem probe_delivers_no_fault (d : Decls) (restore : CpuExc → CpuExc) (cpu : CpuExc) :
    (∀ (st : DecideStatics) (mpu_enabled : Bool) (mmu_idx : Int) (env : V3Env) (addr : Nat)
        (rwe : mmu_access_type) (o : TranslateOut),
        env.mmu.enabled ≤ 1 →
        (decide_action st (decide (env.mmu.enabled = 1)) mpu_enabled
          (addr % 2 ^ d.TARGET_LONG_BITS) mmu_idx).1 = ACTION.MMU_ACTION →
        arc_mmu_translate d env addr rwe = .ok o → o.ret = false →
        ∃ st', arc_get_physical_addr_v3 d st mpu_enabled mmu_idx env addr rwe true
            = .ok (GetPhys.returned false o.paddr, o.env, st')
          ∧ cpuAfterV3 d restore cpu addr (GetPhys.returned false o.paddr) = cpu)
      ∧ (∀ (st : DecideStatics) (mpu_enabled : Bool) (mmu_idx : Int) (env : V3Env) (addr : Nat)
          (rwe : mmu_access_type),
          env.mmu.enabled ≤ 1 →
          (decide_action st (decide (env.mmu.enabled = 1)) mpu_enabled
            (addr % 2 ^ d.TARGET_LONG_BITS) mmu_idx).1 = ACTION.EXCEPTION_ACTION →
          ∃ st', arc_get_physical_addr_v3 d st mpu_enabled mmu_idx env addr rwe true
              = .ok (GetPhys.returned false none, env, st')
            ∧ cpuAfterV3 d restore cpu addr (GetPhys.returned false none) = cpu)
      ∧ (∀ (calls : List DispatchReq) (env : V3Env) (addr : Nat) (rwe : mmu_access_type),
          env.mmu.enabled = 1 → 0x80000000 ≤ addr % 2 ^ d.TARGET_LONG_BITS →
          ∃ st', arc_get_physical_addr_v3 d (staticsAfter calls) false 1 env addr rwe true
              = .ok (GetPhys.returned false none, env, st'))
      ∧ (∀ (st : DecideStatics) (mpu_enabled : Bool) (mmu_idx : Int) (env : V3Env) (addr : Nat)
          (rwe : mmu_access_type) (g : GetPhys) (env' : V3Env) (st' : DecideStatics),
          arc_get_physical_addr_v3 d st mpu_enabled mmu_idx env addr rwe true
              = .ok (g, env', st') →
          (∃ b p, g = GetPhys.returned b p) ∧ cpuAfterV3 d restore cpu addr g = cpu)
      ∧ (∀ (st : DecideStatics) (mpu_enabled : Bool) (mmu_idx : Int) (env : V3Env) (addr : Nat)
          (rwe : mmu_access_type),
          env.mmu.enabled ≤ 1 → env.mmu.sasid0 = 0 → env.mmu.sasid1 = 0 →
          ∃ b p env' st', arc_get_physical_addr_v3 d st mpu_enabled mmu_idx env addr rwe true
            = .ok (GetPhys.returned b p, env', st'))
      ∧ (∀ (env : V6Env) (addr : Nat) (rwe : mmu_access_type) (junk : mem_exception)
          (pte0 : Nat) (w : WalkOut) (env' : V6Env),
          mmuv6_decide_action env.st = true →
          arc_mmuv6_translate d env (addr % 2 ^ d.TARGET_LONG_BITS) rwe true
              { junk with number := Excp.EXCP_NO_EXCEPTION } pte0 = .ok (w, env') →
          w.excp.number ≠ Excp.EXCP_NO_EXCEPTION →
          arc_get_physical_addr_v6 d env addr rwe true junk pte0
              = .ok (GetPhys.returned false (some w.ret), env')
            ∧ cpuAfterV6 d restore cpu addr (GetPhys.returned false (some w.ret)) = cpu)
      ∧ (∀ (env : V6Env) (addr : Nat) (rwe : mmu_access_type) (junk : mem_exception)
          (pte0 : Nat) (g : GetPhys) (env' : V6Env),
          arc_get_physical_addr_v6 d env addr rwe true junk pte0 = .ok (g, env') →
          (∃ b p, g = GetPhys.returned b p) ∧ cpuAfterV6 d restore cpu addr g = cpu) := by
  refine ⟨?_, ?_, ?_, ?_, ?_, ?_, ?_⟩
  · intro st mpu_enabled mmu_idx env addr rwe o hen hact ht hret
    refine ⟨(decide_action st (decide (env.mmu.enabled = 1)) mpu_enabled
      (addr % 2 ^ d.TARGET_LONG_BITS) mmu_idx).2, ?_, rfl⟩
    unfold arc_get_physical_addr_v3
    simp only [hen, if_true, hact, ht, hret, Bool.false_eq_true, if_false]
  · intro st mpu_enabled mmu_idx env addr rwe hen hact
    refine ⟨(decide_action st (decide (env.mmu.enabled = 1)) mpu_enabled
      (addr % 2 ^ d.TARGET_LONG_BITS) mmu_idx).2, ?_, rfl⟩
    unfold arc_get_physical_addr_v3
    simp only [hen, if_true, hact]
  · intro calls env addr rwe hen haddr
    have hact : (decide_action (staticsAfter calls) (decide (env.mmu.enabled = 1)) false
        (addr % 2 ^ d.TARGET_LONG_BITS) 1).1 = ACTION.EXCEPTION_ACTION := by
      have hrange : (decide (addr % 2 ^ d.TARGET_LONG_BITS ≥ MMU_VA_START)
          && decide (addr % 2 ^ d.TARGET_LONG_BITS < MMU_VA_END)) = false := by
        simp only [MMU_VA_START, MMU_VA_END, Bool.and_eq_false_imp, decide_eq_true_eq,
          decide_eq_false_iff_not]
        intro _
        omega
      rcases staticsAfter_cases calls with h0 | ⟨hi, htab⟩
      · rw [h0]
        simp only [decide_action, DecideStatics.zero, Bool.not_false, if_true, hrange, hen]
        rfl
      · simp only [decide_action, hi, Bool.not_true, hrange, hen, Bool.false_eq_true, if_false,
          htab]
        rfl
    refine ⟨(decide_action (staticsAfter calls) (decide (env.mmu.enabled = 1)) false
      (addr % 2 ^ d.TARGET_LONG_BITS) 1).2, ?_⟩
    unfold arc_get_physical_addr_v3
    have hle : env.mmu.enabled ≤ 1 := by omega
    simp only [hle, if_true, hact]
  · intro st mpu_enabled mmu_idx env addr rwe g env' st' h
    obtain ⟨b, p, hg⟩ := probe_v3_returns d st mpu_enabled mmu_idx env addr rwe g env' st' h
    refine ⟨⟨b, p, hg⟩, ?_⟩
    rw [hg]
    rfl
  · intro st mpu_enabled mmu_idx env addr rwe hen hs0 hs1
    obtain ⟨o, ho⟩ := translate_returns_sasid_zero d env addr rwe hs0 hs1
    unfold arc_get_physical_addr_v3
    simp only [hen, if_true, ho]
    cases (decide_action st (decide (env.mmu.enabled = 1)) mpu_enabled
        (addr % 2 ^ d.TARGET_LONG_BITS) mmu_idx).1 with
    | DIRECT_ACTION => exact ⟨_, _, _, _, rfl⟩
    | MPU_ACTION => exact ⟨_, _, _, _, rfl⟩
    | MMU_ACTION =>
      simp only []
      split_ifs <;> exact ⟨_, _, _, _, rfl⟩
    | EXCEPTION_ACTION => exact ⟨_, _, _, _, rfl⟩
  · intro env addr rwe junk pte0 w env' hen ht hx
    refine ⟨?_, rfl⟩
    unfold arc_get_physical_addr_v6
    simp only [hen, if_true, ht, bind, Except.bind, pure, Except.pure, ne_eq, hx,
      not_false_eq_true]
  · intro env addr rwe junk pte0 g env' h
    obtain ⟨b, p, hg⟩ := probe_v6_returns d env addr rwe junk pte0 g env' h
    refine ⟨⟨b, p, hg⟩, ?_⟩
    rw [hg]
    rfl

/-- Witness for C31. Set-associative MMU, empty TLB: the probing read of 0x4000
returns false and leaves the idle CPU state, while the same read without probe
ends in `raise_mem_exception` with the data-miss descriptor; the probing user
access to 0x80000000 returns false. Radix MMU, user mode on the kernel-only page
of the scenario: the probing read of 0x202123 returns false, while the same read
without probe raises the protection violation. -/
theorem probe_delivers_no_fault_witness :
    (∃ st', arc_get_physical_addr_v3 arcDecls DecideStatics.zero false 0 v3Fresh 0x4000
        mmu_access_type.MMU_MEM_READ true
        = .ok (GetPhys.returned false none,
            translateAfter arcDecls v3Fresh 0x4000 mmu_access_type.MMU_MEM_READ, st'))
      ∧ cpuAfterV3 arcDecls id cpuIdle 0x4000 (GetPhys.returned false none) = cpuIdle
      ∧ (∃ env' st', arc_get_physical_addr_v3 arcDecls DecideStatics.zero false 0 v3Fresh 0x4000
          mmu_access_type.MMU_MEM_READ false
          = .ok (GetPhys.raised none
              { number := Excp.EXCP_TLB_MISS_D, causecode := 1, parameter := 0 }, env', st'))
      ∧ cpuAfterV3 arcDecls id cpuIdle 0x4000 (GetPhys.raised none
            { number := Excp.EXCP_TLB_MISS_D, causecode := 1, parameter := 0 })
          = { exception_index := some Excp.EXCP_TLB_MISS_D, causecode := 1, param := 0,
              efa := 0x4000, eret := 0x100, erbta := 0x200, pc := 0x100, bta := 0x200 }
      ∧ (∃ st', arc_get_physical_addr_v3 arcDecls (staticsAfter []) false 1 v3Fresh 0x80000000
          mmu_access_type.MMU_MEM_READ true = .ok (GetPhys.returned false none, v3Fresh, st'))
      ∧ (∃ env', arc_get_physical_addr_v6 arcDecls
          { st := { v6Scenario with Uf := true }, exception_number := Excp.EXCP_NO_EXCEPTION }
          0x202123 mmu_access_type.MMU_MEM_READ true
          { number := Excp.EXCP_NO_EXCEPTION, causecode := 0, parameter := 0 } 0
          = .ok (GetPhys.returned false (some 0xffffffff), env'))
      ∧ (∃ env', arc_get_physical_addr_v6 arcDecls
          { st := { v6Scenario with Uf := true }, exception_number := Excp.EXCP_NO_EXCEPTION }
          0x202123 mmu_access_type.MMU_MEM_READ false
          { number := Excp.EXCP_NO_EXCEPTION, causecode := 0, parameter := 0 } 0
          = .ok (GetPhys.raised (some 0xffffffff)
              { number := Excp.EXCP_PROTV, causecode := 1, parameter := 8 }, env')) := by
  obtain ⟨h1, _, h3, _, _, h5, _⟩ := probe_delivers_no_fault arcDecls id cpuIdle
  refine ⟨?_, rfl, ⟨_, _, rfl⟩, rfl, ?_, ?_, ⟨_, rfl⟩⟩
  · obtain ⟨st', hs, _⟩ := h1 DecideStatics.zero false 0 v3Fresh 0x4000
      mmu_access_type.MMU_MEM_READ
      { ret := false, paddr := none, index := some 8,
        excp := { number := Excp.EXCP_TLB_MISS_D, causecode := 1, parameter := 0 },
        env := translateAfter arcDecls v3Fresh 0x4000 mmu_access_type.MMU_MEM_READ }
      (by decide) rfl rfl rfl
    exact ⟨st', hs⟩
  · exact h3 [] v3Fresh 0x80000000 mmu_access_type.MMU_MEM_READ rfl (by decide)
  · obtain ⟨hs, _⟩ := h5
      { st := { v6Scenario with Uf := true }, exception_number := Excp.EXCP_NO_EXCEPTION }
      0x202123 mmu_access_type.MMU_MEM_READ
      { number := Excp.EXCP_NO_EXCEPTION, causecode := 0, parameter := 0 } 0
      { ret := 0xffffffff, prot := none,
        excp := { number := Excp.EXCP_PROTV, causecode := 1, parameter := 8 },
        mmu_fault_status := 0 }
      { st := { v6Scenario with Uf := true }, exception_number := Excp.EXCP_NO_EXCEPTION }
      rfl rfl (by decide)
    exact ⟨_, hs⟩

end ArcMmu
